import Mathlib

/-!
# MVD/GTV client (`mvd_client.c`): shallow embedding and verified properties

The C file is embedded function by function.  Conventions:

* bytes are natural numbers; a store into a `byte` or a `uint16_t` is written
  with an explicit `% 256` / `% 65536`;
* `unsigned` (32 bit) fields are natural numbers, arithmetic on them is taken
  `% 2 ^ 32` where the C expression can wrap;
* the pointers `gtv->mvd` and `mvd->gtv` are passed as an `Option`: functions
  on an Upstream take the `gtv_t` together with `gtv->mvd`, functions on a
  Channel take the `mvd_t` together with `mvd->gtv`;
* `svs.realtime` is the argument `now`;
* the global `msg_write` (the scratch buffer of the common code, to which the
  `MSG_Write*` functions append and which `write_message` sends) is carried in
  the field `msg_write` of the Upstream record the call runs on: every function
  of this file that reads or writes it has the Upstream at hand.  It is empty
  unless a writer was left through a non-local exit before its `SZ_Clear`;
  its capacity (fixed where it is initialised, outside this file) is not
  modelled;
* the `float` value of the console variable `mvd_suspend_time` is a `float32`
  and the products it goes through are rounded as binary32 operations are;
  the values of the other console variables are exact fractions;
* the non-local exits (`longjmp` after `gtv_dropf`, `gtv_destroyf`,
  `MVD_Destroyf`) are the `Except.error` results, of type `Escape`;
* console output (`Com_Printf`, `MVD_BroadcastPrintf`) is not modelled.
-/

namespace MvdClient

/-! ## Constants, enumerations, configuration -/

/-- The `GTV_DEFAULT_BACKOFF` constant: 5 seconds, in ms. -/
def GTV_DEFAULT_BACKOFF : Nat := 5 * 1000

/-- The `GTV_MAXIMUM_BACKOFF` constant: 5 hours, in ms. -/
def GTV_MAXIMUM_BACKOFF : Nat := 5 * 3600 * 1000

/-- The `GTV_PING_INTERVAL` constant: 1 minute, in ms. -/
def GTV_PING_INTERVAL : Nat := 60 * 1000

/-- The enum `gtv_state_t`, in declaration order. -/
inductive gtv_state_t where
  | GTV_DISCONNECTED
  | GTV_CONNECTING
  | GTV_PREPARING
  | GTV_CONNECTED
  | GTV_RESUMING
  | GTV_WAITING
  | GTV_READING
  | GTV_SUSPENDING
  deriving DecidableEq, Repr

/-- Numeric value of a `gtv_state_t` enumerator. -/
def gtv_state_t.toNat : gtv_state_t → Nat
  | .GTV_DISCONNECTED => 0
  | .GTV_CONNECTING => 1
  | .GTV_PREPARING => 2
  | .GTV_CONNECTED => 3
  | .GTV_RESUMING => 4
  | .GTV_WAITING => 5
  | .GTV_READING => 6
  | .GTV_SUSPENDING => 7

/-- Modelled from the spec: `mvd_state_t` is declared in `mvd_local.h`, which is
not among the sources.  The spec gives the channel states as Dead, Waiting,
Reading; the table `mvd_states` of the source lists them in this order, and the
source tests `!mvd->state` for Dead. -/
inductive mvd_state_t where
  | MVD_DEAD
  | MVD_WAITING
  | MVD_READING
  deriving DecidableEq, Repr

/-- Modelled from the spec: `gtv_serverop_t` is declared in `mvd_gtv.h`, which is
not among the sources.  The spec enumerates the server opcodes in this order. -/
inductive gtv_serverop_t where
  | GTS_HELLO
  | GTS_PONG
  | GTS_STREAM_START
  | GTS_STREAM_STOP
  | GTS_STREAM_DATA
  | GTS_ERROR
  | GTS_BADREQUEST
  | GTS_NOACCESS
  | GTS_DISCONNECT
  | GTS_RECONNECT
  deriving DecidableEq, Repr

/-- Numeric value of a server opcode (C numbers enumerators from 0). -/
def gtv_serverop_t.toNat : gtv_serverop_t → Nat
  | .GTS_HELLO => 0
  | .GTS_PONG => 1
  | .GTS_STREAM_START => 2
  | .GTS_STREAM_STOP => 3
  | .GTS_STREAM_DATA => 4
  | .GTS_ERROR => 5
  | .GTS_BADREQUEST => 6
  | .GTS_NOACCESS => 7
  | .GTS_DISCONNECT => 8
  | .GTS_RECONNECT => 9

/-- The server opcode with a given numeric value, if there is one: the `case`
labels of the `switch( cmd )` in `parse_message`. -/
def gtv_serverop_t.ofNat? : Nat → Option gtv_serverop_t
  | 0 => some .GTS_HELLO
  | 1 => some .GTS_PONG
  | 2 => some .GTS_STREAM_START
  | 3 => some .GTS_STREAM_STOP
  | 4 => some .GTS_STREAM_DATA
  | 5 => some .GTS_ERROR
  | 6 => some .GTS_BADREQUEST
  | 7 => some .GTS_NOACCESS
  | 8 => some .GTS_DISCONNECT
  | 9 => some .GTS_RECONNECT
  | _ => none

/-- Modelled from the spec: `gtv_clientop_t` is declared in `mvd_gtv.h`, which is
not among the sources.  The spec enumerates the client opcodes in this order. -/
inductive gtv_clientop_t where
  | GTC_HELLO
  | GTC_PING
  | GTC_STREAM_START
  | GTC_STREAM_STOP
  | GTC_STRINGCMD
  deriving DecidableEq, Repr

/-- Numeric value of a client opcode (C numbers enumerators from 0). -/
def gtv_clientop_t.toNat : gtv_clientop_t → Nat
  | .GTC_HELLO => 0
  | .GTC_PING => 1
  | .GTC_STREAM_START => 2
  | .GTC_STREAM_STOP => 3
  | .GTC_STRINGCMD => 4

/-- Modelled from the spec: `netstate_t` is declared in the network header, which
is not among the sources.  The spec names the transport states Connecting,
Connected and Closed; `NS_DISCONNECTED` is the state `NET_Close` leaves. The
source only compares with `NS_CONNECTING` and `NS_CONNECTED`. -/
inductive netstate_t where
  | NS_DISCONNECTED
  | NS_CONNECTING
  | NS_CONNECTED
  | NS_CLOSED
  deriving DecidableEq, Repr

/-- Numeric value of a `netstate_t` enumerator. -/
def netstate_t.toNat : netstate_t → Nat
  | .NS_DISCONNECTED => 0
  | .NS_CONNECTING => 1
  | .NS_CONNECTED => 2
  | .NS_CLOSED => 3

/-- The `value` field of a `cvar_t`.  It is a `float` in the source; here it is
the exact fraction `num / den` (with `den` positive).  Rounding of float
arithmetic is not modelled for the console variables of this type; the value
of `mvd_suspend_time`, which goes through two float products, is a
`float32`. -/
structure cvar_value where
  num : Int
  den : Nat := 1
  deriving DecidableEq, Repr

/-- The C conversion `(int)( v->value * k )`: the product, truncated towards
zero. -/
def cvar_value.scaled (v : cvar_value) (k : Int) : Int :=
  Int.tdiv (v.num * k) v.den

/-- The C comparison `n >= v->value` for an integer `n`. -/
def cvar_value.le_int (v : cvar_value) (n : Int) : Bool :=
  decide (v.num ≤ n * v.den)

/-- A finite value of the C type `float`, taken as IEEE 754 binary32: the number
`man * 2 ^ exp`, negated when `neg` is set, where `man < 2 ^ 24` and
`-149 ≤ exp ≤ 104`.  Infinities and NaN are not values of this type. -/
structure float32 where
  neg : Bool := false
  man : Nat
  exp : Int := 0
  deriving DecidableEq, Repr

/-- The number of binary digits of `n` (0 for 0); `fuel` bounds the number of
digits that are counted, and `n` itself is always enough. -/
def bit_length : Nat → Nat → Nat
  | 0, _ => 0
  | fuel + 1, n => if n = 0 then 0 else bit_length fuel (n / 2) + 1

/-- The binary32 value nearest to `man * 2 ^ exp` (negated when `neg` is set),
ties going to the even significand: the rounding of a float operation whose
exact result is this number, for `exp ≥ -149`.  The result is `none` when the
rounded value is out of range (the operation gives an infinity). -/
def float32.round (neg : Bool) (man : Nat) (exp : Int) : Option float32 :=
  let s := bit_length man man - 24
  let q := man / 2 ^ s
  let r := man % 2 ^ s
  let q1 := if 2 * r > 2 ^ s ∨ (2 * r = 2 ^ s ∧ q % 2 = 1) then q + 1 else q
  if exp + s > 104 ∨ (exp + s = 104 ∧ q1 = 2 ^ 24) then none
  else some { neg := neg, man := q1, exp := exp + s }

/-- The C product `x * k` of a `float` and an integer constant `k` that is
converted to `float` without rounding (`k < 2 ^ 24`): the exact product,
rounded to binary32.  Every float operation is taken to be rounded to
binary32 (`FLT_EVAL_METHOD` 0). -/
def float32.mul_nat (x : float32) (k : Nat) : Option float32 :=
  float32.round x.neg (x.man * k) x.exp

/-- The C conversion of a `float` to `unsigned`: the value truncated towards
zero.  The conversion is undefined in C when the truncated value is negative
or not below 2^32; it is taken as 0 for a negative value and modulo 2^32
otherwise. -/
def float32.to_unsigned (x : float32) : Nat :=
  if x.neg = true then 0
  else if x.exp ≥ 0 then (x.man * 2 ^ x.exp.toNat) % 2 ^ 32
  else (x.man / 2 ^ (-x.exp).toNat) % 2 ^ 32

/-- The initialiser `mvd_suspend_time->value * 60 * 1000` of the local
`unsigned delta` of `MVD_Frame`: two float products, then the conversion to
`unsigned`.  When a product is out of range the conversion is undefined in C;
the result is taken as 0. -/
def suspend_delta (value : float32) : Nat :=
  match value.mul_nat 60 with
  | none => 0
  | some x =>
    match x.mul_nat 1000 with
    | none => 0
    | some y => y.to_unsigned

/-- Compile-time constants of headers that are not among the sources, and the
console variables registered by `MVD_Register`. -/
structure Config where
  /-- The constant `MAX_MSGLEN`, the largest message length. -/
  MAX_MSGLEN : Nat
  /-- The constant `MAX_GTS_MSGLEN`, the size of the receive and inflate buffers. -/
  MAX_GTS_MSGLEN : Nat
  /-- The constant `MAX_GTC_MSGLEN`, the size of the send buffer. -/
  MAX_GTC_MSGLEN : Nat
  /-- The constant `MVD_MAGIC`, as the 32-bit value of the four preamble bytes. -/
  MVD_MAGIC : Nat
  /-- The constant `GTV_PROTOCOL_VERSION`. -/
  GTV_PROTOCOL_VERSION : Nat
  /-- The flag bit `GTF_STRINGCMDS`. -/
  GTF_STRINGCMDS : Nat
  /-- The flag bit `GTF_DEFLATE`. -/
  GTF_DEFLATE : Nat
  /-- Whether the file is compiled with `USE_ZLIB`. -/
  USE_ZLIB : Bool
  /-- The cvar field `mvd_timeout->value`. -/
  mvd_timeout : cvar_value := { num := 90 }
  /-- The cvar field `mvd_suspend_time->value`. -/
  mvd_suspend_time : float32 := { man := 5 }
  /-- The cvar field `mvd_wait_delay->value`. -/
  mvd_wait_delay : cvar_value := { num := 20 }
  /-- The cvar field `mvd_wait_percent->value`. -/
  mvd_wait_percent : cvar_value := { num := 35 }
  /-- The cvar field `mvd_buffer_size->integer`. -/
  mvd_buffer_size : Int := 3
  /-- The cvar field `mvd_username->string`, as bytes. -/
  mvd_username : List Nat := []
  /-- The cvar field `mvd_password->string`, as bytes. -/
  mvd_password : List Nat := []
  /-- The cvar field `com_version->string`, as bytes. -/
  com_version : List Nat := []

/-! ## Byte order helpers -/

/-- The two bytes of a `uint16_t` in little-endian order (`LittleShort` followed
by a 2-byte store). -/
def le16_bytes (v : Nat) : List Nat :=
  [v % 256, v / 256 % 256]

/-- The `uint16_t` held by two bytes in little-endian order (a 2-byte load
followed by `LittleShort`).  Missing bytes read as 0. -/
def le16_value (bs : List Nat) : Nat :=
  bs.getD 0 0 % 256 + 256 * (bs.getD 1 0 % 256)

/-- The four bytes of a `uint32_t` in little-endian order. -/
def le32_bytes (v : Nat) : List Nat :=
  [v % 256, v / 256 % 256, v / 65536 % 256, v / 16777216 % 256]

/-- The `uint32_t` held by four bytes in little-endian order. -/
def le32_value (bs : List Nat) : Nat :=
  bs.getD 0 0 % 256 + 256 * (bs.getD 1 0 % 256) + 65536 * (bs.getD 2 0 % 256)
    + 16777216 * (bs.getD 3 0 % 256)

/-! ## Ring buffers and message buffers -/

/-- Modelled from the spec: `fifo_t` and the `FIFO_*` helpers are declared in a
common header that is not among the sources.  The spec describes a bounded
ring buffer of bytes with a peek/commit interface, written and read in order,
where a write that finds insufficient room fails as a unit.  `data` holds the
buffered bytes, oldest first; `size` is the capacity. -/
structure fifo_t where
  data : List Nat := []
  size : Nat := 0
  deriving DecidableEq, Repr

/-- Modelled from the spec: `FIFO_Usage`, the number of buffered bytes. -/
def FIFO_Usage (f : fifo_t) : Nat :=
  f.data.length

/-- Modelled from the spec: `FIFO_Percent`, the fill ratio in percent. -/
def FIFO_Percent (f : fifo_t) : Int :=
  if f.size = 0 then 0 else ((FIFO_Usage f * 100 / f.size : Nat) : Int)

/-- Modelled from the spec: `FIFO_Clear` empties the buffer. -/
def FIFO_Clear (f : fifo_t) : fifo_t :=
  { f with data := [] }

/-- Modelled from the spec: `FIFO_Write( fifo, buffer, len )`.  It returns the
number of bytes for which there is room, at most `len`; with a buffer
(`some`) that many bytes of it are appended, with `NULL` (`none`) nothing is
written. -/
def FIFO_Write (f : fifo_t) (buffer : Option (List Nat)) (len : Nat) : fifo_t × Nat :=
  let n := min len (f.size - FIFO_Usage f)
  match buffer with
  | none => (f, n)
  | some b => ({ f with data := f.data ++ b.take n }, n)

/-- Modelled from the spec: `FIFO_Read( fifo, buffer, len )`.  It returns the
number of bytes available, at most `len`; with a buffer (`copy = true`) those
bytes are removed from the fifo and returned, with `NULL` nothing is
consumed. -/
def FIFO_Read (f : fifo_t) (copy : Bool) (len : Nat) : fifo_t × List Nat × Nat :=
  let n := min len (FIFO_Usage f)
  if copy then ({ f with data := f.data.drop n }, f.data.take n, n) else (f, [], n)

/-- Modelled from the spec: `FIFO_TryRead( fifo, buffer, len )` reads `len`
bytes if all of them are there and nothing otherwise. -/
def FIFO_TryRead (f : fifo_t) (len : Nat) : Option (fifo_t × List Nat) :=
  if (FIFO_Read f false len).2.2 < len then none
  else some ((FIFO_Read f true len).1, (FIFO_Read f true len).2.1)

/-- The message buffer `sizebuf_t`, as far as this file uses it (`msg_read`). -/
structure sizebuf_t where
  data : List Nat := []
  cursize : Nat := 0
  readcount : Nat := 0
  deriving DecidableEq, Repr

/-- Modelled from the spec: `FIFO_ReadMessage( fifo, msglen )` moves the next
`msglen` bytes into `msg_read` if all of them are there (the result is the new
`msg_read`, positioned at its start), and does nothing otherwise. -/
def FIFO_ReadMessage (f : fifo_t) (msglen : Nat) : Option (fifo_t × sizebuf_t) :=
  match FIFO_TryRead f msglen with
  | none => none
  | some (f1, bytes) => some (f1, { data := bytes, cursize := msglen, readcount := 0 })

/-- Modelled from the spec: `MSG_ReadByte` returns the next byte of `msg_read`,
or -1 past the end, and advances the read position in both cases (this is
what the check `readcount > cursize` of `parse_message` relies on). -/
def MSG_ReadByte (m : sizebuf_t) : Int × sizebuf_t :=
  (if m.readcount + 1 > m.cursize then -1 else ((m.data.getD m.readcount 0 % 256 : Nat) : Int),
   { m with readcount := m.readcount + 1 })

/-- Modelled from the spec: `MSG_ReadLong` returns the next four bytes of
`msg_read` as a little-endian 32-bit value, or -1 (all bits set) past the end,
and advances the read position by 4. -/
def MSG_ReadLong (m : sizebuf_t) : Nat × sizebuf_t :=
  (if m.readcount + 4 > m.cursize then 2 ^ 32 - 1 else le32_value (m.data.drop m.readcount),
   { m with readcount := m.readcount + 4 })

/-- Modelled from the spec: `MSG_WriteShort` appends a little-endian `u16`. -/
def MSG_WriteShort (msg_write : List Nat) (v : Nat) : List Nat :=
  msg_write ++ le16_bytes v

/-- Modelled from the spec: `MSG_WriteLong` appends a little-endian `u32`. -/
def MSG_WriteLong (msg_write : List Nat) (v : Nat) : List Nat :=
  msg_write ++ le32_bytes v

/-- Modelled from the spec: `MSG_WriteByte` appends one byte. -/
def MSG_WriteByte (msg_write : List Nat) (c : Nat) : List Nat :=
  msg_write ++ [c % 256]

/-- Modelled from the spec: `MSG_WriteData( data, len )` appends the first `len`
bytes of `data`. -/
def MSG_WriteData (msg_write : List Nat) (data : List Nat) (len : Nat) : List Nat :=
  msg_write ++ data.take len

/-- Modelled from the spec: `MSG_WriteString` appends a `cstr`: the bytes of the
string and a terminating 0. -/
def MSG_WriteString (msg_write : List Nat) (s : List Nat) : List Nat :=
  msg_write ++ s ++ [0]

/-! ## Upstream and Channel records -/

/-- The `netstream_t` of an Upstream: transport state and the two ring buffers. -/
structure netstream_t where
  state : netstate_t := .NS_DISCONNECTED
  recv : fifo_t := {}
  send : fifo_t := {}
  deriving DecidableEq, Repr

/-- The fields of `mvd_t` this file reads or writes.  The struct is declared in
`mvd_local.h`, not among the sources; the four counters are taken as integers.
The back pointer `mvd->gtv` is passed next to the record. -/
structure mvd_t where
  state : mvd_state_t := .MVD_DEAD
  delay : fifo_t := {}
  num_packets : Int := 0
  min_packets : Int := 0
  underflows : Int := 0
  overflows : Int := 0
  deriving DecidableEq, Repr

/-- The struct `gtv_t`, without its list entry, id, name and address.  The
pointer `gtv->mvd` is passed next to the record.  The last field is not part of
the struct: it is the content (`data`, of length `cursize`) of the global
`msg_write` at this point of the call that runs on the Upstream. -/
structure gtv_t where
  state : gtv_state_t := .GTV_DISCONNECTED
  username : Option (List Nat) := none
  password : Option (List Nat) := none
  stream : netstream_t := {}
  msglen : Nat := 0
  flags : Nat := 0
  z_act : Bool := false
  z_buf : fifo_t := {}
  last_rcvd : Nat := 0
  last_sent : Nat := 0
  retry_time : Nat := 0
  retry_backoff : Nat := 0
  msg_write : List Nat := []
  deriving DecidableEq, Repr

/-- Which ring buffer `parse_message` reads from: `&gtv->stream.recv` or
`&gtv->z_buf` (the two call sites in `run_stream`). -/
inductive fifo_sel where
  | recv
  | z_buf
  deriving DecidableEq, Repr

/-- Dereference of the `fifo_t *` argument of `parse_message`. -/
def gtv_t.fifo (gtv : gtv_t) : fifo_sel → fifo_t
  | .recv => gtv.stream.recv
  | .z_buf => gtv.z_buf

/-- Store through the `fifo_t *` argument of `parse_message`. -/
def gtv_t.setFifo (gtv : gtv_t) (sel : fifo_sel) (f : fifo_t) : gtv_t :=
  match sel with
  | .recv => { gtv with stream := { gtv.stream with recv := f } }
  | .z_buf => { gtv with z_buf := f }

/-! ## Non-local exits -/

/-- The message of a drop or destroy, one constructor per call site. -/
inductive Reason where
  /-- Message "Send buffer overflowed". -/
  | send_overflow
  /-- Message "bad mvd->state". -/
  | bad_mvd_state
  /-- Message "partial data". -/
  | incomplete_data
  /-- Message "invalid msglen". -/
  | invalid_msglen
  /-- Message "End of MVD stream reached". -/
  | end_of_mvd_stream
  /-- Message "Duplicated server hello". -/
  | duplicated_hello
  /-- Message "Server sending deflated data". -/
  | deflated_data
  /-- Message "Unexpected stream start ack". -/
  | unexpected_stream_start
  /-- Message "Unexpected stream stop ack". -/
  | unexpected_stream_stop
  /-- Message "Unexpected stream data packet". -/
  | unexpected_stream_data
  /-- Message "Delay buffer overflowed in waiting state". -/
  | delay_overflow_waiting
  /-- Message "Not a MVD/GTV stream". -/
  | not_mvd_stream
  /-- Message "End of MVD/GTV stream". -/
  | end_of_gtv_stream
  /-- Message "Oversize message". -/
  | oversize_message
  /-- Message "Server side error occured.". -/
  | server_error
  /-- Message "Server refused to process our request.". -/
  | bad_request
  /-- Message "You don't have permission to access MVD/GTV stream on this server.". -/
  | no_access
  /-- Message "Server has been shut down.". -/
  | server_shutdown
  /-- Message "Server has been restarted.". -/
  | server_restarted
  /-- Message "Unknown command byte". -/
  | unknown_command
  /-- Message "Read past end of message". -/
  | read_past_end
  /-- The downstream parser left through `MVD_Destroyf`. -/
  | parser_abort
  /-- Dereference of a null `gtv->mvd` (undefined behaviour in C). -/
  | null_channel
  /-- Message "Server connection timed out." -/
  | timed_out
  /-- Message "Unable to lookup" (address). -/
  | lookup_failed
  /-- Message of `check_reconnect` after a failed `NET_Connect`. -/
  | connect_failed
  /-- Message of `gtv_run` after `NET_ERROR`. -/
  | net_error
  /-- Message "Server has closed connection." -/
  | net_closed
  /-- Message "inflate() failed". -/
  | inflate_failed
  /-- Message "End of play list reached". -/
  | end_of_playlist
  /-- Message "Couldn't reopen" (file). -/
  | reopen_failed
  /-- Message "Couldn't read magic from" (file). -/
  | magic_unreadable
  /-- Message "Couldn't install gzip filter on" (file). -/
  | gzip_filter_failed
  /-- Message "is not a MVD2 file". -/
  | not_mvd2_file
  /-- Message "Couldn't read first message from" (file). -/
  | first_message_unreadable
  /-- Message "First message does not contain gamestate". -/
  | gamestate_missing
  /-- Dereference of a null playlist entry (undefined behaviour in C). -/
  | null_entry
  /-- Read from a file handle that is not open. -/
  | bad_handle
  deriving DecidableEq, Repr

/-- The state left behind by a non-local exit.
* `dropped`: after `gtv_dropf`; the Upstream is kept, with its Channel.
* `gtv_destroyed`: after `gtv_destroyf`; the Upstream is freed, the argument is
  the Channel that survives it, if any.
* `mvd_destroyed`: after `MVD_Destroyf`; the Channel is freed and, through
  `MVD_Free`, its Upstream destroyed.
* `fault`: undefined behaviour. -/
inductive Escape where
  | dropped (gtv : gtv_t) (mvd : Option mvd_t) (why : Reason)
  | gtv_destroyed (mvd : Option mvd_t) (why : Reason)
  | mvd_destroyed (why : Reason)
  | fault (why : Reason)
  deriving DecidableEq, Repr

/-- A computation that returns normally or leaves through a non-local exit. -/
abbrev Run (α : Type) := Except Escape α

/-- Modelled from the spec: `MVD_ParseMessage` is the downstream parser, defined
outside this file.  The spec gives its interface: it consumes the pre-positioned
scratch message buffer and may set the channel state.  A parser maps the Channel
and `msg_read` to the new channel state and the new read position, or to `none`
when it leaves through `MVD_Destroyf`. -/
abbrev Parser := mvd_t → sizebuf_t → Option (mvd_state_t × Nat)

/-! ## Drop and destroy -/

/-- Modelled from the spec: `NET_Close` is part of the socket layer, outside
this file; the spec says it closes the transport.  The transport state
becomes `NS_DISCONNECTED`. -/
def NET_Close (s : netstream_t) : netstream_t :=
  { s with state := .NS_DISCONNECTED }

/-- The function `gtv_drop`: grow or reset the reconnect backoff, clamp it,
close the transport, reset the framer and go to Disconnected. -/
def gtv_drop (cfg : Config) (now : Nat) (gtv : gtv_t) : gtv_t :=
  let backoff :=
    if gtv.stream.state.toNat < netstate_t.NS_CONNECTED.toNat then
      (gtv.retry_backoff + 15 * 1000) % 2 ^ 32
    else if gtv.state.toNat ≥ gtv_state_t.GTV_CONNECTED.toNat then
      GTV_DEFAULT_BACKOFF
    else
      (gtv.retry_backoff + 30 * 1000) % 2 ^ 32
  let backoff := if backoff > GTV_MAXIMUM_BACKOFF then GTV_MAXIMUM_BACKOFF else backoff
  { gtv with
    retry_backoff := backoff
    stream := NET_Close gtv.stream
    z_buf := if cfg.USE_ZLIB then FIFO_Clear gtv.z_buf else gtv.z_buf
    z_act := if cfg.USE_ZLIB then false else gtv.z_act
    msglen := 0
    state := .GTV_DISCONNECTED
    retry_time := now }

/-- The effect of `gtv_destroy` on the Channel `gtv->mvd`: its back pointer is
cleared; a Channel in state Dead is freed (`none`), any other Channel
survives.  The Upstream itself is freed. -/
def gtv_destroy (mvd : Option mvd_t) : Option mvd_t :=
  match mvd with
  | none => none
  | some m => if m.state = .MVD_DEAD then none else some m

/-- The function `gtv_dropf`: call `gtv->drop` and leave through `longjmp`.
Every Upstream that reaches this function was created by `MVD_Connect_f`,
which installs `gtv_drop`: the callers of `gtv_dropf` all run under
`gtv_run`. -/
def gtv_dropf {α : Type} (cfg : Config) (now : Nat) (gtv : gtv_t) (mvd : Option mvd_t)
    (why : Reason) : Run α :=
  .error (.dropped (gtv_drop cfg now gtv) mvd why)

/-- The function `gtv_destroyf`: call `gtv->destroy` and leave through
`longjmp`. -/
def gtv_destroyf {α : Type} (mvd : Option mvd_t) (why : Reason) : Run α :=
  .error (.gtv_destroyed (gtv_destroy mvd) why)

/-- The function `MVD_Destroyf`: free the Channel (and, through `MVD_Free`, destroy
its Upstream) and leave through `longjmp`. -/
def MVD_Destroyf {α : Type} (why : Reason) : Run α :=
  .error (.mvd_destroyed why)

/-! ## Outbound framing -/

/-- The function `write_stream`: append to the send buffer, destroy the Upstream
if not all bytes fit, and refresh `last_sent`. -/
def write_stream (now : Nat) (gtv : gtv_t) (mvd : Option mvd_t) (data : List Nat) :
    Run gtv_t :=
  if (FIFO_Write gtv.stream.send (some data) data.length).2 ≠ data.length then
    gtv_destroyf mvd .send_overflow
  else
    .ok { gtv with
          stream := { gtv.stream with
                      send := (FIFO_Write gtv.stream.send (some data) data.length).1 }
          last_sent := now }

/-- The function `write_message`: the 3-byte header (length of `msg_write` plus
one, little-endian, then the opcode) followed by the content of `msg_write`. -/
def write_message (now : Nat) (gtv : gtv_t) (mvd : Option mvd_t) (op : gtv_clientop_t)
    (msg_write : List Nat) : Run gtv_t :=
  let len := msg_write.length + 1
  let header := [len % 256, len / 256 % 256, op.toNat % 256]
  match write_stream now gtv mvd header with
  | .error e => .error e
  | .ok gtv1 => write_stream now gtv1 mvd msg_write

/-- The content of `msg_write` after the `MSG_Write*` calls of `send_hello`:
what it held before, then protocol version, flags, a reserved 0, user name,
password and version string. -/
def client_hello (cfg : Config) (gtv : gtv_t) : List Nat :=
  let flags := if cfg.USE_ZLIB then cfg.GTF_STRINGCMDS ||| cfg.GTF_DEFLATE
               else cfg.GTF_STRINGCMDS
  let m := MSG_WriteShort gtv.msg_write cfg.GTV_PROTOCOL_VERSION
  let m := MSG_WriteLong m flags
  let m := MSG_WriteLong m 0
  let m := MSG_WriteString m (gtv.username.getD cfg.mvd_username)
  let m := MSG_WriteString m (gtv.password.getD cfg.mvd_password)
  MSG_WriteString m cfg.com_version

/-- The function `send_hello`: append the client hello to `msg_write`, send
`msg_write`, clear it (`SZ_Clear`) and go to Preparing.  When `write_message`
leaves through its exit, `msg_write` is not cleared. -/
def send_hello (cfg : Config) (now : Nat) (gtv : gtv_t) (mvd : Option mvd_t) : Run gtv_t :=
  let gtv0 := { gtv with msg_write := client_hello cfg gtv }
  match write_message now gtv0 mvd .GTC_HELLO gtv0.msg_write with
  | .error e => .error e
  | .ok gtv1 => .ok { gtv1 with msg_write := [], state := .GTV_PREPARING }

/-! ## Channel: waiting and reading -/

/-- The value `mvd_wait_delay->value * 10` converted to `int`. -/
def wait_delay_packets (cfg : Config) : Int :=
  cfg.mvd_wait_delay.scaled 10

/-- The function `create_channel`: a zeroed Channel with the default
`min_packets`. -/
def create_channel (cfg : Config) : mvd_t :=
  { min_packets := wait_delay_packets cfg }

/-- The function `gtv_wait_stop`: leave Waiting when enough packets or enough
bytes are buffered. -/
def gtv_wait_stop (cfg : Config) (mvd : mvd_t) : mvd_t × Bool :=
  if mvd.num_packets ≥ mvd.min_packets then
    ({ mvd with state := .MVD_READING }, true)
  else if cfg.mvd_wait_percent.le_int (FIFO_Percent mvd.delay) then
    ({ mvd with state := .MVD_READING }, true)
  else
    (mvd, false)

/-- The function `gtv_wait_start`: the Channel ran out of packets.  Without an
Upstream the Channel is destroyed; otherwise it goes to Waiting.  The final
`MVD_CheckActive` only maintains the list of active channels and is not
modelled. -/
def gtv_wait_start (cfg : Config) (now : Nat) (mvd : mvd_t) (gtv : Option gtv_t) :
    Run (mvd_t × gtv_t) :=
  let tr := wait_delay_packets cfg
  match gtv with
  | none => MVD_Destroyf .end_of_mvd_stream
  | some g =>
    let mvd1 := { mvd with state := .MVD_WAITING }
    if g.state = .GTV_READING then
      let mp : Int := 50 + 5 * mvd1.underflows
      let mvd2 := { mvd1 with
                    min_packets := if mp > tr then tr else mp
                    underflows := mvd1.underflows + 1 }
      match write_message now g (some mvd2) .GTC_PING g.msg_write with
      | .error e => .error e
      | .ok g1 => .ok (mvd2, g1)
    else
      .ok ({ mvd1 with min_packets := tr, underflows := 0 }, g)

/-- The result of a `read_frame` call that returns: the Channel and its
Upstream afterwards, the returned `qboolean`, and the messages that were
handed to `MVD_ParseMessage` during the call, in order. -/
structure frame_result where
  mvd : mvd_t
  gtv : Option gtv_t
  ret : Bool
  parsed : List sizebuf_t
  deriving DecidableEq, Repr

/-- The part of `gtv_read_frame` after the switch on `mvd->state`: read the
2-byte length, check it, read the message, decrement `num_packets`, call the
parser and return true. -/
def gtv_read_frame_body (cfg : Config) (P : Parser) (mvd : mvd_t) (gtv : Option gtv_t) :
    Run frame_result :=
  -- parse msglen
  if (FIFO_Read mvd.delay true 2).2.2 ≠ 2 then
    MVD_Destroyf .incomplete_data
  else
    let delay1 := (FIFO_Read mvd.delay true 2).1
    let msglen := le16_value (FIFO_Read mvd.delay true 2).2.1
    if msglen < 1 ∨ msglen > cfg.MAX_MSGLEN then
      MVD_Destroyf .invalid_msglen
    else
      -- read this message
      match FIFO_ReadMessage delay1 msglen with
      | none => MVD_Destroyf .incomplete_data
      | some (delay2, msg_read) =>
        -- decrement buffered packets counter
        let mvd1 := { mvd with delay := delay2, num_packets := mvd.num_packets - 1 }
        -- parse it
        match P mvd1 msg_read with
        | none => MVD_Destroyf .parser_abort
        | some (st, _) =>
          .ok { mvd := { mvd1 with state := st }, gtv := gtv, ret := true,
                parsed := [msg_read] }

/-- The function `gtv_read_frame`: the switch on `mvd->state`, then
`gtv_read_frame_body`. -/
def gtv_read_frame (cfg : Config) (P : Parser) (now : Nat) (mvd : mvd_t)
    (gtv : Option gtv_t) : Run frame_result :=
  match mvd.state with
  | .MVD_WAITING =>
    if (gtv_wait_stop cfg mvd).2 = false then
      .ok { mvd := (gtv_wait_stop cfg mvd).1, gtv := gtv, ret := false, parsed := [] }
    else
      gtv_read_frame_body cfg P (gtv_wait_stop cfg mvd).1 gtv
  | .MVD_READING =>
    if mvd.num_packets = 0 then
      match gtv_wait_start cfg now mvd gtv with
      | .error e => .error e
      | .ok (mvd1, g1) => .ok { mvd := mvd1, gtv := some g1, ret := false, parsed := [] }
    else
      gtv_read_frame_body cfg P mvd gtv
  | .MVD_DEAD => MVD_Destroyf .bad_mvd_state

/-! ## Inbound commands -/

/-- The function `parse_hello`: the server hello.  `inflateInit`, part of zlib, is
taken to succeed; the call of `MVD_Spawn_f` acts on the server state only and is
not modelled.  An unallocated `z_buf` is one of size 0. -/
def parse_hello (cfg : Config) (gtv : gtv_t) (mvd : Option mvd_t) (msg_read : sizebuf_t) :
    Run (gtv_t × sizebuf_t) :=
  if gtv.state.toNat ≥ gtv_state_t.GTV_CONNECTED.toNat then
    gtv_destroyf mvd .duplicated_hello
  else
    let flags := (MSG_ReadLong msg_read).1
    let msg1 := (MSG_ReadLong msg_read).2
    if flags &&& cfg.GTF_DEFLATE ≠ 0 then
      if cfg.USE_ZLIB then
        let z_buf := if gtv.z_buf.size = 0 then { data := [], size := cfg.MAX_GTS_MSGLEN }
                     else gtv.z_buf
        .ok ({ gtv with z_buf := z_buf, z_act := true, flags := flags,
                        state := .GTV_CONNECTED }, msg1)
      else
        gtv_destroyf mvd .deflated_data
    else
      .ok ({ gtv with flags := flags, state := .GTV_CONNECTED }, msg1)

/-- The function `parse_stream_start`: the stream start ack.  A missing Channel
is created with a delay buffer of `mvd_buffer_size` (clamped to 2..10) times
`MAX_MSGLEN` bytes; an existing one has its delay reset to the default. -/
def parse_stream_start (cfg : Config) (gtv : gtv_t) (mvd : Option mvd_t) :
    Run (gtv_t × Option mvd_t) :=
  if gtv.state ≠ .GTV_RESUMING then
    gtv_destroyf mvd .unexpected_stream_start
  else
    let mvd1 : mvd_t :=
      match mvd with
      | none =>
        { create_channel cfg with
          delay := { data := [],
                     size := (max 2 (min 10 cfg.mvd_buffer_size)).toNat * cfg.MAX_MSGLEN } }
      | some m => { m with min_packets := wait_delay_packets cfg, underflows := 0 }
    .ok ({ gtv with state := .GTV_READING }, some mvd1)

/-- The function `parse_stream_stop`: the stream stop ack. -/
def parse_stream_stop (gtv : gtv_t) (mvd : Option mvd_t) : Run gtv_t :=
  if gtv.state ≠ .GTV_SUSPENDING then
    gtv_destroyf mvd .unexpected_stream_stop
  else
    .ok { gtv with state := .GTV_CONNECTED }

/-- The function `parse_stream_data`.  `msg_read` is positioned after the opcode
byte.  A body for a Channel that is not Dead is appended to the delay buffer as
one `(u16 length, payload)` record if the whole record fits. -/
def parse_stream_data (P : Parser) (now : Nat) (gtv : gtv_t)
    (mvd : Option mvd_t) (msg_read : sizebuf_t) : Run (gtv_t × Option mvd_t × sizebuf_t) :=
  if gtv.state.toNat < gtv_state_t.GTV_WAITING.toNat then
    gtv_destroyf mvd .unexpected_stream_data
  -- ignore any pending data while suspending
  else if gtv.state = .GTV_SUSPENDING then
    .ok (gtv, mvd, { msg_read with readcount := msg_read.cursize })
  -- empty data part acts as stream suspend marker
  else if msg_read.readcount = msg_read.cursize then
    .ok (if gtv.state = .GTV_READING then { gtv with state := .GTV_WAITING } else gtv,
         mvd, msg_read)
  else
    -- non-empty data part acts as stream resume marker
    let gtv1 := if gtv.state = .GTV_WAITING then { gtv with state := .GTV_READING } else gtv
    match mvd with
    | none => .error (.fault .null_channel)
    | some m =>
      if m.state = .MVD_DEAD then
        -- parse it in place
        match P m msg_read with
        | none => MVD_Destroyf .parser_abort
        | some (st, rc) =>
          .ok (gtv1, some { m with state := st }, { msg_read with readcount := rc })
      else
        let data := msg_read.data.drop 1
        let len := msg_read.cursize - 1
        -- see if this packet fits
        if (FIFO_Write m.delay none (len + 2)).2 ≠ len + 2 then
          if m.state = .MVD_WAITING then
            gtv_destroyf (some m) .delay_overflow_waiting
          else
            -- clear entire delay buffer
            let m1 := { m with
                        delay := FIFO_Clear m.delay
                        state := .MVD_WAITING
                        min_packets := 50
                        overflows := m.overflows + 1 }
            -- send stream stop request
            match write_message now gtv1 (some m1) .GTC_STREAM_STOP gtv1.msg_write with
            | .error e => .error e
            | .ok gtv2 => .ok ({ gtv2 with state := .GTV_SUSPENDING }, some m1, msg_read)
        else
          -- write it into delay buffer
          let delay1 := (FIFO_Write m.delay (some (le16_bytes (len % 65536))) 2).1
          let delay2 := (FIFO_Write delay1 (some data) len).1
          .ok (gtv1, some { m with delay := delay2, num_packets := m.num_packets + 1 },
               { msg_read with readcount := msg_read.cursize })

/-- The first step of `parse_message` (check magic): below Preparing, four bytes
are read and compared with `MVD_MAGIC`, then the client hello is sent.  The
result `none` stands for `return qfalse`. -/
def parse_message_magic (cfg : Config) (now : Nat) (gtv : gtv_t) (mvd : Option mvd_t)
    (sel : fifo_sel) : Run (Option gtv_t) :=
  if gtv.state.toNat < gtv_state_t.GTV_PREPARING.toNat then
    match FIFO_TryRead (gtv.fifo sel) 4 with
    | none => .ok none
    | some (f, magic) =>
      if le32_value magic ≠ cfg.MVD_MAGIC then
        gtv_destroyf mvd .not_mvd_stream
      else
        match send_hello cfg now (gtv.setFifo sel f) mvd with
        | .error e => .error e
        | .ok gtv1 => .ok (some gtv1)
  else
    .ok (some gtv)

/-- The second step of `parse_message` (parse msglen): when no message is
pending, the 2-byte length is read and classified.  The result `none` stands
for `return qfalse`. -/
def parse_message_msglen (cfg : Config) (now : Nat) (gtv : gtv_t) (mvd : Option mvd_t)
    (sel : fifo_sel) : Run (Option gtv_t) :=
  if gtv.msglen = 0 then
    match FIFO_TryRead (gtv.fifo sel) 2 with
    | none => .ok none
    | some (f, bytes) =>
      let msglen := le16_value bytes
      if msglen = 0 then
        gtv_dropf cfg now (gtv.setFifo sel f) mvd .end_of_gtv_stream
      else if msglen > cfg.MAX_MSGLEN then
        gtv_destroyf mvd .oversize_message
      else
        .ok (some { gtv.setFifo sel f with msglen := msglen })
  else
    .ok (some gtv)

/-- The last step of `parse_message`: the command byte is read from the
complete message `msg_read` and dispatched; then the read position is checked
and `last_rcvd` refreshed. -/
def parse_message_cmd (cfg : Config) (P : Parser) (now : Nat) (gtv : gtv_t)
    (mvd : Option mvd_t) (msg_read : sizebuf_t) : Run (gtv_t × Option mvd_t) :=
  let cmd := (MSG_ReadByte msg_read).1
  let msg1 := (MSG_ReadByte msg_read).2
  let after : Run (gtv_t × Option mvd_t × sizebuf_t) :=
    match (if cmd < 0 then none else gtv_serverop_t.ofNat? cmd.toNat) with
    | some .GTS_HELLO =>
      match parse_hello cfg gtv mvd msg1 with
      | .error e => .error e
      | .ok (g, m) => .ok (g, mvd, m)
    | some .GTS_PONG => .ok (gtv, mvd, msg1)
    | some .GTS_STREAM_START =>
      match parse_stream_start cfg gtv mvd with
      | .error e => .error e
      | .ok (g, c) => .ok (g, c, msg1)
    | some .GTS_STREAM_STOP =>
      match parse_stream_stop gtv mvd with
      | .error e => .error e
      | .ok g => .ok (g, mvd, msg1)
    | some .GTS_STREAM_DATA => parse_stream_data P now gtv mvd msg1
    | some .GTS_ERROR => gtv_destroyf mvd .server_error
    | some .GTS_BADREQUEST => gtv_destroyf mvd .bad_request
    | some .GTS_NOACCESS => gtv_destroyf mvd .no_access
    | some .GTS_DISCONNECT => gtv_destroyf mvd .server_shutdown
    | some .GTS_RECONNECT => gtv_dropf cfg now gtv mvd .server_restarted
    | none => gtv_destroyf mvd .unknown_command
  match after with
  | .error e => .error e
  | .ok (g, c, m) =>
    if m.readcount > m.cursize then
      gtv_destroyf c .read_past_end
    else
      .ok ({ g with last_rcvd := now }, c)

/-- The function `parse_message`: try to take one complete message out of the
ring buffer `sel` and process it.  The `Bool` is the returned `qboolean`. -/
def parse_message (cfg : Config) (P : Parser) (now : Nat) (gtv : gtv_t)
    (mvd : Option mvd_t) (sel : fifo_sel) : Run (gtv_t × Option mvd_t × Bool) :=
  match parse_message_magic cfg now gtv mvd sel with
  | .error e => .error e
  | .ok none => .ok (gtv, mvd, false)
  | .ok (some gtv1) =>
    match parse_message_msglen cfg now gtv1 mvd sel with
    | .error e => .error e
    | .ok none => .ok (gtv1, mvd, false)
    | .ok (some gtv2) =>
      -- read this message
      match FIFO_ReadMessage (gtv2.fifo sel) gtv2.msglen with
      | none => .ok (gtv2, mvd, false)
      | some (f, msg_read) =>
        match parse_message_cmd cfg P now { gtv2.setFifo sel f with msglen := 0 } mvd
            msg_read with
        | .error e => .error e
        | .ok (gtv3, mvd3) => .ok (gtv3, mvd3, true)

/-! ## Transport, keep-alive and the Upstream tick -/

/-- The results `neterr_t` of the socket layer that `gtv_run` distinguishes. -/
inductive neterr_t where
  | NET_OK
  | NET_AGAIN
  | NET_CLOSED
  | NET_ERROR
  deriving DecidableEq, Repr

/-- The results of zlib's `inflate` that `inflate_more` distinguishes; `Z_OTHER`
stands for every other code. -/
inductive zret_t where
  | Z_OK
  | Z_BUF_ERROR
  | Z_STREAM_END
  | Z_OTHER
  deriving DecidableEq, Repr

/-- What the collaborators outside this file (address lookup, socket layer,
zlib) do during one call of `gtv_run`; an input of the model. -/
structure env_t where
  /-- Whether `NET_StringToAdr` resolves the address. -/
  lookup_ok : Bool := true
  /-- The result of `NET_Connect`. -/
  connect_ret : neterr_t := .NET_OK
  /-- The result of `NET_RunConnect`. -/
  run_connect_ret : neterr_t := .NET_AGAIN
  /-- The result of `NET_RunStream`. -/
  run_stream_ret : neterr_t := .NET_AGAIN
  /-- The bytes the socket delivers to the receive buffer in `NET_RunStream`. -/
  received : List Nat := []
  /-- The number of bytes the socket takes from the send buffer in
  `NET_RunStream`. -/
  sent : Nat := 0
  /-- The effect of the `k`-th call of zlib's `inflate` in this tick, given the
  input bytes and the room for output: result code, number of input bytes
  consumed, output bytes produced. -/
  inflate : Nat → List Nat → Nat → zret_t × Nat × List Nat :=
    fun _ _ _ => (.Z_BUF_ERROR, 0, [])

/-- Unsigned 32-bit subtraction `a - b`, as in `svs.realtime - gtv->last_rcvd`. -/
def u32_sub (a b : Nat) : Nat :=
  (a % 2 ^ 32 + 2 ^ 32 - b % 2 ^ 32) % 2 ^ 32

/-- Modelled from the spec: `NET_Connect` belongs to the socket layer, outside
this file.  On success the stream is reset and its state is Connecting; on
`NET_ERROR` the stream is left as it was. -/
def NET_Connect (env : env_t) (s : netstream_t) : neterr_t × netstream_t :=
  match env.connect_ret with
  | .NET_ERROR => (.NET_ERROR, s)
  | r => (r, { state := .NS_CONNECTING, recv := {}, send := {} })

/-- Modelled from the spec: `NET_RunConnect` belongs to the socket layer.  With
`NET_OK` the transport is Connected, with `NET_AGAIN` nothing changes, with
any other result the transport is Closed. -/
def NET_RunConnect (env : env_t) (s : netstream_t) : neterr_t × netstream_t :=
  match env.run_connect_ret with
  | .NET_OK => (.NET_OK, { s with state := .NS_CONNECTED })
  | .NET_AGAIN => (.NET_AGAIN, s)
  | r => (r, { s with state := .NS_CLOSED })

/-- Modelled from the spec: `NET_RunStream` belongs to the socket layer.  With
`NET_OK` received bytes are appended to the receive ring buffer (as far as
there is room) and sent bytes leave the send ring buffer; with `NET_AGAIN`
nothing changes; with any other result the transport is Closed. -/
def NET_RunStream (env : env_t) (s : netstream_t) : neterr_t × netstream_t :=
  match env.run_stream_ret with
  | .NET_OK =>
    (.NET_OK, { s with
                recv := (FIFO_Write s.recv (some env.received) env.received.length).1
                send := { s.send with data := s.send.data.drop env.sent } })
  | .NET_AGAIN => (.NET_AGAIN, s)
  | r => (r, { s with state := .NS_CLOSED })

/-- The Upstream that `MVD_Connect_f` creates: after a successful address lookup
and `NET_Connect` it is zeroed, in state Connecting, with both timestamps set
to the current time; otherwise no Upstream is created (`none`).  The function
does not use the global `msg_write`, whose content is the argument
`msg_write`. -/
def MVD_Connect_f (env : env_t) (now : Nat) (msg_write : List Nat)
    (username password : Option (List Nat)) : Option gtv_t :=
  if env.lookup_ok = false then none
  else if (NET_Connect env {}).1 = .NET_ERROR then none
  else
    some { state := .GTV_CONNECTING
           stream := (NET_Connect env {}).2
           last_sent := now
           last_rcvd := now
           username := username
           password := password
           msg_write := msg_write }

/-- The function `send_stream_start`: the 2 bytes of `maxbuf` are appended to
`msg_write`, `msg_write` is sent as a stream start request and cleared
(`SZ_Clear`); the state becomes Resuming.  When `write_message` leaves through
its exit, `msg_write` is not cleared. -/
def send_stream_start (cfg : Config) (now : Nat) (gtv : gtv_t) (mvd : Option mvd_t) :
    Run gtv_t :=
  let maxbuf0 : Int :=
    match mvd with
    | some m => Int.tdiv m.min_packets 2
    | none => Int.tdiv (cfg.mvd_wait_delay.num * 10) (cfg.mvd_wait_delay.den * 2)
  let maxbuf : Int := if maxbuf0 < 10 then 10 else maxbuf0
  let gtv0 := { gtv with msg_write := MSG_WriteShort gtv.msg_write (maxbuf % 65536).toNat }
  match write_message now gtv0 mvd .GTC_STREAM_START gtv0.msg_write with
  | .error e => .error e
  | .ok gtv1 => .ok { gtv1 with msg_write := [], state := .GTV_RESUMING }

/-- The function `send_stream_stop`: `msg_write` as it is, sent as a stream stop
request; the state becomes Suspending. -/
def send_stream_stop (now : Nat) (gtv : gtv_t) (mvd : Option mvd_t) : Run gtv_t :=
  match write_message now gtv mvd .GTC_STREAM_STOP gtv.msg_write with
  | .error e => .error e
  | .ok gtv1 => .ok { gtv1 with state := .GTV_SUSPENDING }

/-- The function `check_timeouts`, with the global `mvd_active` as an argument:
drop on silence, start or stop the stream depending on `mvd_active`, ping when
nothing was sent for `GTV_PING_INTERVAL`.  The conversion of
`mvd_timeout->value * 1000` to `unsigned` is taken as 0 for a negative product
(undefined in C) and modulo 2^32 otherwise. -/
def check_timeouts (cfg : Config) (now : Nat) (mvd_active : Bool) (gtv : gtv_t)
    (mvd : Option mvd_t) : Run gtv_t :=
  let timeout := (cfg.mvd_timeout.scaled 1000).toNat % 2 ^ 32
  -- drop if no data has been received for too long
  if u32_sub now gtv.last_rcvd > timeout then
    gtv_dropf cfg now gtv mvd .timed_out
  else if gtv.state.toNat < gtv_state_t.GTV_CONNECTED.toNat then
    .ok gtv
  else
    -- stop/start stream depending on global state
    let started : Run gtv_t :=
      if mvd_active then
        if gtv.state = .GTV_CONNECTED then send_stream_start cfg now gtv mvd else .ok gtv
      else if gtv.state = .GTV_WAITING ∨ gtv.state = .GTV_READING then
        send_stream_stop now gtv mvd
      else .ok gtv
    match started with
    | .error e => .error e
    | .ok gtv1 =>
      -- ping if no data has been sent for too long
      if u32_sub now gtv1.last_sent > GTV_PING_INTERVAL then
        write_message now gtv1 mvd .GTC_PING gtv1.msg_write
      else .ok gtv1

/-- The function `check_reconnect`: wait for the backoff to elapse, then go to
Connecting, refresh the timestamps, look the address up and start to connect.
The `Bool` is the returned `qboolean`. -/
def check_reconnect (cfg : Config) (env : env_t) (now : Nat) (gtv : gtv_t)
    (mvd : Option mvd_t) : Run (gtv_t × Bool) :=
  if u32_sub now gtv.retry_time < gtv.retry_backoff then
    .ok (gtv, false)
  else
    let gtv1 := { gtv with state := .GTV_CONNECTING, last_sent := now, last_rcvd := now }
    if env.lookup_ok = false then
      gtv_dropf cfg now gtv1 mvd .lookup_failed
    else if (NET_Connect env gtv1.stream).1 = .NET_ERROR then
      gtv_dropf cfg now { gtv1 with stream := (NET_Connect env gtv1.stream).2 } mvd
        .connect_failed
    else
      .ok ({ gtv1 with stream := (NET_Connect env gtv1.stream).2 }, true)

/-- The function `run_connect`: run the connection; once connected, set up the
two ring buffers, refresh `last_rcvd` and send the magic. -/
def run_connect (cfg : Config) (env : env_t) (now : Nat) (gtv : gtv_t)
    (mvd : Option mvd_t) : Run (neterr_t × gtv_t) :=
  if (NET_RunConnect env gtv.stream).1 ≠ .NET_OK then
    .ok ((NET_RunConnect env gtv.stream).1,
         { gtv with stream := (NET_RunConnect env gtv.stream).2 })
  else
    let s := (NET_RunConnect env gtv.stream).2
    let gtv1 := { gtv with
                  stream := { s with
                              recv := { s.recv with size := cfg.MAX_GTS_MSGLEN }
                              send := { s.send with size := cfg.MAX_GTC_MSGLEN } }
                  last_rcvd := now }
    match write_stream now gtv1 mvd (le32_bytes cfg.MVD_MAGIC) with
    | .error e => .error e
    | .ok gtv2 => .ok (.NET_OK, gtv2)

/-- Modelled from the spec: `FIFO_Peek` gives the readable bytes of a ring
buffer, `FIFO_Reserve` the room for writing, `FIFO_Decommit` removes bytes
that were read and `FIFO_Commit` adds bytes that were written (the spec's
peek/commit interface).  This is one pass of the loop of `inflate_stream`
around the `k`-th call of zlib's `inflate`. -/
def inflate_step (env : env_t) (k : Nat) (dst src : fifo_t) : zret_t × fifo_t × fifo_t :=
  let avail_in := FIFO_Usage src
  let avail_out := dst.size - FIFO_Usage dst
  let r := env.inflate k src.data avail_out
  (r.1, { dst with data := dst.data ++ r.2.2.take avail_out },
        { src with data := src.data.drop (min r.2.1 avail_in) })

/-- The function `inflate_stream`: call `inflate` while there is input, room for
output, and the result is `Z_OK`.  `ret` is the result so far (`Z_BUF_ERROR`
at the start), `k` counts the calls of `inflate` in this tick; the result is
`none` when `fuel` passes of the loop were not enough. -/
def inflate_stream (env : env_t) :
    Nat → Nat → zret_t → fifo_t → fifo_t → Option (zret_t × Nat × fifo_t × fifo_t)
  | 0, _, _, _, _ => none
  | fuel + 1, k, ret, dst, src =>
    if FIFO_Usage src = 0 then some (ret, k, dst, src)
    else if dst.size - FIFO_Usage dst = 0 then some (ret, k, dst, src)
    else
      let r := inflate_step env k dst src
      if r.1 = .Z_OK then inflate_stream env fuel (k + 1) r.1 r.2.1 r.2.2
      else some (r.1, k + 1, r.2.1, r.2.2)

/-- The function `inflate_more`: inflate from the receive buffer into `z_buf`;
at the end of the deflate stream inflating stops, any error destroys the
Upstream.  The result is `none` when the fuel was not enough. -/
def inflate_more (env : env_t) (fuel k : Nat) (gtv : gtv_t) (mvd : Option mvd_t) :
    Option (Run (gtv_t × Nat)) :=
  match inflate_stream env fuel k .Z_BUF_ERROR gtv.z_buf gtv.stream.recv with
  | none => none
  | some (ret, k1, dst, src) =>
    let gtv1 := { gtv with z_buf := dst, stream := { gtv.stream with recv := src } }
    match ret with
    | .Z_BUF_ERROR => some (.ok (gtv1, k1))
    | .Z_OK => some (.ok (gtv1, k1))
    | .Z_STREAM_END => some (.ok ({ gtv1 with z_act := false }, k1))
    | .Z_OTHER => some (gtv_destroyf mvd .inflate_failed)

/-- The loop `while( parse_message( gtv, &gtv->stream.recv ) )` of `run_stream`.
The result is `none` when `fuel` passes were not enough. -/
def run_stream_plain (cfg : Config) (P : Parser) (now : Nat) :
    Nat → gtv_t → Option mvd_t → Option (Run (gtv_t × Option mvd_t))
  | 0, _, _ => none
  | fuel + 1, gtv, mvd =>
    match parse_message cfg P now gtv mvd .recv with
    | .error e => some (.error e)
    | .ok (g, m, false) => some (.ok (g, m))
    | .ok (g, m, true) => run_stream_plain cfg P now fuel g m

/-- The loop of `run_stream` for an inflating Upstream: inflate more data while
`z_act` is set, then parse one message from `z_buf`, until no message is
there.  The result is `none` when `fuel` passes were not enough. -/
def run_stream_zlib (cfg : Config) (P : Parser) (env : env_t) (now : Nat) :
    Nat → Nat → gtv_t → Option mvd_t → Option (Run (gtv_t × Option mvd_t))
  | 0, _, _, _ => none
  | fuel + 1, k, gtv, mvd =>
    match (if gtv.z_act then inflate_more env (fuel + 1) k gtv mvd
           else some (.ok (gtv, k))) with
    | none => none
    | some (.error e) => some (.error e)
    | some (.ok (g1, k1)) =>
      match parse_message cfg P now g1 mvd .z_buf with
      | .error e => some (.error e)
      | .ok (g, m, false) => some (.ok (g, m))
      | .ok (g, m, true) => run_stream_zlib cfg P env now fuel k1 g m

/-- The function `run_stream`: run the network stream, then parse all complete
messages (through the inflate buffer when `z_act` is set).  The trace output
under `mvd_shownet` is not modelled.  The result is `none` when the fuel was not
enough. -/
def run_stream (cfg : Config) (P : Parser) (env : env_t) (now fuel : Nat) (gtv : gtv_t)
    (mvd : Option mvd_t) : Option (Run (neterr_t × gtv_t × Option mvd_t)) :=
  if (NET_RunStream env gtv.stream).1 ≠ .NET_OK then
    some (.ok ((NET_RunStream env gtv.stream).1,
               { gtv with stream := (NET_RunStream env gtv.stream).2 }, mvd))
  else
    let gtv1 := { gtv with stream := (NET_RunStream env gtv.stream).2 }
    match (if cfg.USE_ZLIB = true ∧ gtv1.z_act = true then
             run_stream_zlib cfg P env now fuel 0 gtv1 mvd
           else run_stream_plain cfg P now fuel gtv1 mvd) with
    | none => none
    | some (.error e) => some (.error e)
    | some (.ok (g, m)) => some (.ok (.NET_OK, g, m))

/-- The second switch of `gtv_run`, on the result of the network stream. -/
def gtv_run_result (cfg : Config) (now : Nat) (mvd_active : Bool) (ret : neterr_t)
    (gtv : gtv_t) (mvd : Option mvd_t) : Run (gtv_t × Option mvd_t) :=
  match ret with
  | .NET_AGAIN | .NET_OK =>
    match check_timeouts cfg now mvd_active gtv mvd with
    | .error e => .error e
    | .ok g => .ok (g, mvd)
  | .NET_ERROR => gtv_dropf cfg now gtv mvd .net_error
  | .NET_CLOSED => gtv_dropf cfg now gtv mvd .net_closed

/-- The part of `gtv_run` from the label `case NS_CONNECTED:` on: run the
stream, then act on its result. -/
def gtv_run_stream (cfg : Config) (P : Parser) (env : env_t) (now fuel : Nat)
    (mvd_active : Bool) (gtv : gtv_t) (mvd : Option mvd_t) :
    Option (Run (gtv_t × Option mvd_t)) :=
  match run_stream cfg P env now fuel gtv mvd with
  | none => none
  | some (.error e) => some (.error e)
  | some (.ok (ret, g, m)) => some (gtv_run_result cfg now mvd_active ret g m)

/-- The function `gtv_run`, one tick of a network Upstream.  The result is `none`
when the fuel was not enough for the loops of `run_stream`. -/
def gtv_run (cfg : Config) (P : Parser) (env : env_t) (now fuel : Nat)
    (mvd_active : Bool) (gtv : gtv_t) (mvd : Option mvd_t) :
    Option (Run (gtv_t × Option mvd_t)) :=
  -- check if it is time to reconnect
  match (if gtv.state = .GTV_DISCONNECTED then check_reconnect cfg env now gtv mvd
         else .ok (gtv, true)) with
  | .error e => some (.error e)
  | .ok (g, false) => some (.ok (g, mvd))
  | .ok (g, true) =>
    -- run network stream
    match g.stream.state with
    | .NS_CONNECTING =>
      match run_connect cfg env now g mvd with
      | .error e => some (.error e)
      | .ok (.NET_AGAIN, g1) => some (.ok (g1, mvd))
      | .ok (.NET_OK, g1) => gtv_run_stream cfg P env now fuel mvd_active g1 mvd
      | .ok (ret, g1) => some (gtv_run_result cfg now mvd_active ret g1 mvd)
    | .NS_CONNECTED => gtv_run_stream cfg P env now fuel mvd_active g mvd
    | _ => some (.ok (g, mvd))

/-! ## Transition table and reachable Upstreams -/

/-- The transition table of the Upstream state machine, as the spec lists it:
the edge from `a` to `b`.  The last line is the drop from any state. -/
def gtv_edge (a b : gtv_state_t) : Bool :=
  match a, b with
  | .GTV_DISCONNECTED, .GTV_CONNECTING => true
  | .GTV_CONNECTING, .GTV_PREPARING => true
  | .GTV_PREPARING, .GTV_CONNECTED => true
  | .GTV_CONNECTED, .GTV_RESUMING => true
  | .GTV_RESUMING, .GTV_READING => true
  | .GTV_READING, .GTV_WAITING => true
  | .GTV_WAITING, .GTV_READING => true
  | .GTV_READING, .GTV_SUSPENDING => true
  | .GTV_WAITING, .GTV_SUSPENDING => true
  | .GTV_SUSPENDING, .GTV_CONNECTED => true
  | _, .GTV_DISCONNECTED => true
  | _, _ => false

/-- No change of state, or a change along an edge of the transition table that
is not a drop. -/
def gtv_step (a b : gtv_state_t) : Prop :=
  a = b ∨ (gtv_edge a b = true ∧ b ≠ .GTV_DISCONNECTED)

instance gtv_step_decidable (a b : gtv_state_t) : Decidable (gtv_step a b) :=
  inferInstanceAs (Decidable (a = b ∨ (gtv_edge a b = true ∧ b ≠ .GTV_DISCONNECTED)))

/-- A sequence of zero or more changes of state, each along an edge of the
transition table that is not a drop. -/
def gtv_path (a b : gtv_state_t) : Prop :=
  Relation.ReflTransGen (fun x y => gtv_edge x y = true ∧ y ≠ .GTV_DISCONNECTED) a b

/-- What an operation of the core keeps of an Upstream `g` in its result `g1`:
a connected (or closed) transport stays so, `retry_backoff` is not touched,
a state at or above Connected stays at or above Connected, and a state other
than Disconnected changes only along edges of the transition table. -/
def Keeps (g g1 : gtv_t) : Prop :=
  (2 ≤ g.stream.state.toNat → 2 ≤ g1.stream.state.toNat)
    ∧ g1.retry_backoff = g.retry_backoff
    ∧ (3 ≤ g.state.toNat → 3 ≤ g1.state.toNat)
    ∧ (g.state ≠ .GTV_DISCONNECTED →
        g1.state ≠ .GTV_DISCONNECTED ∧ gtv_path g.state g1.state)

/-- A result `r` of an operation on the Upstream `g` at time `now` is sound:
a normal result keeps `g` (see `Keeps`), and a drop is `gtv_drop` at `now` of
an Upstream that keeps `g`.  `f` selects the Upstream of a normal result. -/
def Sound (cfg : Config) (now : Nat) (g : gtv_t) {α : Type} (f : α → gtv_t)
    (r : Run α) : Prop :=
  match r with
  | .ok a => Keeps g (f a)
  | .error (.dropped g' _ _) => ∃ g1 : gtv_t, Keeps g g1 ∧ g' = gtv_drop cfg now g1
  | .error _ => True

/-- A result `r` of a tick of the Upstream `g` that is not Disconnected: it is
sound (see `Sound`), a normal result has either the state and the transport
state of `g` or a connected (or closed) transport, and a drop is the drop of
an Upstream with a connected (or closed) transport. -/
def SoundLive (cfg : Config) (now : Nat) (g : gtv_t) (r : Run (gtv_t × Option mvd_t)) :
    Prop :=
  match r with
  | .ok x =>
    Keeps g x.1
      ∧ ((x.1.state = g.state ∧ x.1.stream.state = g.stream.state)
          ∨ 2 ≤ x.1.stream.state.toNat)
  | .error (.dropped g' _ _) =>
    ∃ g1 : gtv_t, Keeps g g1 ∧ 2 ≤ g1.stream.state.toNat ∧ g' = gtv_drop cfg now g1
  | .error _ => True

/-- The network Upstreams the core can produce: those created by
`MVD_Connect_f`, and those left by a tick (`gtv_run`, returning or dropping)
or by a `gtv_read_frame` call of the Channel, for any input.  Between two
calls on an Upstream the global `msg_write` may be changed by calls on other
Upstreams (`scratch`). -/
inductive Reachable (cfg : Config) : gtv_t → Prop where
  | connect (env : env_t) (now : Nat) (msg_write : List Nat)
      (username password : Option (List Nat)) (g : gtv_t) :
      MVD_Connect_f env now msg_write username password = some g → Reachable cfg g
  | scratch (g : gtv_t) (msg_write : List Nat) :
      Reachable cfg g → Reachable cfg { g with msg_write := msg_write }
  | tick (P : Parser) (env : env_t) (now fuel : Nat) (mvd_active : Bool)
      (g g1 : gtv_t) (mvd mvd1 : Option mvd_t) :
      Reachable cfg g →
      gtv_run cfg P env now fuel mvd_active g mvd = some (.ok (g1, mvd1)) →
      Reachable cfg g1
  | drop (P : Parser) (env : env_t) (now fuel : Nat) (mvd_active : Bool)
      (g g1 : gtv_t) (mvd mvd1 : Option mvd_t) (why : Reason) :
      Reachable cfg g →
      gtv_run cfg P env now fuel mvd_active g mvd = some (.error (.dropped g1 mvd1 why)) →
      Reachable cfg g1
  | read_frame (P : Parser) (now : Nat) (g g1 : gtv_t) (mvd : mvd_t) (r : frame_result) :
      Reachable cfg g →
      gtv_read_frame cfg P now mvd (some g) = .ok r → r.gtv = some g1 →
      Reachable cfg g1

/-! ## Command forwarding -/

/-- The function `gtv_forward_cmd`: forward the command text of a spectator to
the game server.  `text` is the string `Cmd_Args()` (its bytes, without the
terminating 0, so that `strlen` is its length); `mvd` is `client->mvd` and
`gtv` is `mvd->gtv`.  The result is the Upstream afterwards and the returned
`qboolean`.  The messages printed to the client are not modelled. -/
def gtv_forward_cmd (cfg : Config) (now : Nat) (mvd : mvd_t) (gtv : Option gtv_t)
    (text : List Nat) : Run (Option gtv_t × Bool) :=
  match gtv with
  | none => .ok (none, false)
  | some g =>
    if g.state.toNat < gtv_state_t.GTV_CONNECTED.toNat then
      .ok (some g, false)
    else if g.flags &&& cfg.GTF_STRINGCMDS = 0 then
      .ok (some g, false)
    else if FIFO_Usage g.stream.send ≠ 0 then
      .ok (some g, false)
    else
      let len := if text.length > 150 then 150 else text.length
      -- send it
      let m := MSG_WriteData g.msg_write text len
      let m := MSG_WriteByte m 0
      let g0 := { g with msg_write := m }
      match write_message now g0 (some mvd) .GTC_STRINGCMD g0.msg_write with
      | .error e => .error e
      | .ok g1 => .ok (some { g1 with msg_write := [] }, true)

/-! ## The frame tick -/

/-- The globals that `MVD_Frame` keeps between calls: its static `prevtime` and
the flag `mvd_active`. -/
structure frame_globals where
  prevtime : Nat := 0
  mvd_active : Bool := false
  deriving DecidableEq, Repr

/-- The first part of `MVD_Frame`: in broadcast mode, resume the streams while
clients are attached (or suspending is switched off) and suspend them after
`mvd_suspend_time` minutes without a client.  `broadcast` is
`sv.state == ss_broadcast`, `clients` is `!LIST_EMPTY( &svs.udp_client_list )`.
The local `delta` is computed by `suspend_delta`. -/
def MVD_Frame_active (cfg : Config) (broadcast clients : Bool) (now : Nat)
    (s : frame_globals) : frame_globals :=
  if broadcast = true then
    let delta := suspend_delta cfg.mvd_suspend_time
    if delta = 0 ∨ clients = true then
      { prevtime := now, mvd_active := true }
    else if u32_sub now s.prevtime > delta then
      { s with mvd_active := false }
    else s
  else s

/-- One entry of `mvd_gtv_list` during a tick: the Upstream, its Channel
`gtv->mvd`, and what the socket layer and zlib deliver to it in this tick.
The field `msg_write` of the Upstream is the content of the global when the
run of this entry starts, that is, what the run of the entry before it left
there. -/
structure conn_t where
  gtv : gtv_t
  mvd : Option mvd_t := none
  env : env_t := {}

/-- The loop of `MVD_Frame` over `mvd_gtv_list`: for each entry `setjmp`, then
`gtv->run` (always `gtv_run`: demo Upstreams are not in the list), then
`connections++` if the run returned; a non-local exit makes `setjmp` return
again and the loop continue with the next entry.  The result lists the calls
of `gtv->run` in the order they were made, each with its outcome, and gives
`connections`; it is `none` when the fuel was not enough for one of the runs. -/
def MVD_Frame_loop (cfg : Config) (P : Parser) (now fuel : Nat) (mvd_active : Bool) :
    List conn_t → Nat → Option (List (conn_t × Run (gtv_t × Option mvd_t)) × Nat)
  | [], connections => some ([], connections)
  | c :: rest, connections =>
    match gtv_run cfg P c.env now fuel mvd_active c.gtv c.mvd with
    | none => none
    | some (.error e) =>
      match MVD_Frame_loop cfg P now fuel mvd_active rest connections with
      | none => none
      | some (calls, n) => some ((c, .error e) :: calls, n)
    | some (.ok r) =>
      match MVD_Frame_loop cfg P now fuel mvd_active rest (connections + 1) with
      | none => none
      | some (calls, n) => some ((c, .ok r) :: calls, n)

/-- The function `MVD_Frame`: update `mvd_active`, then run all connections.  The
result is the new globals, the calls of `gtv->run` with their outcomes, and the
returned number of connections. -/
def MVD_Frame (cfg : Config) (P : Parser) (now fuel : Nat) (broadcast clients : Bool)
    (s : frame_globals) (list : List conn_t) :
    Option (frame_globals × List (conn_t × Run (gtv_t × Option mvd_t)) × Nat) :=
  match MVD_Frame_loop cfg P now fuel
      (MVD_Frame_active cfg broadcast clients now s).mvd_active list 0 with
  | none => none
  | some (calls, n) => some (MVD_Frame_active cfg broadcast clients now s, calls, n)

/-- Whether a call returned normally. -/
def returned {α : Type} (r : Run α) : Bool :=
  match r with
  | .ok _ => true
  | .error _ => false

/-! ## Demo player -/

/-- Modelled from the spec: a file of the file system as the demo player sees
it (the `FS_*` functions are not among the sources).  `raw` are its bytes,
`unzipped` is what reads deliver, from the start, once the gzip filter is
installed (`none` when `FS_FilterFile` fails), `opens` says whether
`FS_FOpenFile` succeeds. -/
structure demo_file where
  raw : List Nat := []
  unzipped : Option (List Nat) := none
  opens : Bool := true
  deriving DecidableEq, Repr

/-- Modelled from the spec: `FS_Read( buffer, len, f )` on an open file, given
by the bytes not read yet: up to `len` bytes are read.  The result is the
file afterwards and the bytes read (their number is the return value). -/
def FS_Read (f : List Nat) (len : Nat) : List Nat × List Nat :=
  (f.drop len, f.take len)

/-- The fields of `gtv_t` that a demo Upstream (created by `MVD_Play_f`) uses.
`demoplayback` is the open file, given by its bytes not read yet (`none` for
the handle 0); `demohead` is the playlist, each entry given by the file its
path names; `demoentry` is the playlist from the current entry on (`[]` for
`NULL`).  The counter `demoloop` is an `int`, taken as an integer.  The
pointer `gtv->mvd` is passed next to the record. -/
structure demo_t where
  state : gtv_state_t := .GTV_READING
  demoplayback : Option (List Nat) := none
  demoloop : Int := 0
  demohead : List demo_file := []
  demoentry : List demo_file := []
  deriving DecidableEq, Repr

/-- The effect of `demo_destroy` on the Channel `gtv->mvd`: its back pointer is
cleared; a Channel in state Dead is freed (`none`), any other Channel
survives.  The playback file is closed, the playlist and the Upstream are
freed. -/
def demo_destroy (mvd : Option mvd_t) : Option mvd_t :=
  match mvd with
  | none => none
  | some m => if m.state = .MVD_DEAD then none else some m

/-- The function `gtv_destroyf` for a demo Upstream, whose `destroy` is
`demo_destroy`. -/
def demo_destroyf {α : Type} (mvd : Option mvd_t) (why : Reason) : Run α :=
  .error (.gtv_destroyed (demo_destroy mvd) why)

/-- The Channel that `gtv_destroy` leaves, together with its back pointer
`mvd->gtv`, which the function sets to `NULL` before it looks at the state. -/
def gtv_destroy_link (mvd : Option mvd_t) : Option (mvd_t × Option gtv_t) :=
  match mvd with
  | none => none
  | some m => if m.state = .MVD_DEAD then none else some (m, none)

/-- The Channel that `demo_destroy` leaves, together with its back pointer
`mvd->gtv`, which the function sets to `NULL` before it looks at the state. -/
def demo_destroy_link (mvd : Option mvd_t) : Option (mvd_t × Option demo_t) :=
  match mvd with
  | none => none
  | some m => if m.state = .MVD_DEAD then none else some (m, none)

/-- The function `demo_read_message` on the open file `f`: read the 2-byte
length and then the message into `msg_read`.  The result is the file
afterwards and the message, or `none` for `qfalse`. -/
def demo_read_message (cfg : Config) (f : List Nat) : List Nat × Option sizebuf_t :=
  if (FS_Read f 2).2.length ≠ 2 then
    ((FS_Read f 2).1, none)
  else if le16_value (FS_Read f 2).2 = 0 then
    ((FS_Read f 2).1, none)
  else if le16_value (FS_Read f 2).2 > cfg.MAX_MSGLEN then
    ((FS_Read f 2).1, none)
  else
    let msglen := le16_value (FS_Read f 2).2
    let f1 := (FS_Read f 2).1
    if (FS_Read f1 msglen).2.length ≠ msglen then
      ((FS_Read f1 msglen).1, none)
    else
      ((FS_Read f1 msglen).1,
       some { data := (FS_Read f1 msglen).2, cursize := msglen, readcount := 0 })

/-- What the demo player hands to `MVD_ParseMessage`: the first message of a
file, parsed as gamestate by `demo_play_next`, or a later message, parsed by
`demo_read_frame`. -/
inductive demo_event where
  | gamestate (msg : sizebuf_t)
  | message (msg : sizebuf_t)
  deriving DecidableEq, Repr

/-- The result of a `demo_play_next` call that returns: the Channel, the
Upstream, and what was handed to the parser. -/
structure demo_result where
  mvd : mvd_t
  gtv : demo_t
  events : List demo_event
  deriving DecidableEq, Repr

/-- The part of `demo_play_next` that opens the file of a playlist entry: open,
read the 4 bytes of the magic, and if they look like a gzip header install the
gzip filter and read the 4 bytes again.  The result is the open file and the
4 bytes read last. -/
def demo_open (file : demo_file) (mvd : Option mvd_t) : Run (List Nat × List Nat) :=
  -- open new file
  if file.opens = false then
    demo_destroyf mvd .reopen_failed
  -- figure out if file is compressed and check magic
  else if (FS_Read file.raw 4).2.length ≠ 4 then
    demo_destroyf mvd .magic_unreadable
  else if le32_value (FS_Read file.raw 4).2 &&& 0xe0ffffff = 0x00088b1f then
    match file.unzipped with
    | none => demo_destroyf mvd .gzip_filter_failed
    | some z =>
      if (FS_Read z 4).2.length ≠ 4 then
        demo_destroyf mvd .magic_unreadable
      else .ok ((FS_Read z 4).1, (FS_Read z 4).2)
  else
    .ok ((FS_Read file.raw 4).1, (FS_Read file.raw 4).2)

/-- The function `demo_play_next`: play the playlist entry `entry` (the playlist
from that entry on; `[]` for `NULL`, the end of the list, where the loop
counter decides between destroying the Upstream and starting over at the
head).  The host is taken to be little-endian, so that the comparison of the
raw `magic` with `MVD_MAGIC` is one of little-endian values. -/
def demo_play_next (cfg : Config) (P : Parser) (gtv : demo_t) (mvd : Option mvd_t)
    (entry : List demo_file) : Run demo_result :=
  let wrapped : Run (demo_t × List demo_file) :=
    match entry with
    | [] =>
      if gtv.demoloop ≠ 0 then
        if gtv.demoloop - 1 = 0 then
          demo_destroyf mvd .end_of_playlist
        else .ok ({ gtv with demoloop := gtv.demoloop - 1 }, gtv.demohead)
      else .ok (gtv, gtv.demohead)
    | _ :: _ => .ok (gtv, entry)
  match wrapped with
  | .error e => .error e
  | .ok (gtv1, entry1) =>
    match entry1 with
    | [] => .error (.fault .null_entry)
    | file :: _ =>
      match demo_open file mvd with
      | .error e => .error e
      | .ok (f, magic) =>
        if le32_value magic ≠ cfg.MVD_MAGIC then
          demo_destroyf mvd .not_mvd2_file
        else
          -- read the first message
          match demo_read_message cfg f with
          | (_, none) => demo_destroyf mvd .first_message_unreadable
          | (f1, some msg) =>
            -- create MVD channel
            let mvd1 : mvd_t :=
              match mvd with
              | some m => m
              | none => create_channel cfg
            -- parse gamestate
            match P mvd1 msg with
            | none => MVD_Destroyf .parser_abort
            | some (st, _) =>
              if st = .MVD_DEAD then
                demo_destroyf (some { mvd1 with state := st }) .gamestate_missing
              else
                .ok { mvd := { mvd1 with state := .MVD_READING }
                      gtv := { gtv1 with demoplayback := some f1, demoentry := entry1 }
                      events := [.gamestate msg] }

/-- The result of a `demo_read_frame` call that returns: the Channel and its
Upstream afterwards, the returned `qboolean`, and what was handed to the
parser. -/
structure demo_frame where
  mvd : mvd_t
  gtv : Option demo_t
  ret : Bool
  events : List demo_event
  deriving DecidableEq, Repr

/-- The function `demo_read_frame`: read and parse the next message of the file
being played, or go on to the next playlist entry when there is none. -/
def demo_read_frame (cfg : Config) (P : Parser) (mvd : mvd_t) (gtv : Option demo_t) :
    Run demo_frame :=
  if mvd.state = .MVD_WAITING then
    -- paused by user
    .ok { mvd := mvd, gtv := gtv, ret := false, events := [] }
  else
    match gtv with
    | none => MVD_Destroyf .end_of_mvd_stream
    | some g =>
      match g.demoplayback with
      | none => .error (.fault .bad_handle)
      | some f =>
        match demo_read_message cfg f with
        | (f1, none) =>
          match g.demoentry with
          | [] => .error (.fault .null_entry)
          | _ :: next =>
            match demo_play_next cfg P { g with demoplayback := some f1 } (some mvd) next with
            | .error e => .error e
            | .ok r => .ok { mvd := r.mvd, gtv := some r.gtv, ret := true, events := r.events }
        | (f1, some msg) =>
          match P mvd msg with
          | none => MVD_Destroyf .parser_abort
          | some (st, _) =>
            .ok { mvd := { mvd with state := st }
                  gtv := some { g with demoplayback := some f1 }
                  ret := true
                  events := [.message msg] }

/-- The end of `MVD_Play_f`, from the test of the playlist `head` that was built
from the arguments on.  `loop` is the value of the option `-l`, or -1 without
it (the option parser refuses negative values); `gtv` is the demo Upstream
whose playlist is to be replaced (option `-r`) with its Channel, if any.  The
result is `none` when the function returns without playing (no playlist). -/
def MVD_Play_f (cfg : Config) (P : Parser) (loop : Int) (head : List demo_file)
    (gtv : Option (demo_t × Option mvd_t)) : Run (Option demo_result) :=
  match head with
  | [] => .ok none
  | _ :: _ =>
    let g0 : demo_t × Option mvd_t :=
      match gtv with
      | some (g, m) =>
        -- free existing playlist
        ({ g with demohead := [], demoentry := [] }, m)
      | none =>
        -- create new connection
        ({ state := .GTV_READING, demoloop := 1 }, none)
    -- set loop parameter
    let g1 : demo_t := if loop ≠ -1 then { g0.1 with demoloop := loop } else g0.1
    -- set new playlist
    let g2 : demo_t := { g1 with demohead := head, demoloop := loop }
    match demo_play_next cfg P g2 g0.2 head with
    | .error e => .error e
    | .ok r => .ok (some r)

/-! ## Demo recording -/

/-- The writes of `MVD_StreamedRecord_f` to the demo file it has opened: the
magic, then the gamestate that `MVD_EmitGamestate` left in `msg_write`, with
its 2-byte length.  `demorecording` is `mvd->demorecording`, given by the bytes
written so far; a Channel that is recording already is left alone. -/
def MVD_StreamedRecord_f (cfg : Config) (demorecording : Option (List Nat))
    (msg_write : List Nat) : Option (List Nat) :=
  match demorecording with
  | some f => some f
  | none =>
    some (le32_bytes cfg.MVD_MAGIC ++ le16_bytes (msg_write.length % 65536) ++ msg_write)

/-- Modelled from the spec: while a Channel is recording, each message body is
written to the file with its 2-byte length (this is done by the downstream
parser, outside this file). -/
def record_message (demorecording : Option (List Nat)) (body : List Nat) :
    Option (List Nat) :=
  match demorecording with
  | none => none
  | some f => some (f ++ le16_bytes (body.length % 65536) ++ body)

/-- The function `MVD_StreamedStop_f`: write the terminating zero length and close
the file.  The result is `mvd->demorecording` afterwards and the file that was
closed, if the Channel was recording. -/
def MVD_StreamedStop_f (demorecording : Option (List Nat)) :
    Option (List Nat) × Option (List Nat) :=
  match demorecording with
  | none => (none, none)
  | some f => (none, some (f ++ le16_bytes 0))

/-! ## Specification-level view of the delay buffer -/

/-- The bytes of one packet of the delay buffer, as the spec gives it: the
length as a little-endian `u16`, then the payload. -/
def encode_record (r : List Nat) : List Nat :=
  le16_bytes r.length ++ r

/-- The bytes of a sequence of packets, oldest first. -/
def encode_records : List (List Nat) → List Nat
  | [] => []
  | r :: rs => encode_record r ++ encode_records rs

/-- The complete `(u16 length, payload)` records stored in a byte sequence,
oldest first: a record is complete when its two length bytes and all of its
payload are there; reading stops at the first incomplete record.  `fuel`
bounds the number of records (the number of bytes is enough). -/
def split_records : Nat → List Nat → List (List Nat)
  | 0, _ => []
  | fuel + 1, data =>
    if data.length < 2 then []
    else if (data.drop 2).length < le16_value data then []
    else (data.drop 2).take (le16_value data)
           :: split_records fuel ((data.drop 2).drop (le16_value data))

/-- The records currently stored in a delay buffer. -/
def delay_records (f : fifo_t) : List (List Nat) :=
  split_records f.data.length f.data

/-- A payload that can be stored as one packet: its length is in
`[1, MAX_MSGLEN]` and fits the `u16` length field. -/
def valid_payload (cfg : Config) (r : List Nat) : Prop :=
  1 ≤ r.length ∧ r.length ≤ cfg.MAX_MSGLEN ∧ r.length < 65536

instance valid_payload_decidable (cfg : Config) (r : List Nat) :
    Decidable (valid_payload cfg r) :=
  inferInstanceAs (Decidable (1 ≤ r.length ∧ r.length ≤ cfg.MAX_MSGLEN ∧ r.length < 65536))

/-- The message `msg_read` holds when `parse_stream_data` is entered for a
STREAM_DATA message with body `b`: opcode byte, then the body, with the read
position after the opcode. -/
def stream_data_msg (b : List Nat) : sizebuf_t :=
  { data := gtv_serverop_t.GTS_STREAM_DATA.toNat :: b, cursize := b.length + 1, readcount := 1 }

/-- The bytes that `write_message` appends to the send buffer for the opcode
`op` when `msg_write` holds `payload`: the length of the payload plus one
(2 bytes, little-endian), the opcode, the payload. -/
def client_command (op : gtv_clientop_t) (payload : List Nat) : List Nat :=
  [(payload.length + 1) % 256, (payload.length + 1) / 256 % 256, op.toNat % 256] ++ payload

/-! ## Specification-level view of demo files -/

/-- The message `msg_read` holds after `demo_read_message` has read the message
with the bytes `b`. -/
def demo_msg (b : List Nat) : sizebuf_t :=
  { data := b, cursize := b.length, readcount := 0 }

/-- The bytes of a demo file, as the spec gives the format: `MVD_MAGIC`, then
the gamestate `c.1` and the message bodies `c.2` as `(u16 length, payload)`
records, then a zero length. -/
def demo_bytes (cfg : Config) (c : List Nat × List (List Nat)) : List Nat :=
  le32_bytes cfg.MVD_MAGIC ++ encode_record c.1 ++ encode_records c.2 ++ le16_bytes 0

/-- The (uncompressed, readable) file with the bytes `demo_bytes cfg c`. -/
def demo_file_of (cfg : Config) (c : List Nat × List (List Nat)) : demo_file :=
  { raw := demo_bytes cfg c }

/-- The content of a valid demo file: the gamestate and every body can be stored
as one record. -/
def valid_demo (cfg : Config) (c : List Nat × List (List Nat)) : Prop :=
  valid_payload cfg c.1 ∧ ∀ b ∈ c.2, valid_payload cfg b

/-- What playing one file hands to the parser: its gamestate, then its bodies
in order. -/
def file_events (c : List Nat × List (List Nat)) : List demo_event :=
  .gamestate (demo_msg c.1) :: c.2.map (fun b => .message (demo_msg b))

/-- What playing a playlist once hands to the parser. -/
def playlist_events (fs : List (List Nat × List (List Nat))) : List demo_event :=
  (fs.map file_events).flatten

/-- The number of `read_frame` calls that playing a playlist once takes: for
each file one call per body and one call that finds the end of the file. -/
def playlist_frames (fs : List (List Nat × List (List Nat))) : Nat :=
  (fs.map (fun c => c.2.length + 1)).sum

/-- Whether an event is a gamestate. -/
def demo_event.is_gamestate : demo_event → Bool
  | .gamestate _ => true
  | .message _ => false

/-- A demo Upstream in the middle of a file: the bodies `todo` and the zero
length are still to be read, the current playlist entry is the head of
`entry`. -/
def demo_at (head : List demo_file) (k : Int) (todo : List (List Nat))
    (entry : List demo_file) : demo_t :=
  { state := .GTV_READING
    demoplayback := some (encode_records todo ++ le16_bytes 0)
    demoloop := k
    demohead := head
    demoentry := entry }

/-- The Channel of a demo Upstream while it plays: as `create_channel` makes it,
in Reading. -/
def demo_chan (cfg : Config) : mvd_t :=
  { create_channel cfg with state := .MVD_READING }

/-- The parser accepts `h` as the gamestate of a playlist file: on the Channel
that `demo_play_next` hands it (the one just created, or the one that is
playing) it returns, with a channel state other than Dead. -/
def parses_gamestate (cfg : Config) (P : Parser) (h : List Nat) : Prop :=
  ∀ m : mvd_t, (m = create_channel cfg ∨ m = demo_chan cfg) →
    ∃ st rc, P m (demo_msg h) = some (st, rc) ∧ st ≠ .MVD_DEAD

/-- The parser accepts `b` as a later message of a playlist file: on the Channel
that is playing it returns and leaves the channel state Reading. -/
def parses_message (cfg : Config) (P : Parser) (b : List Nat) : Prop :=
  ∃ rc, P (demo_chan cfg) (demo_msg b) = some (.MVD_READING, rc)

/-- The parser accepts the messages of the demo `c`. -/
def parses_demo (cfg : Config) (P : Parser) (c : List Nat × List (List Nat)) : Prop :=
  parses_gamestate cfg P c.1 ∧ ∀ b ∈ c.2, parses_message cfg P b

/-- The file `f` holds the demo `c`: it opens, and either its bytes are
`demo_bytes cfg c`, or its first four bytes pass the test of `demo_play_next`
for a gzip header and the gzip filter delivers `demo_bytes cfg c`. -/
def holds_demo (cfg : Config) (f : demo_file) (c : List Nat × List (List Nat)) : Prop :=
  f.opens = true
    ∧ (f.raw = demo_bytes cfg c
        ∨ ((FS_Read f.raw 4).2.length = 4
            ∧ le32_value (FS_Read f.raw 4).2 &&& 0xe0ffffff = 0x00088b1f
            ∧ f.unzipped = some (demo_bytes cfg c)))

/-- Two files that `demo_open` cannot tell apart. -/
def same_open (f f2 : demo_file) : Prop :=
  ∀ mvd : Option mvd_t, demo_open f mvd = demo_open f2 mvd

/-- Two demo Upstreams that differ at most in files of their playlists that
`demo_open` cannot tell apart. -/
def same_demo (g g2 : demo_t) : Prop :=
  g.state = g2.state ∧ g.demoplayback = g2.demoplayback ∧ g.demoloop = g2.demoloop
    ∧ List.Forall₂ same_open g.demohead g2.demohead
    ∧ List.Forall₂ same_open g.demoentry g2.demoentry

/-- The relation `same_demo` for the Upstream of a Channel, which may be gone. -/
def same_source : Option demo_t → Option demo_t → Prop
  | some g, some g2 => same_demo g g2
  | none, none => True
  | _, _ => False

/-- Two outcomes of `demo_play_next` that agree up to `same_demo`. -/
def same_result : Run demo_result → Run demo_result → Prop
  | .ok r, .ok r2 => r.mvd = r2.mvd ∧ same_demo r.gtv r2.gtv ∧ r.events = r2.events
  | .error e, .error e2 => e = e2
  | _, _ => False

/-- Two outcomes of `demo_read_frame` that agree up to `same_demo`. -/
def same_frame : Run demo_frame → Run demo_frame → Prop
  | .ok r, .ok r2 =>
    r.mvd = r2.mvd ∧ same_source r.gtv r2.gtv ∧ r.ret = r2.ret ∧ r.events = r2.events
  | .error e, .error e2 => e = e2
  | _, _ => False

/-- Two outcomes of a run of `read_frame` calls that agree up to `same_demo`. -/
def same_run : Run (mvd_t × Option demo_t) → Run (mvd_t × Option demo_t) → Prop
  | .ok x, .ok x2 => x.1 = x2.1 ∧ same_source x.2 x2.2
  | .error e, .error e2 => e = e2
  | _, _ => False

/-! ## Sequences of calls -/

/-- Successive `parse_stream_data` calls, one per body, on an Upstream with its
Channel, where each body is appended: the record fits (the probe of
`parse_stream_data` succeeds) and the call returns with the Channel.  The
result is `none` as soon as a record does not fit or a call does not return. -/
def append_bodies (P : Parser) (now : Nat) :
    List (List Nat) → gtv_t → mvd_t → Option (gtv_t × mvd_t)
  | [], gtv, mvd => some (gtv, mvd)
  | b :: bs, gtv, mvd =>
    if (FIFO_Write mvd.delay none (b.length + 2)).2 = b.length + 2 then
      match parse_stream_data P now gtv (some mvd) (stream_data_msg b) with
      | .ok (gtv1, some mvd1, _) => append_bodies P now bs gtv1 mvd1
      | _ => none
    else none

/-- The first `n` successive `gtv_read_frame` calls on a Channel, when all of
them return true: the Channel and its Upstream afterwards, and the messages
handed to the parser, in order.  The result is `none` if one of the calls
returns false or does not return. -/
def read_frames (cfg : Config) (P : Parser) (now : Nat) :
    Nat → mvd_t → Option gtv_t → Option (mvd_t × Option gtv_t × List sizebuf_t)
  | 0, mvd, gtv => some (mvd, gtv, [])
  | n + 1, mvd, gtv =>
    match gtv_read_frame cfg P now mvd gtv with
    | .ok r =>
      if r.ret then
        match read_frames cfg P now n r.mvd r.gtv with
        | some (mvd2, gtv2, log) => some (mvd2, gtv2, r.parsed ++ log)
        | none => none
      else none
    | .error _ => none

/-- A sequence of drops of one Upstream: `gtv_drop` at each of the given times,
in order. -/
def gtv_drops (cfg : Config) : List Nat → gtv_t → gtv_t
  | [], gtv => gtv
  | now :: rest, gtv => gtv_drops cfg rest (gtv_drop cfg now gtv)

/-- Successive `demo_read_message` calls on an open file: up to `n` calls, stopping
at the first that returns false.  The result is the messages read, in order,
and whether a call returned false (the end of the stream). -/
def demo_read_messages (cfg : Config) : Nat → List Nat → List sizebuf_t × Bool
  | 0, _ => ([], false)
  | n + 1, f =>
    match demo_read_message cfg f with
    | (_, none) => ([], true)
    | (f1, some msg) =>
      (msg :: (demo_read_messages cfg n f1).1, (demo_read_messages cfg n f1).2)

/-- Successive `read_frame` calls of a demo Channel: `n` calls, or the calls up
to the first one that leaves through a non-local exit.  The result is what
was handed to the parser, in order, and the final Channel and Upstream or the
exit. -/
def demo_frames (cfg : Config) (P : Parser) :
    Nat → mvd_t → Option demo_t → List demo_event × Run (mvd_t × Option demo_t)
  | 0, mvd, gtv => ([], .ok (mvd, gtv))
  | n + 1, mvd, gtv =>
    match demo_read_frame cfg P mvd gtv with
    | .error e => ([], .error e)
    | .ok r => (r.events ++ (demo_frames cfg P n r.mvd r.gtv).1,
                (demo_frames cfg P n r.mvd r.gtv).2)

/-- A playback session: `MVD_Play_f` for a new demo Upstream with the playlist
`head` and the loop count `loop`, followed by `n` `read_frame` calls (see
`demo_frames`).  The result is `none` when nothing is played. -/
def demo_session (cfg : Config) (P : Parser) (loop : Int) (head : List demo_file)
    (n : Nat) : Option (List demo_event × Run (mvd_t × Option demo_t)) :=
  match MVD_Play_f cfg P loop head none with
  | .error e => some ([], .error e)
  | .ok none => none
  | .ok (some r) =>
    some (r.events ++ (demo_frames cfg P n r.mvd (some r.gtv)).1,
          (demo_frames cfg P n r.mvd (some r.gtv)).2)

/-- The recorded file of a Channel: recording started with the gamestate `g` in
`msg_write`, the bodies `bs` recorded in order, then recording stopped. -/
def recorded_file (cfg : Config) (g : List Nat) (bs : List (List Nat)) :
    Option (List Nat) :=
  (MVD_StreamedStop_f (bs.foldl record_message (MVD_StreamedRecord_f cfg none g))).2

/-- Successive `gtv_read_frame` calls on a Channel: `n` calls, or the calls up to
the first one that leaves through a non-local exit.  The result is the
messages handed to the parser, in order, and the Channel and its Upstream
after the last call, or the exit. -/
def read_frame_calls (cfg : Config) (P : Parser) (now : Nat) :
    Nat → mvd_t → Option gtv_t → List sizebuf_t × Run (mvd_t × Option gtv_t)
  | 0, mvd, gtv => ([], .ok (mvd, gtv))
  | n + 1, mvd, gtv =>
    match gtv_read_frame cfg P now mvd gtv with
    | .error e => ([], .error e)
    | .ok r => (r.parsed ++ (read_frame_calls cfg P now n r.mvd r.gtv).1,
                (read_frame_calls cfg P now n r.mvd r.gtv).2)

/-! ## The framer under fragmented input -/

/-- The Upstream after the bytes `x` were added to its ring buffer `sel`: by
`NET_RunStream` for the receive buffer, by `inflate_stream` for the inflate
buffer.  The bytes are taken to fit. -/
def gtv_t.more (gtv : gtv_t) (sel : fifo_sel) (x : List Nat) : gtv_t :=
  gtv.setFifo sel { gtv.fifo sel with data := (gtv.fifo sel).data ++ x }

/-- The Upstream without its two timestamps `last_sent` and `last_rcvd`. -/
def gtv_t.untimed (gtv : gtv_t) : gtv_t :=
  { gtv with last_sent := 0, last_rcvd := 0 }

/-- The Upstream `g1` is the Upstream `g` with the bytes `x` more in the ring
buffer `sel`, but for the two timestamps. -/
def Fed (sel : fifo_sel) (x : List Nat) (g g1 : gtv_t) : Prop :=
  g1.untimed = (g.more sel x).untimed

/-- Two results of the same kind: both calls left through a non-local exit, or
both returned, with values related by `R`. -/
def Run_related {α : Type} (R : α → α → Prop) : Run α → Run α → Prop
  | .ok a, .ok b => R a b
  | .error _, .error _ => True
  | _, _ => False

/-- The message that a `parse_message` call reads into `msg_read` and hands to
its switch on the command byte, if the call gets that far. -/
def parse_message_read (cfg : Config) (now : Nat) (gtv : gtv_t) (mvd : Option mvd_t)
    (sel : fifo_sel) : Option sizebuf_t :=
  match parse_message_magic cfg now gtv mvd sel with
  | .ok (some gtv1) =>
    match parse_message_msglen cfg now gtv1 mvd sel with
    | .ok (some gtv2) =>
      match FIFO_ReadMessage (gtv2.fifo sel) gtv2.msglen with
      | some (_, msg_read) => some msg_read
      | none => none
    | _ => none
  | _ => none

/-- What happens to the framer of an Upstream, one step at a time: bytes arrive
in the ring buffer, or `parse_message` is called once (at the time `now`). -/
inductive framer_action where
  | feed (x : List Nat)
  | parse (now : Nat)
  deriving DecidableEq, Repr

/-- A schedule of framer steps on the ring buffer `sel`, up to the first
`parse_message` call that leaves through a non-local exit.  The result is the
messages that were dispatched, in order, and the Upstream and Channel at the
end, or the exit. -/
def framer_run (cfg : Config) (P : Parser) (sel : fifo_sel) :
    List framer_action → gtv_t → Option mvd_t → List sizebuf_t × Run (gtv_t × Option mvd_t)
  | [], gtv, mvd => ([], .ok (gtv, mvd))
  | .feed x :: rest, gtv, mvd => framer_run cfg P sel rest (gtv.more sel x) mvd
  | .parse now :: rest, gtv, mvd =>
    match parse_message cfg P now gtv mvd sel with
    | .error e => ((parse_message_read cfg now gtv mvd sel).toList, .error e)
    | .ok (g, m, _) =>
      ((parse_message_read cfg now gtv mvd sel).toList ++ (framer_run cfg P sel rest g m).1,
       (framer_run cfg P sel rest g m).2)

/-- All the bytes a schedule feeds, in order. -/
def framer_fed : List framer_action → List Nat
  | [] => []
  | .feed x :: rest => x ++ framer_fed rest
  | .parse _ :: rest => framer_fed rest

/-- The schedule of a sequence of ticks: in each tick a chunk of bytes arrives
and then `parse_message` is called `F` times at the time of the tick, which
stands for the loop of `run_stream` (see `run_stream_plain`). -/
def framer_ticks (F : Nat) : List (Nat × List Nat) → List framer_action
  | [] => []
  | (now, chunk) :: rest =>
    .feed chunk :: (List.replicate F (.parse now) ++ framer_ticks F rest)

/-- What is compared between two runs of the framer: the messages
dispatched, and the Upstream (but for its timestamps) and Channel at the end
of a run that was not left through an exit. -/
def framer_view (r : List sizebuf_t × Run (gtv_t × Option mvd_t)) :
    List sizebuf_t × Option (gtv_t × Option mvd_t) :=
  (r.1, match r.2 with
        | .error _ => none
        | .ok (g, m) => some (g.untimed, m))

/-! ## Example configuration and states -/

/-- An example configuration: the numeric cvar defaults of `MVD_Register` with
empty user name, password and version strings, and example values for the
constants of the missing headers (`MAX_MSGLEN` = 0x8000, a 256-byte send
buffer). -/
def cfg_default : Config :=
  { MAX_MSGLEN := 32768, MAX_GTS_MSGLEN := 32768, MAX_GTC_MSGLEN := 256,
    MVD_MAGIC := 0x3244564D, GTV_PROTOCOL_VERSION := 0xED04,
    GTF_STRINGCMDS := 1, GTF_DEFLATE := 2, USE_ZLIB := true }

/-- An example parser: it accepts every message, consumes all of it and leaves
the channel state as it is. -/
def parser_keep : Parser :=
  fun mvd msg_read => some (mvd.state, msg_read.cursize)

/-- An example Upstream: connected and in Reading, with empty buffers of the
sizes `run_connect` gives them under `cfg_default`. -/
def upstream_reading : gtv_t :=
  { state := .GTV_READING,
    stream := { state := .NS_CONNECTED, recv := { size := 32768 }, send := { size := 256 } } }

/-- An example Channel: in Reading, with the delay buffer `parse_stream_start`
allocates under `cfg_default` (3 * 32768 bytes), empty. -/
def chan_empty : mvd_t :=
  { state := .MVD_READING, delay := { size := 3 * 32768 }, min_packets := 200 }

/-- An example body of 1022 bytes. -/
def body_1022 : List Nat := List.replicate 1022 7

/-- An example sequence of 96 bodies of 1022 bytes. -/
def bodies_96 : List (List Nat) := List.replicate 96 body_1022

/-- An example Channel: in Reading, its delay buffer of 3 * 32768 bytes filled
to the last byte by 96 records of 1022 payload bytes each, and `num_packets`
equal to 96. -/
def chan_full : mvd_t :=
  { state := .MVD_READING,
    delay := { data := encode_records bodies_96, size := 3 * 32768 },
    num_packets := 96, min_packets := 200 }

/-- The Channel `chan_full` after an overflow in `parse_stream_data`. -/
def chan_overflowed : mvd_t :=
  { state := .MVD_WAITING, delay := { data := [], size := 3 * 32768 },
    num_packets := 96, min_packets := 50, overflows := 1 }

/-- The Upstream `upstream_reading` after an overflow in `parse_stream_data` at
time `now`: a STREAM_STOP command in the send buffer, state Suspending. -/
def upstream_overflowed (now : Nat) : gtv_t :=
  { state := .GTV_SUSPENDING, last_sent := now,
    stream := { state := .NS_CONNECTED, recv := { size := 32768 },
                send := { data := [1, 0, 3], size := 256 } } }

/-- An example Channel: in Reading, with one record of two payload bytes in its
delay buffer. -/
def chan_one : mvd_t :=
  { state := .MVD_READING, delay := { data := [2, 0, 5, 6], size := 3 * 32768 },
    num_packets := 1, min_packets := 200 }

/-- An example Upstream: as `upstream_reading`, with a zero length header in
its receive buffer. -/
def upstream_eof : gtv_t :=
  { state := .GTV_READING,
    stream := { state := .NS_CONNECTED, recv := { data := [0, 0], size := 32768 },
                send := { size := 256 } } }

/-- An example Upstream: as `upstream_reading`, with only two free bytes left
in its 256-byte send buffer. -/
def upstream_send_full : gtv_t :=
  { state := .GTV_READING,
    stream := { state := .NS_CONNECTED, recv := { size := 32768 },
                send := { data := List.replicate 254 0, size := 256 } } }

/-- An example Upstream: in Suspending (a stream stop request is under way),
with empty buffers. -/
def upstream_suspending : gtv_t :=
  { state := .GTV_SUSPENDING,
    stream := { state := .NS_CONNECTED, recv := { size := 32768 }, send := { size := 256 } } }

/-- An example Channel: as `chan_full`, in Waiting. -/
def chan_full_waiting : mvd_t :=
  { state := .MVD_WAITING,
    delay := { data := encode_records bodies_96, size := 3 * 32768 },
    num_packets := 96, min_packets := 200 }

/-- An example Upstream: a fresh connection (state Connecting, transport
connected) with a user name of 250 bytes, the four bytes of `MVD_MAGIC` of
`cfg_default` in its receive buffer and an empty 256-byte send buffer. -/
def upstream_fresh_long_name : gtv_t :=
  { state := .GTV_CONNECTING, username := some (List.replicate 250 97),
    stream := { state := .NS_CONNECTED,
                recv := { data := [0x4D, 0x56, 0x44, 0x32], size := 32768 },
                send := { size := 256 } } }

/-- An example Upstream: a fresh connection (state Connecting, transport
connected) with the four bytes of `MVD_MAGIC` of `cfg_default` in its receive
buffer and an empty 256-byte send buffer. -/
def upstream_fresh : gtv_t :=
  { state := .GTV_CONNECTING,
    stream := { state := .NS_CONNECTED,
                recv := { data := [0x4D, 0x56, 0x44, 0x32], size := 32768 },
                send := { size := 256 } } }

/-- An example Upstream: connected and in state Connected (idle), with only two
free bytes left in its 256-byte send buffer. -/
def upstream_connected_send_full : gtv_t :=
  { state := .GTV_CONNECTED,
    stream := { state := .NS_CONNECTED, recv := { size := 32768 },
                send := { data := List.replicate 254 0, size := 256 } } }

/-- An example Upstream: connected and in state Connected (idle), with empty
buffers. -/
def upstream_connected : gtv_t :=
  { state := .GTV_CONNECTED,
    stream := { state := .NS_CONNECTED, recv := { size := 32768 }, send := { size := 256 } } }

/-- An example Upstream: waiting for the server hello (state Preparing), the
transport connected, no drop so far. -/
def upstream_preparing : gtv_t :=
  { state := .GTV_PREPARING,
    stream := { state := .NS_CONNECTED, recv := { size := 32768 }, send := { size := 256 } } }

/-- An example Upstream: Disconnected, the transport closed, no backoff. -/
def upstream_disconnected : gtv_t :=
  { state := .GTV_DISCONNECTED }

/-- An example input of a tick: the address lookup fails. -/
def env_no_lookup : env_t :=
  { lookup_ok := false }

/-- An example input of a tick: the socket layer has nothing to report
(`NET_AGAIN`). -/
def env_idle : env_t := {}

/-- An example input of a tick: the connection is established, and the server
sends `MVD_MAGIC` and a hello with no flags (length 5, opcode 0, four flag
bytes). -/
def env_first_tick : env_t :=
  { run_connect_ret := .NET_OK, run_stream_ret := .NET_OK,
    received := [0x4D, 0x56, 0x44, 0x32, 5, 0, 0, 0, 0, 0, 0] }

/-- An example input of a tick: the connection is established, and the server
sends `MVD_MAGIC` and nothing else. -/
def env_magic : env_t :=
  { run_connect_ret := .NET_OK, run_stream_ret := .NET_OK,
    received := [0x4D, 0x56, 0x44, 0x32] }

/-- An example input of a tick: the server sends a zero length header. -/
def env_zero_length : env_t :=
  { run_stream_ret := .NET_OK, received := [0, 0] }

/-- An example Upstream: as created by `MVD_Connect_f` at time 0. -/
def upstream_created : gtv_t :=
  { state := .GTV_CONNECTING, stream := { state := .NS_CONNECTING } }

/-- An example Upstream: `upstream_created` after the tick at time 10 with the
input `env_first_tick` under `cfg_default`: the magic and the client hello are
in the send buffer, the state is Connected. -/
def upstream_after_hello : gtv_t :=
  { state := .GTV_CONNECTED,
    stream := { state := .NS_CONNECTED, recv := { size := 32768 },
                send := { data := [77, 86, 68, 50, 14, 0, 0, 4, 237, 3, 0, 0, 0, 0, 0, 0, 0,
                                   0, 0, 0],
                          size := 256 } },
    last_rcvd := 10, last_sent := 10 }

/-- An example Upstream: `upstream_created` after the tick at time 10 with the
input `env_magic` under `cfg_default`: the magic and the client hello are in
the send buffer, the state is Preparing. -/
def upstream_after_magic : gtv_t :=
  { state := .GTV_PREPARING,
    stream := { state := .NS_CONNECTED, recv := { size := 32768 },
                send := { data := [77, 86, 68, 50, 14, 0, 0, 4, 237, 3, 0, 0, 0, 0, 0, 0, 0,
                                   0, 0, 0],
                          size := 256 } },
    last_rcvd := 10, last_sent := 10 }

/-- An example Upstream: `upstream_after_magic` after the tick at time 20 with
the input `env_zero_length`: dropped, with a backoff of 30 s from time 20. -/
def upstream_dropped : gtv_t :=
  { state := .GTV_DISCONNECTED,
    stream := { state := .NS_DISCONNECTED, recv := { size := 32768 },
                send := { data := [77, 86, 68, 50, 14, 0, 0, 4, 237, 3, 0, 0, 0, 0, 0, 0, 0,
                                   0, 0, 0],
                          size := 256 } },
    last_rcvd := 10, last_sent := 10, retry_time := 20, retry_backoff := 30000 }

/-- An example input of a tick: the address lookup succeeds and the connection
is in progress (`NET_AGAIN`). -/
def env_connecting : env_t := {}

/-- An example configuration: `cfg_default` with `mvd_suspend_time` set to 0. -/
def cfg_never_suspend : Config :=
  { cfg_default with mvd_suspend_time := { man := 0 } }

/-- An example Upstream: as `upstream_connected`, with the flags of a server
that allows command forwarding (`GTF_STRINGCMDS` of `cfg_default`). -/
def upstream_forwarding : gtv_t :=
  { state := .GTV_CONNECTED, flags := 1,
    stream := { state := .NS_CONNECTED, recv := { size := 32768 }, send := { size := 256 } } }

/-- An example Upstream: as `upstream_forwarding`, when `msg_write` holds the two
bytes that a `send_stream_start` for another Upstream wrote there before it
left through the overflow exit of `write_message`. -/
def upstream_forwarding_stale : gtv_t :=
  { upstream_forwarding with msg_write := [100, 0] }

/-- An example of what zlib does: the four bytes 0x78, 0x9C, 1, 2 stand for a
deflate stream that inflates to the three bytes of a PONG message. -/
def inflate_example : Nat → List Nat → Nat → zret_t × Nat × List Nat :=
  fun _ input _ =>
    if input = [0x78, 0x9C, 1, 2] then (.Z_OK, 4, [1, 0, 1]) else (.Z_BUF_ERROR, 0, [])

/-- An example input of a tick: the socket delivers a server hello with the flag
`GTF_DEFLATE` (of `cfg_default`). -/
def env_hello_deflate : env_t :=
  { run_stream_ret := .NET_OK, received := [5, 0, 0, 2, 0, 0, 0], inflate := inflate_example }

/-- An example input of a tick: the socket delivers the four deflated bytes of
`inflate_example`. -/
def env_deflated : env_t :=
  { run_stream_ret := .NET_OK, received := [0x78, 0x9C, 1, 2], inflate := inflate_example }

/-- An example input of a tick: the socket delivers the hello of
`env_hello_deflate` and the deflated bytes of `env_deflated` together. -/
def env_hello_and_deflated : env_t :=
  { run_stream_ret := .NET_OK, received := [5, 0, 0, 2, 0, 0, 0, 0x78, 0x9C, 1, 2],
    inflate := inflate_example }

/-- An example Upstream: `upstream_preparing` after a server hello with the flag
`GTF_DEFLATE` that was received at the time `t`: in state Connected,
inflating. -/
def upstream_inflating (t : Nat) : gtv_t :=
  { state := .GTV_CONNECTED, flags := 2, z_act := true, z_buf := { size := 32768 },
    last_rcvd := t,
    stream := { state := .NS_CONNECTED, recv := { size := 32768 }, send := { size := 256 } } }

/-- An example input of a tick: the server sends a message with the unknown
command byte 99. -/
def env_unknown_command : env_t :=
  { run_stream_ret := .NET_OK, received := [1, 0, 99] }

/-- An example list of connections for one tick: one whose run ends in a drop,
one whose run returns, one whose run ends in a destroy, one whose run returns. -/
def conns_example : List conn_t :=
  [{ gtv := upstream_after_magic, env := env_zero_length },
   { gtv := upstream_after_hello, env := env_idle },
   { gtv := upstream_after_magic, env := env_unknown_command },
   { gtv := upstream_created, env := env_first_tick }]

/-- An example parser: it accepts every message, consumes all of it and leaves
the Channel in Reading. -/
def parser_reading : Parser :=
  fun _ msg_read => some (.MVD_READING, msg_read.cursize)

/-- An example demo file content: the gamestate 1, 2, 3 and the bodies 4, 5 and
6. -/
def demo_a : List Nat × List (List Nat) := ([1, 2, 3], [[4, 5], [6]])

/-- An example demo file content: the gamestate 7 and no body. -/
def demo_b : List Nat × List (List Nat) := ([7], [])

/-- An example file: it starts with the bytes 0x1F 0x8B 0x08 0xE0, and the gzip
filter would deliver the bytes of the demo `demo_b`. -/
def file_gzip_reserved_flags : demo_file :=
  { raw := [0x1F, 0x8B, 0x08, 0xE0, 0, 0, 0, 0],
    unzipped := some (demo_bytes cfg_default demo_b) }

/-- An example file: a gzip file (header 0x1F 0x8B 0x08 0x00) of the demo
`demo_b`. -/
def file_gzip : demo_file :=
  { raw := [0x1F, 0x8B, 0x08, 0x00, 0, 0, 0, 0],
    unzipped := some (demo_bytes cfg_default demo_b) }

/-- An example input of a tick: the connection is established and the server
has sent nothing yet. -/
def env_connected_silent : env_t :=
  { run_connect_ret := .NET_OK }

/-- An example parser: a message whose first byte is 1 holds a gamestate, which
promotes a Dead Channel to Waiting; every other message leaves the channel
state as it is.  All of the message is consumed. -/
def parser_gamestate : Parser :=
  fun mvd msg_read =>
    some (if msg_read.data.head? = some 1 ∧ mvd.state = .MVD_DEAD then .MVD_WAITING
          else mvd.state, msg_read.cursize)

/-- An example Channel: as `chan_one`, in Waiting: one record of two payload
bytes in a delay buffer of 3 * 32768 bytes, `min_packets` 200. -/
def chan_one_waiting : mvd_t :=
  { state := .MVD_WAITING, delay := { data := [2, 0, 5, 6], size := 3 * 32768 },
    num_packets := 1, min_packets := 200 }

/-! ## Helper lemmas: byte order and ring buffers -/

theorem le16_value_bytes (n : Nat) (rest : List Nat) (h : n < 65536) :
    le16_value (le16_bytes n ++ rest) = n := by
  simp [le16_value, le16_bytes]
  omega

theorem le16_bytes_length (n : Nat) : (le16_bytes n).length = 2 := rfl

theorem FIFO_Read_append (f : fifo_t) (a rest : List Nat) (h : f.data = a ++ rest) :
    FIFO_Read f true a.length = ({ f with data := rest }, a, a.length) := by
  simp [FIFO_Read, FIFO_Usage, h]

theorem FIFO_TryRead_append (f : fifo_t) (a rest : List Nat) (h : f.data = a ++ rest) :
    FIFO_TryRead f a.length = some ({ f with data := rest }, a) := by
  simp [FIFO_TryRead, FIFO_Read, FIFO_Usage, h]

theorem FIFO_TryRead_short (f : fifo_t) (n : Nat) (h : f.data.length < n) :
    FIFO_TryRead f n = none := by
  simp [FIFO_TryRead, FIFO_Read, FIFO_Usage]
  omega

theorem FIFO_ReadMessage_append (f : fifo_t) (a rest : List Nat) (h : f.data = a ++ rest) :
    FIFO_ReadMessage f a.length
      = some ({ f with data := rest }, { data := a, cursize := a.length, readcount := 0 }) := by
  simp [FIFO_ReadMessage, FIFO_TryRead_append f a rest h]

theorem FIFO_ReadMessage_short (f : fifo_t) (n : Nat) (h : f.data.length < n) :
    FIFO_ReadMessage f n = none := by
  simp [FIFO_ReadMessage, FIFO_TryRead_short f n h]

theorem FIFO_Write_fits (f : fifo_t) (b : List Nat) (h : f.data.length + b.length ≤ f.size) :
    FIFO_Write f (some b) b.length = ({ f with data := f.data ++ b }, b.length) := by
  have : min b.length (f.size - f.data.length) = b.length := by omega
  simp [FIFO_Write, FIFO_Usage, this]

theorem FIFO_Write_probe (f : fifo_t) (n : Nat) (hn : 0 < n) :
    (FIFO_Write f none n).2 = n ↔ f.data.length + n ≤ f.size := by
  simp [FIFO_Write, FIFO_Usage]
  omega

/-! ## Helper lemmas: the delay buffer -/

theorem encode_record_length (r : List Nat) : (encode_record r).length = r.length + 2 := by
  simp [encode_record, le16_bytes]

theorem encode_records_append (rs ss : List (List Nat)) :
    encode_records (rs ++ ss) = encode_records rs ++ encode_records ss := by
  induction rs with
  | nil => rfl
  | cons r rs ih => simp [encode_records, ih]

theorem encode_records_length (rs : List (List Nat)) :
    (encode_records rs).length = (rs.map (fun r => r.length + 2)).sum := by
  induction rs with
  | nil => rfl
  | cons r rs ih => simp [encode_records, ih, encode_record_length]

theorem encode_records_count_le (rs : List (List Nat)) :
    rs.length ≤ (encode_records rs).length := by
  induction rs with
  | nil => simp
  | cons r rs ih =>
    simp only [encode_records, List.length_cons, List.length_append, encode_record_length]
    omega

theorem split_records_encode (rs : List (List Nat)) (hrs : ∀ r ∈ rs, r.length < 65536)
    (fuel : Nat) (hfuel : rs.length ≤ fuel) :
    split_records fuel (encode_records rs) = rs := by
  induction rs generalizing fuel with
  | nil =>
    cases fuel with
    | zero => rfl
    | succ n => simp [split_records, encode_records]
  | cons r rs ih =>
    cases fuel with
    | zero => simp at hfuel
    | succ n =>
      have hr : r.length < 65536 := hrs r (by simp)
      have hv : le16_value (encode_record r ++ encode_records rs) = r.length := by
        unfold encode_record
        rw [List.append_assoc]
        exact le16_value_bytes r.length _ hr
      have hd : List.drop 2 (encode_record r ++ encode_records rs) = r ++ encode_records rs := by
        simp [encode_record, le16_bytes]
      have hl : ¬ (encode_record r ++ encode_records rs).length < 2 := by
        simp [encode_record_length]
        omega
      simp only [split_records, encode_records, hl, hv, hd, if_false]
      have hlt : ¬ (r ++ encode_records rs).length < r.length := by simp
      simp only [hlt, if_false, List.take_left, List.drop_left]
      rw [ih (fun x hx => hrs x (by simp [hx])) n (by simpa using hfuel)]

theorem delay_records_encode (f : fifo_t) (rs : List (List Nat))
    (hd : f.data = encode_records rs) (hrs : ∀ r ∈ rs, r.length < 65536) :
    delay_records f = rs := by
  unfold delay_records
  rw [hd]
  exact split_records_encode rs hrs _ (encode_records_count_le rs)

theorem gtv_read_frame_body_record (cfg : Config) (P : Parser) (mvd : mvd_t)
    (gtv : Option gtv_t) (r rest : List Nat)
    (hd : mvd.delay.data = encode_record r ++ rest) (hr : valid_payload cfg r) :
    gtv_read_frame_body cfg P mvd gtv =
      match P { mvd with delay := { mvd.delay with data := rest },
                         num_packets := mvd.num_packets - 1 }
              { data := r, cursize := r.length, readcount := 0 } with
      | none => MVD_Destroyf .parser_abort
      | some (st, _) =>
        .ok { mvd := { mvd with delay := { mvd.delay with data := rest },
                                num_packets := mvd.num_packets - 1, state := st },
              gtv := gtv, ret := true,
              parsed := [{ data := r, cursize := r.length, readcount := 0 }] } := by
  obtain ⟨h1, h2, h3⟩ := hr
  have hd2 : mvd.delay.data = le16_bytes r.length ++ (r ++ rest) := by
    rw [hd, encode_record, List.append_assoc]
  have hread := FIFO_Read_append mvd.delay (le16_bytes r.length) (r ++ rest) hd2
  rw [le16_bytes_length] at hread
  have hv : le16_value (le16_bytes r.length) = r.length := by
    simpa using le16_value_bytes r.length [] h3
  have hmsg := FIFO_ReadMessage_append { mvd.delay with data := r ++ rest } r rest rfl
  unfold gtv_read_frame_body
  simp only [hread, hv, ne_eq, not_true_eq_false, if_false]
  have hno : ¬ (r.length < 1 ∨ r.length > cfg.MAX_MSGLEN) := by omega
  simp only [hno, if_false, hmsg]

/-! ## Helper lemmas: outbound framing -/

theorem write_stream_fits (now : Nat) (gtv : gtv_t) (mvd : Option mvd_t) (data : List Nat)
    (h : gtv.stream.send.data.length + data.length ≤ gtv.stream.send.size) :
    write_stream now gtv mvd data =
      .ok { gtv with
            stream := { gtv.stream with
                        send := { gtv.stream.send with
                                  data := gtv.stream.send.data ++ data } }
            last_sent := now } := by
  unfold write_stream
  rw [FIFO_Write_fits gtv.stream.send data h]
  simp

theorem write_stream_overflow (now : Nat) (gtv : gtv_t) (mvd : Option mvd_t)
    (data : List Nat) (hpos : 0 < data.length)
    (h : gtv.stream.send.size < gtv.stream.send.data.length + data.length) :
    write_stream now gtv mvd data = gtv_destroyf mvd .send_overflow := by
  unfold write_stream
  have : (FIFO_Write gtv.stream.send (some data) data.length).2 ≠ data.length := by
    simp [FIFO_Write, FIFO_Usage]
    omega
  simp [this]

theorem write_message_fits (now : Nat) (gtv : gtv_t) (mvd : Option mvd_t)
    (op : gtv_clientop_t) (p : List Nat)
    (h : gtv.stream.send.data.length + (3 + p.length) ≤ gtv.stream.send.size) :
    write_message now gtv mvd op p =
      .ok { gtv with
            stream := { gtv.stream with
                        send := { gtv.stream.send with
                                  data := gtv.stream.send.data ++
                                    ([(p.length + 1) % 256, (p.length + 1) / 256 % 256,
                                      op.toNat % 256] ++ p) } }
            last_sent := now } := by
  unfold write_message
  simp only []
  rw [write_stream_fits now gtv mvd _ (by simp; omega)]
  simp only []
  rw [write_stream_fits now _ mvd p (by simp; omega)]
  simp

theorem write_message_overflow (now : Nat) (gtv : gtv_t) (mvd : Option mvd_t)
    (op : gtv_clientop_t) (p : List Nat)
    (h : gtv.stream.send.size < gtv.stream.send.data.length + (3 + p.length)) :
    write_message now gtv mvd op p = gtv_destroyf mvd .send_overflow := by
  unfold write_message
  simp only []
  by_cases h3 : gtv.stream.send.data.length + 3 ≤ gtv.stream.send.size
  · rw [write_stream_fits now gtv mvd _ (by simpa using h3)]
    simp only []
    rw [write_stream_overflow now _ mvd p (by omega) (by simp; omega)]
  · rw [write_stream_overflow now gtv mvd _ (by simp) (by simp; omega)]
    rfl

theorem client_hello_stale (cfg : Config) (gtv : gtv_t) :
    client_hello cfg gtv = gtv.msg_write ++ client_hello cfg { gtv with msg_write := [] } := by
  simp [client_hello, MSG_WriteShort, MSG_WriteLong, MSG_WriteString]

theorem send_hello_fits (cfg : Config) (now : Nat) (gtv : gtv_t) (mvd : Option mvd_t)
    (h : gtv.stream.send.data.length + (3 + (client_hello cfg gtv).length)
      ≤ gtv.stream.send.size) :
    send_hello cfg now gtv mvd =
      .ok { gtv with
            stream := { gtv.stream with
                        send := { gtv.stream.send with
                                  data := gtv.stream.send.data ++
                                    ([((client_hello cfg gtv).length + 1) % 256,
                                      ((client_hello cfg gtv).length + 1) / 256 % 256,
                                      gtv_clientop_t.GTC_HELLO.toNat % 256]
                                      ++ client_hello cfg gtv) } }
            last_sent := now
            msg_write := []
            state := .GTV_PREPARING } := by
  unfold send_hello
  simp only []
  rw [write_message_fits now { gtv with msg_write := client_hello cfg gtv } mvd _ _ h]

theorem send_hello_overflow (cfg : Config) (now : Nat) (gtv : gtv_t) (mvd : Option mvd_t)
    (h : gtv.stream.send.size
      < gtv.stream.send.data.length + (3 + (client_hello cfg gtv).length)) :
    send_hello cfg now gtv mvd = gtv_destroyf mvd .send_overflow := by
  unfold send_hello
  simp only []
  rw [write_message_overflow now { gtv with msg_write := client_hello cfg gtv } mvd _ _ h]
  rfl

/-! ## Helper lemmas: stream data -/

theorem parse_stream_data_append (P : Parser) (now : Nat) (gtv : gtv_t) (m : mvd_t)
    (b : List Nat)
    (hg : gtv.state = .GTV_WAITING ∨ gtv.state = .GTV_READING)
    (hm : m.state ≠ .MVD_DEAD) (hb : 1 ≤ b.length) (hu : b.length < 65536)
    (hfit : (FIFO_Write m.delay none (b.length + 2)).2 = b.length + 2) :
    parse_stream_data P now gtv (some m) (stream_data_msg b) =
      .ok ({ gtv with state := .GTV_READING },
           some { m with delay := { m.delay with data := m.delay.data ++ encode_record b },
                         num_packets := m.num_packets + 1 },
           { stream_data_msg b with readcount := b.length + 1 }) := by
  have hroom : m.delay.data.length + (b.length + 2) ≤ m.delay.size :=
    (FIFO_Write_probe m.delay (b.length + 2) (by omega)).1 hfit
  have hw1 := FIFO_Write_fits m.delay (le16_bytes b.length)
    (by rw [le16_bytes_length]; omega)
  rw [le16_bytes_length] at hw1
  have hw2 := FIFO_Write_fits { m.delay with data := m.delay.data ++ le16_bytes b.length } b
    (by simp [le16_bytes_length]; omega)
  have hmod : b.length % 65536 = b.length := Nat.mod_eq_of_lt hu
  have hg1 : (if gtv.state = .GTV_WAITING then { gtv with state := .GTV_READING } else gtv)
      = { gtv with state := .GTV_READING } := by
    rcases hg with h | h
    · simp [h]
    · rw [if_neg (by rw [h]; decide)]
      cases gtv
      simp_all
  have hns : ¬ gtv.state.toNat < gtv_state_t.GTV_WAITING.toNat := by
    rcases hg with h | h <;> rw [h] <;> decide
  have hnsus : ¬ gtv.state = .GTV_SUSPENDING := by
    rcases hg with h | h <;> rw [h] <;> decide
  have hne : ¬ (1 = b.length + 1) := by omega
  unfold parse_stream_data
  simp only [stream_data_msg, hns, hnsus, hne, if_false, hm, hg1, Nat.add_sub_cancel,
    List.drop_succ_cons, List.drop_zero, hfit, ne_eq, not_true_eq_false, hmod, hw1, hw2]
  simp [encode_record, List.append_assoc]

theorem parse_stream_data_overflow (P : Parser) (now : Nat) (gtv : gtv_t) (m : mvd_t)
    (b : List Nat)
    (hg : gtv.state = .GTV_WAITING ∨ gtv.state = .GTV_READING)
    (hm : m.state = .MVD_READING) (hb : 1 ≤ b.length)
    (hnofit : (FIFO_Write m.delay none (b.length + 2)).2 ≠ b.length + 2) :
    parse_stream_data P now gtv (some m) (stream_data_msg b) =
      match write_message now { gtv with state := .GTV_READING }
              (some { m with delay := FIFO_Clear m.delay, state := .MVD_WAITING,
                             min_packets := 50, overflows := m.overflows + 1 })
              .GTC_STREAM_STOP gtv.msg_write with
      | .error e => .error e
      | .ok gtv2 =>
        .ok ({ gtv2 with state := .GTV_SUSPENDING },
             some { m with delay := FIFO_Clear m.delay, state := .MVD_WAITING,
                           min_packets := 50, overflows := m.overflows + 1 },
             stream_data_msg b) := by
  have hg1 : (if gtv.state = .GTV_WAITING then { gtv with state := .GTV_READING } else gtv)
      = { gtv with state := .GTV_READING } := by
    rcases hg with h | h
    · simp [h]
    · rw [if_neg (by rw [h]; decide)]
      cases gtv
      simp_all
  have hns : ¬ gtv.state.toNat < gtv_state_t.GTV_WAITING.toNat := by
    rcases hg with h | h <;> rw [h] <;> decide
  have hnsus : ¬ gtv.state = .GTV_SUSPENDING := by
    rcases hg with h | h <;> rw [h] <;> decide
  have hne : ¬ (1 = b.length + 1) := by omega
  have hnd : ¬ m.state = .MVD_DEAD := by rw [hm]; decide
  have hnw : ¬ m.state = .MVD_WAITING := by rw [hm]; decide
  unfold parse_stream_data
  simp only [stream_data_msg, hns, hnsus, hne, if_false, hnd, hnw, hg1, Nat.add_sub_cancel,
    hnofit, ne_eq, not_false_eq_true, if_true]

theorem parse_stream_data_overflow_waiting (P : Parser) (now : Nat) (gtv : gtv_t)
    (m : mvd_t) (b : List Nat)
    (hg : gtv.state = .GTV_WAITING ∨ gtv.state = .GTV_READING)
    (hm : m.state = .MVD_WAITING) (hb : 1 ≤ b.length)
    (hnofit : (FIFO_Write m.delay none (b.length + 2)).2 ≠ b.length + 2) :
    parse_stream_data P now gtv (some m) (stream_data_msg b) =
      .error (.gtv_destroyed (some m) .delay_overflow_waiting) := by
  have hns : ¬ gtv.state.toNat < gtv_state_t.GTV_WAITING.toNat := by
    rcases hg with h | h <;> rw [h] <;> decide
  have hnsus : ¬ gtv.state = .GTV_SUSPENDING := by
    rcases hg with h | h <;> rw [h] <;> decide
  have hne : ¬ (1 = b.length + 1) := by omega
  have hnd : ¬ m.state = .MVD_DEAD := by rw [hm]; decide
  unfold parse_stream_data
  simp only [stream_data_msg, hns, hnsus, hne, if_false, hnd, hm, Nat.add_sub_cancel,
    hnofit, ne_eq, not_false_eq_true, if_true, gtv_destroyf, gtv_destroy]
  simp

/-! ## Helper lemmas: sequences of calls -/

theorem append_bodies_spec (P : Parser) (now : Nat) (bs : List (List Nat)) :
    ∀ (gtv : gtv_t) (m : mvd_t) (g1 : gtv_t) (m1 : mvd_t),
      (gtv.state = .GTV_WAITING ∨ gtv.state = .GTV_READING) →
      m.state ≠ .MVD_DEAD →
      (∀ b ∈ bs, 1 ≤ b.length ∧ b.length < 65536) →
      append_bodies P now bs gtv m = some (g1, m1) →
      m1.delay.data = m.delay.data ++ encode_records bs
        ∧ m1.delay.size = m.delay.size
        ∧ m1.num_packets = m.num_packets + bs.length
        ∧ m1.state = m.state := by
  induction bs with
  | nil =>
    intro gtv m g1 m1 _ _ _ h
    simp only [append_bodies, Option.some.injEq, Prod.mk.injEq] at h
    obtain ⟨_, rfl⟩ := h
    simp [encode_records]
  | cons b bs ih =>
    intro gtv m g1 m1 hg hm hbs h
    have hb := hbs b (by simp)
    unfold append_bodies at h
    split at h
    · rename_i hfit
      rw [parse_stream_data_append P now gtv m b hg hm hb.1 hb.2 hfit] at h
      simp only at h
      have := ih _ _ g1 m1 (Or.inr rfl) (by simpa using hm)
        (fun x hx => hbs x (by simp [hx])) h
      obtain ⟨h1, h2, h3, h4⟩ := this
      refine ⟨?_, ?_, ?_, ?_⟩
      · rw [h1]; simp [encode_records]
      · rw [h2]
      · rw [h3]; simp only [List.length_cons]; push_cast; ring
      · rw [h4]
    · exact absurd h (by simp)

theorem gtv_wait_stop_fields (cfg : Config) (mvd : mvd_t) :
    (gtv_wait_stop cfg mvd).1.delay = mvd.delay
      ∧ (gtv_wait_stop cfg mvd).1.num_packets = mvd.num_packets
      ∧ (gtv_wait_stop cfg mvd).1.min_packets = mvd.min_packets
      ∧ (gtv_wait_stop cfg mvd).1.underflows = mvd.underflows
      ∧ (gtv_wait_stop cfg mvd).1.overflows = mvd.overflows := by
  unfold gtv_wait_stop
  split
  · simp
  · split <;> simp

theorem gtv_read_frame_true (cfg : Config) (P : Parser) (now : Nat) (mvd : mvd_t)
    (gtv : Option gtv_t) (r rest : List Nat) (res : frame_result)
    (hd : mvd.delay.data = encode_record r ++ rest) (hr : valid_payload cfg r)
    (h : gtv_read_frame cfg P now mvd gtv = .ok res) (ht : res.ret = true) :
    res.parsed = [{ data := r, cursize := r.length, readcount := 0 }]
      ∧ res.mvd.delay = { mvd.delay with data := rest }
      ∧ res.mvd.num_packets = mvd.num_packets - 1
      ∧ res.gtv = gtv := by
  have key : ∀ m : mvd_t, m.delay = mvd.delay → m.num_packets = mvd.num_packets →
      gtv_read_frame_body cfg P m gtv = .ok res →
      res.parsed = [{ data := r, cursize := r.length, readcount := 0 }]
        ∧ res.mvd.delay = { mvd.delay with data := rest }
        ∧ res.mvd.num_packets = mvd.num_packets - 1
        ∧ res.gtv = gtv := by
    intro m hmd hmn hb
    rw [gtv_read_frame_body_record cfg P m gtv r rest (by rw [hmd]; exact hd) hr] at hb
    split at hb
    · exact absurd hb (by simp [MVD_Destroyf])
    · simp only [Except.ok.injEq] at hb
      subst hb
      simp [hmd, hmn]
  unfold gtv_read_frame at h
  split at h
  · split at h
    · simp only [Except.ok.injEq] at h
      subst h
      simp at ht
    · exact key _ (gtv_wait_stop_fields cfg mvd).1 (gtv_wait_stop_fields cfg mvd).2.1 h
  · split at h
    · split at h
      · exact absurd h (by simp)
      · simp only [Except.ok.injEq] at h
        subst h
        simp at ht
    · exact key mvd rfl rfl h
  · exact absurd h (by simp [MVD_Destroyf])

theorem read_frames_spec (cfg : Config) (P : Parser) (now : Nat) (n : Nat) :
    ∀ (rs : List (List Nat)) (mvd : mvd_t) (gtv : Option gtv_t) (m2 : mvd_t)
      (g2 : Option gtv_t) (log : List sizebuf_t),
      mvd.delay.data = encode_records rs →
      (∀ r ∈ rs, valid_payload cfg r) →
      n ≤ rs.length →
      read_frames cfg P now n mvd gtv = some (m2, g2, log) →
      log = (rs.take n).map (fun r => { data := r, cursize := r.length, readcount := 0 })
        ∧ m2.delay.data = encode_records (rs.drop n)
        ∧ g2 = gtv := by
  induction n with
  | zero =>
    intro rs mvd gtv m2 g2 log hd _ _ h
    simp only [read_frames, Option.some.injEq, Prod.mk.injEq] at h
    obtain ⟨rfl, rfl, rfl⟩ := h
    simp [hd]
  | succ n ih =>
    intro rs mvd gtv m2 g2 log hd hrs hn h
    cases rs with
    | nil => simp at hn
    | cons r rs =>
      unfold read_frames at h
      split at h
      · rename_i res hres
        split at h
        · rename_i hret
          split at h
          · rename_i m3 g3 log3 hrec
            simp only [Option.some.injEq, Prod.mk.injEq] at h
            obtain ⟨rfl, rfl, rfl⟩ := h
            have h1 := gtv_read_frame_true cfg P now mvd gtv r (encode_records rs) res
              (by rw [hd]; rfl) (hrs r (by simp)) hres hret
            obtain ⟨hp, hdel, _, hg⟩ := h1
            have h2 := ih rs res.mvd res.gtv m3 g3 log3 (by rw [hdel])
              (fun x hx => hrs x (by simp [hx])) (by simpa using hn) hrec
            obtain ⟨hl, hm, hg3⟩ := h2
            refine ⟨?_, ?_, ?_⟩
            · rw [hp, hl]; simp
            · simpa using hm
            · rw [hg3, hg]
          · exact absurd h (by simp)
        · exact absurd h (by simp)
      · exact absurd h (by simp)

theorem append_bodies_fits (P : Parser) (now : Nat) (bs : List (List Nat)) :
    ∀ (gtv : gtv_t) (m : mvd_t),
      gtv.state = .GTV_READING →
      m.state ≠ .MVD_DEAD →
      (∀ b ∈ bs, 1 ≤ b.length ∧ b.length < 65536) →
      m.delay.data.length + (encode_records bs).length ≤ m.delay.size →
      append_bodies P now bs gtv m =
        some (gtv, { m with delay := { m.delay with data := m.delay.data ++ encode_records bs },
                            num_packets := m.num_packets + bs.length }) := by
  induction bs with
  | nil =>
    intro gtv m _ _ _ _
    simp [append_bodies, encode_records]
  | cons b bs ih =>
    intro gtv m hg hm hbs hroom
    have hb := hbs b (by simp)
    simp only [encode_records, List.length_append, encode_record_length] at hroom
    have hfit : (FIFO_Write m.delay none (b.length + 2)).2 = b.length + 2 :=
      (FIFO_Write_probe m.delay (b.length + 2) (by omega)).2 (by omega)
    have hgg : ({ gtv with state := .GTV_READING } : gtv_t) = gtv := by
      cases gtv
      simp_all
    unfold append_bodies
    rw [if_pos hfit, parse_stream_data_append P now gtv m b (Or.inr hg) hm hb.1 hb.2 hfit, hgg]
    simp only
    rw [ih gtv _ hg (by simpa using hm) (fun x hx => hbs x (by simp [hx]))
      (by simp [encode_record_length]; omega)]
    simp only [encode_records, List.append_assoc, List.length_cons, Option.some.injEq,
      Prod.mk.injEq, true_and]
    congr 1
    push_cast
    ring

theorem body_1022_length : body_1022.length = 1022 := by
  simp only [body_1022, List.length_replicate]

theorem bodies_96_length : bodies_96.length = 96 := by
  simp only [bodies_96, List.length_replicate]

theorem bodies_96_mem (b : List Nat) (hb : b ∈ bodies_96) : b.length = 1022 := by
  rw [bodies_96] at hb
  rw [List.eq_of_mem_replicate hb, body_1022_length]

theorem bodies_96_encoded_length : (encode_records bodies_96).length = 98304 := by
  rw [encode_records_length, bodies_96, List.map_replicate, List.sum_replicate,
    body_1022_length]
  rfl

theorem chan_full_overflow (now : Nat) :
    parse_stream_data parser_keep now upstream_reading (some chan_full) (stream_data_msg [1])
      = .ok (upstream_overflowed now, some chan_overflowed, stream_data_msg [1]) := by
  have hlen : chan_full.delay.data.length = 98304 := bodies_96_encoded_length
  have hsize : chan_full.delay.size = 98304 := rfl
  have hnofit : (FIFO_Write chan_full.delay none (([1] : List Nat).length + 2)).2
      ≠ ([1] : List Nat).length + 2 := by
    rw [Ne, FIFO_Write_probe _ _ (by simp), hlen, hsize]
    simp
  rw [parse_stream_data_overflow parser_keep now upstream_reading chan_full [1]
    (Or.inr rfl) rfl (by simp) hnofit]
  rw [write_message_fits now _ _ _ _ (by simp [upstream_reading])]
  rfl

/-! ## Helper lemmas: inbound framing -/

theorem fifo_setFifo (gtv : gtv_t) (sel : fifo_sel) (f : fifo_t) :
    (gtv.setFifo sel f).fifo sel = f := by
  cases sel <;> rfl

theorem setFifo_fields (gtv : gtv_t) (sel : fifo_sel) (f : fifo_t) :
    (gtv.setFifo sel f).state = gtv.state
      ∧ (gtv.setFifo sel f).msglen = gtv.msglen
      ∧ (gtv.setFifo sel f).username = gtv.username
      ∧ (gtv.setFifo sel f).password = gtv.password
      ∧ (gtv.setFifo sel f).stream.send = gtv.stream.send := by
  cases sel <;> exact ⟨rfl, rfl, rfl, rfl, rfl⟩

theorem gtv_drop_state (cfg : Config) (now : Nat) (gtv : gtv_t) :
    (gtv_drop cfg now gtv).state = .GTV_DISCONNECTED := rfl

theorem parse_message_magic_skip (cfg : Config) (now : Nat) (gtv : gtv_t)
    (mvd : Option mvd_t) (sel : fifo_sel)
    (hst : gtv_state_t.GTV_PREPARING.toNat ≤ gtv.state.toNat) :
    parse_message_magic cfg now gtv mvd sel = .ok (some gtv) := by
  unfold parse_message_magic
  rw [if_neg (by omega)]

theorem parse_message_msglen_header (cfg : Config) (now : Nat) (gtv : gtv_t)
    (mvd : Option mvd_t) (sel : fifo_sel) (hdr rest : List Nat)
    (hpend : gtv.msglen = 0) (hlen : hdr.length = 2)
    (hd : (gtv.fifo sel).data = hdr ++ rest) :
    parse_message_msglen cfg now gtv mvd sel =
      if le16_value hdr = 0 then
        gtv_dropf cfg now (gtv.setFifo sel { gtv.fifo sel with data := rest }) mvd
          .end_of_gtv_stream
      else if le16_value hdr > cfg.MAX_MSGLEN then
        gtv_destroyf mvd .oversize_message
      else
        .ok (some { gtv.setFifo sel { gtv.fifo sel with data := rest } with
                    msglen := le16_value hdr }) := by
  have h := FIFO_TryRead_append (gtv.fifo sel) hdr rest hd
  rw [hlen] at h
  unfold parse_message_msglen
  rw [if_pos hpend, h]

theorem parse_message_complete (cfg : Config) (P : Parser) (now : Nat) (gtv : gtv_t)
    (mvd : Option mvd_t) (sel : fifo_sel) (msg rest : List Nat)
    (hst : gtv_state_t.GTV_PREPARING.toNat ≤ gtv.state.toNat)
    (hpend : gtv.msglen = 0)
    (h1 : 1 ≤ msg.length) (h2 : msg.length ≤ cfg.MAX_MSGLEN) (h3 : msg.length < 65536)
    (hd : (gtv.fifo sel).data = le16_bytes msg.length ++ (msg ++ rest)) :
    parse_message cfg P now gtv mvd sel =
      match parse_message_cmd cfg P now
          { gtv.setFifo sel { gtv.fifo sel with data := rest } with msglen := 0 } mvd
          { data := msg, cursize := msg.length, readcount := 0 } with
      | .error e => .error e
      | .ok (g, c) => .ok (g, c, true) := by
  have hv : le16_value (le16_bytes msg.length) = msg.length := by
    simpa using le16_value_bytes msg.length [] h3
  have hm := parse_message_msglen_header cfg now gtv mvd sel (le16_bytes msg.length)
    (msg ++ rest) hpend rfl hd
  rw [hv, if_neg (by omega), if_neg (by omega)] at hm
  have hr := FIFO_ReadMessage_append { gtv.fifo sel with data := msg ++ rest } msg rest rfl
  unfold parse_message
  rw [parse_message_magic_skip cfg now gtv mvd sel hst]
  simp only [hm]
  have hf : gtv_t.fifo { gtv.setFifo sel { gtv.fifo sel with data := msg ++ rest } with
                         msglen := msg.length } sel
      = { gtv.fifo sel with data := msg ++ rest } := by
    cases sel <;> rfl
  rw [hf, hr]
  simp only
  have hs : ({ gtv.setFifo sel { gtv.fifo sel with data := msg ++ rest } with
               msglen := msg.length } : gtv_t).setFifo sel { gtv.fifo sel with data := rest }
      = { gtv.setFifo sel { gtv.fifo sel with data := rest } with msglen := msg.length } := by
    cases sel <;> rfl
  rw [hs]

theorem client_hello_setFifo (cfg : Config) (gtv : gtv_t) (sel : fifo_sel) (f : fifo_t) :
    client_hello cfg (gtv.setFifo sel f) = client_hello cfg gtv := by
  cases sel <;> rfl

theorem ofNat?_toNat (c : Nat) (op : gtv_serverop_t)
    (h : gtv_serverop_t.ofNat? c = some op) : op.toNat = c := by
  unfold gtv_serverop_t.ofNat? at h
  split at h <;> simp at h <;> subst h <;> rfl

theorem ofNat?_unknown (c : Nat) (h : ∀ op : gtv_serverop_t, op.toNat ≠ c) :
    gtv_serverop_t.ofNat? c = none := by
  cases hc : gtv_serverop_t.ofNat? c with
  | none => rfl
  | some op => exact absurd (ofNat?_toNat c op hc) (h op)

theorem MSG_ReadByte_first (c : Nat) (body : List Nat) (hc : c < 256) :
    MSG_ReadByte { data := c :: body, cursize := body.length + 1, readcount := 0 }
      = ((c : Int), { data := c :: body, cursize := body.length + 1, readcount := 1 }) := by
  simp [MSG_ReadByte, Nat.mod_eq_of_lt hc]

theorem parse_message_cmd_opcode (cfg : Config) (P : Parser) (now : Nat) (gtv : gtv_t)
    (mvd : Option mvd_t) (c : Nat) (body : List Nat) (hc : c < 256) :
    parse_message_cmd cfg P now gtv mvd
        { data := c :: body, cursize := body.length + 1, readcount := 0 } =
      match (match gtv_serverop_t.ofNat? c with
        | some .GTS_HELLO =>
          match parse_hello cfg gtv mvd
              { data := c :: body, cursize := body.length + 1, readcount := 1 } with
          | .error e => .error e
          | .ok (g, m) => .ok (g, mvd, m)
        | some .GTS_PONG =>
          .ok (gtv, mvd, { data := c :: body, cursize := body.length + 1, readcount := 1 })
        | some .GTS_STREAM_START =>
          match parse_stream_start cfg gtv mvd with
          | .error e => .error e
          | .ok (g, ch) =>
            .ok (g, ch, { data := c :: body, cursize := body.length + 1, readcount := 1 })
        | some .GTS_STREAM_STOP =>
          match parse_stream_stop gtv mvd with
          | .error e => .error e
          | .ok g =>
            .ok (g, mvd, { data := c :: body, cursize := body.length + 1, readcount := 1 })
        | some .GTS_STREAM_DATA =>
          parse_stream_data P now gtv mvd
            { data := c :: body, cursize := body.length + 1, readcount := 1 }
        | some .GTS_ERROR => gtv_destroyf mvd .server_error
        | some .GTS_BADREQUEST => gtv_destroyf mvd .bad_request
        | some .GTS_NOACCESS => gtv_destroyf mvd .no_access
        | some .GTS_DISCONNECT => gtv_destroyf mvd .server_shutdown
        | some .GTS_RECONNECT => gtv_dropf cfg now gtv mvd .server_restarted
        | none => gtv_destroyf mvd .unknown_command
        : Run (gtv_t × Option mvd_t × sizebuf_t)) with
      | .error e => .error e
      | .ok (g, ch, m) =>
        if m.readcount > m.cursize then gtv_destroyf ch .read_past_end
        else .ok ({ g with last_rcvd := now }, ch) := by
  have hneg : ¬ ((c : Int) < 0) := by omega
  unfold parse_message_cmd
  simp only [MSG_ReadByte_first c body hc, hneg, if_false, Int.toNat_ofNat]

theorem client_hello_length (cfg : Config) (gtv : gtv_t) :
    (client_hello cfg gtv).length
      = gtv.msg_write.length + 13 + (gtv.username.getD cfg.mvd_username).length
          + (gtv.password.getD cfg.mvd_password).length + cfg.com_version.length := by
  simp only [client_hello, MSG_WriteShort, MSG_WriteLong, MSG_WriteString,
    le16_bytes, le32_bytes, List.length_append, List.length_cons, List.length_nil]
  omega

theorem parse_message_hello_overflow (cfg : Config) (P : Parser) (now : Nat) (gtv : gtv_t)
    (mvd : Option mvd_t) (sel : fifo_sel) (magic rest : List Nat)
    (hst : gtv.state.toNat < gtv_state_t.GTV_PREPARING.toNat)
    (hd : (gtv.fifo sel).data = magic ++ rest) (hlen : magic.length = 4)
    (heq : le32_value magic = cfg.MVD_MAGIC)
    (hover : gtv.stream.send.size
      < gtv.stream.send.data.length + (3 + (client_hello cfg gtv).length)) :
    parse_message cfg P now gtv mvd sel
      = .error (.gtv_destroyed (gtv_destroy mvd) .send_overflow) := by
  have hread := FIFO_TryRead_append (gtv.fifo sel) magic rest hd
  rw [hlen] at hread
  have hsend := (setFifo_fields gtv sel { gtv.fifo sel with data := rest }).2.2.2.2
  unfold parse_message parse_message_magic
  rw [if_pos hst, hread]
  simp only [heq, ne_eq, not_true_eq_false, if_false]
  rw [send_hello_overflow cfg now _ mvd (by rw [client_hello_setFifo, hsend]; exact hover)]
  rfl

theorem bodies_96_nofit (size : Nat) (data : List Nat) (hs : size = 98304)
    (hd : data = encode_records bodies_96) :
    (FIFO_Write { data := data, size := size } none (([1] : List Nat).length + 2)).2
      ≠ ([1] : List Nat).length + 2 := by
  rw [Ne, FIFO_Write_probe _ _ (by simp)]
  simp only [hd, hs, bodies_96_encoded_length]
  decide

theorem gtv_state_streaming (st : gtv_state_t)
    (h1 : ¬ st.toNat < gtv_state_t.GTV_WAITING.toNat) (h2 : st ≠ .GTV_SUSPENDING) :
    st = .GTV_WAITING ∨ st = .GTV_READING := by
  cases st <;> simp_all [gtv_state_t.toNat]

theorem parse_stream_data_suspending (P : Parser) (now : Nat) (gtv : gtv_t)
    (mvd : Option mvd_t) (msg_read : sizebuf_t) (hg : gtv.state = .GTV_SUSPENDING) :
    parse_stream_data P now gtv mvd msg_read
      = .ok (gtv, mvd, { msg_read with readcount := msg_read.cursize }) := by
  unfold parse_stream_data
  rw [if_neg (by rw [hg]; decide), if_pos hg]

/-! ## Claims C1 to C10 -/

/-- C1 (code bug).  The claim: after every operation of the core, `num_packets`
equals the number of records in the delay buffer.  The overflow branch of
`parse_stream_data` clears the delay buffer and leaves `num_packets` as it was.
Here: 96 bodies of 1022 bytes appended to an empty Channel give `chan_full`,
for which the count is right (96 records); the next STREAM_DATA body does not
fit, and afterwards the delay buffer holds 0 records while `num_packets` is
still 96. -/
theorem C1_num_packets_stale_after_overflow :
    append_bodies parser_keep 0 bodies_96 upstream_reading chan_empty
        = some (upstream_reading, chan_full)
      ∧ chan_full.num_packets = (delay_records chan_full.delay).length
      ∧ parse_stream_data parser_keep 0 upstream_reading (some chan_full)
          (stream_data_msg [1])
          = .ok (upstream_overflowed 0, some chan_overflowed, stream_data_msg [1])
      ∧ chan_overflowed.num_packets = 96
      ∧ (delay_records chan_overflowed.delay).length = 0 := by
  refine ⟨?_, ?_, chan_full_overflow 0, rfl, rfl⟩
  · have hroom : chan_empty.delay.data.length + (encode_records bodies_96).length
        ≤ chan_empty.delay.size := by
      rw [bodies_96_encoded_length]
      decide
    rw [append_bodies_fits parser_keep 0 _ upstream_reading chan_empty rfl (by decide)
      (by intro b hb; rw [bodies_96_mem b hb]; decide) hroom, bodies_96_length]
    have hnil : chan_empty.delay.data = [] := rfl
    rw [hnil, List.nil_append]
    rfl
  · rw [delay_records_encode chan_full.delay bodies_96 rfl
      (by intro r hr; rw [bodies_96_mem r hr]; decide), bodies_96_length]
    rfl

/-- One `gtv_read_frame` call of a Channel in Reading that holds a packet, with a
parser that accepts this packet and leaves the Channel in Reading. -/
theorem gtv_read_frame_reading (cfg : Config) (P : Parser) (now : Nat) (mvd : mvd_t)
    (gtv : Option gtv_t) (r rest : List Nat)
    (hP : ∀ m : mvd_t, m.state = .MVD_READING →
      ∃ rc, P m { data := r, cursize := r.length, readcount := 0 } = some (.MVD_READING, rc))
    (hstate : mvd.state = .MVD_READING) (hnum : 1 ≤ mvd.num_packets)
    (hd : mvd.delay.data = encode_record r ++ rest) (hr : valid_payload cfg r) :
    gtv_read_frame cfg P now mvd gtv =
      .ok { mvd := { mvd with delay := { mvd.delay with data := rest },
                              num_packets := mvd.num_packets - 1,
                              state := .MVD_READING },
            gtv := gtv, ret := true,
            parsed := [{ data := r, cursize := r.length, readcount := 0 }] } := by
  obtain ⟨rc, hrc⟩ := hP { mvd with delay := { mvd.delay with data := rest },
                                    num_packets := mvd.num_packets - 1 } hstate
  have hbody : gtv_read_frame cfg P now mvd gtv = gtv_read_frame_body cfg P mvd gtv := by
    unfold gtv_read_frame
    rw [hstate]
    simp only
    rw [if_neg (by omega)]
  rw [hbody, gtv_read_frame_body_record cfg P mvd gtv r rest hd hr]
  simp only [hrc]

/-- A Channel in Waiting that holds a packet and has reached one of the two
thresholds of `gtv_wait_stop` is read like a Channel in Reading. -/
theorem gtv_read_frame_waiting_ready (cfg : Config) (P : Parser) (now : Nat) (mvd : mvd_t)
    (gtv : Option gtv_t)
    (hstate : mvd.state = .MVD_WAITING) (hnum : 1 ≤ mvd.num_packets)
    (hready : mvd.num_packets ≥ mvd.min_packets
      ∨ cfg.mvd_wait_percent.le_int (FIFO_Percent mvd.delay) = true) :
    gtv_read_frame cfg P now mvd gtv
      = gtv_read_frame cfg P now { mvd with state := .MVD_READING } gtv := by
  have hstop : gtv_wait_stop cfg mvd = ({ mvd with state := .MVD_READING }, true) := by
    unfold gtv_wait_stop
    by_cases h1 : mvd.num_packets ≥ mvd.min_packets
    · rw [if_pos h1]
    · rw [if_neg h1]
      rcases hready with h | h
      · exact absurd h h1
      · rw [if_pos h]
  have hL : gtv_read_frame cfg P now mvd gtv
      = gtv_read_frame_body cfg P { mvd with state := .MVD_READING } gtv := by
    unfold gtv_read_frame
    rw [hstate]
    simp only [hstop]
    rw [if_neg (by decide)]
  have hR : gtv_read_frame cfg P now { mvd with state := .MVD_READING } gtv
      = gtv_read_frame_body cfg P { mvd with state := .MVD_READING } gtv := by
    unfold gtv_read_frame
    simp only
    rw [if_neg (by show ¬ mvd.num_packets = 0; omega)]
  rw [hL, hR]

theorem read_frames_succ (cfg : Config) (P : Parser) (now n : Nat) (mvd : mvd_t)
    (gtv : Option gtv_t) (r : frame_result)
    (h : gtv_read_frame cfg P now mvd gtv = .ok r) (hret : r.ret = true) :
    read_frames cfg P now (n + 1) mvd gtv =
      match read_frames cfg P now n r.mvd r.gtv with
      | some (mvd2, gtv2, log) => some (mvd2, gtv2, r.parsed ++ log)
      | none => none := by
  show (match gtv_read_frame cfg P now mvd gtv with
        | .ok r =>
          if r.ret then
            match read_frames cfg P now n r.mvd r.gtv with
            | some (mvd2, gtv2, log) => some (mvd2, gtv2, r.parsed ++ log)
            | none => none
          else none
        | .error _ => none) = _
  rw [h]
  simp only [hret, if_true]

/-- The pops of a Channel in Reading that holds the packets `rs`, with a parser
that accepts these packets and leaves the Channel in Reading: `rs.length`
calls return true and hand the packets to the parser in order. -/
theorem read_frames_reading (cfg : Config) (P : Parser) (now : Nat) (gtv : Option gtv_t) :
    ∀ (rs : List (List Nat)) (mvd : mvd_t),
      mvd.state = .MVD_READING → mvd.delay.data = encode_records rs →
      (∀ r ∈ rs, valid_payload cfg r) →
      (∀ m : mvd_t, m.state = .MVD_READING → ∀ r ∈ rs,
        ∃ rc, P m { data := r, cursize := r.length, readcount := 0 }
          = some (.MVD_READING, rc)) →
      mvd.num_packets = rs.length →
      read_frames cfg P now rs.length mvd gtv =
        some ({ mvd with state := .MVD_READING, delay := { mvd.delay with data := [] },
                         num_packets := 0 }, gtv,
              rs.map (fun r => { data := r, cursize := r.length, readcount := 0 })) := by
  intro rs
  induction rs with
  | nil =>
    intro mvd hst hd _ _ hnum
    have hm : ({ mvd with state := .MVD_READING, delay := { mvd.delay with data := [] },
                          num_packets := 0 } : mvd_t) = mvd := by
      cases mvd with
      | mk st delay np mp uf ovf =>
        cases delay
        simp only [encode_records] at hd hst hnum
        subst hd hst
        simp only [List.length_nil, Nat.cast_zero] at hnum
        subst hnum
        rfl
    rw [hm]
    rfl
  | cons r rs ih =>
    intro mvd hst hd hv hP hnum
    have hnum1 : 1 ≤ mvd.num_packets := by
      rw [hnum, List.length_cons]; push_cast; omega
    have hstep := gtv_read_frame_reading cfg P now mvd gtv r (encode_records rs)
      (fun m hm => hP m hm r (List.mem_cons_self _ _)) hst hnum1 (by rw [hd]; rfl)
      (hv r (List.mem_cons_self _ _))
    rw [List.length_cons, read_frames_succ cfg P now _ mvd gtv _ hstep rfl]
    simp only []
    rw [ih _ rfl rfl (fun x hx => hv x (List.mem_cons_of_mem _ hx))
      (fun m hm x hx => hP m hm x (List.mem_cons_of_mem _ hx))
      (by show mvd.num_packets - 1 = _; rw [hnum, List.length_cons]; push_cast; omega)]
    simp only [List.map_cons, List.singleton_append]

/-- The appends of `parse_stream_data` when the records of all the bodies fit
into the delay buffer: every call appends its record, and the first one puts
an Upstream in Waiting into Reading. -/
theorem append_bodies_room (P : Parser) (now : Nat) (bs : List (List Nat)) (gtv : gtv_t)
    (m : mvd_t)
    (hg : gtv.state = .GTV_WAITING ∨ gtv.state = .GTV_READING)
    (hm : m.state ≠ .MVD_DEAD)
    (hbs : ∀ b ∈ bs, 1 ≤ b.length ∧ b.length < 65536)
    (hroom : m.delay.data.length + (encode_records bs).length ≤ m.delay.size) :
    append_bodies P now bs gtv m =
      some (if bs = [] then gtv else { gtv with state := .GTV_READING },
            { m with delay := { m.delay with data := m.delay.data ++ encode_records bs },
                     num_packets := m.num_packets + bs.length }) := by
  cases bs with
  | nil =>
    rw [if_pos rfl]
    simp [append_bodies, encode_records]
  | cons b bs =>
    rw [if_neg (by simp)]
    have hb := hbs b (by simp)
    simp only [encode_records, List.length_append, encode_record_length] at hroom
    have hfit : (FIFO_Write m.delay none (b.length + 2)).2 = b.length + 2 :=
      (FIFO_Write_probe m.delay (b.length + 2) (by omega)).2 (by omega)
    unfold append_bodies
    rw [if_pos hfit, parse_stream_data_append P now gtv m b hg hm hb.1 hb.2 hfit]
    simp only
    rw [append_bodies_fits P now bs { gtv with state := .GTV_READING } _ rfl
      (by simpa using hm) (fun x hx => hbs x (by simp [hx]))
      (by simp [encode_record_length]; omega)]
    simp only [encode_records, List.append_assoc, List.length_cons, Option.some.injEq,
      Prod.mk.injEq, true_and]
    congr 1
    push_cast
    ring

/-- C2.  Bodies appended by `parse_stream_data` are drained in arrival order.
A promoted Channel (state not Dead) of a streaming Upstream holds the records
`rs` (none, in the plain reading of the claim), and the records of the
non-empty bodies `bs` of valid STREAM_DATA messages fit into its delay buffer
(no overflow).  Then the `parse_stream_data` calls, one per body
(`append_bodies`), all return and leave the delay buffer with the records of
`rs` followed by those of `bs`, and `num_packets` raised by the number of
bodies.  After them, as many successful `gtv_read_frame` calls as there are
records (`read_frames`) hand the parser exactly `rs` followed by `bs`, byte
for byte and in this order, and leave the delay buffer empty.  And these
calls are successful when `num_packets` was the number of records, the
Channel is in Reading, or in Waiting with a packet and past a threshold of
`gtv_wait_stop`, and the parser accepts these messages on a Channel in
Reading and leaves it in Reading. -/
theorem C2_bodies_drained_in_arrival_order (cfg : Config) (P : Parser) (now now2 : Nat)
    (gtv : gtv_t) (mvd : mvd_t) (rs bs : List (List Nat))
    (hg : gtv.state = .GTV_WAITING ∨ gtv.state = .GTV_READING)
    (hm : mvd.state ≠ .MVD_DEAD)
    (hd : mvd.delay.data = encode_records rs)
    (hrs : ∀ r ∈ rs, valid_payload cfg r)
    (hbs : ∀ b ∈ bs, 1 ≤ b.length ∧ b.length + 1 ≤ cfg.MAX_MSGLEN ∧ b.length + 1 < 65536)
    (hroom : mvd.delay.data.length + (encode_records bs).length ≤ mvd.delay.size) :
    append_bodies P now bs gtv mvd =
        some (if bs = [] then gtv else { gtv with state := .GTV_READING },
              { mvd with delay := { mvd.delay with data := encode_records (rs ++ bs) },
                         num_packets := mvd.num_packets + bs.length })
      ∧ (∀ (g1 : gtv_t) (m1 m2 : mvd_t) (g2 : Option gtv_t) (log : List sizebuf_t),
          append_bodies P now bs gtv mvd = some (g1, m1) →
          read_frames cfg P now2 (rs.length + bs.length) m1 (some g1) = some (m2, g2, log) →
          log = (rs ++ bs).map (fun r => { data := r, cursize := r.length, readcount := 0 })
            ∧ m2.delay.data = [])
      ∧ (∀ (g1 : gtv_t) (m1 : mvd_t),
          append_bodies P now bs gtv mvd = some (g1, m1) →
          mvd.num_packets = rs.length →
          (mvd.state = .MVD_READING ∨
            (mvd.state = .MVD_WAITING ∧ rs ++ bs ≠ [] ∧
              (m1.num_packets ≥ m1.min_packets
                ∨ cfg.mvd_wait_percent.le_int (FIFO_Percent m1.delay) = true))) →
          (∀ m : mvd_t, m.state = .MVD_READING → ∀ r ∈ rs ++ bs,
            ∃ rc, P m { data := r, cursize := r.length, readcount := 0 }
              = some (.MVD_READING, rc)) →
          read_frames cfg P now2 (rs.length + bs.length) m1 (some g1) =
            some ({ m1 with state := .MVD_READING, delay := { m1.delay with data := [] },
                            num_packets := 0 }, some g1,
                  (rs ++ bs).map (fun r => { data := r, cursize := r.length,
                                             readcount := 0 }))) := by
  have hbs1 : ∀ b ∈ bs, 1 ≤ b.length ∧ b.length < 65536 :=
    fun b hb => ⟨(hbs b hb).1, by have := (hbs b hb).2.2; omega⟩
  have hv : ∀ r ∈ rs ++ bs, valid_payload cfg r := by
    intro r hr
    rcases List.mem_append.1 hr with h | h
    · exact hrs r h
    · have := hbs r h
      exact ⟨this.1, by omega, by omega⟩
  have hlen : rs.length + bs.length = (rs ++ bs).length := by simp
  have happ := append_bodies_room P now bs gtv mvd hg hm hbs1 hroom
  have hdata : mvd.delay.data ++ encode_records bs = encode_records (rs ++ bs) := by
    rw [hd, encode_records_append]
  rw [hdata] at happ
  refine ⟨happ, fun g1 m1 m2 g2 log h1 hpop => ?_, fun g1 m1 h1 hnum hst hP => ?_⟩
  · rw [happ] at h1
    have hm1 := (Prod.mk.inj (Option.some.inj h1)).2
    have hd1 : m1.delay.data = encode_records (rs ++ bs) := by rw [← hm1]
    have h2 := read_frames_spec cfg P now2 (rs.length + bs.length) (rs ++ bs) m1 (some g1)
      m2 g2 log hd1 hv (by simp) hpop
    rw [hlen, List.take_length, List.drop_length] at h2
    exact ⟨h2.1, h2.2.1⟩
  · rw [happ] at h1
    have hm1 := (Prod.mk.inj (Option.some.inj h1)).2
    have hd1 : m1.delay.data = encode_records (rs ++ bs) := by rw [← hm1]
    have hs1 : m1.state = mvd.state := by rw [← hm1]
    have hn1 : m1.num_packets = (rs ++ bs).length := by
      rw [← hm1]
      show mvd.num_packets + (bs.length : Int) = _
      rw [hnum, List.length_append]
      push_cast
      rfl
    rw [hlen]
    rcases hst with hst | ⟨hst, hne, hready⟩
    · exact read_frames_reading cfg P now2 (some g1) (rs ++ bs) m1 (by rw [hs1, hst]) hd1 hv
        hP hn1
    · have hpos : 1 ≤ (rs ++ bs).length := by
        cases hl : rs ++ bs with
        | nil => exact absurd hl hne
        | cons a l => simp
      have hnum1 : 1 ≤ m1.num_packets := by rw [hn1]; exact_mod_cast hpos
      have hfirst := gtv_read_frame_waiting_ready cfg P now2 m1 (some g1) (by rw [hs1, hst])
        hnum1 hready
      have hcalls : ∀ n : Nat, read_frames cfg P now2 (n + 1) m1 (some g1)
          = read_frames cfg P now2 (n + 1) { m1 with state := .MVD_READING } (some g1) := by
        intro n
        show (match gtv_read_frame cfg P now2 m1 (some g1) with
              | .ok r =>
                if r.ret then
                  match read_frames cfg P now2 n r.mvd r.gtv with
                  | some (mvd2, gtv2, log) => some (mvd2, gtv2, r.parsed ++ log)
                  | none => none
                else none
              | .error _ => none) =
             (match gtv_read_frame cfg P now2 { m1 with state := .MVD_READING } (some g1) with
              | .ok r =>
                if r.ret then
                  match read_frames cfg P now2 n r.mvd r.gtv with
                  | some (mvd2, gtv2, log) => some (mvd2, gtv2, r.parsed ++ log)
                  | none => none
                else none
              | .error _ => none)
        rw [hfirst]
      obtain ⟨k, hk⟩ : ∃ k, (rs ++ bs).length = k + 1 := ⟨(rs ++ bs).length - 1, by omega⟩
      have hread := read_frames_reading cfg P now2 (some g1) (rs ++ bs)
        { m1 with state := .MVD_READING } rfl hd1 hv hP hn1
      rw [hk] at hread ⊢
      rw [hcalls, hread]

/-- C2, at a concrete input: the bodies [1, 2] and [3] are appended to the empty
Channel `chan_empty` by two `parse_stream_data` calls, and two
`gtv_read_frame` calls hand the parser [1, 2], then [3]. -/
theorem C2_bodies_drained_in_arrival_order_witness :
    append_bodies parser_keep 0 [[1, 2], [3]] upstream_reading chan_empty =
        some (upstream_reading,
              { chan_empty with
                delay := { data := [2, 0, 1, 2, 1, 0, 3], size := 3 * 32768 }
                num_packets := 2 })
      ∧ read_frames cfg_default parser_keep 1 2
          { chan_empty with
            delay := { data := [2, 0, 1, 2, 1, 0, 3], size := 3 * 32768 }
            num_packets := 2 } (some upstream_reading) =
        some (chan_empty, some upstream_reading,
              [{ data := [1, 2], cursize := 2, readcount := 0 },
               { data := [3], cursize := 1, readcount := 0 }]) :=
  have h := C2_bodies_drained_in_arrival_order cfg_default parser_keep 0 1
    upstream_reading chan_empty [] [[1, 2], [3]]
    (Or.inr rfl) (by decide) rfl (by decide) (by decide) (by decide)
  ⟨h.1, h.2.2 _ _ h.1 rfl (Or.inl rfl) (fun m hm r _ => ⟨r.length, by
    show some (m.state, r.length) = some (mvd_state_t.MVD_READING, r.length)
    rw [hm]⟩)⟩

/-- C3.  Round trip of the framing layer.  For every client opcode `op` and
payload `p` with `1 + |p| <= MAX_MSGLEN` (and `MAX_MSGLEN` within the `u16`
length field): `write_message`, when it returns, has appended to the send
buffer the u16 little-endian length `|p| + 1`, the opcode and `p`; and when
exactly these bytes are in the ring buffer of an Upstream that awaits a
header, the length step of `parse_message` stores the length `|p| + 1`, the
body step yields the message `op :: p` and leaves no byte over, and
`parse_message` as a whole dispatches exactly this message. -/
theorem C3_framing_round_trip (cfg : Config) (P : Parser) (now now2 : Nat)
    (tx tx1 : gtv_t) (mvd_tx : Option mvd_t) (op : gtv_clientop_t) (p : List Nat)
    (rx : gtv_t) (mvd_rx : Option mvd_t) (sel : fifo_sel)
    (hlen : 1 + p.length ≤ cfg.MAX_MSGLEN)
    (hmax : cfg.MAX_MSGLEN < 65536)
    (hw : write_message now tx mvd_tx op p = .ok tx1)
    (hpend : rx.msglen = 0)
    (hin : (rx.fifo sel).data = le16_bytes (p.length + 1) ++ op.toNat :: p) :
    tx1.stream.send.data
        = tx.stream.send.data ++ (le16_bytes (p.length + 1) ++ op.toNat :: p)
      ∧ parse_message_msglen cfg now2 rx mvd_rx sel
          = .ok (some { rx.setFifo sel { rx.fifo sel with data := op.toNat :: p } with
                        msglen := p.length + 1 })
      ∧ FIFO_ReadMessage { rx.fifo sel with data := op.toNat :: p } (p.length + 1)
          = some ({ rx.fifo sel with data := [] },
                  { data := op.toNat :: p, cursize := p.length + 1, readcount := 0 })
      ∧ (gtv_state_t.GTV_PREPARING.toNat ≤ rx.state.toNat →
          parse_message cfg P now2 rx mvd_rx sel =
            match parse_message_cmd cfg P now2
                { rx.setFifo sel { rx.fifo sel with data := [] } with msglen := 0 } mvd_rx
                { data := op.toNat :: p, cursize := p.length + 1, readcount := 0 } with
            | .error e => .error e
            | .ok (g, c) => .ok (g, c, true)) := by
  have hop : op.toNat % 256 = op.toNat := by cases op <;> rfl
  have hv : le16_value (le16_bytes (p.length + 1)) = p.length + 1 := by
    simpa using le16_value_bytes (p.length + 1) [] (by omega)
  refine ⟨?_, ?_, ?_, ?_⟩
  · by_cases hroom : tx.stream.send.data.length + (3 + p.length) ≤ tx.stream.send.size
    · rw [write_message_fits now tx mvd_tx op p hroom] at hw
      simp only [Except.ok.injEq] at hw
      subst hw
      simp [le16_bytes, hop]
    · rw [write_message_overflow now tx mvd_tx op p (by omega)] at hw
      exact absurd hw (by simp [gtv_destroyf])
  · have hm := parse_message_msglen_header cfg now2 rx mvd_rx sel
      (le16_bytes (p.length + 1)) (op.toNat :: p) hpend rfl hin
    rw [hv, if_neg (by omega), if_neg (by omega)] at hm
    exact hm
  · have := FIFO_ReadMessage_append { rx.fifo sel with data := op.toNat :: p }
      (op.toNat :: p) [] (by simp)
    simpa using this
  · intro hst
    have := parse_message_complete cfg P now2 rx mvd_rx sel (op.toNat :: p) [] hst hpend
      (by simp) (by simp; omega) (by simp; omega) (by simpa using hin)
    simpa using this

/-- C3, at a concrete input: a STRINGCMD with payload [104, 105, 0]. -/
theorem C3_framing_round_trip_witness :
    ({ upstream_reading with
       stream := { upstream_reading.stream with
                   send := { data := [4, 0, 4, 104, 105, 0], size := 256 } }
       last_sent := 7 } : gtv_t).stream.send.data
        = upstream_reading.stream.send.data
            ++ (le16_bytes (([104, 105, 0] : List Nat).length + 1)
                ++ gtv_clientop_t.GTC_STRINGCMD.toNat :: [104, 105, 0])
      ∧ parse_message_msglen cfg_default 8
            { upstream_reading with
              stream := { upstream_reading.stream with
                          recv := { data := [4, 0, 4, 104, 105, 0], size := 32768 } } }
            none .recv
          = .ok (some { upstream_reading with
                        stream := { upstream_reading.stream with
                                    recv := { data := [4, 104, 105, 0], size := 32768 } }
                        msglen := 4 }) :=
  have h := C3_framing_round_trip cfg_default parser_keep 7 8 upstream_reading
    { upstream_reading with
      stream := { upstream_reading.stream with
                  send := { data := [4, 0, 4, 104, 105, 0], size := 256 } }
      last_sent := 7 }
    none .GTC_STRINGCMD [104, 105, 0]
    { upstream_reading with
      stream := { upstream_reading.stream with
                  recv := { data := [4, 0, 4, 104, 105, 0], size := 32768 } } }
    none .recv (by decide) (by decide) rfl rfl rfl
  ⟨h.1, h.2.1⟩

/-- C4.  The classes of the 16-bit little-endian length header.  For an
Upstream at or above Preparing that awaits a header (`msglen = 0`) and has
the header bytes `b0, b1` at the front of its ring buffer: the value 0 drops
the Upstream (it is kept, and its state is Disconnected); a value above
`MAX_MSGLEN` destroys it; a value in `1..MAX_MSGLEN` is accepted and stored as
the pending message length, and when the body is not yet complete
`parse_message` returns false with that pending length. -/
theorem C4_length_header_classes (cfg : Config) (P : Parser) (now : Nat) (gtv : gtv_t)
    (mvd : Option mvd_t) (sel : fifo_sel) (b0 b1 : Nat) (rest : List Nat)
    (hst : gtv_state_t.GTV_PREPARING.toNat ≤ gtv.state.toNat)
    (hpend : gtv.msglen = 0)
    (hd : (gtv.fifo sel).data = b0 :: b1 :: rest) :
    (le16_value [b0, b1] = 0 →
        parse_message cfg P now gtv mvd sel
          = .error (.dropped
              (gtv_drop cfg now (gtv.setFifo sel { gtv.fifo sel with data := rest })) mvd
              .end_of_gtv_stream)
        ∧ (gtv_drop cfg now (gtv.setFifo sel { gtv.fifo sel with data := rest })).state
            = .GTV_DISCONNECTED)
      ∧ (cfg.MAX_MSGLEN < le16_value [b0, b1] →
          parse_message cfg P now gtv mvd sel
            = .error (.gtv_destroyed (gtv_destroy mvd) .oversize_message))
      ∧ (1 ≤ le16_value [b0, b1] → le16_value [b0, b1] ≤ cfg.MAX_MSGLEN →
          parse_message_msglen cfg now gtv mvd sel
            = .ok (some { gtv.setFifo sel { gtv.fifo sel with data := rest } with
                          msglen := le16_value [b0, b1] })
          ∧ (rest.length < le16_value [b0, b1] →
              parse_message cfg P now gtv mvd sel
                = .ok ({ gtv.setFifo sel { gtv.fifo sel with data := rest } with
                         msglen := le16_value [b0, b1] }, mvd, false))) := by
  have hm := parse_message_msglen_header cfg now gtv mvd sel [b0, b1] rest hpend rfl
    (by simpa using hd)
  have hmagic := parse_message_magic_skip cfg now gtv mvd sel hst
  refine ⟨?_, ?_, ?_⟩
  · intro h0
    rw [if_pos h0] at hm
    refine ⟨?_, rfl⟩
    unfold parse_message
    rw [hmagic]
    simp only [hm, gtv_dropf]
  · intro hbig
    rw [if_neg (by omega), if_pos hbig] at hm
    unfold parse_message
    rw [hmagic]
    simp only [hm, gtv_destroyf]
  · intro h1 h2
    rw [if_neg (by omega), if_neg (by omega)] at hm
    refine ⟨hm, ?_⟩
    intro hshort
    unfold parse_message
    rw [hmagic]
    simp only [hm]
    have hf : gtv_t.fifo { gtv.setFifo sel { gtv.fifo sel with data := rest } with
                           msglen := le16_value [b0, b1] } sel
        = { gtv.fifo sel with data := rest } := by
      cases sel <;> rfl
    rw [hf, FIFO_ReadMessage_short _ _ (by simpa using hshort)]

/-- C4, at a concrete input: the header bytes 0, 0 drop the Upstream
`upstream_eof`. -/
theorem C4_length_header_classes_witness :
    parse_message cfg_default parser_keep 5 upstream_eof none .recv
        = .error (.dropped
            (gtv_drop cfg_default 5
              (upstream_eof.setFifo .recv { upstream_eof.fifo .recv with data := [] }))
            none .end_of_gtv_stream)
      ∧ (gtv_drop cfg_default 5
          (upstream_eof.setFifo .recv { upstream_eof.fifo .recv with data := [] })).state
          = .GTV_DISCONNECTED :=
  (C4_length_header_classes cfg_default parser_keep 5 upstream_eof none .recv 0 0 []
    (by decide) rfl rfl).1 (by decide)

/-- C5 (counterexample).  The claim promises that magic bytes equal to
`MVD_MAGIC` lead to a client hello in the send buffer and to state Preparing.
The fresh connection `upstream_fresh_long_name` receives the right magic, but
its hello (user name of 250 bytes) does not fit the 256-byte send buffer:
`write_stream` destroys the Upstream. -/
theorem C5_counterexample_hello_overflows_send_buffer :
    upstream_fresh_long_name.state.toNat < gtv_state_t.GTV_PREPARING.toNat
      ∧ le32_value (upstream_fresh_long_name.fifo .recv).data = cfg_default.MVD_MAGIC
      ∧ parse_message cfg_default parser_keep 0 upstream_fresh_long_name none .recv
          = .error (.gtv_destroyed none .send_overflow) := by
  refine ⟨by decide, by decide, ?_⟩
  have hover : upstream_fresh_long_name.stream.send.size
      < upstream_fresh_long_name.stream.send.data.length
          + (3 + (client_hello cfg_default upstream_fresh_long_name).length) := by
    rw [client_hello_length]
    simp only [upstream_fresh_long_name, cfg_default, Option.getD_some, Option.getD_none,
      List.length_replicate, List.length_nil]
    decide
  exact parse_message_hello_overflow cfg_default parser_keep 0 upstream_fresh_long_name none
    .recv [0x4D, 0x56, 0x44, 0x32] [] (by decide) rfl rfl (by decide) hover

/-- C5 (amended).  On a fresh connection (state below Preparing):
with fewer than 4 bytes available `parse_message` returns false and changes
nothing; otherwise 4 bytes are consumed before any message.  If they differ
from `MVD_MAGIC` the Upstream is destroyed.  If they equal `MVD_MAGIC`, what is
framed and sent is the content of `msg_write` after the hello has been
appended to it (`client_hello`): whatever `msg_write` held before, followed by
the hello payload, which is the hello alone when `msg_write` was empty.  If
these bytes and the 3-byte header fit in the send buffer, they are appended
there, `msg_write` is cleared, the state becomes Preparing, and
`parse_message` goes on as it does for that Upstream; if they do not fit, the
Upstream is destroyed. -/
theorem C5_magic_preamble (cfg : Config) (P : Parser) (now : Nat) (gtv : gtv_t)
    (mvd : Option mvd_t) (sel : fifo_sel)
    (hst : gtv.state.toNat < gtv_state_t.GTV_PREPARING.toNat) :
    ((gtv.fifo sel).data.length < 4 →
        parse_message cfg P now gtv mvd sel = .ok (gtv, mvd, false))
      ∧ (∀ magic rest : List Nat, (gtv.fifo sel).data = magic ++ rest → magic.length = 4 →
          (le32_value magic ≠ cfg.MVD_MAGIC →
            parse_message cfg P now gtv mvd sel
              = .error (.gtv_destroyed (gtv_destroy mvd) .not_mvd_stream))
          ∧ (le32_value magic = cfg.MVD_MAGIC →
              gtv.stream.send.size
                < gtv.stream.send.data.length + (3 + (client_hello cfg gtv).length) →
              parse_message cfg P now gtv mvd sel
                = .error (.gtv_destroyed (gtv_destroy mvd) .send_overflow))
          ∧ (le32_value magic = cfg.MVD_MAGIC →
              gtv.stream.send.data.length + (3 + (client_hello cfg gtv).length)
                ≤ gtv.stream.send.size →
              ∃ g1 : gtv_t,
                parse_message_magic cfg now gtv mvd sel = .ok (some g1)
                  ∧ g1.state = .GTV_PREPARING
                  ∧ g1.fifo sel = { gtv.fifo sel with data := rest }
                  ∧ g1.stream.send.data
                      = gtv.stream.send.data
                          ++ (le16_bytes ((client_hello cfg gtv).length + 1)
                              ++ gtv_clientop_t.GTC_HELLO.toNat :: client_hello cfg gtv)
                  ∧ g1.last_sent = now
                  ∧ g1.msglen = gtv.msglen
                  ∧ g1.msg_write = []
                  ∧ parse_message cfg P now gtv mvd sel
                      = parse_message cfg P now g1 mvd sel))
      ∧ client_hello cfg gtv
          = gtv.msg_write ++ client_hello cfg { gtv with msg_write := [] }
      ∧ (client_hello cfg { gtv with msg_write := [] }).length
          = 13 + (gtv.username.getD cfg.mvd_username).length
              + (gtv.password.getD cfg.mvd_password).length + cfg.com_version.length := by
  refine ⟨?_, ?_, client_hello_stale cfg gtv, by
    rw [client_hello_length]; simp⟩
  · intro hshort
    unfold parse_message parse_message_magic
    rw [if_pos hst, FIFO_TryRead_short _ 4 hshort]
  · intro magic rest hd hlen
    have hread := FIFO_TryRead_append (gtv.fifo sel) magic rest hd
    rw [hlen] at hread
    have hsend := (setFifo_fields gtv sel { gtv.fifo sel with data := rest }).2.2.2.2
    refine ⟨?_, ?_, ?_⟩
    · intro hne
      unfold parse_message parse_message_magic
      rw [if_pos hst, hread]
      simp only [hne, ne_eq, not_false_eq_true, if_true, gtv_destroyf]
    · intro heq hover
      exact parse_message_hello_overflow cfg P now gtv mvd sel magic rest hst hd hlen heq hover
    · intro heq hfit
      obtain ⟨g1, hg1⟩ : ∃ g1 : gtv_t, g1 =
          { gtv.setFifo sel { gtv.fifo sel with data := rest } with
            stream :=
              { (gtv.setFifo sel { gtv.fifo sel with data := rest }).stream with
                send :=
                  { (gtv.setFifo sel { gtv.fifo sel with data := rest }).stream.send with
                    data :=
                      (gtv.setFifo sel { gtv.fifo sel with data := rest }).stream.send.data
                        ++ ([((client_hello cfg gtv).length + 1) % 256,
                             ((client_hello cfg gtv).length + 1) / 256 % 256,
                             gtv_clientop_t.GTC_HELLO.toNat % 256]
                            ++ client_hello cfg gtv) } }
            last_sent := now
            msg_write := []
            state := .GTV_PREPARING } := ⟨_, rfl⟩
      have hmagic : parse_message_magic cfg now gtv mvd sel = .ok (some g1) := by
        rw [hg1]
        unfold parse_message_magic
        rw [if_pos hst, hread]
        simp only [heq, ne_eq, not_true_eq_false, if_false]
        rw [send_hello_fits cfg now _ mvd (by rw [client_hello_setFifo, hsend]; exact hfit),
          client_hello_setFifo]
      have hstate : g1.state = .GTV_PREPARING := by rw [hg1]
      refine ⟨g1, hmagic, hstate, ?_, ?_, ?_, ?_, ?_, ?_⟩
      · rw [hg1]
        cases sel <;> rfl
      · rw [hg1]
        simp only []
        rw [hsend]
        rfl
      · rw [hg1]
      · rw [hg1]
        exact (setFifo_fields gtv sel _).2.1
      · rw [hg1]
      · conv_lhs => unfold parse_message
        conv_rhs => unfold parse_message
        rw [hmagic, parse_message_magic_skip cfg now g1 mvd sel
          (by rw [hstate])]

/-- C5 (amended), at a concrete input: the fresh connection `upstream_fresh`
has the right magic and room for the hello. -/
theorem C5_magic_preamble_witness :
    ∃ g1 : gtv_t,
      parse_message_magic cfg_default 3 upstream_fresh none .recv = .ok (some g1)
        ∧ g1.state = .GTV_PREPARING
        ∧ g1.fifo .recv = { upstream_fresh.fifo .recv with data := [] }
        ∧ g1.stream.send.data
            = upstream_fresh.stream.send.data
                ++ (le16_bytes ((client_hello cfg_default upstream_fresh).length + 1)
                    ++ gtv_clientop_t.GTC_HELLO.toNat :: client_hello cfg_default upstream_fresh)
        ∧ g1.last_sent = 3
        ∧ g1.msglen = upstream_fresh.msglen
        ∧ g1.msg_write = []
        ∧ parse_message cfg_default parser_keep 3 upstream_fresh none .recv
            = parse_message cfg_default parser_keep 3 g1 none .recv :=
  ((C5_magic_preamble cfg_default parser_keep 3 upstream_fresh none .recv (by decide)).2.1
    [0x4D, 0x56, 0x44, 0x32] [] rfl rfl).2.2 (by decide) (by decide)

/-- C6.  The outcome of a complete inbound message with first byte `c`:
the opcodes ERROR, BADREQUEST, NOACCESS, DISCONNECT and every byte that is
not the value of a server opcode destroy the Upstream; RECONNECT drops it (the
Upstream is kept, in state Disconnected); PONG leaves Upstream and Channel as
they are except for `last_rcvd`, which becomes the current time. -/
theorem C6_outcome_by_first_byte (cfg : Config) (P : Parser) (now : Nat) (gtv : gtv_t)
    (mvd : Option mvd_t) (c : Nat) (body : List Nat) (hc : c < 256) :
    ((c = gtv_serverop_t.GTS_ERROR.toNat ∨ c = gtv_serverop_t.GTS_BADREQUEST.toNat
          ∨ c = gtv_serverop_t.GTS_NOACCESS.toNat ∨ c = gtv_serverop_t.GTS_DISCONNECT.toNat
          ∨ ∀ op : gtv_serverop_t, op.toNat ≠ c) →
        ∃ why : Reason,
          parse_message_cmd cfg P now gtv mvd
              { data := c :: body, cursize := body.length + 1, readcount := 0 }
            = .error (.gtv_destroyed (gtv_destroy mvd) why))
      ∧ (c = gtv_serverop_t.GTS_RECONNECT.toNat →
          parse_message_cmd cfg P now gtv mvd
              { data := c :: body, cursize := body.length + 1, readcount := 0 }
            = .error (.dropped (gtv_drop cfg now gtv) mvd .server_restarted)
          ∧ (gtv_drop cfg now gtv).state = .GTV_DISCONNECTED)
      ∧ (c = gtv_serverop_t.GTS_PONG.toNat →
          parse_message_cmd cfg P now gtv mvd
              { data := c :: body, cursize := body.length + 1, readcount := 0 }
            = .ok ({ gtv with last_rcvd := now }, mvd)) := by
  have hcmd := parse_message_cmd_opcode cfg P now gtv mvd c body hc
  refine ⟨?_, ?_, ?_⟩
  · intro h
    rcases h with h | h | h | h | h
    · subst h; exact ⟨.server_error, by rw [hcmd]; rfl⟩
    · subst h; exact ⟨.bad_request, by rw [hcmd]; rfl⟩
    · subst h; exact ⟨.no_access, by rw [hcmd]; rfl⟩
    · subst h; exact ⟨.server_shutdown, by rw [hcmd]; rfl⟩
    · exact ⟨.unknown_command, by rw [hcmd, ofNat?_unknown c h]; rfl⟩
  · intro h
    subst h
    exact ⟨by rw [hcmd]; rfl, rfl⟩
  · intro h
    subst h
    rw [hcmd]
    simp [gtv_serverop_t.ofNat?, gtv_serverop_t.toNat]

/-- C6, at a concrete input: a PONG message for `upstream_reading`. -/
theorem C6_outcome_by_first_byte_witness :
    parse_message_cmd cfg_default parser_keep 9 upstream_reading none
        { data := gtv_serverop_t.GTS_PONG.toNat :: [], cursize := ([] : List Nat).length + 1,
          readcount := 0 }
      = .ok ({ upstream_reading with last_rcvd := 9 }, none) :=
  (C6_outcome_by_first_byte cfg_default parser_keep 9 upstream_reading none
    gtv_serverop_t.GTS_PONG.toNat [] (by decide)).2.2 rfl

/-- C7 (counterexample).  The claim promises, for every overflow with the
Channel in Reading, a cleared buffer, a STREAM_STOP command and an Upstream
that is not destroyed.  First input: the send buffer of `upstream_send_full`
has two free bytes, the STREAM_STOP command does not fit and the Upstream is
destroyed.  Second input: the Upstream is already Suspending; the body is
discarded and the full delay buffer is left as it is. -/
theorem C7_counterexample_destroyed_or_ignored :
    chan_full.state = .MVD_READING
      ∧ (FIFO_Write chan_full.delay none (([1] : List Nat).length + 2)).2
          ≠ ([1] : List Nat).length + 2
      ∧ parse_stream_data parser_keep 0 upstream_send_full (some chan_full)
          (stream_data_msg [1])
          = .error (.gtv_destroyed (some chan_overflowed) .send_overflow)
      ∧ parse_stream_data parser_keep 0 upstream_suspending (some chan_full)
          (stream_data_msg [1])
          = .ok (upstream_suspending, some chan_full,
                 { stream_data_msg [1] with readcount := 2 }) := by
  have hnofit := bodies_96_nofit chan_full.delay.size chan_full.delay.data rfl rfl
  refine ⟨rfl, hnofit, ?_, rfl⟩
  rw [parse_stream_data_overflow parser_keep 0 upstream_send_full chan_full [1]
    (Or.inr rfl) rfl (by simp) hnofit]
  rw [write_message_overflow 0 _ _ _ _
    (by simp only [upstream_send_full, List.length_replicate,
          List.length_nil]; decide)]
  rfl

/-- C7 (amended).  The Channel is in Reading and a non-empty STREAM_DATA body
does not fit in its delay buffer.  With the Upstream in Waiting or Reading, no
part of the record is written, the delay buffer is cleared, the Channel state
becomes Waiting and `overflows` one more than before; then `msg_write` is sent
as it is as a STREAM_STOP command, which is the 3-byte command 1, 0, STREAM_STOP
when `msg_write` is empty.  If the send buffer has room for these bytes,
`parse_stream_data` returns normally (the Upstream is not destroyed), the
command is appended to the send buffer and the Upstream state is Suspending;
if it has no room, the Upstream is destroyed.  With the Upstream in Suspending
the body is discarded: Upstream and Channel stay as they are. -/
theorem C7_overflow_in_reading (P : Parser) (now : Nat) (gtv : gtv_t) (m : mvd_t)
    (b : List Nat)
    (hm : m.state = .MVD_READING) (hb : 1 ≤ b.length)
    (hnofit : (FIFO_Write m.delay none (b.length + 2)).2 ≠ b.length + 2) :
    (gtv.state = .GTV_WAITING ∨ gtv.state = .GTV_READING →
        gtv.stream.send.data.length + (3 + gtv.msg_write.length) ≤ gtv.stream.send.size →
        ∃ (g1 : gtv_t) (m1 : mvd_t),
          parse_stream_data P now gtv (some m) (stream_data_msg b)
              = .ok (g1, some m1, stream_data_msg b)
            ∧ m1.delay.data = []
            ∧ m1.delay.size = m.delay.size
            ∧ m1.state = .MVD_WAITING
            ∧ m1.overflows = m.overflows + 1
            ∧ g1.stream.send.data
                = gtv.stream.send.data
                    ++ ([(gtv.msg_write.length + 1) % 256,
                         (gtv.msg_write.length + 1) / 256 % 256,
                         gtv_clientop_t.GTC_STREAM_STOP.toNat] ++ gtv.msg_write)
            ∧ (gtv.msg_write = [] →
                g1.stream.send.data
                  = gtv.stream.send.data ++ [1, 0, gtv_clientop_t.GTC_STREAM_STOP.toNat])
            ∧ g1.msg_write = gtv.msg_write
            ∧ g1.state = .GTV_SUSPENDING)
      ∧ (gtv.state = .GTV_WAITING ∨ gtv.state = .GTV_READING →
          gtv.stream.send.size < gtv.stream.send.data.length + (3 + gtv.msg_write.length) →
          ∃ m1 : mvd_t,
            parse_stream_data P now gtv (some m) (stream_data_msg b)
                = .error (.gtv_destroyed (some m1) .send_overflow)
              ∧ m1.delay.data = []
              ∧ m1.delay.size = m.delay.size
              ∧ m1.state = .MVD_WAITING
              ∧ m1.overflows = m.overflows + 1)
      ∧ (gtv.state = .GTV_SUSPENDING →
          parse_stream_data P now gtv (some m) (stream_data_msg b)
            = .ok (gtv, some m,
                   { stream_data_msg b with readcount := (stream_data_msg b).cursize })) := by
  refine ⟨?_, ?_, ?_⟩
  · intro hg hroom
    have hov := parse_stream_data_overflow P now gtv m b hg hm hb hnofit
    rw [write_message_fits now { gtv with state := .GTV_READING } _ _ _ hroom] at hov
    refine ⟨_, _, hov, rfl, rfl, rfl, rfl, rfl, ?_, rfl, rfl⟩
    intro hw
    show gtv.stream.send.data ++ _ = _
    rw [hw]
    rfl
  · intro hg hfull
    have hov := parse_stream_data_overflow P now gtv m b hg hm hb hnofit
    rw [write_message_overflow now { gtv with state := .GTV_READING } _ _ _ hfull] at hov
    exact ⟨_, hov, rfl, rfl, rfl, rfl⟩
  · intro hg
    exact parse_stream_data_suspending P now gtv (some m) _ hg

/-- C7 (amended), at a concrete input: `chan_full` overflows while
`upstream_reading` has an empty send buffer. -/
theorem C7_overflow_in_reading_witness :
    ∃ (g1 : gtv_t) (m1 : mvd_t),
      parse_stream_data parser_keep 0 upstream_reading (some chan_full) (stream_data_msg [1])
          = .ok (g1, some m1, stream_data_msg [1])
        ∧ m1.delay.data = []
        ∧ m1.delay.size = chan_full.delay.size
        ∧ m1.state = .MVD_WAITING
        ∧ m1.overflows = chan_full.overflows + 1
        ∧ g1.stream.send.data
            = upstream_reading.stream.send.data
                ++ ([(upstream_reading.msg_write.length + 1) % 256,
                     (upstream_reading.msg_write.length + 1) / 256 % 256,
                     gtv_clientop_t.GTC_STREAM_STOP.toNat] ++ upstream_reading.msg_write)
        ∧ (upstream_reading.msg_write = [] →
            g1.stream.send.data
              = upstream_reading.stream.send.data
                  ++ [1, 0, gtv_clientop_t.GTC_STREAM_STOP.toNat])
        ∧ g1.msg_write = upstream_reading.msg_write
        ∧ g1.state = .GTV_SUSPENDING :=
  (C7_overflow_in_reading parser_keep 0 upstream_reading chan_full [1] rfl (by decide)
    (bodies_96_nofit chan_full.delay.size chan_full.delay.data rfl rfl)).1
    (Or.inr rfl) (by decide)

/-- C8 (counterexample).  The claim promises that the Upstream is destroyed
whenever a non-empty body does not fit in the delay buffer of a Channel in
Waiting.  Here the Channel is in Waiting and full, the body does not fit, and
the Upstream is Suspending: `parse_stream_data` discards the body and returns,
the Upstream is kept. -/
theorem C8_counterexample_ignored_while_suspending :
    chan_full_waiting.state = .MVD_WAITING
      ∧ (FIFO_Write chan_full_waiting.delay none (([1] : List Nat).length + 2)).2
          ≠ ([1] : List Nat).length + 2
      ∧ parse_stream_data parser_keep 0 upstream_suspending (some chan_full_waiting)
          (stream_data_msg [1])
          = .ok (upstream_suspending, some chan_full_waiting,
                 { stream_data_msg [1] with readcount := 2 }) :=
  ⟨rfl, bodies_96_nofit chan_full_waiting.delay.size chan_full_waiting.delay.data rfl rfl,
    rfl⟩

/-- C8 (amended).  The Channel is in Waiting and a non-empty STREAM_DATA body
does not fit in its delay buffer.  With the Upstream not in Suspending, the
Upstream is destroyed; the delay buffer is not cleared and no stop is requested
(the Channel survives as it was); for an Upstream in Waiting or Reading the
reason is the overflow in waiting state.  With the Upstream in Suspending the
body is discarded: Upstream and Channel stay as they are. -/
theorem C8_overflow_in_waiting (P : Parser) (now : Nat) (gtv : gtv_t) (m : mvd_t)
    (b : List Nat)
    (hm : m.state = .MVD_WAITING) (hb : 1 ≤ b.length)
    (hnofit : (FIFO_Write m.delay none (b.length + 2)).2 ≠ b.length + 2) :
    (gtv.state ≠ .GTV_SUSPENDING →
        ∃ why : Reason,
          parse_stream_data P now gtv (some m) (stream_data_msg b)
              = .error (.gtv_destroyed (some m) why)
            ∧ (gtv.state = .GTV_WAITING ∨ gtv.state = .GTV_READING →
                why = .delay_overflow_waiting))
      ∧ (gtv.state = .GTV_SUSPENDING →
          parse_stream_data P now gtv (some m) (stream_data_msg b)
            = .ok (gtv, some m,
                   { stream_data_msg b with readcount := (stream_data_msg b).cursize })) := by
  refine ⟨?_, ?_⟩
  · intro hg
    by_cases hlow : gtv.state.toNat < gtv_state_t.GTV_WAITING.toNat
    · refine ⟨.unexpected_stream_data, ?_, ?_⟩
      · unfold parse_stream_data
        rw [if_pos hlow]
        simp [gtv_destroyf, gtv_destroy, hm]
      · intro h
        rcases h with h | h <;> rw [h] at hlow <;> exact absurd hlow (by decide)
    · exact ⟨.delay_overflow_waiting,
        parse_stream_data_overflow_waiting P now gtv m b (gtv_state_streaming _ hlow hg) hm hb
          hnofit,
        fun _ => rfl⟩
  · intro hg
    exact parse_stream_data_suspending P now gtv (some m) _ hg

/-- C8 (amended), at a concrete input: `chan_full_waiting` overflows while the
Upstream is in Reading. -/
theorem C8_overflow_in_waiting_witness :
    ∃ why : Reason,
      parse_stream_data parser_keep 0 upstream_reading (some chan_full_waiting)
          (stream_data_msg [1])
          = .error (.gtv_destroyed (some chan_full_waiting) why)
        ∧ (upstream_reading.state = .GTV_WAITING ∨ upstream_reading.state = .GTV_READING →
            why = .delay_overflow_waiting) :=
  (C8_overflow_in_waiting parser_keep 0 upstream_reading chan_full_waiting [1] rfl
    (by decide)
    (bodies_96_nofit chan_full_waiting.delay.size chan_full_waiting.delay.data rfl rfl)).1
    (by decide)

/-- C9 (code bug).  The claim: whenever `gtv_read_frame` gets past its state
check, the delay buffer holds a complete record, so the destroy branches
after it are unreachable.  After the overflow of `chan_full` (see C1, same
defect) the Channel is in Waiting with an empty delay buffer and
`num_packets` 96, which is at least `min_packets` (50): `gtv_wait_stop`
returns true, and `gtv_read_frame` destroys the Channel in its first
"partial data" branch. -/
theorem C9_read_frame_destroys_after_overflow :
    parse_stream_data parser_keep 0 upstream_reading (some chan_full) (stream_data_msg [1])
        = .ok (upstream_overflowed 0, some chan_overflowed, stream_data_msg [1])
      ∧ gtv_wait_stop cfg_default chan_overflowed
          = ({ chan_overflowed with state := .MVD_READING }, true)
      ∧ gtv_read_frame cfg_default parser_keep 1 chan_overflowed (some (upstream_overflowed 0))
          = .error (.mvd_destroyed .incomplete_data) :=
  ⟨chan_full_overflow 0, rfl, rfl⟩

/-- C10.  For a Channel in Reading with `num_packets >= 1` whose delay buffer
holds the valid records `r :: rs`, `gtv_read_frame` reaches the parser call
with the first record removed from the delay buffer, `num_packets`
decremented by one and every other field of the Channel unchanged; the parser
is called once, on the payload `r`; when the parser returns, `gtv_read_frame`
returns true (the parser, an external function, may instead leave through
`MVD_Destroyf`). -/
theorem C10_read_frame_pops_one_record (cfg : Config) (P : Parser) (now : Nat) (mvd : mvd_t)
    (gtv : Option gtv_t) (r : List Nat) (rs : List (List Nat))
    (hstate : mvd.state = .MVD_READING)
    (hnum : 1 ≤ mvd.num_packets)
    (hd : mvd.delay.data = encode_records (r :: rs))
    (hv : ∀ x ∈ r :: rs, valid_payload cfg x) :
    gtv_read_frame cfg P now mvd gtv =
        (match P { mvd with delay := { mvd.delay with data := encode_records rs },
                            num_packets := mvd.num_packets - 1 }
                 { data := r, cursize := r.length, readcount := 0 } with
         | none => MVD_Destroyf .parser_abort
         | some (st, _) =>
           .ok { mvd := { mvd with delay := { mvd.delay with data := encode_records rs },
                                   num_packets := mvd.num_packets - 1, state := st },
                 gtv := gtv, ret := true,
                 parsed := [{ data := r, cursize := r.length, readcount := 0 }] })
      ∧ delay_records mvd.delay = r :: rs
      ∧ delay_records { mvd.delay with data := encode_records rs } = rs := by
  refine ⟨?_, ?_, ?_⟩
  · have hbody : gtv_read_frame cfg P now mvd gtv = gtv_read_frame_body cfg P mvd gtv := by
      unfold gtv_read_frame
      rw [hstate]
      simp only
      rw [if_neg (by omega)]
    rw [hbody]
    exact gtv_read_frame_body_record cfg P mvd gtv r (encode_records rs) hd (hv r (by simp))
  · exact delay_records_encode mvd.delay (r :: rs) hd (fun x hx => (hv x hx).2.2)
  · exact delay_records_encode _ rs rfl (fun x hx => (hv x (by simp [hx])).2.2)

/-- C10, at a concrete input: the Channel `chan_one` holds the single record
[5, 6]. -/
theorem C10_read_frame_pops_one_record_witness :
    gtv_read_frame cfg_default parser_keep 0 chan_one (some upstream_reading) =
        .ok { mvd := { chan_one with delay := { data := [], size := 3 * 32768 },
                                     num_packets := 0 },
              gtv := some upstream_reading, ret := true,
              parsed := [{ data := [5, 6], cursize := 2, readcount := 0 }] }
      ∧ delay_records chan_one.delay = [[5, 6]]
      ∧ delay_records { chan_one.delay with data := encode_records [] } = [] :=
  C10_read_frame_pops_one_record cfg_default parser_keep 0 chan_one (some upstream_reading)
    [5, 6] [] rfl (by decide) rfl (by decide)

/-! ## Helper lemmas: keep-alive and drops -/

theorem connected_send_full_length :
    upstream_connected_send_full.stream.send.data.length = 254 := by
  simp only [upstream_connected_send_full, List.length_replicate]

theorem gtv_drop_backoff_below (cfg : Config) (now : Nat) (g : gtv_t)
    (hs : g.stream.state.toNat < netstate_t.NS_CONNECTED.toNat)
    (hb : g.retry_backoff ≤ GTV_MAXIMUM_BACKOFF) :
    (gtv_drop cfg now g).retry_backoff = min (g.retry_backoff + 15 * 1000) GTV_MAXIMUM_BACKOFF := by
  have hM : GTV_MAXIMUM_BACKOFF = 18000000 := rfl
  rw [hM] at hb ⊢
  have hmod : (g.retry_backoff + 15 * 1000) % 2 ^ 32 = g.retry_backoff + 15 * 1000 :=
    Nat.mod_eq_of_lt (by norm_num; omega)
  simp only [gtv_drop, if_pos hs, hmod, hM]
  split <;> omega

theorem gtv_drop_backoff_early (cfg : Config) (now : Nat) (g : gtv_t)
    (hs : netstate_t.NS_CONNECTED.toNat ≤ g.stream.state.toNat)
    (hg : g.state.toNat < gtv_state_t.GTV_CONNECTED.toNat)
    (hb : g.retry_backoff ≤ GTV_MAXIMUM_BACKOFF) :
    (gtv_drop cfg now g).retry_backoff = min (g.retry_backoff + 30 * 1000) GTV_MAXIMUM_BACKOFF := by
  have hM : GTV_MAXIMUM_BACKOFF = 18000000 := rfl
  rw [hM] at hb ⊢
  have hmod : (g.retry_backoff + 30 * 1000) % 2 ^ 32 = g.retry_backoff + 30 * 1000 :=
    Nat.mod_eq_of_lt (by norm_num; omega)
  have h1 : ¬ g.stream.state.toNat < netstate_t.NS_CONNECTED.toNat := by omega
  have h2 : ¬ g.state.toNat ≥ gtv_state_t.GTV_CONNECTED.toNat := by omega
  simp only [gtv_drop, if_neg h1, if_neg h2, hmod, hM]
  split <;> omega

theorem gtv_drop_backoff_connected (cfg : Config) (now : Nat) (g : gtv_t)
    (hs : netstate_t.NS_CONNECTED.toNat ≤ g.stream.state.toNat)
    (hg : gtv_state_t.GTV_CONNECTED.toNat ≤ g.state.toNat) :
    (gtv_drop cfg now g).retry_backoff = GTV_DEFAULT_BACKOFF := by
  have h1 : ¬ g.stream.state.toNat < netstate_t.NS_CONNECTED.toNat := by omega
  have h2 : g.state.toNat ≥ gtv_state_t.GTV_CONNECTED.toNat := hg
  simp only [gtv_drop, if_neg h1, if_pos h2]
  decide

theorem gtv_drop_backoff_le (cfg : Config) (now : Nat) (g : gtv_t) :
    (gtv_drop cfg now g).retry_backoff ≤ GTV_MAXIMUM_BACKOFF := by
  have clamp : ∀ x m : Nat, (if x > m then m else x) ≤ m := by
    intro x m
    split <;> omega
  simp only [gtv_drop]
  exact clamp _ _

theorem gtv_drop_retry_time (cfg : Config) (now : Nat) (g : gtv_t) :
    (gtv_drop cfg now g).retry_time = now := rfl

theorem parse_hello_ok (cfg : Config) (g : gtv_t) (mvd : Option mvd_t) (msg : sizebuf_t)
    (g1 : gtv_t) (m1 : sizebuf_t) (h : parse_hello cfg g mvd msg = .ok (g1, m1)) :
    g.state.toNat < gtv_state_t.GTV_CONNECTED.toNat ∧ g1.state = .GTV_CONNECTED
      ∧ g1.flags = (MSG_ReadLong msg).1 ∧ m1 = (MSG_ReadLong msg).2
      ∧ g1.stream = g.stream ∧ g1.retry_backoff = g.retry_backoff
      ∧ ((MSG_ReadLong msg).1 &&& cfg.GTF_DEFLATE = 0 ∨ cfg.USE_ZLIB = true) := by
  unfold parse_hello at h
  by_cases hdup : g.state.toNat ≥ gtv_state_t.GTV_CONNECTED.toNat
  · rw [if_pos hdup] at h
    exact absurd h (by simp [gtv_destroyf])
  · rw [if_neg hdup] at h
    refine ⟨by omega, ?_⟩
    by_cases hd : (MSG_ReadLong msg).1 &&& cfg.GTF_DEFLATE ≠ 0
    · by_cases hz : cfg.USE_ZLIB = true
      · simp only [if_pos hd, if_pos hz, Except.ok.injEq, Prod.mk.injEq] at h
        obtain ⟨rfl, rfl⟩ := h
        exact ⟨rfl, rfl, rfl, rfl, rfl, Or.inr hz⟩
      · simp only [if_pos hd, if_neg hz] at h
        exact absurd h (by simp [gtv_destroyf])
    · simp only [if_neg hd, Except.ok.injEq, Prod.mk.injEq] at h
      obtain ⟨rfl, rfl⟩ := h
      exact ⟨rfl, rfl, rfl, rfl, rfl, Or.inl (not_not.mp hd)⟩

theorem parse_hello_accept (cfg : Config) (g : gtv_t) (mvd : Option mvd_t) (msg : sizebuf_t)
    (hlow : g.state.toNat < gtv_state_t.GTV_CONNECTED.toNat)
    (hz : (MSG_ReadLong msg).1 &&& cfg.GTF_DEFLATE = 0 ∨ cfg.USE_ZLIB = true) :
    ∃ g1 : gtv_t, parse_hello cfg g mvd msg = .ok (g1, (MSG_ReadLong msg).2)
      ∧ g1.state = .GTV_CONNECTED ∧ g1.flags = (MSG_ReadLong msg).1 := by
  unfold parse_hello
  rw [if_neg (by omega)]
  by_cases hd : (MSG_ReadLong msg).1 &&& cfg.GTF_DEFLATE ≠ 0
  · have hzl : cfg.USE_ZLIB = true := by
      rcases hz with h | h
      · exact absurd h hd
      · exact h
    simp only [if_pos hd, if_pos hzl]
    exact ⟨_, rfl, rfl, rfl⟩
  · simp only [if_neg hd]
    exact ⟨_, rfl, rfl, rfl⟩

theorem MSG_ReadLong_hello (body : List Nat) :
    MSG_ReadLong (⟨0 :: body, body.length + 1, 1⟩ : sizebuf_t)
      = (if 4 ≤ body.length then le32_value body else 2 ^ 32 - 1,
         (⟨0 :: body, body.length + 1, 5⟩ : sizebuf_t)) := by
  unfold MSG_ReadLong
  by_cases h : 4 ≤ body.length
  · have h1 : ¬ (1 + 4 > body.length + 1) := by omega
    simp [h, h1]
  · have h1 : 1 + 4 > body.length + 1 := by omega
    simp [h, h1]

/-! ## Helper lemmas: what the operations keep -/

theorem gtv_step_connected (a b : gtv_state_t) (h : gtv_step a b) (ha : 3 ≤ a.toNat) :
    3 ≤ b.toNat := by
  revert h ha
  cases a <;> cases b <;> decide

theorem gtv_step_ne (a b : gtv_state_t) (h : gtv_step a b) (ha : a ≠ .GTV_DISCONNECTED) :
    b ≠ .GTV_DISCONNECTED := by
  rcases h with h | h
  · rw [← h]
    exact ha
  · exact h.2

theorem gtv_path_of_step (a b : gtv_state_t) (h : gtv_step a b) : gtv_path a b := by
  rcases h with h | h
  · rw [h]
    exact Relation.ReflTransGen.refl
  · exact Relation.ReflTransGen.single h

theorem gtv_path_trans (a b c : gtv_state_t) (h1 : gtv_path a b) (h2 : gtv_path b c) :
    gtv_path a c :=
  Relation.ReflTransGen.trans h1 h2

theorem Keeps_refl (g : gtv_t) : Keeps g g :=
  ⟨fun h => h, rfl, fun h => h, fun h => ⟨h, Relation.ReflTransGen.refl⟩⟩

theorem Keeps_trans (g g1 g2 : gtv_t) (h1 : Keeps g g1) (h2 : Keeps g1 g2) : Keeps g g2 := by
  obtain ⟨a1, b1, c1, d1⟩ := h1
  obtain ⟨a2, b2, c2, d2⟩ := h2
  refine ⟨fun h => a2 (a1 h), by rw [b2, b1], fun h => c2 (c1 h), fun h => ?_⟩
  obtain ⟨n1, p1⟩ := d1 h
  obtain ⟨n2, p2⟩ := d2 n1
  exact ⟨n2, gtv_path_trans _ _ _ p1 p2⟩

theorem Keeps_of_step (g g1 : gtv_t) (hs : g1.stream.state = g.stream.state)
    (hb : g1.retry_backoff = g.retry_backoff) (hst : gtv_step g.state g1.state) :
    Keeps g g1 :=
  ⟨fun h => by rw [hs]; exact h, hb, gtv_step_connected _ _ hst,
   fun h => ⟨gtv_step_ne _ _ hst h, gtv_path_of_step _ _ hst⟩⟩

theorem Sound_trans (cfg : Config) (now : Nat) (g g1 : gtv_t) {α : Type} (f : α → gtv_t)
    (r : Run α) (h1 : Keeps g g1) (h2 : Sound cfg now g1 f r) : Sound cfg now g f r := by
  cases r with
  | ok a => exact Keeps_trans _ _ _ h1 h2
  | error e =>
    cases e with
    | dropped g' m w =>
      obtain ⟨g2, hk, he⟩ := h2
      exact ⟨g2, Keeps_trans _ _ _ h1 hk, he⟩
    | gtv_destroyed m w => trivial
    | mvd_destroyed w => trivial
    | fault w => trivial


theorem Sound_intro (cfg : Config) (now : Nat) (g : gtv_t) {α : Type} (f : α → gtv_t)
    (r : Run α) (hok : ∀ a, r = .ok a → Keeps g (f a))
    (hdrop : ∀ g' m w, r = .error (.dropped g' m w) →
      ∃ g1 : gtv_t, Keeps g g1 ∧ g' = gtv_drop cfg now g1) :
    Sound cfg now g f r := by
  cases r with
  | ok a => exact hok a rfl
  | error e =>
    cases e with
    | dropped g' m w => exact hdrop g' m w rfl
    | gtv_destroyed m w => trivial
    | mvd_destroyed w => trivial
    | fault w => trivial

theorem Sound_ok (cfg : Config) (now : Nat) (g : gtv_t) {α : Type} (f : α → gtv_t)
    (r : Run α) (h : Sound cfg now g f r) (a : α) (hr : r = .ok a) : Keeps g (f a) := by
  subst hr
  exact h

theorem Sound_dropped (cfg : Config) (now : Nat) (g : gtv_t) {α : Type} (f : α → gtv_t)
    (r : Run α) (h : Sound cfg now g f r) (g' : gtv_t) (m : Option mvd_t) (w : Reason)
    (hr : r = .error (.dropped g' m w)) :
    ∃ g1 : gtv_t, Keeps g g1 ∧ g' = gtv_drop cfg now g1 := by
  subst hr
  exact h

theorem Sound_error (cfg : Config) (now : Nat) (g : gtv_t) {α β : Type} (f : α → gtv_t)
    (f2 : β → gtv_t) (e : Escape) (h : Sound cfg now g f (.error e)) :
    Sound cfg now g f2 (.error e) := by
  cases e with
  | dropped g' m w => exact h
  | gtv_destroyed m w => trivial
  | mvd_destroyed w => trivial
  | fault w => trivial

theorem Sound_destroyf (cfg : Config) (now : Nat) (g : gtv_t) {α : Type} (f : α → gtv_t)
    (mvd : Option mvd_t) (w : Reason) : Sound cfg now g f (gtv_destroyf mvd w) := trivial

theorem Sound_dropf (cfg : Config) (now : Nat) (g g1 : gtv_t) {α : Type} (f : α → gtv_t)
    (mvd : Option mvd_t) (w : Reason) (h : Keeps g g1) :
    Sound cfg now g f (gtv_dropf cfg now g1 mvd w) := ⟨g1, h, rfl⟩

theorem write_stream_sound (cfg : Config) (now : Nat) (g : gtv_t) (mvd : Option mvd_t)
    (data : List Nat) : Sound cfg now g id (write_stream now g mvd data) := by
  unfold write_stream
  split
  · exact Sound_destroyf _ _ _ _ _ _
  · exact Keeps_of_step _ _ rfl rfl (Or.inl rfl)

theorem write_message_sound (cfg : Config) (now : Nat) (g : gtv_t) (mvd : Option mvd_t)
    (op : gtv_clientop_t) (p : List Nat) :
    Sound cfg now g id (write_message now g mvd op p) := by
  unfold write_message
  simp only []
  have h1 := write_stream_sound cfg now g mvd
    [(p.length + 1) % 256, (p.length + 1) / 256 % 256, op.toNat % 256]
  cases hr : write_stream now g mvd
      [(p.length + 1) % 256, (p.length + 1) / 256 % 256, op.toNat % 256] with
  | error e =>
    rw [hr] at h1
    exact h1
  | ok g1 =>
    rw [hr] at h1
    exact Sound_trans _ _ _ _ _ _ h1 (write_stream_sound cfg now g1 mvd p)

theorem write_message_state (now : Nat) (g : gtv_t) (mvd : Option mvd_t)
    (op : gtv_clientop_t) (p : List Nat) (g1 : gtv_t)
    (h : write_message now g mvd op p = .ok g1) :
    g1.state = g.state ∧ g1.stream.state = g.stream.state
      ∧ g1.retry_backoff = g.retry_backoff ∧ g1.last_sent = now := by
  by_cases hf : g.stream.send.data.length + (3 + p.length) ≤ g.stream.send.size
  · rw [write_message_fits now g mvd op p hf] at h
    simp only [Except.ok.injEq] at h
    subst h
    exact ⟨rfl, rfl, rfl, rfl⟩
  · rw [write_message_overflow now g mvd op p (by omega)] at h
    exact absurd h (by simp [gtv_destroyf])

theorem write_message_error (now : Nat) (g : gtv_t) (mvd : Option mvd_t)
    (op : gtv_clientop_t) (p : List Nat) (e : Escape)
    (h : write_message now g mvd op p = .error e) :
    e = .gtv_destroyed (gtv_destroy mvd) .send_overflow := by
  by_cases hf : g.stream.send.data.length + (3 + p.length) ≤ g.stream.send.size
  · rw [write_message_fits now g mvd op p hf] at h
    exact absurd h (by simp)
  · rw [write_message_overflow now g mvd op p (by omega)] at h
    simp only [gtv_destroyf, Except.error.injEq] at h
    exact h.symm

theorem send_hello_ok (cfg : Config) (now : Nat) (g : gtv_t) (mvd : Option mvd_t) (g1 : gtv_t)
    (h : send_hello cfg now g mvd = .ok g1) :
    g1.state = .GTV_PREPARING ∧ g1.stream.state = g.stream.state
      ∧ g1.retry_backoff = g.retry_backoff := by
  unfold send_hello at h
  simp only [] at h
  split at h
  · exact absurd h (by simp)
  · rename_i g2 hr
    simp only [Except.ok.injEq] at h
    subst h
    obtain ⟨-, h2, h3, -⟩ := write_message_state now _ mvd _ _ g2 hr
    exact ⟨rfl, h2, h3⟩

theorem send_hello_error (cfg : Config) (now : Nat) (g : gtv_t) (mvd : Option mvd_t)
    (e : Escape) (h : send_hello cfg now g mvd = .error e) :
    e = .gtv_destroyed (gtv_destroy mvd) .send_overflow := by
  unfold send_hello at h
  simp only [] at h
  split at h
  · rename_i e1 hr
    simp only [Except.error.injEq] at h
    subst h
    exact write_message_error now _ mvd _ _ _ hr
  · exact absurd h (by simp)

theorem send_stream_start_ok (cfg : Config) (now : Nat) (g : gtv_t) (mvd : Option mvd_t)
    (g1 : gtv_t) (h : send_stream_start cfg now g mvd = .ok g1) :
    g1.state = .GTV_RESUMING ∧ g1.stream.state = g.stream.state
      ∧ g1.retry_backoff = g.retry_backoff ∧ g1.last_sent = now := by
  unfold send_stream_start at h
  simp only [] at h
  split at h
  · exact absurd h (by simp)
  · rename_i g2 hr
    simp only [Except.ok.injEq] at h
    subst h
    obtain ⟨-, h2, h3, h4⟩ := write_message_state now _ mvd _ _ g2 hr
    exact ⟨rfl, h2, h3, h4⟩

theorem send_stream_start_error (cfg : Config) (now : Nat) (g : gtv_t) (mvd : Option mvd_t)
    (e : Escape) (h : send_stream_start cfg now g mvd = .error e) :
    e = .gtv_destroyed (gtv_destroy mvd) .send_overflow := by
  unfold send_stream_start at h
  simp only [] at h
  split at h
  · rename_i e1 hr
    simp only [Except.error.injEq] at h
    subst h
    exact write_message_error now _ mvd _ _ _ hr
  · exact absurd h (by simp)

theorem send_stream_stop_ok (now : Nat) (g : gtv_t) (mvd : Option mvd_t)
    (g1 : gtv_t) (h : send_stream_stop now g mvd = .ok g1) :
    g1.state = .GTV_SUSPENDING ∧ g1.stream.state = g.stream.state
      ∧ g1.retry_backoff = g.retry_backoff ∧ g1.last_sent = now := by
  unfold send_stream_stop at h
  by_cases hf : g.stream.send.data.length + (3 + g.msg_write.length) ≤ g.stream.send.size
  · rw [write_message_fits now g mvd _ _ hf] at h
    simp only [Except.ok.injEq] at h
    subst h
    exact ⟨rfl, rfl, rfl, rfl⟩
  · rw [write_message_overflow now g mvd _ _ (by omega)] at h
    exact absurd h (by simp [gtv_destroyf])

theorem send_stream_stop_error (now : Nat) (g : gtv_t) (mvd : Option mvd_t)
    (e : Escape) (h : send_stream_stop now g mvd = .error e) :
    e = .gtv_destroyed (gtv_destroy mvd) .send_overflow := by
  unfold send_stream_stop at h
  by_cases hf : g.stream.send.data.length + (3 + g.msg_write.length) ≤ g.stream.send.size
  · rw [write_message_fits now g mvd _ _ hf] at h
    exact absurd h (by simp)
  · rw [write_message_overflow now g mvd _ _ (by omega)] at h
    simp only [gtv_destroyf, Except.error.injEq] at h
    exact h.symm

theorem parse_hello_error (cfg : Config) (g : gtv_t) (mvd : Option mvd_t) (msg : sizebuf_t)
    (e : Escape) (h : parse_hello cfg g mvd msg = .error e) :
    ∃ w, e = .gtv_destroyed (gtv_destroy mvd) w := by
  unfold parse_hello at h
  simp only [gtv_destroyf] at h
  split at h
  · exact ⟨_, (Except.error.inj h).symm⟩
  · split at h
    · split at h
      · exact absurd h (by simp)
      · exact ⟨_, (Except.error.inj h).symm⟩
    · exact absurd h (by simp)

theorem parse_stream_start_ok (cfg : Config) (g : gtv_t) (mvd : Option mvd_t) (g1 : gtv_t)
    (m1 : Option mvd_t) (h : parse_stream_start cfg g mvd = .ok (g1, m1)) :
    g.state = .GTV_RESUMING ∧ g1 = { g with state := .GTV_READING } := by
  unfold parse_stream_start at h
  split at h
  · exact absurd h (by simp [gtv_destroyf])
  · rename_i hs
    simp only [Except.ok.injEq, Prod.mk.injEq] at h
    exact ⟨not_not.mp hs, h.1.symm⟩

theorem parse_stream_start_error (cfg : Config) (g : gtv_t) (mvd : Option mvd_t) (e : Escape)
    (h : parse_stream_start cfg g mvd = .error e) :
    ∃ w, e = .gtv_destroyed (gtv_destroy mvd) w := by
  unfold parse_stream_start at h
  split at h
  · exact ⟨_, (Except.error.inj h).symm⟩
  · exact absurd h (by simp)

theorem parse_stream_stop_ok (g : gtv_t) (mvd : Option mvd_t) (g1 : gtv_t)
    (h : parse_stream_stop g mvd = .ok g1) :
    g.state = .GTV_SUSPENDING ∧ g1 = { g with state := .GTV_CONNECTED } := by
  unfold parse_stream_stop at h
  split at h
  · exact absurd h (by simp [gtv_destroyf])
  · rename_i hs
    simp only [Except.ok.injEq] at h
    exact ⟨not_not.mp hs, h.symm⟩

theorem parse_stream_stop_error (g : gtv_t) (mvd : Option mvd_t) (e : Escape)
    (h : parse_stream_stop g mvd = .error e) :
    ∃ w, e = .gtv_destroyed (gtv_destroy mvd) w := by
  unfold parse_stream_stop at h
  split at h
  · exact ⟨_, (Except.error.inj h).symm⟩
  · exact absurd h (by simp)

theorem gtv_step_of_eq (a b c : gtv_state_t) (h : gtv_step b c) (hab : a = b) : gtv_step a c := by
  rw [hab]
  exact h

theorem parse_stream_data_ok (P : Parser) (now : Nat) (g : gtv_t) (mvd : Option mvd_t)
    (msg : sizebuf_t) (g1 : gtv_t) (m1 : Option mvd_t) (msg1 : sizebuf_t)
    (h : parse_stream_data P now g mvd msg = .ok (g1, m1, msg1)) :
    gtv_step g.state g1.state ∧ g1.stream.state = g.stream.state
      ∧ g1.retry_backoff = g.retry_backoff := by
  have hstates : ∀ st : gtv_state_t, ¬ st.toNat < gtv_state_t.GTV_WAITING.toNat →
      st ≠ .GTV_SUSPENDING → st = .GTV_WAITING ∨ st = .GTV_READING := by
    intro st
    cases st <;> decide
  unfold parse_stream_data at h
  split at h
  · exact absurd h (by simp [gtv_destroyf])
  · rename_i hlow
    split at h
    · simp only [Except.ok.injEq, Prod.mk.injEq] at h
      obtain ⟨rfl, -, -⟩ := h
      exact ⟨Or.inl rfl, rfl, rfl⟩
    · rename_i hsus
      have hwr := hstates g.state hlow hsus
      split at h
      · simp only [Except.ok.injEq, Prod.mk.injEq] at h
        obtain ⟨rfl, -, -⟩ := h
        split
        · rename_i hr
          exact ⟨by rw [hr]; exact (by decide : gtv_step .GTV_READING .GTV_WAITING), rfl, rfl⟩
        · exact ⟨Or.inl rfl, rfl, rfl⟩
      · have hg1 : gtv_step g.state
            (if g.state = .GTV_WAITING then { g with state := .GTV_READING } else g).state
            ∧ (if g.state = .GTV_WAITING then
                { g with state := .GTV_READING } else g).stream.state = g.stream.state
            ∧ (if g.state = .GTV_WAITING then
                { g with state := .GTV_READING } else g).retry_backoff = g.retry_backoff := by
          split
          · rename_i hw
            exact ⟨by rw [hw]; exact (by decide : gtv_step .GTV_WAITING .GTV_READING), rfl, rfl⟩
          · exact ⟨Or.inl rfl, rfl, rfl⟩
        simp only [] at h
        split at h
        · exact absurd h (by simp)
        · split at h
          · split at h
            · exact absurd h (by simp [MVD_Destroyf])
            · simp only [Except.ok.injEq, Prod.mk.injEq] at h
              obtain ⟨rfl, -, -⟩ := h
              exact hg1
          · split at h
            · split at h
              · exact absurd h (by simp [gtv_destroyf])
              · split at h
                · exact absurd h (by simp)
                · rename_i g2 hw
                  simp only [Except.ok.injEq, Prod.mk.injEq] at h
                  obtain ⟨rfl, -, -⟩ := h
                  obtain ⟨-, h2, h3, -⟩ := write_message_state now _ _ _ _ g2 hw
                  refine ⟨?_, by rw [h2]; exact hg1.2.1, by rw [h3]; exact hg1.2.2⟩
                  rcases hwr with hx | hx
                  · rw [hx]
                    exact (by decide : gtv_step .GTV_WAITING .GTV_SUSPENDING)
                  · rw [hx]
                    exact (by decide : gtv_step .GTV_READING .GTV_SUSPENDING)
            · simp only [Except.ok.injEq, Prod.mk.injEq] at h
              obtain ⟨rfl, -, -⟩ := h
              exact hg1

theorem parse_stream_data_error (P : Parser) (now : Nat) (g : gtv_t) (mvd : Option mvd_t)
    (msg : sizebuf_t) (e : Escape) (h : parse_stream_data P now g mvd msg = .error e) :
    ∀ g' m w, e ≠ .dropped g' m w := by
  intro g' m w he
  subst he
  unfold parse_stream_data at h
  simp only [gtv_destroyf, MVD_Destroyf] at h
  split at h
  · exact absurd h (by simp)
  · split at h
    · exact absurd h (by simp)
    · split at h
      · exact absurd h (by simp)
      · split at h
        · exact absurd h (by simp)
        · split at h
          · split at h
            · exact absurd h (by simp)
            · exact absurd h (by simp)
          · split at h
            · split at h
              · exact absurd h (by simp)
              · split at h
                · rename_i e1 hw
                  have := write_message_error now _ _ _ _ _ hw
                  rw [this] at h
                  exact absurd h (by simp)
                · exact absurd h (by simp)
            · exact absurd h (by simp)

theorem preparing_of_bounds (st : gtv_state_t) (h1 : 2 ≤ st.toNat)
    (h2 : st.toNat < gtv_state_t.GTV_CONNECTED.toNat) : st = .GTV_PREPARING := by
  revert h1 h2
  cases st <;> decide

theorem parse_message_cmd_ok (cfg : Config) (P : Parser) (now : Nat) (g : gtv_t)
    (mvd : Option mvd_t) (msg : sizebuf_t) (g1 : gtv_t) (m1 : Option mvd_t)
    (hst : 2 ≤ g.state.toNat)
    (h : parse_message_cmd cfg P now g mvd msg = .ok (g1, m1)) :
    gtv_step g.state g1.state ∧ g1.stream.state = g.stream.state
      ∧ g1.retry_backoff = g.retry_backoff := by
  unfold parse_message_cmd at h
  simp only [] at h
  split at h
  · exact absurd h (by simp)
  · rename_i g2 c m hafter
    split at h
    · exact absurd h (by simp [gtv_destroyf])
    · simp only [Except.ok.injEq, Prod.mk.injEq] at h
      obtain ⟨rfl, -⟩ := h
      show gtv_step g.state g2.state ∧ g2.stream.state = g.stream.state
        ∧ g2.retry_backoff = g.retry_backoff
      split at hafter
      · split at hafter
        · exact absurd hafter (by simp)
        · rename_i g3 m3 hp
          simp only [Except.ok.injEq, Prod.mk.injEq] at hafter
          obtain ⟨rfl, -, -⟩ := hafter
          obtain ⟨hlow, hs, -, -, hstream, hback, -⟩ := parse_hello_ok cfg g mvd _ g3 m3 hp
          refine ⟨?_, by rw [hstream], hback⟩
          rw [hs, preparing_of_bounds g.state hst hlow]
          exact (by decide : gtv_step .GTV_PREPARING .GTV_CONNECTED)
      · simp only [Except.ok.injEq, Prod.mk.injEq] at hafter
        obtain ⟨rfl, -, -⟩ := hafter
        exact ⟨Or.inl rfl, rfl, rfl⟩
      · split at hafter
        · exact absurd hafter (by simp)
        · rename_i g3 c3 hp
          simp only [Except.ok.injEq, Prod.mk.injEq] at hafter
          obtain ⟨rfl, -, -⟩ := hafter
          obtain ⟨hs, hg⟩ := parse_stream_start_ok cfg g mvd g3 c3 hp
          subst hg
          refine ⟨?_, rfl, rfl⟩
          rw [hs]
          exact (by decide : gtv_step .GTV_RESUMING .GTV_READING)
      · split at hafter
        · exact absurd hafter (by simp)
        · rename_i g3 hp
          simp only [Except.ok.injEq, Prod.mk.injEq] at hafter
          obtain ⟨rfl, -, -⟩ := hafter
          obtain ⟨hs, hg⟩ := parse_stream_stop_ok g mvd g3 hp
          subst hg
          refine ⟨?_, rfl, rfl⟩
          rw [hs]
          exact (by decide : gtv_step .GTV_SUSPENDING .GTV_CONNECTED)
      · exact parse_stream_data_ok P now g mvd _ g2 c m hafter
      · exact absurd hafter (by simp [gtv_destroyf])
      · exact absurd hafter (by simp [gtv_destroyf])
      · exact absurd hafter (by simp [gtv_destroyf])
      · exact absurd hafter (by simp [gtv_destroyf])
      · exact absurd hafter (by simp [gtv_dropf])
      · exact absurd hafter (by simp [gtv_destroyf])

theorem parse_message_cmd_dropped (cfg : Config) (P : Parser) (now : Nat) (g : gtv_t)
    (mvd : Option mvd_t) (msg : sizebuf_t) (g' : gtv_t) (m' : Option mvd_t) (w : Reason)
    (h : parse_message_cmd cfg P now g mvd msg = .error (.dropped g' m' w)) :
    g' = gtv_drop cfg now g ∧ w = .server_restarted := by
  unfold parse_message_cmd at h
  simp only [] at h
  split at h
  · rename_i e hafter
    simp only [Except.error.injEq] at h
    subst h
    split at hafter
    · split at hafter
      · rename_i e1 hp
        obtain ⟨w1, hw1⟩ := parse_hello_error cfg g mvd _ e1 hp
        rw [hw1] at hafter
        exact absurd hafter (by simp)
      · exact absurd hafter (by simp)
    · exact absurd hafter (by simp)
    · split at hafter
      · rename_i e1 hp
        obtain ⟨w1, hw1⟩ := parse_stream_start_error cfg g mvd e1 hp
        rw [hw1] at hafter
        exact absurd hafter (by simp)
      · exact absurd hafter (by simp)
    · split at hafter
      · rename_i e1 hp
        obtain ⟨w1, hw1⟩ := parse_stream_stop_error g mvd e1 hp
        rw [hw1] at hafter
        exact absurd hafter (by simp)
      · exact absurd hafter (by simp)
    · exact absurd rfl (parse_stream_data_error P now g mvd _ _ hafter g' m' w)
    · exact absurd hafter (by simp [gtv_destroyf])
    · exact absurd hafter (by simp [gtv_destroyf])
    · exact absurd hafter (by simp [gtv_destroyf])
    · exact absurd hafter (by simp [gtv_destroyf])
    · simp only [gtv_dropf, Except.error.injEq, Escape.dropped.injEq] at hafter
      exact ⟨hafter.1.symm, hafter.2.2.symm⟩
    · exact absurd hafter (by simp [gtv_destroyf])
  · split at h
    · exact absurd h (by simp [gtv_destroyf])
    · exact absurd h (by simp)

theorem setFifo_keeps (gtv : gtv_t) (sel : fifo_sel) (f : fifo_t) :
    (gtv.setFifo sel f).state = gtv.state
      ∧ (gtv.setFifo sel f).stream.state = gtv.stream.state
      ∧ (gtv.setFifo sel f).retry_backoff = gtv.retry_backoff := by
  cases sel <;> exact ⟨rfl, rfl, rfl⟩

theorem parse_message_magic_ok (cfg : Config) (now : Nat) (g : gtv_t) (mvd : Option mvd_t)
    (sel : fifo_sel) (g1 : gtv_t) (h : parse_message_magic cfg now g mvd sel = .ok (some g1)) :
    2 ≤ g1.state.toNat ∧ g1.stream.state = g.stream.state
      ∧ g1.retry_backoff = g.retry_backoff
      ∧ (g1.state = g.state ∨ (g.state.toNat < 2 ∧ g1.state = .GTV_PREPARING)) := by
  unfold parse_message_magic at h
  split at h
  · rename_i hlow
    split at h
    · exact absurd h (by simp)
    · split at h
      · exact absurd h (by simp [gtv_destroyf])
      · split at h
        · exact absurd h (by simp)
        · rename_i g2 hs
          simp only [Except.ok.injEq, Option.some.injEq] at h
          subst h
          obtain ⟨h1, h2, h3⟩ := send_hello_ok cfg now _ mvd g2 hs
          obtain ⟨-, k2, k3⟩ := setFifo_keeps g sel _
          exact ⟨by rw [h1]; decide, by rw [h2, k2], by rw [h3, k3], Or.inr ⟨hlow, h1⟩⟩
  · rename_i hhigh
    simp only [Except.ok.injEq, Option.some.injEq] at h
    subst h
    exact ⟨by
      have : gtv_state_t.GTV_PREPARING.toNat = 2 := rfl
      omega, rfl, rfl, Or.inl rfl⟩

theorem parse_message_magic_error (cfg : Config) (now : Nat) (g : gtv_t) (mvd : Option mvd_t)
    (sel : fifo_sel) (e : Escape) (h : parse_message_magic cfg now g mvd sel = .error e) :
    ∃ w, e = .gtv_destroyed (gtv_destroy mvd) w := by
  unfold parse_message_magic at h
  split at h
  · split at h
    · exact absurd h (by simp)
    · split at h
      · exact ⟨_, (Except.error.inj h).symm⟩
      · split at h
        · rename_i e1 hs
          simp only [Except.error.injEq] at h
          subst h
          exact ⟨_, send_hello_error cfg now _ mvd _ hs⟩
        · exact absurd h (by simp)
  · exact absurd h (by simp)

theorem parse_message_msglen_ok (cfg : Config) (now : Nat) (g : gtv_t) (mvd : Option mvd_t)
    (sel : fifo_sel) (g1 : gtv_t) (h : parse_message_msglen cfg now g mvd sel = .ok (some g1)) :
    g1.state = g.state ∧ g1.stream.state = g.stream.state
      ∧ g1.retry_backoff = g.retry_backoff := by
  unfold parse_message_msglen at h
  split at h
  · split at h
    · exact absurd h (by simp)
    · simp only [] at h
      split at h
      · exact absurd h (by simp [gtv_dropf])
      · split at h
        · exact absurd h (by simp [gtv_destroyf])
        · simp only [Except.ok.injEq, Option.some.injEq] at h
          subst h
          exact setFifo_keeps g sel _
  · simp only [Except.ok.injEq, Option.some.injEq] at h
    subst h
    exact ⟨rfl, rfl, rfl⟩

theorem parse_message_msglen_dropped (cfg : Config) (now : Nat) (g : gtv_t)
    (mvd : Option mvd_t) (sel : fifo_sel) (g' : gtv_t) (m' : Option mvd_t) (w : Reason)
    (h : parse_message_msglen cfg now g mvd sel = .error (.dropped g' m' w)) :
    ∃ f, g' = gtv_drop cfg now (g.setFifo sel f) ∧ w = .end_of_gtv_stream := by
  unfold parse_message_msglen at h
  split at h
  · split at h
    · exact absurd h (by simp)
    · simp only [] at h
      split at h
      · simp only [gtv_dropf, Except.error.injEq, Escape.dropped.injEq] at h
        exact ⟨_, h.1.symm, h.2.2.symm⟩
      · split at h
        · exact absurd h (by simp [gtv_destroyf])
        · exact absurd h (by simp)
  · exact absurd h (by simp)

theorem Keeps_of_same (g g1 : gtv_t) (h1 : g1.state = g.state)
    (h2 : g1.stream.state = g.stream.state) (h3 : g1.retry_backoff = g.retry_backoff) :
    Keeps g g1 :=
  Keeps_of_step g g1 h2 h3 (Or.inl h1.symm)

theorem parse_message_sound (cfg : Config) (P : Parser) (now : Nat) (g : gtv_t)
    (mvd : Option mvd_t) (sel : fifo_sel) (hne : g.state ≠ .GTV_DISCONNECTED) :
    Sound cfg now g (fun r => r.1) (parse_message cfg P now g mvd sel) := by
  have hstep0 : ∀ st : gtv_state_t, st ≠ .GTV_DISCONNECTED → st.toNat < 2 →
      gtv_step st .GTV_PREPARING := by
    intro st
    cases st <;> decide
  unfold parse_message
  cases h1 : parse_message_magic cfg now g mvd sel with
  | error e =>
    obtain ⟨w, hw⟩ := parse_message_magic_error cfg now g mvd sel e h1
    subst hw
    trivial
  | ok o1 =>
    cases o1 with
    | none => exact Keeps_refl g
    | some g1 =>
      obtain ⟨hprep, hs1, hb1, hst1⟩ := parse_message_magic_ok cfg now g mvd sel g1 h1
      have hk1 : Keeps g g1 := by
        refine Keeps_of_step g g1 hs1 hb1 ?_
        rcases hst1 with h | ⟨hlow, h⟩
        · exact Or.inl h.symm
        · rw [h]
          exact hstep0 g.state hne hlow
      simp only []
      cases h2 : parse_message_msglen cfg now g1 mvd sel with
      | error e =>
        simp only []
        cases e with
        | dropped g' m' w =>
          obtain ⟨f, hg', -⟩ := parse_message_msglen_dropped cfg now g1 mvd sel g' m' w h2
          obtain ⟨k1, k2, k3⟩ := setFifo_keeps g1 sel f
          exact ⟨g1.setFifo sel f,
            Keeps_trans _ _ _ hk1 (Keeps_of_same _ _ k1 k2 k3), hg'⟩
        | gtv_destroyed m w => trivial
        | mvd_destroyed w => trivial
        | fault w => trivial
      | ok o2 =>
        cases o2 with
        | none => exact hk1
        | some g2 =>
          obtain ⟨hs2, hss2, hb2⟩ := parse_message_msglen_ok cfg now g1 mvd sel g2 h2
          have hk2 : Keeps g g2 := Keeps_trans _ _ _ hk1 (Keeps_of_same _ _ hs2 hss2 hb2)
          simp only []
          cases h3 : FIFO_ReadMessage (g2.fifo sel) g2.msglen with
          | none => exact hk2
          | some r =>
            obtain ⟨f, msg_read⟩ := r
            simp only []
            obtain ⟨k1, k2, k3⟩ := setFifo_keeps g2 sel f
            have hk3 : Keeps g { g2.setFifo sel f with msglen := 0 } :=
              Keeps_trans _ _ _ hk2 (Keeps_of_same _ _ k1 k2 k3)
            have hst3 : 2 ≤ ({ g2.setFifo sel f with msglen := 0 } : gtv_t).state.toNat := by
              show 2 ≤ (g2.setFifo sel f).state.toNat
              rw [k1, hs2]
              exact hprep
            cases h4 : parse_message_cmd cfg P now { g2.setFifo sel f with msglen := 0 } mvd
                msg_read with
            | error e =>
              simp only []
              cases e with
              | dropped g' m' w =>
                obtain ⟨hg', -⟩ := parse_message_cmd_dropped cfg P now _ mvd msg_read g' m' w h4
                exact ⟨_, hk3, hg'⟩
              | gtv_destroyed m w => trivial
              | mvd_destroyed w => trivial
              | fault w => trivial
            | ok r4 =>
              obtain ⟨g3, m3⟩ := r4
              simp only []
              obtain ⟨s1, s2, s3⟩ := parse_message_cmd_ok cfg P now _ mvd msg_read g3 m3 hst3 h4
              exact Keeps_trans _ _ _ hk3 (Keeps_of_step _ _ s2 s3 s1)

theorem NET_RunStream_state (env : env_t) (s : netstream_t) (h : 2 ≤ s.state.toNat) :
    2 ≤ (NET_RunStream env s).2.state.toNat := by
  cases hr : env.run_stream_ret <;> simp only [NET_RunStream, hr] <;>
    first | exact h | exact (by decide : 2 ≤ netstate_t.NS_CLOSED.toNat)

theorem NET_RunConnect_ok (env : env_t) (s : netstream_t)
    (h : (NET_RunConnect env s).1 = .NET_OK) :
    (NET_RunConnect env s).2.state = .NS_CONNECTED := by
  cases hr : env.run_connect_ret <;> simp [NET_RunConnect, hr] at h ⊢

theorem NET_RunConnect_again (env : env_t) (s : netstream_t)
    (h : (NET_RunConnect env s).1 = .NET_AGAIN) :
    (NET_RunConnect env s).2 = s := by
  cases hr : env.run_connect_ret <;> simp [NET_RunConnect, hr] at h ⊢

theorem NET_RunConnect_failed (env : env_t) (s : netstream_t)
    (h1 : (NET_RunConnect env s).1 ≠ .NET_OK) (h2 : (NET_RunConnect env s).1 ≠ .NET_AGAIN) :
    (NET_RunConnect env s).2.state = .NS_CLOSED := by
  cases hr : env.run_connect_ret <;> simp [NET_RunConnect, hr] at h1 h2 ⊢

theorem inflate_more_ok (env : env_t) (fuel k : Nat) (g : gtv_t) (mvd : Option mvd_t)
    (g1 : gtv_t) (k1 : Nat) (h : inflate_more env fuel k g mvd = some (.ok (g1, k1))) :
    g1.state = g.state ∧ g1.stream.state = g.stream.state
      ∧ g1.retry_backoff = g.retry_backoff := by
  unfold inflate_more at h
  split at h
  · exact absurd h (by simp)
  · simp only [] at h
    split at h
    · simp only [Option.some.injEq, Except.ok.injEq, Prod.mk.injEq] at h
      obtain ⟨rfl, -⟩ := h
      exact ⟨rfl, rfl, rfl⟩
    · simp only [Option.some.injEq, Except.ok.injEq, Prod.mk.injEq] at h
      obtain ⟨rfl, -⟩ := h
      exact ⟨rfl, rfl, rfl⟩
    · simp only [Option.some.injEq, Except.ok.injEq, Prod.mk.injEq] at h
      obtain ⟨rfl, -⟩ := h
      exact ⟨rfl, rfl, rfl⟩
    · exact absurd h (by simp [gtv_destroyf])

theorem inflate_more_error (env : env_t) (fuel k : Nat) (g : gtv_t) (mvd : Option mvd_t)
    (e : Escape) (h : inflate_more env fuel k g mvd = some (.error e)) :
    e = .gtv_destroyed (gtv_destroy mvd) .inflate_failed := by
  unfold inflate_more at h
  split at h
  · exact absurd h (by simp)
  · simp only [] at h
    split at h
    · exact absurd h (by simp)
    · exact absurd h (by simp)
    · exact absurd h (by simp)
    · simp only [gtv_destroyf, Option.some.injEq, Except.error.injEq] at h
      exact h.symm

theorem run_stream_plain_sound (cfg : Config) (P : Parser) (now : Nat) (fuel : Nat) :
    ∀ (g : gtv_t) (mvd : Option mvd_t) (r : Run (gtv_t × Option mvd_t)),
      g.state ≠ .GTV_DISCONNECTED →
      run_stream_plain cfg P now fuel g mvd = some r →
      Sound cfg now g (fun x => x.1) r := by
  induction fuel with
  | zero =>
    intro g mvd r _ h
    exact absurd h (by simp [run_stream_plain])
  | succ n ih =>
    intro g mvd r hne h
    have hs := parse_message_sound cfg P now g mvd .recv hne
    unfold run_stream_plain at h
    cases hp : parse_message cfg P now g mvd .recv with
    | error e =>
      rw [hp] at h hs
      simp only [Option.some.injEq] at h
      subst h
      exact Sound_error cfg now g _ _ e hs
    | ok x =>
      obtain ⟨g1, m1, b⟩ := x
      rw [hp] at h hs
      have hk : Keeps g g1 := hs
      cases b with
      | false =>
        simp only [Option.some.injEq] at h
        subst h
        exact hk
      | true =>
        simp only [] at h
        exact Sound_trans cfg now g g1 _ r hk (ih g1 m1 r (hk.2.2.2 hne).1 h)

theorem run_stream_zlib_sound (cfg : Config) (P : Parser) (env : env_t) (now : Nat)
    (fuel : Nat) :
    ∀ (k : Nat) (g : gtv_t) (mvd : Option mvd_t) (r : Run (gtv_t × Option mvd_t)),
      g.state ≠ .GTV_DISCONNECTED →
      run_stream_zlib cfg P env now fuel k g mvd = some r →
      Sound cfg now g (fun x => x.1) r := by
  induction fuel with
  | zero =>
    intro k g mvd r _ h
    exact absurd h (by simp [run_stream_zlib])
  | succ n ih =>
    intro k g mvd r hne h
    unfold run_stream_zlib at h
    have hinf : ∀ (g1 : gtv_t) (k1 : Nat),
        (if g.z_act = true then inflate_more env (n + 1) k g mvd else some (.ok (g, k)))
          = some (.ok (g1, k1)) → Keeps g g1 := by
      intro g1 k1 hi
      split at hi
      · obtain ⟨a, b, c⟩ := inflate_more_ok env _ k g mvd g1 k1 hi
        exact Keeps_of_same _ _ a b c
      · simp only [Option.some.injEq, Except.ok.injEq, Prod.mk.injEq] at hi
        rw [← hi.1]
        exact Keeps_refl g
    have hinfe : ∀ (e : Escape),
        (if g.z_act = true then inflate_more env (n + 1) k g mvd else some (.ok (g, k)))
          = some (.error e) → e = .gtv_destroyed (gtv_destroy mvd) .inflate_failed := by
      intro e hi
      split at hi
      · exact inflate_more_error env _ k g mvd e hi
      · exact absurd hi (by simp)
    cases hi : (if g.z_act = true then inflate_more env (n + 1) k g mvd
        else some (.ok (g, k))) with
    | none =>
      rw [hi] at h
      exact absurd h (by simp)
    | some ri =>
      cases ri with
      | error e =>
        rw [hi] at h
        simp only [Option.some.injEq] at h
        subst h
        rw [hinfe e hi]
        trivial
      | ok x =>
        obtain ⟨g1, k1⟩ := x
        rw [hi] at h
        simp only [] at h
        have hk1 : Keeps g g1 := hinf g1 k1 hi
        have hne1 : g1.state ≠ .GTV_DISCONNECTED := (hk1.2.2.2 hne).1
        have hs := parse_message_sound cfg P now g1 mvd .z_buf hne1
        cases hp : parse_message cfg P now g1 mvd .z_buf with
        | error e =>
          rw [hp] at h hs
          simp only [Option.some.injEq] at h
          subst h
          exact Sound_trans cfg now g g1 _ _ hk1 (Sound_error cfg now g1 _ _ e hs)
        | ok y =>
          obtain ⟨g2, m2, b⟩ := y
          rw [hp] at h hs
          have hk2 : Keeps g g2 := Keeps_trans _ _ _ hk1 hs
          cases b with
          | false =>
            simp only [Option.some.injEq] at h
            subst h
            exact hk2
          | true =>
            simp only [] at h
            exact Sound_trans cfg now g g2 _ r hk2 (ih k1 g2 m2 r (hk2.2.2.2 hne).1 h)

theorem run_stream_sound (cfg : Config) (P : Parser) (env : env_t) (now fuel : Nat)
    (g : gtv_t) (mvd : Option mvd_t) (r : Run (neterr_t × gtv_t × Option mvd_t))
    (hne : g.state ≠ .GTV_DISCONNECTED)
    (h : run_stream cfg P env now fuel g mvd = some r) :
    Sound cfg now g (fun x => x.2.1) r := by
  have hk0 : Keeps g { g with stream := (NET_RunStream env g.stream).2 } :=
    ⟨NET_RunStream_state env g.stream, rfl, fun h => h,
     fun h => ⟨h, Relation.ReflTransGen.refl⟩⟩
  unfold run_stream at h
  split at h
  · simp only [Option.some.injEq] at h
    subst h
    exact hk0
  · simp only [] at h
    have hloop : ∀ r1 : Run (gtv_t × Option mvd_t),
        (if cfg.USE_ZLIB = true ∧ g.z_act = true then
            run_stream_zlib cfg P env now fuel 0
              { g with stream := (NET_RunStream env g.stream).2 } mvd
          else run_stream_plain cfg P now fuel
              { g with stream := (NET_RunStream env g.stream).2 } mvd) = some r1 →
        Sound cfg now { g with stream := (NET_RunStream env g.stream).2 } (fun x => x.1) r1 := by
      intro r1 h1
      split at h1
      · exact run_stream_zlib_sound cfg P env now fuel 0 _ mvd r1 hne h1
      · exact run_stream_plain_sound cfg P now fuel _ mvd r1 hne h1
    split at h
    · exact absurd h (by simp)
    · rename_i e he
      simp only [Option.some.injEq] at h
      subst h
      exact Sound_trans cfg now g _ _ _ hk0 (Sound_error cfg now _ _ _ e (hloop _ he))
    · rename_i g1 m1 he
      simp only [Option.some.injEq] at h
      subst h
      exact Keeps_trans _ _ _ hk0 (hloop _ he)

theorem check_timeouts_dropped (cfg : Config) (now : Nat) (mvd_active : Bool) (g : gtv_t)
    (mvd : Option mvd_t) (g' : gtv_t) (m' : Option mvd_t) (w : Reason)
    (h : check_timeouts cfg now mvd_active g mvd = .error (.dropped g' m' w)) :
    g' = gtv_drop cfg now g ∧ w = .timed_out
      ∧ u32_sub now g.last_rcvd > (cfg.mvd_timeout.scaled 1000).toNat % 2 ^ 32 := by
  unfold check_timeouts at h
  simp only [] at h
  split at h
  · rename_i hto
    simp only [gtv_dropf, Except.error.injEq, Escape.dropped.injEq] at h
    exact ⟨h.1.symm, h.2.2.symm, hto⟩
  · split at h
    · exact absurd h (by simp)
    · split at h
      · rename_i e hst
        simp only [Except.error.injEq] at h
        subst h
        split at hst
        · split at hst
          · have := send_stream_start_error cfg now g mvd _ hst
            exact absurd this (by simp)
          · exact absurd hst (by simp)
        · split at hst
          · have := send_stream_stop_error now g mvd _ hst
            exact absurd this (by simp)
          · exact absurd hst (by simp)
      · split at h
        · have := write_message_error now _ mvd _ _ _ h
          exact absurd this (by simp)
        · exact absurd h (by simp)

theorem check_timeouts_ok (cfg : Config) (now : Nat) (mvd_active : Bool) (g : gtv_t)
    (mvd : Option mvd_t) (g1 : gtv_t)
    (h : check_timeouts cfg now mvd_active g mvd = .ok g1) :
    gtv_step g.state g1.state ∧ g1.stream.state = g.stream.state
      ∧ g1.retry_backoff = g.retry_backoff := by
  unfold check_timeouts at h
  simp only [] at h
  split at h
  · exact absurd h (by simp [gtv_dropf])
  · split at h
    · simp only [Except.ok.injEq] at h
      subst h
      exact ⟨Or.inl rfl, rfl, rfl⟩
    · split at h
      · exact absurd h (by simp)
      · rename_i g2 hst
        have h2 : gtv_step g.state g2.state ∧ g2.stream.state = g.stream.state
            ∧ g2.retry_backoff = g.retry_backoff := by
          split at hst
          · split at hst
            · rename_i hc
              obtain ⟨a, b, c, -⟩ := send_stream_start_ok cfg now g mvd g2 hst
              refine ⟨?_, b, c⟩
              rw [a, hc]
              exact (by decide : gtv_step .GTV_CONNECTED .GTV_RESUMING)
            · simp only [Except.ok.injEq] at hst
              subst hst
              exact ⟨Or.inl rfl, rfl, rfl⟩
          · split at hst
            · rename_i hwr
              obtain ⟨a, b, c, -⟩ := send_stream_stop_ok now g mvd g2 hst
              refine ⟨?_, b, c⟩
              rw [a]
              rcases hwr with hx | hx
              · rw [hx]
                exact (by decide : gtv_step .GTV_WAITING .GTV_SUSPENDING)
              · rw [hx]
                exact (by decide : gtv_step .GTV_READING .GTV_SUSPENDING)
            · simp only [Except.ok.injEq] at hst
              subst hst
              exact ⟨Or.inl rfl, rfl, rfl⟩
        split at h
        · obtain ⟨a, b, c, -⟩ := write_message_state now g2 mvd _ _ g1 h
          exact ⟨by rw [a]; exact h2.1, by rw [b]; exact h2.2.1, by rw [c]; exact h2.2.2⟩
        · simp only [Except.ok.injEq] at h
          subst h
          exact h2

theorem gtv_run_result_sound (cfg : Config) (now : Nat) (mvd_active : Bool) (ret : neterr_t)
    (g : gtv_t) (mvd : Option mvd_t) :
    Sound cfg now g (fun x => x.1) (gtv_run_result cfg now mvd_active ret g mvd) := by
  have hct : Sound cfg now g (fun x => x.1)
      (match check_timeouts cfg now mvd_active g mvd with
        | .error e => .error e
        | .ok g1 => (.ok (g1, mvd) : Run (gtv_t × Option mvd_t))) := by
    cases hc : check_timeouts cfg now mvd_active g mvd with
    | error e =>
      cases e with
      | dropped g' m' w =>
        obtain ⟨hg, -, -⟩ := check_timeouts_dropped cfg now mvd_active g mvd g' m' w hc
        exact ⟨g, Keeps_refl g, hg⟩
      | gtv_destroyed m w => trivial
      | mvd_destroyed w => trivial
      | fault w => trivial
    | ok g1 =>
      obtain ⟨a, b, c⟩ := check_timeouts_ok cfg now mvd_active g mvd g1 hc
      exact Keeps_of_step _ _ b c a
  unfold gtv_run_result
  cases ret with
  | NET_OK => exact hct
  | NET_AGAIN => exact hct
  | NET_CLOSED => exact ⟨g, Keeps_refl g, rfl⟩
  | NET_ERROR => exact ⟨g, Keeps_refl g, rfl⟩

theorem gtv_run_stream_sound (cfg : Config) (P : Parser) (env : env_t) (now fuel : Nat)
    (mvd_active : Bool) (g : gtv_t) (mvd : Option mvd_t) (r : Run (gtv_t × Option mvd_t))
    (hne : g.state ≠ .GTV_DISCONNECTED)
    (h : gtv_run_stream cfg P env now fuel mvd_active g mvd = some r) :
    Sound cfg now g (fun x => x.1) r := by
  unfold gtv_run_stream at h
  split at h
  · exact absurd h (by simp)
  · rename_i e he
    simp only [Option.some.injEq] at h
    subst h
    exact Sound_error cfg now g _ _ e (run_stream_sound cfg P env now fuel g mvd _ hne he)
  · rename_i ret g1 m1 he
    simp only [Option.some.injEq] at h
    subst h
    have hk : Keeps g g1 := run_stream_sound cfg P env now fuel g mvd _ hne he
    exact Sound_trans cfg now g g1 _ _ hk (gtv_run_result_sound cfg now mvd_active ret g1 m1)

theorem check_reconnect_ok (cfg : Config) (env : env_t) (now : Nat) (g : gtv_t)
    (mvd : Option mvd_t) (g1 : gtv_t) (b : Bool)
    (h : check_reconnect cfg env now g mvd = .ok (g1, b)) :
    (b = false ∧ g1 = g)
      ∨ (b = true ∧ g1.state = .GTV_CONNECTING ∧ g1.retry_backoff = g.retry_backoff
          ∧ g1.last_rcvd = now ∧ g1.last_sent = now) := by
  unfold check_reconnect at h
  split at h
  · simp only [Except.ok.injEq, Prod.mk.injEq] at h
    exact Or.inl ⟨h.2.symm, h.1.symm⟩
  · simp only [] at h
    split at h
    · exact absurd h (by simp [gtv_dropf])
    · split at h
      · exact absurd h (by simp [gtv_dropf])
      · simp only [Except.ok.injEq, Prod.mk.injEq] at h
        obtain ⟨rfl, rfl⟩ := h
        exact Or.inr ⟨rfl, rfl, rfl, rfl, rfl⟩

theorem check_reconnect_error (cfg : Config) (env : env_t) (now : Nat) (g : gtv_t)
    (mvd : Option mvd_t) (e : Escape)
    (h : check_reconnect cfg env now g mvd = .error e) :
    ∃ (g0 : gtv_t) (w : Reason), e = .dropped (gtv_drop cfg now g0) mvd w
      ∧ g0.state = .GTV_CONNECTING ∧ g0.retry_backoff = g.retry_backoff
      ∧ (w = .lookup_failed ∨ w = .connect_failed) := by
  unfold check_reconnect at h
  split at h
  · exact absurd h (by simp)
  · simp only [] at h
    split at h
    · simp only [gtv_dropf, Except.error.injEq] at h
      exact ⟨_, _, h.symm, rfl, rfl, Or.inl rfl⟩
    · split at h
      · simp only [gtv_dropf, Except.error.injEq] at h
        exact ⟨_, _, h.symm, rfl, rfl, Or.inr rfl⟩
      · exact absurd h (by simp)

theorem run_connect_ok (cfg : Config) (env : env_t) (now : Nat) (g : gtv_t)
    (mvd : Option mvd_t) (ret : neterr_t) (g1 : gtv_t)
    (h : run_connect cfg env now g mvd = .ok (ret, g1)) :
    g1.state = g.state ∧ g1.retry_backoff = g.retry_backoff
      ∧ (ret = .NET_OK → g1.stream.state = .NS_CONNECTED)
      ∧ (ret = .NET_AGAIN → g1.stream.state = g.stream.state)
      ∧ (ret ≠ .NET_OK → ret ≠ .NET_AGAIN → g1.stream.state = .NS_CLOSED) := by
  unfold run_connect at h
  split at h
  · rename_i hnot
    simp only [Except.ok.injEq, Prod.mk.injEq] at h
    obtain ⟨rfl, rfl⟩ := h
    refine ⟨rfl, rfl, fun h1 => absurd h1 hnot, fun h2 => ?_, fun h1 h2 => ?_⟩
    · show (NET_RunConnect env g.stream).2.state = g.stream.state
      rw [NET_RunConnect_again env g.stream h2]
    · exact NET_RunConnect_failed env g.stream h1 h2
  · rename_i hok
    have hok1 : (NET_RunConnect env g.stream).1 = .NET_OK := not_not.mp hok
    simp only [] at h
    split at h
    · exact absurd h (by simp)
    · rename_i g2 hw
      simp only [Except.ok.injEq, Prod.mk.injEq] at h
      obtain ⟨rfl, rfl⟩ := h
      unfold write_stream at hw
      split at hw
      · exact absurd hw (by simp [gtv_destroyf])
      · simp only [Except.ok.injEq] at hw
        subst hw
        refine ⟨rfl, rfl, fun _ => ?_, fun h2 => absurd h2 (by decide),
          fun h1 => absurd rfl h1⟩
        exact NET_RunConnect_ok env g.stream hok1

theorem run_connect_error (cfg : Config) (env : env_t) (now : Nat) (g : gtv_t)
    (mvd : Option mvd_t) (e : Escape)
    (h : run_connect cfg env now g mvd = .error e) :
    ∃ w, e = .gtv_destroyed (gtv_destroy mvd) w := by
  unfold run_connect at h
  split at h
  · exact absurd h (by simp)
  · simp only [] at h
    split at h
    · rename_i e1 hw
      simp only [Except.error.injEq] at h
      subst h
      unfold write_stream at hw
      split at hw
      · exact ⟨_, (Except.error.inj hw).symm⟩
      · exact absurd hw (by simp)
    · exact absurd h (by simp)

theorem SoundLive_of_sound (cfg : Config) (now : Nat) (g g1 : gtv_t)
    (r : Run (gtv_t × Option mvd_t)) (hk : Keeps g g1) (h2 : 2 ≤ g1.stream.state.toNat)
    (hs : Sound cfg now g1 (fun x => x.1) r) : SoundLive cfg now g r := by
  cases r with
  | ok x =>
    have hx : Keeps g1 x.1 := hs
    exact ⟨Keeps_trans _ _ _ hk hx, Or.inr (hx.1 h2)⟩
  | error e =>
    cases e with
    | dropped g' m w =>
      obtain ⟨g2, hk2, he⟩ := hs
      exact ⟨g2, Keeps_trans _ _ _ hk hk2, hk2.1 h2, he⟩
    | gtv_destroyed m w => trivial
    | mvd_destroyed w => trivial
    | fault w => trivial

theorem gtv_run_live (cfg : Config) (P : Parser) (env : env_t) (now fuel : Nat)
    (mvd_active : Bool) (g : gtv_t) (mvd : Option mvd_t) (r : Run (gtv_t × Option mvd_t))
    (hne : g.state ≠ .GTV_DISCONNECTED)
    (h : gtv_run cfg P env now fuel mvd_active g mvd = some r) :
    SoundLive cfg now g r := by
  unfold gtv_run at h
  rw [if_neg hne] at h
  simp only [] at h
  cases hs : g.stream.state with
  | NS_DISCONNECTED =>
    rw [hs] at h
    simp only [Option.some.injEq] at h
    subst h
    exact ⟨Keeps_refl g, Or.inl ⟨rfl, rfl⟩⟩
  | NS_CLOSED =>
    rw [hs] at h
    simp only [Option.some.injEq] at h
    subst h
    exact ⟨Keeps_refl g, Or.inl ⟨rfl, rfl⟩⟩
  | NS_CONNECTED =>
    rw [hs] at h
    simp only [] at h
    exact SoundLive_of_sound cfg now g g r (Keeps_refl g) (by rw [hs]; decide)
      (gtv_run_stream_sound cfg P env now fuel mvd_active g mvd r hne h)
  | NS_CONNECTING =>
    rw [hs] at h
    simp only [] at h
    cases hrc : run_connect cfg env now g mvd with
    | error e =>
      rw [hrc] at h
      simp only [Option.some.injEq] at h
      subst h
      obtain ⟨w, hw⟩ := run_connect_error cfg env now g mvd e hrc
      subst hw
      trivial
    | ok x =>
      obtain ⟨ret, g1⟩ := x
      rw [hrc] at h
      obtain ⟨a, b, c1, c2, c3⟩ := run_connect_ok cfg env now g mvd ret g1 hrc
      have hne1 : g1.state ≠ .GTV_DISCONNECTED := by rw [a]; exact hne
      cases ret with
      | NET_AGAIN =>
        simp only [Option.some.injEq] at h
        subst h
        exact ⟨Keeps_of_same _ _ a (c2 rfl) b, Or.inl ⟨a, c2 rfl⟩⟩
      | NET_OK =>
        simp only [] at h
        have hk : Keeps g g1 :=
          ⟨fun _ => by rw [c1 rfl]; decide, b, fun h3 => by rw [a]; exact h3,
           fun h3 => ⟨hne1, by rw [a]; exact Relation.ReflTransGen.refl⟩⟩
        exact SoundLive_of_sound cfg now g g1 r hk (by rw [c1 rfl]; decide)
          (gtv_run_stream_sound cfg P env now fuel mvd_active g1 mvd r hne1 h)
      | NET_CLOSED =>
        simp only [Option.some.injEq] at h
        subst h
        have hcl := c3 (by decide) (by decide)
        have hk : Keeps g g1 :=
          ⟨fun _ => by rw [hcl]; decide, b, fun h3 => by rw [a]; exact h3,
           fun h3 => ⟨hne1, by rw [a]; exact Relation.ReflTransGen.refl⟩⟩
        exact SoundLive_of_sound cfg now g g1 _ hk (by rw [hcl]; decide)
          (gtv_run_result_sound cfg now mvd_active _ g1 mvd)
      | NET_ERROR =>
        simp only [Option.some.injEq] at h
        subst h
        have hcl := c3 (by decide) (by decide)
        have hk : Keeps g g1 :=
          ⟨fun _ => by rw [hcl]; decide, b, fun h3 => by rw [a]; exact h3,
           fun h3 => ⟨hne1, by rw [a]; exact Relation.ReflTransGen.refl⟩⟩
        exact SoundLive_of_sound cfg now g g1 _ hk (by rw [hcl]; decide)
          (gtv_run_result_sound cfg now mvd_active _ g1 mvd)

theorem gtv_run_reconnect (cfg : Config) (P : Parser) (env : env_t) (now fuel : Nat)
    (mvd_active : Bool) (g : gtv_t) (mvd : Option mvd_t) (gc : gtv_t)
    (hd : g.state = .GTV_DISCONNECTED)
    (hc : check_reconnect cfg env now g mvd = .ok (gc, true)) :
    gtv_run cfg P env now fuel mvd_active g mvd
      = gtv_run cfg P env now fuel mvd_active gc mvd := by
  have hgc : gc.state = .GTV_CONNECTING := by
    rcases check_reconnect_ok cfg env now g mvd gc true hc with ⟨hb, -⟩ | ⟨-, hs, -⟩
    · exact absurd hb (by decide)
    · exact hs
  have hne : gc.state ≠ .GTV_DISCONNECTED := by rw [hgc]; decide
  unfold gtv_run
  rw [if_pos hd, hc, if_neg hne]

theorem gtv_run_waiting (cfg : Config) (P : Parser) (env : env_t) (now fuel : Nat)
    (mvd_active : Bool) (g : gtv_t) (mvd : Option mvd_t) (gc : gtv_t)
    (hd : g.state = .GTV_DISCONNECTED)
    (hc : check_reconnect cfg env now g mvd = .ok (gc, false)) :
    gtv_run cfg P env now fuel mvd_active g mvd = some (.ok (gc, mvd)) := by
  unfold gtv_run
  rw [if_pos hd, hc]

theorem gtv_run_reconnect_failed (cfg : Config) (P : Parser) (env : env_t) (now fuel : Nat)
    (mvd_active : Bool) (g : gtv_t) (mvd : Option mvd_t) (e : Escape)
    (hd : g.state = .GTV_DISCONNECTED)
    (hc : check_reconnect cfg env now g mvd = .error e) :
    gtv_run cfg P env now fuel mvd_active g mvd = some (.error e) := by
  unfold gtv_run
  rw [if_pos hd, hc]

theorem gtv_run_ok (cfg : Config) (P : Parser) (env : env_t) (now fuel : Nat)
    (mvd_active : Bool) (g : gtv_t) (mvd : Option mvd_t) (g1 : gtv_t) (m1 : Option mvd_t)
    (h : gtv_run cfg P env now fuel mvd_active g mvd = some (.ok (g1, m1))) :
    g1.retry_backoff = g.retry_backoff ∧ gtv_path g.state g1.state
      ∧ ((3 ≤ g.state.toNat → 2 ≤ g.stream.state.toNat) →
          3 ≤ g1.state.toNat → 2 ≤ g1.stream.state.toNat) := by
  by_cases hd : g.state = .GTV_DISCONNECTED
  · cases hc : check_reconnect cfg env now g mvd with
    | error e =>
      rw [gtv_run_reconnect_failed cfg P env now fuel mvd_active g mvd e hd hc] at h
      exact absurd h (by simp)
    | ok x =>
      obtain ⟨gc, b⟩ := x
      cases b with
      | false =>
        rw [gtv_run_waiting cfg P env now fuel mvd_active g mvd gc hd hc] at h
        simp only [Option.some.injEq, Except.ok.injEq, Prod.mk.injEq] at h
        obtain ⟨rfl, -⟩ := h
        rcases check_reconnect_ok cfg env now g mvd gc false hc with ⟨-, hg⟩ | ⟨hb, -⟩
        · subst hg
          exact ⟨rfl, Relation.ReflTransGen.refl, fun hi => hi⟩
        · exact absurd hb (by decide)
      | true =>
        rw [gtv_run_reconnect cfg P env now fuel mvd_active g mvd gc hd hc] at h
        rcases check_reconnect_ok cfg env now g mvd gc true hc with ⟨hb, -⟩ | ⟨-, hs, hb, -, -⟩
        · exact absurd hb (by decide)
        · have hne : gc.state ≠ .GTV_DISCONNECTED := by rw [hs]; decide
          have hl := gtv_run_live cfg P env now fuel mvd_active gc mvd _ hne h
          obtain ⟨hk, hor⟩ := hl
          refine ⟨by rw [hk.2.1, hb], ?_, fun _ h3 => ?_⟩
          · have hp := (hk.2.2.2 hne).2
            rw [hs] at hp
            rw [hd]
            exact gtv_path_trans _ _ _
              (gtv_path_of_step _ _ (by decide : gtv_step .GTV_DISCONNECTED .GTV_CONNECTING)) hp
          · rcases hor with ⟨he, -⟩ | h2
            · have h3b : 3 ≤ g1.state.toNat := h3
              rw [he, hs] at h3b
              exact absurd h3b (by decide)
            · exact h2
  · have hl := gtv_run_live cfg P env now fuel mvd_active g mvd _ hd h
    obtain ⟨hk, hor⟩ := hl
    refine ⟨hk.2.1, (hk.2.2.2 hd).2, fun hi h3 => ?_⟩
    rcases hor with ⟨he, hse⟩ | h2
    · have h3b : 3 ≤ g1.state.toNat := h3
      have hse2 : g1.stream.state = g.stream.state := hse
      rw [he] at h3b
      rw [hse2]
      exact hi h3b
    · exact h2

theorem gtv_run_dropped (cfg : Config) (P : Parser) (env : env_t) (now fuel : Nat)
    (mvd_active : Bool) (g : gtv_t) (mvd : Option mvd_t) (g' : gtv_t) (m' : Option mvd_t)
    (w : Reason)
    (h : gtv_run cfg P env now fuel mvd_active g mvd = some (.error (.dropped g' m' w))) :
    ∃ g1 : gtv_t, g' = gtv_drop cfg now g1 ∧ g1.retry_backoff = g.retry_backoff
      ∧ ((g.state = .GTV_DISCONNECTED ∧ g1.state = .GTV_CONNECTING
            ∧ (w = .lookup_failed ∨ w = .connect_failed))
          ∨ (2 ≤ g1.stream.state.toNat ∧ (3 ≤ g.state.toNat → 3 ≤ g1.state.toNat))) := by
  by_cases hd : g.state = .GTV_DISCONNECTED
  · cases hc : check_reconnect cfg env now g mvd with
    | error e =>
      rw [gtv_run_reconnect_failed cfg P env now fuel mvd_active g mvd e hd hc] at h
      obtain ⟨g0, w0, he, hs0, hb0, hw0⟩ := check_reconnect_error cfg env now g mvd e hc
      subst he
      simp only [Option.some.injEq, Except.error.injEq, Escape.dropped.injEq] at h
      obtain ⟨h1, -, h3⟩ := h
      subst h3
      exact ⟨g0, h1.symm, hb0, Or.inl ⟨hd, hs0, hw0⟩⟩
    | ok x =>
      obtain ⟨gc, b⟩ := x
      cases b with
      | false =>
        rw [gtv_run_waiting cfg P env now fuel mvd_active g mvd gc hd hc] at h
        exact absurd h (by simp)
      | true =>
        rw [gtv_run_reconnect cfg P env now fuel mvd_active g mvd gc hd hc] at h
        rcases check_reconnect_ok cfg env now g mvd gc true hc with ⟨hb, -⟩ | ⟨-, hs, hb, -, -⟩
        · exact absurd hb (by decide)
        · have hne : gc.state ≠ .GTV_DISCONNECTED := by rw [hs]; decide
          have hl := gtv_run_live cfg P env now fuel mvd_active gc mvd _ hne h
          obtain ⟨g1, hk, h2, he⟩ := hl
          refine ⟨g1, he, by rw [hk.2.1, hb], Or.inr ⟨h2, fun h3 => ?_⟩⟩
          rw [hd] at h3
          exact absurd h3 (by decide)
  · have hl := gtv_run_live cfg P env now fuel mvd_active g mvd _ hd h
    obtain ⟨g1, hk, h2, he⟩ := hl
    exact ⟨g1, he, hk.2.1, Or.inr ⟨h2, hk.2.2.1⟩⟩

theorem gtv_read_frame_body_gtv (cfg : Config) (P : Parser) (mvd : mvd_t)
    (gtv : Option gtv_t) (r : frame_result)
    (h : gtv_read_frame_body cfg P mvd gtv = .ok r) : r.gtv = gtv := by
  unfold gtv_read_frame_body at h
  split at h
  · exact absurd h (by simp [MVD_Destroyf])
  · simp only [] at h
    split at h
    · exact absurd h (by simp [MVD_Destroyf])
    · split at h
      · exact absurd h (by simp [MVD_Destroyf])
      · split at h
        · exact absurd h (by simp [MVD_Destroyf])
        · simp only [Except.ok.injEq] at h
          subst h
          rfl

theorem gtv_wait_start_ok (cfg : Config) (now : Nat) (mvd : mvd_t) (g : gtv_t)
    (m1 : mvd_t) (g1 : gtv_t) (h : gtv_wait_start cfg now mvd (some g) = .ok (m1, g1)) :
    g1.state = g.state ∧ g1.stream.state = g.stream.state
      ∧ g1.retry_backoff = g.retry_backoff := by
  unfold gtv_wait_start at h
  simp only [] at h
  split at h
  · split at h
    · exact absurd h (by simp)
    · rename_i g2 hw
      simp only [Except.ok.injEq, Prod.mk.injEq] at h
      obtain ⟨-, rfl⟩ := h
      obtain ⟨a, b, c, -⟩ := write_message_state now g _ _ _ g2 hw
      exact ⟨a, b, c⟩
  · simp only [Except.ok.injEq, Prod.mk.injEq] at h
    obtain ⟨-, rfl⟩ := h
    exact ⟨rfl, rfl, rfl⟩

theorem gtv_read_frame_keeps (cfg : Config) (P : Parser) (now : Nat) (mvd : mvd_t)
    (g g1 : gtv_t) (r : frame_result)
    (h : gtv_read_frame cfg P now mvd (some g) = .ok r) (hr : r.gtv = some g1) :
    g1.state = g.state ∧ g1.stream.state = g.stream.state
      ∧ g1.retry_backoff = g.retry_backoff := by
  unfold gtv_read_frame at h
  split at h
  · split at h
    · simp only [Except.ok.injEq] at h
      subst h
      simp only [Option.some.injEq] at hr
      subst hr
      exact ⟨rfl, rfl, rfl⟩
    · have := gtv_read_frame_body_gtv cfg P _ _ r h
      rw [this] at hr
      simp only [Option.some.injEq] at hr
      subst hr
      exact ⟨rfl, rfl, rfl⟩
  · split at h
    · split at h
      · exact absurd h (by simp)
      · rename_i m2 g2 hw
        simp only [Except.ok.injEq] at h
        subst h
        simp only [Option.some.injEq] at hr
        subst hr
        exact gtv_wait_start_ok cfg now mvd g m2 g2 hw
    · have := gtv_read_frame_body_gtv cfg P _ _ r h
      rw [this] at hr
      simp only [Option.some.injEq] at hr
      subst hr
      exact ⟨rfl, rfl, rfl⟩
  · exact absurd h (by simp [MVD_Destroyf])

theorem MVD_Connect_f_fresh (env : env_t) (now : Nat) (msg_write : List Nat)
    (username password : Option (List Nat))
    (g : gtv_t) (h : MVD_Connect_f env now msg_write username password = some g) :
    g.state = .GTV_CONNECTING ∧ g.retry_backoff = 0 := by
  unfold MVD_Connect_f at h
  split at h
  · exact absurd h (by simp)
  · split at h
    · exact absurd h (by simp)
    · simp only [Option.some.injEq] at h
      subst h
      exact ⟨rfl, rfl⟩

theorem Reachable_inv (cfg : Config) (g : gtv_t) (h : Reachable cfg g) :
    g.retry_backoff ≤ GTV_MAXIMUM_BACKOFF
      ∧ (3 ≤ g.state.toNat → 2 ≤ g.stream.state.toNat) := by
  induction h with
  | connect env now msg_write username password g hc =>
    obtain ⟨hs, hb⟩ := MVD_Connect_f_fresh env now msg_write username password g hc
    rw [hs, hb]
    exact ⟨by decide, fun h3 => absurd h3 (by decide)⟩
  | scratch g msg_write _ ih => exact ih
  | tick P env now fuel mvd_active g g1 mvd mvd1 _ hrun ih =>
    obtain ⟨hb, -, hinv⟩ := gtv_run_ok cfg P env now fuel mvd_active g mvd g1 mvd1 hrun
    exact ⟨by rw [hb]; exact ih.1, hinv ih.2⟩
  | drop P env now fuel mvd_active g g1 mvd mvd1 why _ hrun ih =>
    obtain ⟨g2, he, -, -⟩ := gtv_run_dropped cfg P env now fuel mvd_active g mvd g1 mvd1 why hrun
    subst he
    exact ⟨gtv_drop_backoff_le cfg now g2,
      fun h3 => absurd (show 3 ≤ gtv_state_t.GTV_DISCONNECTED.toNat from h3) (by decide)⟩
  | read_frame P now g g1 mvd r _ hrf hr ih =>
    obtain ⟨a, b, c⟩ := gtv_read_frame_keeps cfg P now mvd g g1 r hrf hr
    rw [a, b, c]
    exact ih

/-! ## Claims C11 to C20 -/

/-- C11.  The function `gtv_wait_stop` returns true if and only if
`num_packets >= min_packets` or the fill percentage of the delay buffer is at
least `mvd_wait_percent`; when it returns true the Channel is switched to
Reading and nothing else changes, when it returns false the Channel is
unchanged.  With `num_packets = min_packets - 1` and a fill percentage one
below `mvd_wait_percent` it returns false and leaves the Channel unchanged. -/
theorem C11_wait_stop_threshold (cfg : Config) (mvd : mvd_t) :
    ((gtv_wait_stop cfg mvd).2 = true
        ↔ (mvd.num_packets ≥ mvd.min_packets
            ∨ cfg.mvd_wait_percent.le_int (FIFO_Percent mvd.delay) = true))
      ∧ ((gtv_wait_stop cfg mvd).2 = true
          → (gtv_wait_stop cfg mvd).1 = { mvd with state := .MVD_READING })
      ∧ ((gtv_wait_stop cfg mvd).2 = false → (gtv_wait_stop cfg mvd).1 = mvd)
      ∧ (mvd.num_packets = mvd.min_packets - 1 →
          0 < cfg.mvd_wait_percent.den →
          cfg.mvd_wait_percent.num = (FIFO_Percent mvd.delay + 1) * cfg.mvd_wait_percent.den →
          gtv_wait_stop cfg mvd = (mvd, false)) := by
  refine ⟨?_, ?_, ?_, ?_⟩
  · unfold gtv_wait_stop
    by_cases h1 : mvd.num_packets ≥ mvd.min_packets
    · simp [h1]
    · by_cases h2 : cfg.mvd_wait_percent.le_int (FIFO_Percent mvd.delay) = true
      · simp [h1, h2]
      · simp [h1, h2]
  · unfold gtv_wait_stop
    split
    · intro _; rfl
    · split
      · intro _; rfl
      · intro h; exact absurd h (by simp)
  · unfold gtv_wait_stop
    split
    · intro h; exact absurd h (by simp)
    · split
      · intro h; exact absurd h (by simp)
      · intro _; rfl
  · intro hn hden hp
    have h1 : ¬ mvd.num_packets ≥ mvd.min_packets := by omega
    have h2 : ¬ cfg.mvd_wait_percent.le_int (FIFO_Percent mvd.delay) = true := by
      simp only [cvar_value.le_int, decide_eq_true_eq, hp, not_le]
      have hd : (0 : Int) < (cfg.mvd_wait_percent.den : Int) := by exact_mod_cast hden
      nlinarith
    unfold gtv_wait_stop
    simp [h1, h2]

/-- C11, at a concrete input: 199 packets with `min_packets` 200 and a fill of
34 percent with `mvd_wait_percent` 35. -/
theorem C11_wait_stop_threshold_witness :
    gtv_wait_stop cfg_default
        { state := .MVD_WAITING, delay := { data := List.replicate 34 0, size := 100 },
          num_packets := 199, min_packets := 200 }
      = ({ state := .MVD_WAITING, delay := { data := List.replicate 34 0, size := 100 },
           num_packets := 199, min_packets := 200 }, false) :=
  (C11_wait_stop_threshold cfg_default
    { state := .MVD_WAITING, delay := { data := List.replicate 34 0, size := 100 },
      num_packets := 199, min_packets := 200 }).2.2.2 (by decide) (by decide) (by decide)

/-- C14.  Server control replies, seen from the dispatch of a complete message.
HELLO: with the state at or above Connected the Upstream is destroyed; a HELLO
is accepted only with the state below Connected, and then the result is state
Connected with the flags of the message stored (this happens whenever the
body holds the 4 flag bytes and the deflate flag is not set or zlib is
compiled in).  STREAM_START: in Resuming the result is Reading (with a
Channel), in any other state the Upstream is destroyed.  STREAM_STOP: in
Suspending the result is Connected, in any other state the Upstream is
destroyed. -/
theorem C14_replies_only_in_awaited_state (cfg : Config) (P : Parser) (now : Nat)
    (g : gtv_t) (mvd : Option mvd_t) (body : List Nat) :
    (gtv_state_t.GTV_CONNECTED.toNat ≤ g.state.toNat →
        parse_message_cmd cfg P now g mvd
            { data := gtv_serverop_t.GTS_HELLO.toNat :: body, cursize := body.length + 1,
              readcount := 0 }
          = .error (.gtv_destroyed (gtv_destroy mvd) .duplicated_hello))
      ∧ (∀ (g1 : gtv_t) (m1 : Option mvd_t),
          parse_message_cmd cfg P now g mvd
              { data := gtv_serverop_t.GTS_HELLO.toNat :: body, cursize := body.length + 1,
                readcount := 0 }
            = .ok (g1, m1) →
          g.state.toNat < gtv_state_t.GTV_CONNECTED.toNat
            ∧ g1.state = .GTV_CONNECTED ∧ g1.flags = le32_value body ∧ m1 = mvd)
      ∧ (g.state.toNat < gtv_state_t.GTV_CONNECTED.toNat → 4 ≤ body.length →
          (le32_value body &&& cfg.GTF_DEFLATE = 0 ∨ cfg.USE_ZLIB = true) →
          ∃ g1 : gtv_t,
            parse_message_cmd cfg P now g mvd
                { data := gtv_serverop_t.GTS_HELLO.toNat :: body, cursize := body.length + 1,
                  readcount := 0 }
              = .ok (g1, mvd)
            ∧ g1.state = .GTV_CONNECTED ∧ g1.flags = le32_value body)
      ∧ (g.state ≠ .GTV_RESUMING →
          parse_message_cmd cfg P now g mvd
              { data := gtv_serverop_t.GTS_STREAM_START.toNat :: body,
                cursize := body.length + 1, readcount := 0 }
            = .error (.gtv_destroyed (gtv_destroy mvd) .unexpected_stream_start))
      ∧ (g.state = .GTV_RESUMING →
          ∃ ch : mvd_t,
            parse_message_cmd cfg P now g mvd
                { data := gtv_serverop_t.GTS_STREAM_START.toNat :: body,
                  cursize := body.length + 1, readcount := 0 }
              = .ok ({ g with state := .GTV_READING, last_rcvd := now }, some ch))
      ∧ (g.state ≠ .GTV_SUSPENDING →
          parse_message_cmd cfg P now g mvd
              { data := gtv_serverop_t.GTS_STREAM_STOP.toNat :: body,
                cursize := body.length + 1, readcount := 0 }
            = .error (.gtv_destroyed (gtv_destroy mvd) .unexpected_stream_stop))
      ∧ (g.state = .GTV_SUSPENDING →
          parse_message_cmd cfg P now g mvd
              { data := gtv_serverop_t.GTS_STREAM_STOP.toNat :: body,
                cursize := body.length + 1, readcount := 0 }
            = .ok ({ g with state := .GTV_CONNECTED, last_rcvd := now }, mvd)) := by
  have hhello := parse_message_cmd_opcode cfg P now g mvd gtv_serverop_t.GTS_HELLO.toNat body
    (by decide)
  have hstart := parse_message_cmd_opcode cfg P now g mvd
    gtv_serverop_t.GTS_STREAM_START.toNat body (by decide)
  have hstop := parse_message_cmd_opcode cfg P now g mvd
    gtv_serverop_t.GTS_STREAM_STOP.toNat body (by decide)
  simp only [gtv_serverop_t.ofNat?, gtv_serverop_t.toNat] at hhello hstart hstop
  simp only [gtv_serverop_t.toNat]
  have hrl := MSG_ReadLong_hello body
  refine ⟨?_, ?_, ?_, ?_, ?_, ?_, ?_⟩
  · intro hdup
    rw [hhello]
    unfold parse_hello
    rw [if_pos hdup]
    rfl
  · intro g1 m1 hok
    rw [hhello] at hok
    cases hp : parse_hello cfg g mvd ⟨0 :: body, body.length + 1, 1⟩ with
    | error e =>
      rw [hp] at hok
      exact absurd hok (by simp)
    | ok r =>
      obtain ⟨g2, m2⟩ := r
      rw [hp] at hok
      obtain ⟨hlow, hst, hfl, hm, -, -, -⟩ := parse_hello_ok cfg g mvd _ g2 m2 hp
      rw [hrl] at hfl hm
      simp only at hfl hm
      subst hm
      simp only at hok
      by_cases hlen : 4 ≤ body.length
      · have hnp : ¬ (5 > body.length + 1) := by omega
        rw [if_neg hnp] at hok
        simp only [Except.ok.injEq, Prod.mk.injEq] at hok
        obtain ⟨rfl, rfl⟩ := hok
        rw [if_pos hlen] at hfl
        exact ⟨hlow, hst, hfl, rfl⟩
      · have hpast : 5 > body.length + 1 := by omega
        rw [if_pos hpast] at hok
        exact absurd hok (by simp [gtv_destroyf])
  · intro hlow hlen hz
    have hfl : (MSG_ReadLong ⟨0 :: body, body.length + 1, 1⟩).1 = le32_value body := by
      rw [hrl]
      simp [hlen]
    obtain ⟨g1, hp, hst, hflags⟩ := parse_hello_accept cfg g mvd
      ⟨0 :: body, body.length + 1, 1⟩ hlow (by rw [hfl]; exact hz)
    rw [hhello, hp, hrl]
    have hnp : ¬ (5 > body.length + 1) := by omega
    simp only [if_neg hnp]
    exact ⟨_, rfl, hst, by rw [← hfl]; exact hflags⟩
  · intro hne
    rw [hstart]
    unfold parse_stream_start
    rw [if_pos hne]
    rfl
  · intro heq
    rw [hstart]
    unfold parse_stream_start
    rw [if_neg (by simp [heq])]
    have : ¬ (1 > body.length + 1) := by omega
    simp only [if_neg this]
    exact ⟨_, rfl⟩
  · intro hne
    rw [hstop]
    unfold parse_stream_stop
    rw [if_pos hne]
    rfl
  · intro heq
    rw [hstop]
    unfold parse_stream_stop
    rw [if_neg (by simp [heq])]
    have : ¬ (1 > body.length + 1) := by omega
    simp only [if_neg this]

/-- C14, at a concrete input: a STREAM_STOP message for `upstream_suspending`. -/
theorem C14_replies_only_in_awaited_state_witness :
    parse_message_cmd cfg_default parser_keep 0 upstream_suspending none
        { data := [gtv_serverop_t.GTS_STREAM_STOP.toNat], cursize := 1, readcount := 0 }
      = .ok ({ upstream_suspending with state := .GTV_CONNECTED, last_rcvd := 0 }, none) :=
  (C14_replies_only_in_awaited_state cfg_default parser_keep 0 upstream_suspending none
    []).2.2.2.2.2.2 rfl

/-! ## Helper lemmas: reachable examples and sequences of drops -/

theorem upstream_created_reachable : Reachable cfg_default upstream_created :=
  Reachable.connect env_idle 0 [] none none upstream_created rfl

theorem upstream_after_hello_reachable : Reachable cfg_default upstream_after_hello :=
  Reachable.tick parser_keep env_first_tick 10 3 false upstream_created upstream_after_hello
    none none upstream_created_reachable rfl

theorem gtv_drops_backoff_le (cfg : Config) (nows : List Nat) :
    ∀ g : gtv_t, g.retry_backoff ≤ GTV_MAXIMUM_BACKOFF →
      (gtv_drops cfg nows g).retry_backoff ≤ GTV_MAXIMUM_BACKOFF := by
  induction nows with
  | nil =>
    intro g h
    exact h
  | cons now rest ih =>
    intro g _
    exact ih (gtv_drop cfg now g) (gtv_drop_backoff_le cfg now g)

/-! ## Helper lemmas: stream start and stop requests -/

theorem client_command_empty (op : gtv_clientop_t) :
    client_command op [] = [1, 0, op.toNat] := by
  cases op <;> rfl

theorem client_command_length (op : gtv_clientop_t) (p : List Nat) :
    (client_command op p).length = 3 + p.length := by
  simp [client_command]
  omega

theorem write_message_command (now : Nat) (gtv : gtv_t) (mvd : Option mvd_t)
    (op : gtv_clientop_t) (p : List Nat)
    (h : gtv.stream.send.data.length + (3 + p.length) ≤ gtv.stream.send.size) :
    write_message now gtv mvd op p =
      .ok { gtv with
            stream := { gtv.stream with
                        send := { gtv.stream.send with
                                  data := gtv.stream.send.data ++ client_command op p } }
            last_sent := now } :=
  write_message_fits now gtv mvd op p h

theorem send_stream_start_overflow (cfg : Config) (now : Nat) (g : gtv_t)
    (mvd : Option mvd_t)
    (h : g.stream.send.size < g.stream.send.data.length + (3 + (g.msg_write.length + 2))) :
    send_stream_start cfg now g mvd = gtv_destroyf mvd .send_overflow := by
  unfold send_stream_start
  simp only [MSG_WriteShort]
  rw [write_message_overflow now { g with msg_write := g.msg_write ++ le16_bytes _ } mvd
    .GTC_STREAM_START (g.msg_write ++ le16_bytes _)
    (by rw [List.length_append, le16_bytes_length]; exact h)]
  rfl

/-- C13.  Every change of the state of a network Upstream follows the transition
table `gtv_edge`.  Site by site (`gtv_step` is no change or one edge that is
not a drop): `check_reconnect`, which runs in Disconnected; the magic step of
`parse_message` in any other state, after which the state is at least
Preparing; the length step, which keeps the state; the dispatch of a message
at or above Preparing; `check_timeouts`; `run_connect`, `inflate_more` and
`gtv_read_frame`, which keep the state.  For a whole tick `gtv_run`: a normal
result is reached from the state before along edges of the table that are not
drops (`gtv_path`), and a drop ends in Disconnected, the edge from any state. -/
theorem C13_state_changes_follow_table (cfg : Config) (P : Parser) (env : env_t)
    (now fuel : Nat) (mvd_active : Bool) (g : gtv_t) (mvd : Option mvd_t) :
    (g.state = .GTV_DISCONNECTED → ∀ (g1 : gtv_t) (b : Bool),
        check_reconnect cfg env now g mvd = .ok (g1, b) → gtv_step g.state g1.state)
      ∧ (g.state ≠ .GTV_DISCONNECTED → ∀ (sel : fifo_sel) (g1 : gtv_t),
          parse_message_magic cfg now g mvd sel = .ok (some g1) →
          gtv_step g.state g1.state ∧ 2 ≤ g1.state.toNat)
      ∧ (∀ (sel : fifo_sel) (g1 : gtv_t),
          parse_message_msglen cfg now g mvd sel = .ok (some g1) → g1.state = g.state)
      ∧ (2 ≤ g.state.toNat → ∀ (msg : sizebuf_t) (g1 : gtv_t) (m1 : Option mvd_t),
          parse_message_cmd cfg P now g mvd msg = .ok (g1, m1) → gtv_step g.state g1.state)
      ∧ (∀ g1 : gtv_t, check_timeouts cfg now mvd_active g mvd = .ok g1 →
          gtv_step g.state g1.state)
      ∧ (∀ (ret : neterr_t) (g1 : gtv_t),
          run_connect cfg env now g mvd = .ok (ret, g1) → g1.state = g.state)
      ∧ (∀ (k : Nat) (g1 : gtv_t) (k1 : Nat),
          inflate_more env fuel k g mvd = some (.ok (g1, k1)) → g1.state = g.state)
      ∧ (∀ (ch : mvd_t) (r : frame_result) (g1 : gtv_t),
          gtv_read_frame cfg P now ch (some g) = .ok r → r.gtv = some g1 →
          g1.state = g.state)
      ∧ (∀ (g1 : gtv_t) (m1 : Option mvd_t),
          gtv_run cfg P env now fuel mvd_active g mvd = some (.ok (g1, m1)) →
          gtv_path g.state g1.state)
      ∧ (∀ (g1 : gtv_t) (m1 : Option mvd_t) (w : Reason),
          gtv_run cfg P env now fuel mvd_active g mvd = some (.error (.dropped g1 m1 w)) →
          g1.state = .GTV_DISCONNECTED ∧ gtv_edge g.state g1.state = true) := by
  refine ⟨?_, ?_, ?_, ?_, ?_, ?_, ?_, ?_, ?_, ?_⟩
  · intro hd g1 b h
    rcases check_reconnect_ok cfg env now g mvd g1 b h with ⟨-, hg⟩ | ⟨-, hs, -⟩
    · rw [hg]
      exact Or.inl rfl
    · rw [hd, hs]
      exact (by decide : gtv_step .GTV_DISCONNECTED .GTV_CONNECTING)
  · intro hne sel g1 h
    have hstep0 : ∀ st : gtv_state_t, st ≠ .GTV_DISCONNECTED → st.toNat < 2 →
        gtv_step st .GTV_PREPARING := by
      intro st
      cases st <;> decide
    obtain ⟨h2, -, -, hst⟩ := parse_message_magic_ok cfg now g mvd sel g1 h
    refine ⟨?_, h2⟩
    rcases hst with he | ⟨hlow, he⟩
    · exact Or.inl he.symm
    · rw [he]
      exact hstep0 g.state hne hlow
  · intro sel g1 h
    exact (parse_message_msglen_ok cfg now g mvd sel g1 h).1
  · intro h2 msg g1 m1 h
    exact (parse_message_cmd_ok cfg P now g mvd msg g1 m1 h2 h).1
  · intro g1 h
    exact (check_timeouts_ok cfg now mvd_active g mvd g1 h).1
  · intro ret g1 h
    exact (run_connect_ok cfg env now g mvd ret g1 h).1
  · intro k g1 k1 h
    exact (inflate_more_ok env fuel k g mvd g1 k1 h).1
  · intro ch r g1 h hr
    exact (gtv_read_frame_keeps cfg P now ch g g1 r h hr).1
  · intro g1 m1 h
    exact (gtv_run_ok cfg P env now fuel mvd_active g mvd g1 m1 h).2.1
  · intro g1 m1 w h
    obtain ⟨g2, he, -, -⟩ := gtv_run_dropped cfg P env now fuel mvd_active g mvd g1 m1 w h
    subst he
    refine ⟨rfl, ?_⟩
    show gtv_edge g.state .GTV_DISCONNECTED = true
    cases g.state <;> rfl

/-- C13, at a concrete input: the tick of `upstream_created` with the input
`env_first_tick` goes from Connecting to Connected along edges of the table. -/
theorem C13_state_changes_follow_table_witness :
    gtv_path upstream_created.state upstream_after_hello.state :=
  (C13_state_changes_follow_table cfg_default parser_keep env_first_tick 10 3 false
    upstream_created none).2.2.2.2.2.2.2.2.1 upstream_after_hello none rfl

/-- C17.  For every Upstream the core can produce (see `Reachable`),
`retry_backoff` is at most 5 h (18 000 000 ms), so that the additions of
`gtv_drop` do not wrap around in 32 bits; after a drop at any time the state is
Disconnected, `retry_time` is the time of the drop and `retry_backoff` is again
at most 5 h; the same holds for the drop that ends a tick, and for every
sequence of drops `gtv_drops`. -/
theorem C17_backoff_bounded (cfg : Config) (g : gtv_t) (hr : Reachable cfg g) :
    g.retry_backoff ≤ 18000000
      ∧ GTV_MAXIMUM_BACKOFF = 18000000
      ∧ (g.retry_backoff + 15 * 1000) % 2 ^ 32 = g.retry_backoff + 15 * 1000
      ∧ (g.retry_backoff + 30 * 1000) % 2 ^ 32 = g.retry_backoff + 30 * 1000
      ∧ (∀ now : Nat, (gtv_drop cfg now g).state = .GTV_DISCONNECTED
          ∧ (gtv_drop cfg now g).retry_time = now
          ∧ (gtv_drop cfg now g).retry_backoff ≤ 18000000)
      ∧ (∀ (P : Parser) (env : env_t) (now fuel : Nat) (mvd_active : Bool)
          (mvd m1 : Option mvd_t) (g1 : gtv_t) (w : Reason),
          gtv_run cfg P env now fuel mvd_active g mvd = some (.error (.dropped g1 m1 w)) →
          g1.state = .GTV_DISCONNECTED ∧ g1.retry_time = now ∧ g1.retry_backoff ≤ 18000000
            ∧ ∃ g0 : gtv_t, g1 = gtv_drop cfg now g0 ∧ g0.retry_backoff ≤ 18000000)
      ∧ (∀ nows : List Nat, (gtv_drops cfg nows g).retry_backoff ≤ 18000000) := by
  have hM : GTV_MAXIMUM_BACKOFF = 18000000 := rfl
  have hb : g.retry_backoff ≤ 18000000 := by
    have := (Reachable_inv cfg g hr).1
    rw [hM] at this
    exact this
  refine ⟨hb, hM, Nat.mod_eq_of_lt (by norm_num; omega), Nat.mod_eq_of_lt (by norm_num; omega),
    ?_, ?_, ?_⟩
  · intro now
    have := gtv_drop_backoff_le cfg now g
    rw [hM] at this
    exact ⟨rfl, rfl, this⟩
  · intro P env now fuel mvd_active mvd m1 g1 w h
    obtain ⟨g0, he, hb0, -⟩ := gtv_run_dropped cfg P env now fuel mvd_active g mvd g1 m1 w h
    subst he
    have := gtv_drop_backoff_le cfg now g0
    rw [hM] at this
    exact ⟨rfl, rfl, this, g0, rfl, by rw [hb0]; exact hb⟩
  · intro nows
    have := gtv_drops_backoff_le cfg nows g (by rw [hM]; exact hb)
    rw [hM] at this
    exact this

/-- C17, at a concrete input: the reachable Upstream `upstream_after_hello`. -/
theorem C17_backoff_bounded_witness :
    Reachable cfg_default upstream_after_hello
      ∧ (gtv_drop cfg_default 500 upstream_after_hello).state = .GTV_DISCONNECTED
      ∧ (gtv_drop cfg_default 500 upstream_after_hello).retry_time = 500
      ∧ (gtv_drop cfg_default 500 upstream_after_hello).retry_backoff ≤ 18000000 :=
  ⟨upstream_after_hello_reachable,
   (C17_backoff_bounded cfg_default upstream_after_hello
      upstream_after_hello_reachable).2.2.2.2.1 500⟩

/-- C18.  For every Upstream the core can produce (see `Reachable`) whose state
is Connected or above, a drop at any time sets `retry_backoff` to exactly
5000 ms, whatever its value was; and when a tick `gtv_run` of an Upstream whose
state is Connected or above ends in a drop, `retry_backoff` is 5000 ms
afterwards. -/
theorem C18_drop_from_connected_resets_backoff (cfg : Config) (g : gtv_t)
    (hr : Reachable cfg g) (hc : gtv_state_t.GTV_CONNECTED.toNat ≤ g.state.toNat) :
    (∀ now : Nat, (gtv_drop cfg now g).retry_backoff = 5000)
      ∧ (∀ (P : Parser) (env : env_t) (now fuel : Nat) (mvd_active : Bool)
          (mvd m1 : Option mvd_t) (g1 : gtv_t) (w : Reason),
          gtv_run cfg P env now fuel mvd_active g mvd = some (.error (.dropped g1 m1 w)) →
          g1.retry_backoff = 5000) := by
  have hD : GTV_DEFAULT_BACKOFF = 5000 := rfl
  have hc3 : 3 ≤ g.state.toNat := hc
  refine ⟨fun now => ?_, ?_⟩
  · rw [gtv_drop_backoff_connected cfg now g ((Reachable_inv cfg g hr).2 hc3) hc, hD]
  · intro P env now fuel mvd_active mvd m1 g1 w h
    obtain ⟨g0, he, -, hor⟩ := gtv_run_dropped cfg P env now fuel mvd_active g mvd g1 m1 w h
    subst he
    rcases hor with ⟨hd, -, -⟩ | ⟨h2, h3⟩
    · rw [hd] at hc3
      exact absurd hc3 (by decide)
    · rw [gtv_drop_backoff_connected cfg now g0 h2 (h3 hc3), hD]

/-- C18, at a concrete input: the reachable Upstream `upstream_after_hello`, in
state Connected, dropped at time 500. -/
theorem C18_drop_from_connected_resets_backoff_witness :
    Reachable cfg_default upstream_after_hello
      ∧ gtv_state_t.GTV_CONNECTED.toNat ≤ upstream_after_hello.state.toNat
      ∧ (gtv_drop cfg_default 500 upstream_after_hello).retry_backoff = 5000 :=
  ⟨upstream_after_hello_reachable, by decide,
   (C18_drop_from_connected_resets_backoff cfg_default upstream_after_hello
      upstream_after_hello_reachable (by decide)).1 500⟩

/-- C19 (counterexample).  Three ticks of the Upstream `upstream_created` (as
`MVD_Connect_f` creates it, `retry_backoff` 0) under `cfg_default`: at time 10
the connection is established and the magic arrives, the state is Preparing;
at time 20 a zero length header arrives and the Upstream is dropped: this
first drop, from below Connected, adds 30 s where the claim says 15 s; at time
40000 the address lookup fails and the Upstream is dropped again: this second
consecutive drop from below Connected adds 15 s where the claim says 30 s. -/
theorem C19_counterexample_amount_follows_transport :
    ∃ (gA dB dC : gtv_t),
      gtv_run cfg_default parser_keep env_magic 10 3 false upstream_created none
          = some (.ok (gA, none))
        ∧ gA.state = .GTV_PREPARING ∧ gA.retry_backoff = 0
        ∧ gtv_run cfg_default parser_keep env_zero_length 20 3 false gA none
            = some (.error (.dropped dB none .end_of_gtv_stream))
        ∧ dB.retry_backoff = 30000
        ∧ gtv_run cfg_default parser_keep env_no_lookup 40000 3 false dB none
            = some (.error (.dropped dC none .lookup_failed))
        ∧ dC.retry_backoff = 45000 :=
  ⟨_, _, _, rfl, rfl, rfl, rfl, rfl, rfl, rfl⟩

/-- C19 (amended).  For a drop from a state below Connected, with
`retry_backoff` at most 5 h before, `retry_backoff` is increased by 15 s when
the transport state is below `NS_CONNECTED` and by 30 s when the transport is
connected or closed, and then clamped to 5 h; two Upstreams below Connected
with the same `retry_backoff` and transports on the same side of
`NS_CONNECTED` get the same `retry_backoff` from a drop. -/
theorem C19_backoff_below_connected (cfg : Config) (now : Nat) (g : gtv_t)
    (hlow : g.state.toNat < gtv_state_t.GTV_CONNECTED.toNat)
    (hb : g.retry_backoff ≤ GTV_MAXIMUM_BACKOFF) :
    (g.stream.state.toNat < netstate_t.NS_CONNECTED.toNat →
        (gtv_drop cfg now g).retry_backoff = min (g.retry_backoff + 15000) 18000000)
      ∧ (netstate_t.NS_CONNECTED.toNat ≤ g.stream.state.toNat →
          (gtv_drop cfg now g).retry_backoff = min (g.retry_backoff + 30000) 18000000)
      ∧ (∀ (now2 : Nat) (g2 : gtv_t),
          g2.state.toNat < gtv_state_t.GTV_CONNECTED.toNat →
          g2.retry_backoff = g.retry_backoff →
          (g2.stream.state.toNat < netstate_t.NS_CONNECTED.toNat
            ↔ g.stream.state.toNat < netstate_t.NS_CONNECTED.toNat) →
          (gtv_drop cfg now2 g2).retry_backoff = (gtv_drop cfg now g).retry_backoff) := by
  have hM : GTV_MAXIMUM_BACKOFF = 18000000 := rfl
  refine ⟨fun hs => ?_, fun hs => ?_, ?_⟩
  · rw [gtv_drop_backoff_below cfg now g hs hb, hM]
  · rw [gtv_drop_backoff_early cfg now g hs hlow hb, hM]
  · intro now2 g2 hlow2 hb2 hiff
    by_cases hs : g.stream.state.toNat < netstate_t.NS_CONNECTED.toNat
    · rw [gtv_drop_backoff_below cfg now g hs hb,
        gtv_drop_backoff_below cfg now2 g2 (hiff.mpr hs) (by rw [hb2]; exact hb), hb2]
    · have hs2 : ¬ g2.stream.state.toNat < netstate_t.NS_CONNECTED.toNat :=
        fun h => hs (hiff.mp h)
      rw [gtv_drop_backoff_early cfg now g (by omega) hlow hb,
        gtv_drop_backoff_early cfg now2 g2 (by omega) hlow2 (by rw [hb2]; exact hb), hb2]

/-- C19 (amended), at a concrete input: `upstream_preparing` (transport
connected, no drop so far) gets 30 s. -/
theorem C19_backoff_below_connected_witness :
    (gtv_drop cfg_default 20 upstream_preparing).retry_backoff
      = min (upstream_preparing.retry_backoff + 30000) 18000000 :=
  (C19_backoff_below_connected cfg_default 20 upstream_preparing (by decide)
    (by decide)).2.1 (by decide)

theorem upstream_after_magic_reachable : Reachable cfg_default upstream_after_magic :=
  Reachable.tick parser_keep env_magic 10 3 false upstream_created upstream_after_magic
    none none upstream_created_reachable rfl

theorem upstream_dropped_reachable : Reachable cfg_default upstream_dropped :=
  Reachable.drop parser_keep env_zero_length 20 3 false upstream_after_magic upstream_dropped
    none none .end_of_gtv_stream upstream_after_magic_reachable rfl

theorem check_reconnect_wait (cfg : Config) (env : env_t) (now : Nat) (g : gtv_t)
    (mvd : Option mvd_t) (h : u32_sub now g.retry_time < g.retry_backoff) :
    check_reconnect cfg env now g mvd = .ok (g, false) := by
  unfold check_reconnect
  rw [if_pos h]

theorem check_reconnect_attempt (cfg : Config) (env : env_t) (now : Nat) (g : gtv_t)
    (mvd : Option mvd_t) (h : ¬ u32_sub now g.retry_time < g.retry_backoff) :
    check_reconnect cfg env now g mvd =
      if env.lookup_ok = false then
        gtv_dropf cfg now { g with state := .GTV_CONNECTING, last_sent := now, last_rcvd := now }
          mvd .lookup_failed
      else if (NET_Connect env g.stream).1 = .NET_ERROR then
        gtv_dropf cfg now
          { g with state := .GTV_CONNECTING, last_sent := now, last_rcvd := now,
                   stream := (NET_Connect env g.stream).2 } mvd .connect_failed
      else
        .ok ({ g with state := .GTV_CONNECTING, last_sent := now, last_rcvd := now,
                      stream := (NET_Connect env g.stream).2 }, true) := by
  unfold check_reconnect
  rw [if_neg h]

/-! ## Claims C21 to C30 -/

/-- C21 (counterexample).  The Upstream `upstream_dropped` (reachable,
Disconnected, `retry_time` 20, `retry_backoff` 30000) under `cfg_default`: at
time 40000 the backoff has elapsed, the address lookup fails, and the tick
ends in a drop: the state after this tick is Disconnected, not Connecting. -/
theorem C21_counterexample_lookup_fails :
    Reachable cfg_default upstream_dropped
      ∧ upstream_dropped.state = .GTV_DISCONNECTED
      ∧ ¬ (u32_sub 40000 upstream_dropped.retry_time < upstream_dropped.retry_backoff)
      ∧ (∃ d : gtv_t,
          gtv_run cfg_default parser_keep env_no_lookup 40000 3 false upstream_dropped none
              = some (.error (.dropped d none .lookup_failed))
            ∧ d.state = .GTV_DISCONNECTED) :=
  ⟨upstream_dropped_reachable, rfl, by decide, ⟨_, rfl, rfl⟩⟩

/-- C21 (amended).  A tick of a Disconnected Upstream.  While
`(now - retry_time) mod 2^32 < retry_backoff` the tick returns the Upstream
unchanged, whatever the network would answer.  Otherwise `check_reconnect`
sets the state to Connecting and `last_sent` and `last_rcvd` to `now`; then,
if the address lookup and `NET_Connect` succeed, the tick goes on with that
Upstream, and if one of them fails the Upstream is dropped in the same tick:
Disconnected again, `retry_time` equal to `now`, `last_sent` and `last_rcvd`
still reset. -/
theorem C21_reconnect_after_backoff (cfg : Config) (P : Parser) (env : env_t)
    (now fuel : Nat) (mvd_active : Bool) (g : gtv_t) (mvd : Option mvd_t)
    (hd : g.state = .GTV_DISCONNECTED) :
    (u32_sub now g.retry_time < g.retry_backoff →
        gtv_run cfg P env now fuel mvd_active g mvd = some (.ok (g, mvd)))
      ∧ (¬ u32_sub now g.retry_time < g.retry_backoff → env.lookup_ok = true →
          (NET_Connect env g.stream).1 ≠ .NET_ERROR →
          check_reconnect cfg env now g mvd
              = .ok ({ g with state := .GTV_CONNECTING, last_sent := now, last_rcvd := now,
                              stream := (NET_Connect env g.stream).2 }, true)
            ∧ gtv_run cfg P env now fuel mvd_active g mvd
                = gtv_run cfg P env now fuel mvd_active
                    { g with state := .GTV_CONNECTING, last_sent := now, last_rcvd := now,
                             stream := (NET_Connect env g.stream).2 } mvd)
      ∧ (¬ u32_sub now g.retry_time < g.retry_backoff →
          env.lookup_ok = false ∨ (NET_Connect env g.stream).1 = .NET_ERROR →
          ∃ (gc : gtv_t) (w : Reason),
            gc.state = .GTV_CONNECTING ∧ gc.last_sent = now ∧ gc.last_rcvd = now
              ∧ gtv_run cfg P env now fuel mvd_active g mvd
                  = some (.error (.dropped (gtv_drop cfg now gc) mvd w))
              ∧ (gtv_drop cfg now gc).state = .GTV_DISCONNECTED
              ∧ (gtv_drop cfg now gc).retry_time = now
              ∧ (gtv_drop cfg now gc).last_sent = now
              ∧ (gtv_drop cfg now gc).last_rcvd = now) := by
  refine ⟨fun h => ?_, fun h hl hc => ?_, fun h hf => ?_⟩
  · exact gtv_run_waiting cfg P env now fuel mvd_active g mvd g hd
      (check_reconnect_wait cfg env now g mvd h)
  · have hcr : check_reconnect cfg env now g mvd
        = .ok ({ g with state := .GTV_CONNECTING, last_sent := now, last_rcvd := now,
                        stream := (NET_Connect env g.stream).2 }, true) := by
      rw [check_reconnect_attempt cfg env now g mvd h, if_neg (by simp [hl]), if_neg hc]
    exact ⟨hcr, gtv_run_reconnect cfg P env now fuel mvd_active g mvd _ hd hcr⟩
  · by_cases hl : env.lookup_ok = false
    · refine ⟨{ g with state := .GTV_CONNECTING, last_sent := now, last_rcvd := now },
        .lookup_failed, rfl, rfl, rfl, ?_, rfl, rfl, rfl, rfl⟩
      apply gtv_run_reconnect_failed cfg P env now fuel mvd_active g mvd _ hd
      rw [check_reconnect_attempt cfg env now g mvd h, if_pos hl]
      rfl
    · have hc : (NET_Connect env g.stream).1 = .NET_ERROR := by
        rcases hf with hf | hf
        · exact absurd hf hl
        · exact hf
      refine ⟨{ g with state := .GTV_CONNECTING, last_sent := now, last_rcvd := now,
                       stream := (NET_Connect env g.stream).2 },
        .connect_failed, rfl, rfl, rfl, ?_, rfl, rfl, rfl, rfl⟩
      apply gtv_run_reconnect_failed cfg P env now fuel mvd_active g mvd _ hd
      rw [check_reconnect_attempt cfg env now g mvd h, if_neg hl, if_pos hc]
      rfl

/-- C21 (amended), at a concrete input: `upstream_dropped` at time 30000, before
the backoff has elapsed, and at time 40000 with a connection in progress. -/
theorem C21_reconnect_after_backoff_witness :
    gtv_run cfg_default parser_keep env_connecting 30000 3 false upstream_dropped none
        = some (.ok (upstream_dropped, none))
      ∧ check_reconnect cfg_default env_connecting 40000 upstream_dropped none
          = .ok ({ upstream_dropped with
                   state := .GTV_CONNECTING, last_sent := 40000, last_rcvd := 40000,
                   stream := (NET_Connect env_connecting upstream_dropped.stream).2 }, true) :=
  ⟨(C21_reconnect_after_backoff cfg_default parser_keep env_connecting 30000 3 false
      upstream_dropped none rfl).1 (by decide),
   ((C21_reconnect_after_backoff cfg_default parser_keep env_connecting 40000 3 false
      upstream_dropped none rfl).2.1 (by decide) rfl (by decide)).1⟩

/-- C29.  For every opcode and every payload `p` of `n` bytes, `write_message`
appends to the send buffer the 3 header bytes `(n+1) mod 256`,
`((n+1) div 256) mod 256`, opcode, followed by the `n` bytes of `p`, and sets
`last_sent` to `now`, when all `n + 3` bytes fit in the free space of the send
buffer; when they do not fit the Upstream is destroyed.  Nothing else of the
Upstream changes. -/
theorem C29_write_message_framing (now : Nat) (gtv : gtv_t) (mvd : Option mvd_t)
    (op : gtv_clientop_t) (p : List Nat) :
    (gtv.stream.send.data.length + (3 + p.length) ≤ gtv.stream.send.size →
        write_message now gtv mvd op p =
          .ok { gtv with
                stream := { gtv.stream with
                            send := { gtv.stream.send with
                                      data := gtv.stream.send.data ++
                                        ([(p.length + 1) % 256, (p.length + 1) / 256 % 256,
                                          op.toNat] ++ p) } }
                last_sent := now })
      ∧ (gtv.stream.send.size < gtv.stream.send.data.length + (3 + p.length) →
          write_message now gtv mvd op p
            = .error (.gtv_destroyed (gtv_destroy mvd) .send_overflow)) := by
  have hop : op.toNat % 256 = op.toNat := by
    cases op <;> rfl
  refine ⟨fun h => ?_, fun h => ?_⟩
  · rw [write_message_fits now gtv mvd op p h, hop]
  · rw [write_message_overflow now gtv mvd op p h]
    rfl

/-- C29, at a concrete input: a STRINGCMD with the payload 104, 105, 0 for
`upstream_connected`, whose send buffer is empty. -/
theorem C29_write_message_framing_witness :
    write_message 7 upstream_connected none .GTC_STRINGCMD [104, 105, 0] =
      .ok { upstream_connected with
            stream := { upstream_connected.stream with
                        send := { upstream_connected.stream.send with
                                  data := [4, 0, 4, 104, 105, 0] } }
            last_sent := 7 } :=
  (C29_write_message_framing 7 upstream_connected none .GTC_STRINGCMD [104, 105, 0]).1
    (by decide)

/-- C30, what the code does.  The function `gtv_forward_cmd`.  If the Channel
has an Upstream in state Connected or above whose flags include
`GTF_STRINGCMDS` and whose send buffer is empty, the first 150 bytes of the
text (all of it if it is shorter) and one 0 byte are appended to `msg_write`,
and `msg_write` is sent as a STRINGCMD command: if the send buffer can take it,
it is written, `msg_write` is cleared and true is returned; if not, the
Upstream is destroyed.  With an empty `msg_write` and a send buffer of at
least 154 bytes (the constant `MAX_GTC_MSGLEN` is 256) the payload is the text
and the 0 byte, the header gives the payload length plus 1 and the opcode 4.
In every other case false is returned and the Upstream is unchanged.  So, for
an empty `msg_write` and such a send buffer, true is returned exactly in the
first case. -/
theorem C30_forward_cmd (cfg : Config) (now : Nat) (mvd : mvd_t) (gtv : Option gtv_t)
    (text : List Nat) :
    (∀ g : gtv_t, gtv = some g →
        gtv_state_t.GTV_CONNECTED.toNat ≤ g.state.toNat →
        g.flags &&& cfg.GTF_STRINGCMDS ≠ 0 →
        FIFO_Usage g.stream.send = 0 →
        (3 + (g.msg_write.length + ((text.take 150).length + 1)) ≤ g.stream.send.size →
          gtv_forward_cmd cfg now mvd gtv text =
            .ok (some { g with
                        stream := { g.stream with
                                    send := { g.stream.send with
                                              data := client_command .GTC_STRINGCMD
                                                (g.msg_write ++ text.take 150 ++ [0]) } }
                        last_sent := now
                        msg_write := [] }, true))
          ∧ (g.stream.send.size < 3 + (g.msg_write.length + ((text.take 150).length + 1)) →
              gtv_forward_cmd cfg now mvd gtv text
                = .error (.gtv_destroyed (gtv_destroy (some mvd)) .send_overflow)))
      ∧ (∀ g : gtv_t, gtv = some g →
          gtv_state_t.GTV_CONNECTED.toNat ≤ g.state.toNat →
          g.flags &&& cfg.GTF_STRINGCMDS ≠ 0 →
          FIFO_Usage g.stream.send = 0 →
          g.msg_write = [] → 154 ≤ g.stream.send.size →
          gtv_forward_cmd cfg now mvd gtv text =
            .ok (some { g with
                        stream := { g.stream with
                                    send := { g.stream.send with
                                              data := [(text.take 150).length + 2, 0,
                                                       gtv_clientop_t.GTC_STRINGCMD.toNat]
                                                ++ (text.take 150 ++ [0]) } }
                        last_sent := now }, true))
      ∧ ((gtv = none ∨ ∃ g : gtv_t, gtv = some g
            ∧ (g.state.toNat < gtv_state_t.GTV_CONNECTED.toNat
                ∨ g.flags &&& cfg.GTF_STRINGCMDS = 0
                ∨ FIFO_Usage g.stream.send ≠ 0)) →
          gtv_forward_cmd cfg now mvd gtv text = .ok (gtv, false))
      ∧ ((∀ g : gtv_t, gtv = some g → g.msg_write = [] ∧ 154 ≤ g.stream.send.size) →
          ((∃ g1 : Option gtv_t, gtv_forward_cmd cfg now mvd gtv text = .ok (g1, true))
            ↔ ∃ g : gtv_t, gtv = some g
                ∧ gtv_state_t.GTV_CONNECTED.toNat ≤ g.state.toNat
                ∧ g.flags &&& cfg.GTF_STRINGCMDS ≠ 0
                ∧ FIFO_Usage g.stream.send = 0)) := by
  have hlen : (if text.length > 150 then 150 else text.length) = min 150 text.length := by
    split
    · rw [min_eq_left (by omega)]
    · rw [min_eq_right (by omega)]
  have htake : text.take (min 150 text.length) = text.take 150 := by
    rcases Nat.le_total 150 text.length with h | h
    · rw [min_eq_left h]
    · rw [min_eq_right h, List.take_of_length_le (le_refl _), List.take_of_length_le h]
  have hle : (text.take 150).length ≤ 150 := by
    rw [List.length_take]
    exact min_le_left _ _
  have hcall : ∀ g : gtv_t,
      gtv_state_t.GTV_CONNECTED.toNat ≤ g.state.toNat →
      g.flags &&& cfg.GTF_STRINGCMDS ≠ 0 →
      FIFO_Usage g.stream.send = 0 →
      gtv_forward_cmd cfg now mvd (some g) text =
        match write_message now { g with msg_write := g.msg_write ++ text.take 150 ++ [0] }
            (some mvd) .GTC_STRINGCMD (g.msg_write ++ text.take 150 ++ [0]) with
        | .error e => .error e
        | .ok g1 => .ok (some { g1 with msg_write := [] }, true) := by
    intro g hst hfl hus
    unfold gtv_forward_cmd
    simp only []
    rw [if_neg (by omega), if_neg hfl, if_neg (by simpa using hus), hlen]
    simp only [MSG_WriteData, MSG_WriteByte, htake, Nat.zero_mod]
  have hgen : ∀ g : gtv_t, gtv = some g →
      gtv_state_t.GTV_CONNECTED.toNat ≤ g.state.toNat →
      g.flags &&& cfg.GTF_STRINGCMDS ≠ 0 →
      FIFO_Usage g.stream.send = 0 →
      (3 + (g.msg_write.length + ((text.take 150).length + 1)) ≤ g.stream.send.size →
        gtv_forward_cmd cfg now mvd gtv text =
          .ok (some { g with
                      stream := { g.stream with
                                  send := { g.stream.send with
                                            data := client_command .GTC_STRINGCMD
                                              (g.msg_write ++ text.take 150 ++ [0]) } }
                      last_sent := now
                      msg_write := [] }, true))
        ∧ (g.stream.send.size < 3 + (g.msg_write.length + ((text.take 150).length + 1)) →
            gtv_forward_cmd cfg now mvd gtv text
              = .error (.gtv_destroyed (gtv_destroy (some mvd)) .send_overflow)) := by
    intro g hg hst hfl hus
    subst hg
    have hempty : g.stream.send.data = [] := by
      unfold FIFO_Usage at hus
      exact List.length_eq_zero.mp hus
    have hpl : (g.msg_write ++ text.take 150 ++ [0]).length
        = g.msg_write.length + ((text.take 150).length + 1) := by
      simp only [List.length_append, List.length_singleton]
      omega
    refine ⟨fun hfit => ?_, fun hov => ?_⟩
    · rw [hcall g hst hfl hus,
        write_message_command now { g with msg_write := g.msg_write ++ text.take 150 ++ [0] }
          (some mvd) _ _ (by
            show g.stream.send.data.length + (3 + _) ≤ g.stream.send.size
            rw [hempty, hpl]
            simp only [List.length_nil]
            omega)]
      simp only [hempty, List.nil_append]
    · rw [hcall g hst hfl hus,
        write_message_overflow now { g with msg_write := g.msg_write ++ text.take 150 ++ [0] }
          (some mvd) _ _ (by
            show g.stream.send.size < g.stream.send.data.length + (3 + _)
            rw [hempty, hpl]
            simp only [List.length_nil]
            omega)]
      rfl
  have hsend : ∀ g : gtv_t, gtv = some g →
      gtv_state_t.GTV_CONNECTED.toNat ≤ g.state.toNat →
      g.flags &&& cfg.GTF_STRINGCMDS ≠ 0 →
      FIFO_Usage g.stream.send = 0 →
      g.msg_write = [] → 154 ≤ g.stream.send.size →
      gtv_forward_cmd cfg now mvd gtv text =
        .ok (some { g with
                    stream := { g.stream with
                                send := { g.stream.send with
                                          data := [(text.take 150).length + 2, 0,
                                                   gtv_clientop_t.GTC_STRINGCMD.toNat]
                                            ++ (text.take 150 ++ [0]) } }
                    last_sent := now }, true) := by
    intro g hg hst hfl hus hw hs
    rw [(hgen g hg hst hfl hus).1 (by rw [hw]; simp only [List.length_nil]; omega), hw]
    have hpl : (text.take 150 ++ [0]).length = (text.take 150).length + 1 := by simp
    have h1 : ((text.take 150).length + 1 + 1) % 256 = (text.take 150).length + 2 := by
      omega
    have h2 : ((text.take 150).length + 1 + 1) / 256 % 256 = 0 := by
      omega
    simp only [client_command, List.nil_append, hpl, h1, h2]
    rfl
  have hrefuse : (gtv = none ∨ ∃ g : gtv_t, gtv = some g
        ∧ (g.state.toNat < gtv_state_t.GTV_CONNECTED.toNat
            ∨ g.flags &&& cfg.GTF_STRINGCMDS = 0
            ∨ FIFO_Usage g.stream.send ≠ 0)) →
      gtv_forward_cmd cfg now mvd gtv text = .ok (gtv, false) := by
    intro h
    rcases h with h | ⟨g, hg, h⟩
    · subst h
      rfl
    · subst hg
      unfold gtv_forward_cmd
      simp only []
      by_cases h1 : g.state.toNat < gtv_state_t.GTV_CONNECTED.toNat
      · rw [if_pos h1]
      · rw [if_neg h1]
        by_cases h2 : g.flags &&& cfg.GTF_STRINGCMDS = 0
        · rw [if_pos h2]
        · rw [if_neg h2]
          have h3 : FIFO_Usage g.stream.send ≠ 0 := by
            rcases h with h | h | h
            · exact absurd h h1
            · exact absurd h h2
            · exact h
          rw [if_pos h3]
  refine ⟨hgen, hsend, hrefuse, fun hclean =>
    ⟨fun ⟨g1, h⟩ => ?_, fun ⟨g, hg, hst, hfl, hus⟩ => ?_⟩⟩
  · by_contra hcon
    have hr : gtv = none ∨ ∃ g : gtv_t, gtv = some g
        ∧ (g.state.toNat < gtv_state_t.GTV_CONNECTED.toNat
            ∨ g.flags &&& cfg.GTF_STRINGCMDS = 0
            ∨ FIFO_Usage g.stream.send ≠ 0) := by
      cases hgtv : gtv with
      | none => exact Or.inl rfl
      | some g =>
        refine Or.inr ⟨g, rfl, ?_⟩
        by_contra hno
        apply hcon
        refine ⟨g, hgtv, ?_, ?_, ?_⟩
        · by_contra h1
          exact hno (Or.inl (by omega))
        · intro h2
          exact hno (Or.inr (Or.inl h2))
        · by_contra h3
          exact hno (Or.inr (Or.inr h3))
    rw [hrefuse hr] at h
    simp at h
  · exact ⟨_, hsend g hg hst hfl hus (hclean g hg).1 (hclean g hg).2⟩

/-- C30, at a concrete input: the text 104, 105 for `upstream_forwarding`, whose
`msg_write` is empty. -/
theorem C30_forward_cmd_witness :
    gtv_forward_cmd cfg_default 9 chan_one (some upstream_forwarding) [104, 105] =
      .ok (some { upstream_forwarding with
                  stream := { upstream_forwarding.stream with
                              send := { upstream_forwarding.stream.send with
                                        data := [4, 0, 4, 104, 105, 0] } }
                  last_sent := 9 }, true) :=
  (C30_forward_cmd cfg_default 9 chan_one (some upstream_forwarding) [104, 105]).2.1
    upstream_forwarding rfl (by decide) (by decide) rfl rfl (by decide)

/-- C30, the failing input.  `send_stream_start` for `upstream_connected_send_full`
writes the two bytes 100, 0 of `maxbuf` to `msg_write` and leaves through the
overflow exit of `write_message`, before `SZ_Clear`.  With these bytes still in
`msg_write` (`upstream_forwarding_stale`), `gtv_forward_cmd` for the text 104,
105 sends a STRINGCMD whose payload is 100, 0, 104, 105, 0: not the text
followed by a single 0 byte. -/
theorem C30_counterexample_stale_msg_write :
    send_stream_start cfg_default 9 upstream_connected_send_full none
        = .error (.gtv_destroyed none .send_overflow)
      ∧ MSG_WriteShort upstream_connected_send_full.msg_write 100 = [100, 0]
      ∧ upstream_forwarding_stale.msg_write = [100, 0]
      ∧ gtv_forward_cmd cfg_default 9 chan_one (some upstream_forwarding_stale) [104, 105] =
          .ok (some { upstream_forwarding with
                      stream := { upstream_forwarding.stream with
                                  send := { upstream_forwarding.stream.send with
                                            data := [6, 0, 4, 100, 0, 104, 105, 0] } }
                      last_sent := 9 }, true) := by
  refine ⟨?_, ?_, rfl, rfl⟩
  · rw [send_stream_start_overflow cfg_default 9 upstream_connected_send_full none
      (by rw [connected_send_full_length]; decide)]
    rfl
  · rfl


/-- C23.  Destroying an Upstream, by `gtv_destroy` (network) or `demo_destroy`
(demo): the Channel of the Upstream is freed if and only if its state is
Dead; a Channel in Waiting or Reading is kept exactly as it is (state, delay
buffer, `num_packets` and the other fields), with its back pointer `mvd->gtv`
set to none; an Upstream without a Channel leaves none.  The exits
`gtv_destroyf` and `demo_destroyf` hand on exactly that Channel. -/
theorem C23_destroy_frees_dead_channel (m : mvd_t) (why : Reason) :
    (gtv_destroy (some m) = none ↔ m.state = .MVD_DEAD)
      ∧ (demo_destroy (some m) = none ↔ m.state = .MVD_DEAD)
      ∧ (m.state = .MVD_WAITING ∨ m.state = .MVD_READING →
          gtv_destroy (some m) = some m ∧ demo_destroy (some m) = some m
            ∧ gtv_destroy_link (some m) = some (m, none)
            ∧ demo_destroy_link (some m) = some (m, none))
      ∧ (m.state = .MVD_DEAD →
          gtv_destroy_link (some m) = none ∧ demo_destroy_link (some m) = none)
      ∧ gtv_destroy none = none ∧ demo_destroy none = none
      ∧ (gtv_destroy_link (some m)).map Prod.fst = gtv_destroy (some m)
      ∧ (demo_destroy_link (some m)).map Prod.fst = demo_destroy (some m)
      ∧ (gtv_destroyf (some m) why : Run Unit)
          = .error (.gtv_destroyed (if m.state = .MVD_DEAD then none else some m) why)
      ∧ (demo_destroyf (some m) why : Run Unit)
          = .error (.gtv_destroyed (if m.state = .MVD_DEAD then none else some m) why) := by
  refine ⟨?_, ?_, ?_, ?_, rfl, rfl, ?_, ?_, rfl, rfl⟩
  · unfold gtv_destroy
    by_cases h : m.state = .MVD_DEAD <;> simp [h]
  · unfold demo_destroy
    by_cases h : m.state = .MVD_DEAD <;> simp [h]
  · intro h
    have hne : m.state ≠ .MVD_DEAD := by
      rcases h with h | h <;> rw [h] <;> decide
    simp [gtv_destroy, demo_destroy, gtv_destroy_link, demo_destroy_link, hne]
  · intro h
    simp [gtv_destroy_link, demo_destroy_link, h]
  · unfold gtv_destroy_link gtv_destroy
    by_cases h : m.state = .MVD_DEAD <;> simp [h]
  · unfold demo_destroy_link demo_destroy
    by_cases h : m.state = .MVD_DEAD <;> simp [h]

/-- C23, at a concrete input: the Channel `chan_one`, in Reading. -/
theorem C23_destroy_frees_dead_channel_witness :
    gtv_destroy (some chan_one) = some chan_one ∧ demo_destroy (some chan_one) = some chan_one
      ∧ gtv_destroy_link (some chan_one) = some (chan_one, none)
      ∧ demo_destroy_link (some chan_one) = some (chan_one, none) :=
  (C23_destroy_frees_dead_channel chan_one .end_of_playlist).2.2.1 (Or.inr rfl)

/-! ## Helper lemmas: the frame tick -/

theorem MVD_Frame_loop_spec (cfg : Config) (P : Parser) (now fuel : Nat) (mvd_active : Bool)
    (list : List conn_t) :
    ∀ (k : Nat) (calls : List (conn_t × Run (gtv_t × Option mvd_t))) (n : Nat),
      MVD_Frame_loop cfg P now fuel mvd_active list k = some (calls, n) →
      calls.map Prod.fst = list
        ∧ (∀ x ∈ calls, gtv_run cfg P x.1.env now fuel mvd_active x.1.gtv x.1.mvd = some x.2)
        ∧ n = k + (calls.filter (fun x => returned x.2)).length := by
  induction list with
  | nil =>
    intro k calls n h
    simp only [MVD_Frame_loop, Option.some.injEq, Prod.mk.injEq] at h
    obtain ⟨rfl, rfl⟩ := h
    simp
  | cons c rest ih =>
    intro k calls n h
    unfold MVD_Frame_loop at h
    cases hr : gtv_run cfg P c.env now fuel mvd_active c.gtv c.mvd with
    | none =>
      rw [hr] at h
      exact absurd h (by simp)
    | some r =>
      rw [hr] at h
      cases r with
      | error e =>
        simp only [] at h
        cases hl : MVD_Frame_loop cfg P now fuel mvd_active rest k with
        | none =>
          rw [hl] at h
          exact absurd h (by simp)
        | some x =>
          obtain ⟨calls1, n1⟩ := x
          rw [hl] at h
          simp only [Option.some.injEq, Prod.mk.injEq] at h
          obtain ⟨rfl, rfl⟩ := h
          obtain ⟨h1, h2, h3⟩ := ih k calls1 n1 hl
          refine ⟨by simp [h1], ?_, ?_⟩
          · intro x hx
            rcases List.mem_cons.mp hx with hx | hx
            · subst hx
              exact hr
            · exact h2 x hx
          · simp [returned, h3]
      | ok v =>
        simp only [] at h
        cases hl : MVD_Frame_loop cfg P now fuel mvd_active rest (k + 1) with
        | none =>
          rw [hl] at h
          exact absurd h (by simp)
        | some x =>
          obtain ⟨calls1, n1⟩ := x
          rw [hl] at h
          simp only [Option.some.injEq, Prod.mk.injEq] at h
          obtain ⟨rfl, rfl⟩ := h
          obtain ⟨h1, h2, h3⟩ := ih (k + 1) calls1 n1 hl
          refine ⟨by simp [h1], ?_, ?_⟩
          · intro x hx
            rcases List.mem_cons.mp hx with hx | hx
            · subst hx
              exact hr
            · exact h2 x hx
          · simp [returned, h3]
            omega

theorem MVD_Frame_loop_returns (cfg : Config) (P : Parser) (now fuel : Nat)
    (mvd_active : Bool) (list : List conn_t) :
    ∀ k : Nat,
      (∀ c ∈ list, gtv_run cfg P c.env now fuel mvd_active c.gtv c.mvd ≠ none) →
      ∃ calls n, MVD_Frame_loop cfg P now fuel mvd_active list k = some (calls, n) := by
  induction list with
  | nil =>
    intro k _
    exact ⟨[], k, rfl⟩
  | cons c rest ih =>
    intro k hall
    have hc := hall c (List.mem_cons_self _ _)
    have hrest : ∀ c ∈ rest, gtv_run cfg P c.env now fuel mvd_active c.gtv c.mvd ≠ none :=
      fun x hx => hall x (List.mem_cons_of_mem _ hx)
    unfold MVD_Frame_loop
    cases hr : gtv_run cfg P c.env now fuel mvd_active c.gtv c.mvd with
    | none => exact absurd hr hc
    | some r =>
      cases r with
      | error e =>
        obtain ⟨calls, n, hl⟩ := ih k hrest
        simp only [hl]
        exact ⟨_, _, rfl⟩
      | ok v =>
        obtain ⟨calls, n, hl⟩ := ih (k + 1) hrest
        simp only [hl]
        exact ⟨_, _, rfl⟩

theorem ne_none_of_eq_some {α : Type} (o : Option α) (v : α) (h : o = some v) : o ≠ none := by
  rw [h]
  exact Option.some_ne_none v

theorem conns_example_return (c : conn_t) (hc : c ∈ conns_example) :
    gtv_run cfg_default parser_keep c.env 20 3
      (MVD_Frame_active cfg_default true true 20 {}).mvd_active c.gtv c.mvd ≠ none := by
  simp only [conns_example, List.mem_cons, List.mem_singleton, List.not_mem_nil, or_false] at hc
  rcases hc with rfl | rfl | rfl | rfl
  · exact ne_none_of_eq_some _ _ rfl
  · exact ne_none_of_eq_some _ _ rfl
  · exact ne_none_of_eq_some _ _ rfl
  · exact ne_none_of_eq_some _ _ rfl

theorem bit_length_le (fuel : Nat) : ∀ (n k : Nat), n < 2 ^ k → bit_length fuel n ≤ k := by
  induction fuel with
  | zero => intro n k _; exact Nat.zero_le _
  | succ fuel ih =>
    intro n k h
    unfold bit_length
    by_cases hn : n = 0
    · rw [if_pos hn]; exact Nat.zero_le _
    · rw [if_neg hn]
      cases k with
      | zero => simp at h; exact absurd h hn
      | succ k =>
        have h2 : n / 2 < 2 ^ k := by
          rw [Nat.pow_succ] at h
          omega
        have := ih (n / 2) k h2
        omega

/-- A number below 2^24 with an exponent that is a float exponent is a binary32
value: rounding leaves it as it is. -/
theorem float32_round_exact (neg : Bool) (man : Nat) (exp : Int) (h : man < 2 ^ 24)
    (he : exp ≤ 104) :
    float32.round neg man exp = some { neg := neg, man := man, exp := exp } := by
  have hs : bit_length man man - 24 = 0 := by
    have := bit_length_le man man 24 h
    omega
  unfold float32.round
  simp only [hs, Nat.pow_zero, Nat.div_one, Nat.mod_one, Nat.mul_zero]
  have h1 : ¬ ((0 : Nat) > 1 ∨ ((0 : Nat) = 1 ∧ man % 2 = 1)) := by omega
  rw [if_neg h1]
  have h2 : ¬ (exp + ((0 : Nat) : Int) > 104
      ∨ (exp + ((0 : Nat) : Int) = 104 ∧ man = 2 ^ 24)) := by
    omega
  rw [if_neg h2]
  simp

/-- For a whole number of minutes `n` up to 279 the value `delta` is exactly
`n` minutes in milliseconds. -/
theorem suspend_delta_minutes (n : Nat) (h : n * 60000 < 2 ^ 24) :
    suspend_delta { man := n } = n * 60000 := by
  have h1 : float32.mul_nat { man := n } 60 = some { man := n * 60 } :=
    float32_round_exact false (n * 60) 0 (by omega) (by decide)
  have h2 : float32.mul_nat { man := n * 60 } 1000 = some { man := n * 60 * 1000 } :=
    float32_round_exact false (n * 60 * 1000) 0 (by omega) (by decide)
  unfold suspend_delta
  rw [h1]
  simp only []
  rw [h2]
  simp only [float32.to_unsigned]
  rw [if_neg (by decide), if_pos (by decide)]
  simp only [Int.toNat_zero, Nat.pow_zero, Nat.mul_one]
  rw [Nat.mod_eq_of_lt (by omega)]
  omega

/-- The value `delta` for 2.1 minutes: the binary32 value nearest to 2.1 is
`8808038 * 2 ^ -22`; times 60 it is rounded to `16515071 * 2 ^ -17`, times
1000 to `16127999 * 2 ^ -7`, which is truncated to 125999. -/
theorem suspend_delta_example :
    float32.mul_nat { man := 8808038, exp := -22 } 60 = some { man := 16515071, exp := -17 }
      ∧ float32.mul_nat { man := 16515071, exp := -17 } 1000
          = some { man := 16127999, exp := -7 }
      ∧ suspend_delta { man := 8808038, exp := -22 } = 125999 := by
  refine ⟨by decide, by decide, by decide⟩

/-- C28 (counterexample).  With `mvd_suspend_time` 0 (`cfg_never_suspend`), in
broadcast mode without any client, 60001 ms after the idle timer was reset:
more than `mvd_suspend_time` minutes have passed, and `MVD_Frame` leaves the
active flag true, and even sets it to true when it was false.  The same
holds for every value of `mvd_suspend_time` whose `delta` is 0, among them
positive ones such as `2 ^ -20` minutes. -/
theorem C28_counterexample_zero_suspend_time :
    cfg_never_suspend.mvd_suspend_time = { man := 0 }
      ∧ u32_sub 60001 0 > 0
      ∧ MVD_Frame_active cfg_never_suspend true false 60001 { prevtime := 0, mvd_active := true }
          = { prevtime := 60001, mvd_active := true }
      ∧ MVD_Frame_active cfg_never_suspend true false 60001 { prevtime := 0, mvd_active := false }
          = { prevtime := 60001, mvd_active := true }
      ∧ MVD_Frame cfg_never_suspend parser_keep 60001 3 true false
            { prevtime := 0, mvd_active := true } []
          = some ({ prevtime := 60001, mvd_active := true }, [], 0)
      ∧ suspend_delta { man := 1, exp := -20 } = 0 := by
  refine ⟨rfl, by decide, by decide, by decide, rfl, by decide⟩

/-- C28 (amended).  The first part of `MVD_Frame`, with `delta` the value of
`mvd_suspend_time->value * 60 * 1000`, computed in float arithmetic and
converted to `unsigned` (`suspend_delta`).  In broadcast mode: with a client
attached, or with `delta` equal to 0, the active flag is set to true and the
idle timer to `now`; without a client and with `delta` not 0, the flag is
set to false (the timer kept) when more than `delta` ms (mod 2^32) have passed
since the timer was reset, and nothing changes otherwise.  Outside broadcast
mode nothing changes.  These are the globals `MVD_Frame` returns, and the
flag its runs see.  For a whole number of minutes up to 279, `delta` is that
number of minutes in ms. -/
theorem C28_active_flag (cfg : Config) (clients : Bool) (now : Nat) (s : frame_globals) :
    (clients = true →
        MVD_Frame_active cfg true clients now s = { prevtime := now, mvd_active := true })
      ∧ (suspend_delta cfg.mvd_suspend_time = 0 →
          MVD_Frame_active cfg true clients now s = { prevtime := now, mvd_active := true })
      ∧ (clients = false → suspend_delta cfg.mvd_suspend_time ≠ 0 →
          u32_sub now s.prevtime > suspend_delta cfg.mvd_suspend_time →
          MVD_Frame_active cfg true clients now s = { s with mvd_active := false })
      ∧ (clients = false → suspend_delta cfg.mvd_suspend_time ≠ 0 →
          ¬ u32_sub now s.prevtime > suspend_delta cfg.mvd_suspend_time →
          MVD_Frame_active cfg true clients now s = s)
      ∧ MVD_Frame_active cfg false clients now s = s
      ∧ (∀ (P : Parser) (fuel : Nat) (broadcast : Bool) (list : List conn_t)
          (g : frame_globals) (calls : List (conn_t × Run (gtv_t × Option mvd_t))) (n : Nat),
          MVD_Frame cfg P now fuel broadcast clients s list = some (g, calls, n) →
          g = MVD_Frame_active cfg broadcast clients now s)
      ∧ (∀ n : Nat, n * 60000 < 2 ^ 24 → cfg.mvd_suspend_time = { man := n } →
          suspend_delta cfg.mvd_suspend_time = n * 60000) := by
  refine ⟨fun hc => ?_, fun hd => ?_, fun hc hd ht => ?_, fun hc hd ht => ?_, rfl, ?_,
    fun n hn hv => by rw [hv]; exact suspend_delta_minutes n hn⟩
  · unfold MVD_Frame_active
    simp [hc]
  · unfold MVD_Frame_active
    simp only [if_true]
    rw [if_pos (Or.inl hd)]
  · unfold MVD_Frame_active
    simp only [if_true]
    rw [if_neg (fun h => h.elim hd (fun h2 => by rw [hc] at h2; exact absurd h2 (by decide))),
      if_pos ht]
  · unfold MVD_Frame_active
    simp only [if_true]
    rw [if_neg (fun h => h.elim hd (fun h2 => by rw [hc] at h2; exact absurd h2 (by decide))),
      if_neg ht]
  · intro P fuel broadcast list g calls n h
    unfold MVD_Frame at h
    split at h
    · exact absurd h (by simp)
    · simp only [Option.some.injEq, Prod.mk.injEq] at h
      exact h.1.symm

/-- C28 (amended), at a concrete input: `cfg_default` (5 minutes), no client,
300001 ms after the idle timer was reset. -/
theorem C28_active_flag_witness :
    MVD_Frame_active cfg_default true false 300001 { prevtime := 0, mvd_active := true }
      = { prevtime := 0, mvd_active := false } :=
  (C28_active_flag cfg_default false 300001 { prevtime := 0, mvd_active := true }).2.2.1
    rfl (by decide) (by decide)



/-! ## Helper lemmas: demo files -/

theorem land_div_two_pow (a b : Nat) (n : Nat) :
    (a &&& b) / 2 ^ n = a / 2 ^ n &&& b / 2 ^ n := by
  induction n with
  | zero => simp
  | succ k ih =>
    rw [pow_succ, ← Nat.div_div_eq_div_mul, ih, Nat.and_div_two, Nat.div_div_eq_div_mul,
      Nat.div_div_eq_div_mul]

theorem land_mod_two_pow (a b n : Nat) : (a &&& b) % 2 ^ n = a &&& (b % 2 ^ n) := by
  rw [← Nat.and_pow_two_sub_one_eq_mod, Nat.and_assoc, Nat.and_pow_two_sub_one_eq_mod]

theorem high_bits_clear (b3 : Nat) (h3 : b3 < 256) : (b3 &&& 0xe0 = 0 ↔ b3 < 32) := by
  have hd := land_div_two_pow b3 0xe0 5
  have hm := land_mod_two_pow b3 0xe0 5
  have e1 : (0xe0 : Nat) / 2 ^ 5 = 2 ^ 3 - 1 := by norm_num
  have e2 : (0xe0 : Nat) % 2 ^ 5 = 0 := by norm_num
  have hlt : b3 / 2 ^ 5 < 2 ^ 3 := by
    norm_num
    omega
  rw [e1, Nat.and_pow_two_sub_one_of_lt_two_pow hlt] at hd
  rw [e2, Nat.and_zero] at hm
  have := Nat.div_add_mod (b3 &&& 0xe0) (2 ^ 5)
  rw [hd, hm] at this
  norm_num at this
  omega

theorem gzip_test (b0 b1 b2 b3 : Nat) (h0 : b0 < 256) (h1 : b1 < 256) (h2 : b2 < 256)
    (h3 : b3 < 256) :
    ((b0 + 256 * b1 + 65536 * b2 + 16777216 * b3) &&& 0xe0ffffff = 0x00088b1f)
      ↔ (b0 = 0x1f ∧ b1 = 0x8b ∧ b2 = 0x08 ∧ b3 < 32) := by
  have hd := land_div_two_pow (b0 + 256 * b1 + 65536 * b2 + 16777216 * b3) 0xe0ffffff 24
  have hm := land_mod_two_pow (b0 + 256 * b1 + 65536 * b2 + 16777216 * b3) 0xe0ffffff 24
  have e1 : (b0 + 256 * b1 + 65536 * b2 + 16777216 * b3) / 2 ^ 24 = b3 := by
    norm_num
    omega
  have e2 : (0xe0ffffff : Nat) / 2 ^ 24 = 0xe0 := by norm_num
  have e3 : (0xe0ffffff : Nat) % 2 ^ 24 = 2 ^ 24 - 1 := by norm_num
  rw [e1, e2] at hd
  rw [e3, Nat.and_pow_two_sub_one_eq_mod] at hm
  have e4 : (b0 + 256 * b1 + 65536 * b2 + 16777216 * b3) % 2 ^ 24
      = b0 + 256 * b1 + 65536 * b2 := by
    norm_num
    omega
  rw [e4] at hm
  have hb := high_bits_clear b3 h3
  constructor
  · intro h
    rw [h] at hd hm
    norm_num at hd hm
    have : b3 &&& 224 = 0 := by omega
    have h32 := hb.mp this
    omega
  · intro ⟨a0, a1, a2, a3⟩
    have hz := hb.mpr a3
    have hdiv : ((b0 + 256 * b1 + 65536 * b2 + 16777216 * b3) &&& 0xe0ffffff) / 2 ^ 24
        = 0 := by
      rw [hd]
      exact hz
    have := Nat.div_add_mod
      ((b0 + 256 * b1 + 65536 * b2 + 16777216 * b3) &&& 0xe0ffffff) (2 ^ 24)
    rw [hdiv, hm] at this
    omega

theorem le32_value_bytes (v : Nat) (rest : List Nat) (h : v < 2 ^ 32) :
    le32_value (le32_bytes v ++ rest) = v := by
  simp [le32_value, le32_bytes]
  omega

theorem le32_bytes_length (v : Nat) : (le32_bytes v).length = 4 := rfl

theorem FS_Read_append (a rest : List Nat) : FS_Read (a ++ rest) a.length = (rest, a) := by
  simp [FS_Read]

theorem demo_read_message_record (cfg : Config) (r rest : List Nat)
    (hr : valid_payload cfg r) :
    demo_read_message cfg (encode_record r ++ rest) = (rest, some (demo_msg r)) := by
  obtain ⟨h1, h2, h3⟩ := hr
  have hhdr : FS_Read (encode_record r ++ rest) 2 = (r ++ rest, le16_bytes r.length) := by
    have := FS_Read_append (le16_bytes r.length) (r ++ rest)
    rw [le16_bytes_length] at this
    rw [encode_record, List.append_assoc]
    exact this
  have hv : le16_value (le16_bytes r.length) = r.length := by
    simpa using le16_value_bytes r.length [] h3
  have hbody : FS_Read (r ++ rest) r.length = (rest, r) := FS_Read_append r rest
  unfold demo_read_message
  simp only [hhdr, hv, le16_bytes_length, hbody]
  rw [if_neg (by simp), if_neg (by omega), if_neg (by omega), if_neg (by simp)]
  rfl

theorem demo_read_message_end (cfg : Config) (rest : List Nat) :
    demo_read_message cfg (le16_bytes 0 ++ rest) = (rest, none) := by
  have hhdr : FS_Read (le16_bytes 0 ++ rest) 2 = (rest, le16_bytes 0) := by
    have := FS_Read_append (le16_bytes 0) rest
    rw [le16_bytes_length] at this
    exact this
  unfold demo_read_message
  simp only [hhdr]
  rw [if_neg (by decide), if_pos (by decide)]

theorem demo_open_plain (cfg : Config) (mvd : Option mvd_t) (rest : List Nat)
    (hM : cfg.MVD_MAGIC < 2 ^ 32) (hgz : ¬ (cfg.MVD_MAGIC &&& 0xe0ffffff = 0x00088b1f)) :
    demo_open { raw := le32_bytes cfg.MVD_MAGIC ++ rest } mvd
      = .ok (rest, le32_bytes cfg.MVD_MAGIC) := by
  have hread : FS_Read (le32_bytes cfg.MVD_MAGIC ++ rest) 4 = (rest, le32_bytes cfg.MVD_MAGIC) := by
    have := FS_Read_append (le32_bytes cfg.MVD_MAGIC) rest
    rw [le32_bytes_length] at this
    exact this
  have hv : le32_value (le32_bytes cfg.MVD_MAGIC) = cfg.MVD_MAGIC := by
    simpa using le32_value_bytes cfg.MVD_MAGIC [] hM
  unfold demo_open
  simp only [hread, hv, le32_bytes_length]
  rw [if_neg (by decide), if_neg (by simp), if_neg hgz]

theorem mvd_reading_eta (m : mvd_t) (h : m.state = .MVD_READING) :
    { m with state := .MVD_READING } = m := by
  cases m
  simp only at h
  subst h
  rfl

theorem demo_play_next_file (cfg : Config) (P : Parser) (g : demo_t) (mvd : Option mvd_t)
    (c : List Nat × List (List Nat)) (rest : List demo_file)
    (hM : cfg.MVD_MAGIC < 2 ^ 32) (hgz : ¬ (cfg.MVD_MAGIC &&& 0xe0ffffff = 0x00088b1f))
    (hc : valid_payload cfg c.1) :
    demo_play_next cfg P g mvd (demo_file_of cfg c :: rest) =
      match P (match mvd with
               | some m => m
               | none => create_channel cfg) (demo_msg c.1) with
      | none => MVD_Destroyf .parser_abort
      | some (st, _) =>
        if st = .MVD_DEAD then
          demo_destroyf (some { (match mvd with
                                 | some m => m
                                 | none => create_channel cfg) with state := st })
            .gamestate_missing
        else
          .ok { mvd := { (match mvd with
                          | some m => m
                          | none => create_channel cfg) with state := .MVD_READING }
                gtv := { g with
                         demoplayback := some (encode_records c.2 ++ le16_bytes 0)
                         demoentry := demo_file_of cfg c :: rest }
                events := [.gamestate (demo_msg c.1)] } := by
  have hopen : demo_open (demo_file_of cfg c) mvd
      = .ok (encode_record c.1 ++ (encode_records c.2 ++ le16_bytes 0),
             le32_bytes cfg.MVD_MAGIC) := by
    have := demo_open_plain cfg mvd (encode_record c.1 ++ (encode_records c.2 ++ le16_bytes 0))
      hM hgz
    rw [← this]
    simp only [demo_file_of, demo_bytes, List.append_assoc]
  have hv : le32_value (le32_bytes cfg.MVD_MAGIC) = cfg.MVD_MAGIC := by
    simpa using le32_value_bytes cfg.MVD_MAGIC [] hM
  have hmsg := demo_read_message_record cfg c.1 (encode_records c.2 ++ le16_bytes 0) hc
  unfold demo_play_next
  simp only [hopen, hv, ne_eq, not_true_eq_false, if_false, hmsg]

theorem demo_play_next_wrap (cfg : Config) (P : Parser) (g : demo_t) (mvd : Option mvd_t) :
    demo_play_next cfg P g mvd [] =
      if g.demoloop = 0 then
        match g.demohead with
        | [] => .error (.fault .null_entry)
        | f :: r => demo_play_next cfg P g mvd (f :: r)
      else if g.demoloop = 1 then
        demo_destroyf mvd .end_of_playlist
      else
        match g.demohead with
        | [] => .error (.fault .null_entry)
        | f :: r => demo_play_next cfg P { g with demoloop := g.demoloop - 1 } mvd (f :: r) := by
  by_cases h0 : g.demoloop = 0
  · rw [if_pos h0]
    unfold demo_play_next
    simp only [h0, ne_eq, not_true_eq_false, if_false]
    cases g.demohead with
    | nil => rfl
    | cons f r => rfl
  · rw [if_neg h0]
    by_cases h1 : g.demoloop = 1
    · rw [if_pos h1]
      unfold demo_play_next
      simp [h1, demo_destroyf]
    · rw [if_neg h1]
      have h2 : ¬ (g.demoloop - 1 = 0) := by omega
      unfold demo_play_next
      simp only [ne_eq, h0, not_false_eq_true, if_true, h2, if_false]
      cases g.demohead with
      | nil => rfl
      | cons f r => rfl

/-! ## Helper lemmas: demo playback -/

theorem demo_chan_state (cfg : Config) : (demo_chan cfg).state = .MVD_READING := rfl

theorem demo_play_next_valid (cfg : Config) (P : Parser) (g : demo_t)
    (c : List Nat × List (List Nat)) (rest : List demo_file)
    (hP : parses_gamestate cfg P c.1)
    (hM : cfg.MVD_MAGIC < 2 ^ 32) (hgz : ¬ (cfg.MVD_MAGIC &&& 0xe0ffffff = 0x00088b1f))
    (hc : valid_payload cfg c.1) :
    demo_play_next cfg P g (some (demo_chan cfg)) (demo_file_of cfg c :: rest) =
      .ok { mvd := demo_chan cfg
            gtv := { g with
                     demoplayback := some (encode_records c.2 ++ le16_bytes 0)
                     demoentry := demo_file_of cfg c :: rest }
            events := [.gamestate (demo_msg c.1)] } := by
  obtain ⟨st, rc, hrc, hst⟩ := hP (demo_chan cfg) (Or.inr rfl)
  rw [demo_play_next_file cfg P g (some (demo_chan cfg)) c rest hM hgz hc]
  simp only [hrc]
  rw [if_neg hst, mvd_reading_eta _ (demo_chan_state cfg)]

theorem demo_play_next_first (cfg : Config) (P : Parser) (g : demo_t)
    (c : List Nat × List (List Nat)) (rest : List demo_file)
    (hP : parses_gamestate cfg P c.1)
    (hM : cfg.MVD_MAGIC < 2 ^ 32) (hgz : ¬ (cfg.MVD_MAGIC &&& 0xe0ffffff = 0x00088b1f))
    (hc : valid_payload cfg c.1) :
    demo_play_next cfg P g none (demo_file_of cfg c :: rest) =
      .ok { mvd := demo_chan cfg
            gtv := { g with
                     demoplayback := some (encode_records c.2 ++ le16_bytes 0)
                     demoentry := demo_file_of cfg c :: rest }
            events := [.gamestate (demo_msg c.1)] } := by
  obtain ⟨st, rc, hrc, hst⟩ := hP (create_channel cfg) (Or.inl rfl)
  rw [demo_play_next_file cfg P g none c rest hM hgz hc]
  simp only [hrc]
  rw [if_neg hst]
  rfl

theorem demo_read_frame_body (cfg : Config) (P : Parser) (head : List demo_file) (k : Int)
    (b : List Nat) (todo : List (List Nat)) (entry : List demo_file)
    (hP : parses_message cfg P b)
    (hb : valid_payload cfg b) :
    demo_read_frame cfg P (demo_chan cfg) (some (demo_at head k (b :: todo) entry)) =
      .ok { mvd := demo_chan cfg, gtv := some (demo_at head k todo entry), ret := true,
            events := [.message (demo_msg b)] } := by
  obtain ⟨rc, hrc⟩ := hP
  have hmsg := demo_read_message_record cfg b (encode_records todo ++ le16_bytes 0) hb
  unfold demo_read_frame
  rw [if_neg (by rw [demo_chan_state]; decide)]
  simp only [demo_at, encode_records, List.append_assoc, hmsg, hrc]
  rw [mvd_reading_eta _ (demo_chan_state cfg)]

theorem demo_read_frame_next (cfg : Config) (P : Parser) (head : List demo_file) (k : Int)
    (f0 : demo_file) (c : List Nat × List (List Nat)) (rest : List demo_file)
    (hP : parses_gamestate cfg P c.1)
    (hM : cfg.MVD_MAGIC < 2 ^ 32) (hgz : ¬ (cfg.MVD_MAGIC &&& 0xe0ffffff = 0x00088b1f))
    (hc : valid_payload cfg c.1) :
    demo_read_frame cfg P (demo_chan cfg)
        (some (demo_at head k [] (f0 :: demo_file_of cfg c :: rest))) =
      .ok { mvd := demo_chan cfg
            gtv := some (demo_at head k c.2 (demo_file_of cfg c :: rest))
            ret := true
            events := [.gamestate (demo_msg c.1)] } := by
  have hend : demo_read_message cfg (le16_bytes 0) = ([], none) := by
    have h := demo_read_message_end cfg []
    rwa [List.append_nil] at h
  unfold demo_read_frame
  rw [if_neg (by rw [demo_chan_state]; decide)]
  simp only [demo_at, encode_records, List.nil_append]
  rw [hend]
  simp only []
  rw [demo_play_next_valid cfg P _ c rest hP hM hgz hc]

theorem demo_read_frame_wrap (cfg : Config) (P : Parser) (k : Int)
    (f0 : demo_file) (c : List Nat × List (List Nat)) (rest : List demo_file)
    (hP : parses_gamestate cfg P c.1)
    (hM : cfg.MVD_MAGIC < 2 ^ 32) (hgz : ¬ (cfg.MVD_MAGIC &&& 0xe0ffffff = 0x00088b1f))
    (hc : valid_payload cfg c.1) :
    demo_read_frame cfg P (demo_chan cfg)
        (some (demo_at (demo_file_of cfg c :: rest) k [] [f0])) =
      if k = 1 then
        .error (.gtv_destroyed (some (demo_chan cfg)) .end_of_playlist)
      else
        .ok { mvd := demo_chan cfg
              gtv := some (demo_at (demo_file_of cfg c :: rest) (if k = 0 then 0 else k - 1)
                             c.2 (demo_file_of cfg c :: rest))
              ret := true
              events := [.gamestate (demo_msg c.1)] } := by
  have hend : demo_read_message cfg (le16_bytes 0) = ([], none) := by
    have h := demo_read_message_end cfg []
    rwa [List.append_nil] at h
  unfold demo_read_frame
  rw [if_neg (by rw [demo_chan_state]; decide)]
  simp only [demo_at, encode_records, List.nil_append]
  rw [hend]
  simp only []
  rw [demo_play_next_wrap]
  simp only []
  by_cases h0 : k = 0
  · have h1 : ¬ k = 1 := by omega
    rw [if_pos h0, if_neg h1, if_pos h0]
    rw [demo_play_next_valid cfg P _ c rest hP hM hgz hc]
    simp only [h0]
  · rw [if_neg h0]
    by_cases h1 : k = 1
    · rw [if_pos h1, if_pos h1]
      rfl
    · rw [if_neg h1, if_neg h1, if_neg h0]
      rw [demo_play_next_valid cfg P _ c rest hP hM hgz hc]


/-! ## Helper lemmas: playing a playlist -/

theorem demo_frames_succ_ok (cfg : Config) (P : Parser) (n : Nat) (mvd : mvd_t)
    (gtv : Option demo_t) (r : demo_frame) (h : demo_read_frame cfg P mvd gtv = .ok r) :
    demo_frames cfg P (n + 1) mvd gtv =
      (r.events ++ (demo_frames cfg P n r.mvd r.gtv).1, (demo_frames cfg P n r.mvd r.gtv).2) := by
  show (match demo_read_frame cfg P mvd gtv with
        | .error e => (([], .error e) : List demo_event × Run (mvd_t × Option demo_t))
        | .ok r => (r.events ++ (demo_frames cfg P n r.mvd r.gtv).1,
                    (demo_frames cfg P n r.mvd r.gtv).2)) = _
  rw [h]

theorem demo_frames_succ_error (cfg : Config) (P : Parser) (n : Nat) (mvd : mvd_t)
    (gtv : Option demo_t) (e : Escape) (h : demo_read_frame cfg P mvd gtv = .error e) :
    demo_frames cfg P (n + 1) mvd gtv = ([], .error e) := by
  show (match demo_read_frame cfg P mvd gtv with
        | .error e => (([], .error e) : List demo_event × Run (mvd_t × Option demo_t))
        | .ok r => (r.events ++ (demo_frames cfg P n r.mvd r.gtv).1,
                    (demo_frames cfg P n r.mvd r.gtv).2)) = _
  rw [h]

/-- A run of `read_frame` calls that has not left through an exit had not left
after fewer calls either. -/
theorem demo_frames_ok_prefix (cfg : Config) (P : Parser) (m : Nat) :
    ∀ (n : Nat) (mvd : mvd_t) (gtv : Option demo_t) (x : mvd_t × Option demo_t),
      (demo_frames cfg P (n + m) mvd gtv).2 = .ok x →
      ∃ y, (demo_frames cfg P n mvd gtv).2 = .ok y := by
  intro n
  induction n with
  | zero => intro mvd gtv x _; exact ⟨_, rfl⟩
  | succ n ih =>
    intro mvd gtv x h
    have hn : n + 1 + m = (n + m) + 1 := by omega
    rw [hn] at h
    cases hr : demo_read_frame cfg P mvd gtv with
    | error e =>
      rw [demo_frames_succ_error cfg P _ mvd gtv e hr] at h
      exact absurd h (by simp)
    | ok r =>
      rw [demo_frames_succ_ok cfg P _ mvd gtv r hr] at h
      rw [demo_frames_succ_ok cfg P _ mvd gtv r hr]
      exact ih r.mvd r.gtv x h

theorem playlist_frames_cons (c : List Nat × List (List Nat))
    (cs : List (List Nat × List (List Nat))) :
    playlist_frames (c :: cs) = c.2.length + 1 + playlist_frames cs := by
  simp [playlist_frames]

theorem playlist_events_cons (c : List Nat × List (List Nat))
    (cs : List (List Nat × List (List Nat))) :
    playlist_events (c :: cs) =
      .gamestate (demo_msg c.1) :: (c.2.map (fun b => demo_event.message (demo_msg b))
        ++ playlist_events cs) := by
  simp [playlist_events, file_events]

theorem playlist_gamestates (fs : List (List Nat × List (List Nat))) :
    (playlist_events fs).filter demo_event.is_gamestate =
      fs.map (fun c => demo_event.gamestate (demo_msg c.1)) := by
  induction fs with
  | nil => rfl
  | cons c cs ih =>
    rw [playlist_events_cons, List.filter_cons_of_pos (by rfl), List.filter_append, ih]
    have h : (c.2.map (fun b => demo_event.message (demo_msg b))).filter
        demo_event.is_gamestate = [] := by
      rw [List.filter_eq_nil_iff]
      intro a ha
      obtain ⟨b, _, rfl⟩ := List.mem_map.mp ha
      simp [demo_event.is_gamestate]
    rw [h]
    rfl

theorem rounds_gamestates (fs : List (List Nat × List (List Nat))) (K : Nat) :
    ((List.replicate K (playlist_events fs)).flatten).filter demo_event.is_gamestate =
      (List.replicate K (fs.map (fun c => demo_event.gamestate (demo_msg c.1)))).flatten := by
  induction K with
  | zero => rfl
  | succ K ih =>
    rw [List.replicate_succ, List.flatten_cons, List.filter_append, ih, playlist_gamestates,
      List.replicate_succ, List.flatten_cons]

theorem rounds_length (n : Nat) (K : Nat) (l : List demo_event) (h : l.length = n) :
    ((List.replicate K l).flatten).length = K * n := by
  induction K with
  | zero => simp
  | succ K ih =>
    rw [List.replicate_succ, List.flatten_cons, List.length_append, ih, h, Nat.succ_mul]
    omega

/-- Reading the bodies that are left of the current file. -/
theorem demo_frames_bodies (cfg : Config) (P : Parser) (head : List demo_file) (k : Int)
    (entry : List demo_file) :
    ∀ (todo : List (List Nat)), (∀ b ∈ todo, valid_payload cfg b) →
      (∀ b ∈ todo, parses_message cfg P b) → ∀ (n : Nat),
      demo_frames cfg P (todo.length + n) (demo_chan cfg) (some (demo_at head k todo entry)) =
        (todo.map (fun b => demo_event.message (demo_msg b)) ++
           (demo_frames cfg P n (demo_chan cfg) (some (demo_at head k [] entry))).1,
         (demo_frames cfg P n (demo_chan cfg) (some (demo_at head k [] entry))).2) := by
  intro todo
  induction todo with
  | nil =>
    intro _ _ n
    rw [List.length_nil, Nat.zero_add]
    rfl
  | cons b todo ih =>
    intro hv hp n
    have hn : (b :: todo).length + n = (todo.length + n) + 1 := by
      rw [List.length_cons]; omega
    rw [hn, demo_frames_succ_ok cfg P _ _ _ _
      (demo_read_frame_body cfg P head k b todo entry (hp b (List.mem_cons_self _ _))
        (hv b (List.mem_cons_self _ _)))]
    simp only []
    rw [ih (fun x hx => hv x (List.mem_cons_of_mem _ hx))
      (fun x hx => hp x (List.mem_cons_of_mem _ hx)) n]
    rfl

/-- Playing the rest of the current file and the files after it, up to the end
of the last file of the playlist. -/
theorem demo_frames_files (cfg : Config) (P : Parser) (head : List demo_file) (k : Int)
    (hM : cfg.MVD_MAGIC < 2 ^ 32) (hgz : ¬ (cfg.MVD_MAGIC &&& 0xe0ffffff = 0x00088b1f)) :
    ∀ (cs : List (List Nat × List (List Nat))), (∀ c ∈ cs, valid_demo cfg c) →
      (∀ c ∈ cs, parses_demo cfg P c) →
      ∀ (todo : List (List Nat)), (∀ b ∈ todo, valid_payload cfg b) →
      (∀ b ∈ todo, parses_message cfg P b) → ∀ (f0 : demo_file),
      ∃ f1 : demo_file, ∀ (n : Nat),
        demo_frames cfg P (todo.length + playlist_frames cs + n) (demo_chan cfg)
            (some (demo_at head k todo (f0 :: cs.map (demo_file_of cfg)))) =
          (todo.map (fun b => demo_event.message (demo_msg b)) ++ playlist_events cs ++
             (demo_frames cfg P n (demo_chan cfg) (some (demo_at head k [] [f1]))).1,
           (demo_frames cfg P n (demo_chan cfg) (some (demo_at head k [] [f1]))).2) := by
  intro cs
  induction cs with
  | nil =>
    intro _ _ todo hv hp f0
    refine ⟨f0, fun n => ?_⟩
    have hn : todo.length + playlist_frames [] + n = todo.length + n := by
      simp [playlist_frames]
    rw [hn, demo_frames_bodies cfg P head k _ todo hv hp n]
    simp [playlist_events]
  | cons d ds ih =>
    intro hcs hps todo hv hp f0
    have hd : valid_demo cfg d := hcs d (List.mem_cons_self _ _)
    have hpd : parses_demo cfg P d := hps d (List.mem_cons_self _ _)
    obtain ⟨f1, hf1⟩ := ih (fun c hc => hcs c (List.mem_cons_of_mem _ hc))
      (fun c hc => hps c (List.mem_cons_of_mem _ hc)) d.2 hd.2 hpd.2
      (demo_file_of cfg d)
    refine ⟨f1, fun n => ?_⟩
    have hn : todo.length + playlist_frames (d :: ds) + n
        = todo.length + ((d.2.length + playlist_frames ds + n) + 1) := by
      rw [playlist_frames_cons]; omega
    rw [hn, demo_frames_bodies cfg P head k _ todo hv hp _]
    rw [List.map_cons, demo_frames_succ_ok cfg P _ _ _ _
      (demo_read_frame_next cfg P head k f0 d (ds.map (demo_file_of cfg)) hpd.1 hM hgz hd.1)]
    simp only []
    rw [hf1 n, playlist_events_cons]
    simp

/-- One more round: from the end of the last file, with a loop counter other
than 1, the whole playlist is played again. -/
theorem demo_frames_round (cfg : Config) (P : Parser) (k : Int)
    (c : List Nat × List (List Nat)) (cs : List (List Nat × List (List Nat)))
    (hP : ∀ x ∈ c :: cs, parses_demo cfg P x)
    (hM : cfg.MVD_MAGIC < 2 ^ 32) (hgz : ¬ (cfg.MVD_MAGIC &&& 0xe0ffffff = 0x00088b1f))
    (hv : ∀ x ∈ c :: cs, valid_demo cfg x) (hk : k ≠ 1) (f0 : demo_file) :
    ∃ f1 : demo_file, ∀ (n : Nat),
      demo_frames cfg P (playlist_frames (c :: cs) + n) (demo_chan cfg)
          (some (demo_at ((c :: cs).map (demo_file_of cfg)) k [] [f0])) =
        (playlist_events (c :: cs) ++
           (demo_frames cfg P n (demo_chan cfg)
              (some (demo_at ((c :: cs).map (demo_file_of cfg)) (if k = 0 then 0 else k - 1)
                 [] [f1]))).1,
         (demo_frames cfg P n (demo_chan cfg)
              (some (demo_at ((c :: cs).map (demo_file_of cfg)) (if k = 0 then 0 else k - 1)
                 [] [f1]))).2) := by
  have hc : valid_demo cfg c := hv c (List.mem_cons_self _ _)
  have hpc : parses_demo cfg P c := hP c (List.mem_cons_self _ _)
  obtain ⟨f1, hf1⟩ := demo_frames_files cfg P ((c :: cs).map (demo_file_of cfg))
    (if k = 0 then 0 else k - 1) hM hgz cs
    (fun x hx => hv x (List.mem_cons_of_mem _ hx))
    (fun x hx => hP x (List.mem_cons_of_mem _ hx)) c.2 hc.2 hpc.2 (demo_file_of cfg c)
  refine ⟨f1, fun n => ?_⟩
  have hn : playlist_frames (c :: cs) + n = (c.2.length + playlist_frames cs + n) + 1 := by
    rw [playlist_frames_cons]; omega
  have hstep := demo_read_frame_wrap cfg P k f0 c (cs.map (demo_file_of cfg)) hpc.1 hM hgz hc.1
  rw [if_neg hk] at hstep
  simp only [List.map_cons] at hf1 ⊢
  rw [hn, demo_frames_succ_ok cfg P _ _ _ _ hstep]
  simp only []
  rw [hf1 n, playlist_events_cons]
  simp

/-- The rounds a loop counter `j + 1` leaves: `j` of them. -/
theorem demo_frames_rounds (cfg : Config) (P : Parser)
    (c : List Nat × List (List Nat)) (cs : List (List Nat × List (List Nat)))
    (hP : ∀ x ∈ c :: cs, parses_demo cfg P x)
    (hM : cfg.MVD_MAGIC < 2 ^ 32) (hgz : ¬ (cfg.MVD_MAGIC &&& 0xe0ffffff = 0x00088b1f))
    (hv : ∀ x ∈ c :: cs, valid_demo cfg x) :
    ∀ (j : Nat) (f0 : demo_file), ∃ f1 : demo_file, ∀ (n : Nat),
      demo_frames cfg P (j * playlist_frames (c :: cs) + n) (demo_chan cfg)
          (some (demo_at ((c :: cs).map (demo_file_of cfg)) ((j : Int) + 1) [] [f0])) =
        ((List.replicate j (playlist_events (c :: cs))).flatten ++
           (demo_frames cfg P n (demo_chan cfg)
              (some (demo_at ((c :: cs).map (demo_file_of cfg)) 1 [] [f1]))).1,
         (demo_frames cfg P n (demo_chan cfg)
              (some (demo_at ((c :: cs).map (demo_file_of cfg)) 1 [] [f1]))).2) := by
  intro j
  induction j with
  | zero =>
    intro f0
    refine ⟨f0, fun n => ?_⟩
    rw [Nat.zero_mul, Nat.zero_add]
    rfl
  | succ j ih =>
    intro f0
    have hk : ((j + 1 : Nat) : Int) + 1 ≠ 1 := by omega
    have h0 : ¬ (((j + 1 : Nat) : Int) + 1 = 0) := by omega
    obtain ⟨f1, hf1⟩ := demo_frames_round cfg P (((j + 1 : Nat) : Int) + 1) c cs hP hM hgz hv hk f0
    obtain ⟨f2, hf2⟩ := ih f1
    refine ⟨f2, fun n => ?_⟩
    have hn : (j + 1) * playlist_frames (c :: cs) + n
        = playlist_frames (c :: cs) + (j * playlist_frames (c :: cs) + n) := by
      rw [Nat.succ_mul]; omega
    have hkk : ((j + 1 : Nat) : Int) + 1 - 1 = (j : Int) + 1 := by omega
    rw [hn, hf1, if_neg h0, hkk, hf2 n, List.replicate_succ, List.flatten_cons,
      List.append_assoc]

/-- With the loop counter 0 every round is followed by another one. -/
theorem demo_frames_rounds_forever (cfg : Config) (P : Parser)
    (c : List Nat × List (List Nat)) (cs : List (List Nat × List (List Nat)))
    (hP : ∀ x ∈ c :: cs, parses_demo cfg P x)
    (hM : cfg.MVD_MAGIC < 2 ^ 32) (hgz : ¬ (cfg.MVD_MAGIC &&& 0xe0ffffff = 0x00088b1f))
    (hv : ∀ x ∈ c :: cs, valid_demo cfg x) :
    ∀ (j : Nat) (f0 : demo_file), ∃ f1 : demo_file, ∀ (n : Nat),
      demo_frames cfg P (j * playlist_frames (c :: cs) + n) (demo_chan cfg)
          (some (demo_at ((c :: cs).map (demo_file_of cfg)) 0 [] [f0])) =
        ((List.replicate j (playlist_events (c :: cs))).flatten ++
           (demo_frames cfg P n (demo_chan cfg)
              (some (demo_at ((c :: cs).map (demo_file_of cfg)) 0 [] [f1]))).1,
         (demo_frames cfg P n (demo_chan cfg)
              (some (demo_at ((c :: cs).map (demo_file_of cfg)) 0 [] [f1]))).2) := by
  intro j
  induction j with
  | zero =>
    intro f0
    refine ⟨f0, fun n => ?_⟩
    rw [Nat.zero_mul, Nat.zero_add]
    rfl
  | succ j ih =>
    intro f0
    obtain ⟨f1, hf1⟩ := demo_frames_round cfg P 0 c cs hP hM hgz hv (by decide) f0
    obtain ⟨f2, hf2⟩ := ih f1
    refine ⟨f2, fun n => ?_⟩
    have hn : (j + 1) * playlist_frames (c :: cs) + n
        = playlist_frames (c :: cs) + (j * playlist_frames (c :: cs) + n) := by
      rw [Nat.succ_mul]; omega
    rw [hn, hf1, if_pos rfl, hf2 n, List.replicate_succ, List.flatten_cons,
      List.append_assoc]

/-- The last call of a playback with a loop counter: at the end of the playlist
with the counter at 1 the Upstream is destroyed. -/
theorem demo_frames_last (cfg : Config) (P : Parser)
    (c : List Nat × List (List Nat)) (rest : List demo_file) (f0 : demo_file) (n : Nat)
    (hP : parses_gamestate cfg P c.1)
    (hM : cfg.MVD_MAGIC < 2 ^ 32) (hgz : ¬ (cfg.MVD_MAGIC &&& 0xe0ffffff = 0x00088b1f))
    (hc : valid_payload cfg c.1) :
    demo_frames cfg P (n + 1) (demo_chan cfg)
        (some (demo_at (demo_file_of cfg c :: rest) 1 [] [f0])) =
      ([], .error (.gtv_destroyed (some (demo_chan cfg)) .end_of_playlist)) := by
  have hstep := demo_read_frame_wrap cfg P 1 f0 c rest hP hM hgz hc
  rw [if_pos rfl] at hstep
  exact demo_frames_succ_error cfg P n _ _ _ hstep

/-- A playback session of a playlist of valid files: `MVD_Play_f` parses the
gamestate of the first file, the `read_frame` calls start in that file. -/
theorem demo_session_start (cfg : Config) (P : Parser) (K : Int)
    (c : List Nat × List (List Nat)) (cs : List (List Nat × List (List Nat))) (n : Nat)
    (hP : parses_gamestate cfg P c.1)
    (hM : cfg.MVD_MAGIC < 2 ^ 32) (hgz : ¬ (cfg.MVD_MAGIC &&& 0xe0ffffff = 0x00088b1f))
    (hc : valid_payload cfg c.1) :
    demo_session cfg P K ((c :: cs).map (demo_file_of cfg)) n =
      some (demo_event.gamestate (demo_msg c.1) ::
              (demo_frames cfg P n (demo_chan cfg)
                (some (demo_at ((c :: cs).map (demo_file_of cfg)) K c.2
                   ((c :: cs).map (demo_file_of cfg))))).1,
            (demo_frames cfg P n (demo_chan cfg)
                (some (demo_at ((c :: cs).map (demo_file_of cfg)) K c.2
                   ((c :: cs).map (demo_file_of cfg))))).2) := by
  unfold demo_session MVD_Play_f
  simp only [List.map_cons]
  rw [demo_play_next_first cfg P _ c (cs.map (demo_file_of cfg)) hP hM hgz hc]
  by_cases hK : K = -1
  · subst hK
    rfl
  · simp only [ne_eq, hK, not_false_eq_true, if_true]
    rfl


theorem playlist_frames_pos (c : List Nat × List (List Nat))
    (cs : List (List Nat × List (List Nat))) : 1 ≤ playlist_frames (c :: cs) := by
  rw [playlist_frames_cons]; omega

theorem rounds_events (c : List Nat × List (List Nat))
    (cs : List (List Nat × List (List Nat))) (j : Nat) :
    demo_event.gamestate (demo_msg c.1) ::
        (c.2.map (fun b => demo_event.message (demo_msg b)) ++ playlist_events cs ++
          ((List.replicate j (playlist_events (c :: cs))).flatten ++ [])) =
      (List.replicate (j + 1) (playlist_events (c :: cs))).flatten := by
  rw [List.replicate_succ, List.flatten_cons, playlist_events_cons, List.append_nil]
  simp

/-- A session with a loop counter `j + 1`, one call before the last one: the
playlist has been played `j + 1` times and the Upstream is at the end of the
last file with the counter at 1. -/
theorem demo_session_rounds (cfg : Config) (P : Parser)
    (c : List Nat × List (List Nat)) (cs : List (List Nat × List (List Nat))) (j : Nat)
    (hP : ∀ x ∈ c :: cs, parses_demo cfg P x)
    (hM : cfg.MVD_MAGIC < 2 ^ 32) (hgz : ¬ (cfg.MVD_MAGIC &&& 0xe0ffffff = 0x00088b1f))
    (hv : ∀ x ∈ c :: cs, valid_demo cfg x) :
    ∃ f1 : demo_file, ∀ (n : Nat),
      demo_session cfg P ((j + 1 : Nat) : Int) ((c :: cs).map (demo_file_of cfg))
          (c.2.length + playlist_frames cs + (j * playlist_frames (c :: cs) + n)) =
        some (demo_event.gamestate (demo_msg c.1) ::
                (c.2.map (fun b => demo_event.message (demo_msg b)) ++ playlist_events cs ++
                  ((List.replicate j (playlist_events (c :: cs))).flatten ++
                    (demo_frames cfg P n (demo_chan cfg)
                      (some (demo_at ((c :: cs).map (demo_file_of cfg)) 1 [] [f1]))).1)),
              (demo_frames cfg P n (demo_chan cfg)
                      (some (demo_at ((c :: cs).map (demo_file_of cfg)) 1 [] [f1]))).2) := by
  have hc : valid_demo cfg c := hv c (List.mem_cons_self _ _)
  have hpc : parses_demo cfg P c := hP c (List.mem_cons_self _ _)
  obtain ⟨f1, hf1⟩ := demo_frames_files cfg P ((c :: cs).map (demo_file_of cfg))
    ((j : Int) + 1) hM hgz cs
    (fun x hx => hv x (List.mem_cons_of_mem _ hx))
    (fun x hx => hP x (List.mem_cons_of_mem _ hx)) c.2 hc.2 hpc.2 (demo_file_of cfg c)
  obtain ⟨f2, hf2⟩ := demo_frames_rounds cfg P c cs hP hM hgz hv j f1
  refine ⟨f2, fun n => ?_⟩
  have hK : ((j + 1 : Nat) : Int) = (j : Int) + 1 := by push_cast; rfl
  rw [demo_session_start cfg P _ c cs _ hpc.1 hM hgz hc.1, hK]
  simp only [List.map_cons] at hf1 hf2 ⊢
  rw [hf1, hf2 n]

/-- A session with the loop counter 0: after any number of rounds the Upstream
is at the end of the last file again, with the counter at 0. -/
theorem demo_session_rounds_forever (cfg : Config) (P : Parser)
    (c : List Nat × List (List Nat)) (cs : List (List Nat × List (List Nat))) (j : Nat)
    (hP : ∀ x ∈ c :: cs, parses_demo cfg P x)
    (hM : cfg.MVD_MAGIC < 2 ^ 32) (hgz : ¬ (cfg.MVD_MAGIC &&& 0xe0ffffff = 0x00088b1f))
    (hv : ∀ x ∈ c :: cs, valid_demo cfg x) :
    ∃ f1 : demo_file, ∀ (n : Nat),
      demo_session cfg P 0 ((c :: cs).map (demo_file_of cfg))
          (c.2.length + playlist_frames cs + (j * playlist_frames (c :: cs) + n)) =
        some (demo_event.gamestate (demo_msg c.1) ::
                (c.2.map (fun b => demo_event.message (demo_msg b)) ++ playlist_events cs ++
                  ((List.replicate j (playlist_events (c :: cs))).flatten ++
                    (demo_frames cfg P n (demo_chan cfg)
                      (some (demo_at ((c :: cs).map (demo_file_of cfg)) 0 [] [f1]))).1)),
              (demo_frames cfg P n (demo_chan cfg)
                      (some (demo_at ((c :: cs).map (demo_file_of cfg)) 0 [] [f1]))).2) := by
  have hc : valid_demo cfg c := hv c (List.mem_cons_self _ _)
  have hpc : parses_demo cfg P c := hP c (List.mem_cons_self _ _)
  obtain ⟨f1, hf1⟩ := demo_frames_files cfg P ((c :: cs).map (demo_file_of cfg))
    0 hM hgz cs
    (fun x hx => hv x (List.mem_cons_of_mem _ hx))
    (fun x hx => hP x (List.mem_cons_of_mem _ hx)) c.2 hc.2 hpc.2 (demo_file_of cfg c)
  obtain ⟨f2, hf2⟩ := demo_frames_rounds_forever cfg P c cs hP hM hgz hv j f1
  refine ⟨f2, fun n => ?_⟩
  rw [demo_session_start cfg P _ c cs _ hpc.1 hM hgz hc.1]
  simp only [List.map_cons] at hf1 hf2 ⊢
  rw [hf1, hf2 n]

/-- A session that has not left through an exit had not left after fewer
`read_frame` calls either. -/
theorem demo_session_ok_prefix (cfg : Config) (P : Parser) (K : Int)
    (c : List Nat × List (List Nat)) (cs : List (List Nat × List (List Nat))) (n m : Nat)
    (hP : parses_gamestate cfg P c.1)
    (hM : cfg.MVD_MAGIC < 2 ^ 32) (hgz : ¬ (cfg.MVD_MAGIC &&& 0xe0ffffff = 0x00088b1f))
    (hc : valid_payload cfg c.1) (E : List demo_event) (x : mvd_t × Option demo_t)
    (h : demo_session cfg P K ((c :: cs).map (demo_file_of cfg)) (n + m) = some (E, .ok x)) :
    ∃ E1 y, demo_session cfg P K ((c :: cs).map (demo_file_of cfg)) n = some (E1, .ok y) := by
  rw [demo_session_start cfg P K c cs _ hP hM hgz hc] at h ⊢
  have h2 := congrArg Prod.snd (Option.some.inj h)
  simp only [] at h2
  obtain ⟨y, hy⟩ := demo_frames_ok_prefix cfg P m n _ _ x h2
  exact ⟨_, y, by rw [hy]⟩


/-- Playing a playlist of plain files: the loop count decides how often the
playlist is played and whether the Upstream is destroyed at the end. -/
theorem playlist_loop_plain (cfg : Config) (P : Parser)
    (fs : List (List Nat × List (List Nat)))
    (hP : ∀ c ∈ fs, parses_demo cfg P c)
    (hM : cfg.MVD_MAGIC < 2 ^ 32) (hgz : ¬ (cfg.MVD_MAGIC &&& 0xe0ffffff = 0x00088b1f))
    (hfs : fs ≠ []) (hv : ∀ c ∈ fs, valid_demo cfg c) :
    (∀ K : Nat, 1 ≤ K →
      demo_session cfg P (K : Int) (fs.map (demo_file_of cfg)) (K * playlist_frames fs) =
          some ((List.replicate K (playlist_events fs)).flatten,
                .error (.gtv_destroyed (some (demo_chan cfg)) .end_of_playlist))
      ∧ ((List.replicate K (playlist_events fs)).flatten).filter demo_event.is_gamestate =
          (List.replicate K (fs.map (fun c => demo_event.gamestate (demo_msg c.1)))).flatten
      ∧ (((List.replicate K (playlist_events fs)).flatten).filter
            demo_event.is_gamestate).length = K * fs.length
      ∧ ∀ N : Nat, N < K * playlist_frames fs →
          ∃ E x, demo_session cfg P (K : Int) (fs.map (demo_file_of cfg)) N = some (E, .ok x))
    ∧ (∀ j : Nat, ∃ x,
        demo_session cfg P 0 (fs.map (demo_file_of cfg))
            (j * playlist_frames fs + (playlist_frames fs - 1)) =
          some ((List.replicate (j + 1) (playlist_events fs)).flatten, .ok x))
    ∧ (∀ N : Nat, ∃ E x,
        demo_session cfg P 0 (fs.map (demo_file_of cfg)) N = some (E, .ok x)) := by
  cases fs with
  | nil => exact absurd rfl hfs
  | cons c cs =>
    have hc : valid_demo cfg c := hv c (List.mem_cons_self _ _)
    have hpc : parses_demo cfg P c := hP c (List.mem_cons_self _ _)
    have hpf := playlist_frames_cons c cs
    have hloop0 : ∀ j : Nat, ∃ x,
        demo_session cfg P 0 ((c :: cs).map (demo_file_of cfg))
            (j * playlist_frames (c :: cs) + (playlist_frames (c :: cs) - 1)) =
          some ((List.replicate (j + 1) (playlist_events (c :: cs))).flatten, .ok x) := by
      intro j
      obtain ⟨f1, hf1⟩ := demo_session_rounds_forever cfg P c cs j hP hM hgz hv
      have hn : j * playlist_frames (c :: cs) + (playlist_frames (c :: cs) - 1)
          = c.2.length + playlist_frames cs + (j * playlist_frames (c :: cs) + 0) := by
        omega
      refine ⟨(demo_chan cfg, some (demo_at ((c :: cs).map (demo_file_of cfg)) 0 [] [f1])), ?_⟩
      rw [hn, hf1 0, ← rounds_events c cs j]
      rfl
    refine ⟨fun K hK => ?_, hloop0, fun N => ?_⟩
    · obtain ⟨j, rfl⟩ : ∃ j, K = j + 1 := ⟨K - 1, by omega⟩
      obtain ⟨f1, hf1⟩ := demo_session_rounds cfg P c cs j hP hM hgz hv
      refine ⟨?_, rounds_gamestates (c :: cs) (j + 1), ?_, fun N hN => ?_⟩
      · have hn : (j + 1) * playlist_frames (c :: cs)
            = c.2.length + playlist_frames cs + (j * playlist_frames (c :: cs) + (0 + 1)) := by
          rw [Nat.succ_mul]; omega
        have hlast := demo_frames_last cfg P c (cs.map (demo_file_of cfg)) f1 0 hpc.1 hM hgz hc.1
        rw [← List.map_cons] at hlast
        rw [hn, hf1 (0 + 1), ← rounds_events c cs j, hlast]
      · rw [rounds_gamestates]
        exact rounds_length (c :: cs).length (j + 1) _ (List.length_map _ _)
      · have hn : N + ((j + 1) * playlist_frames (c :: cs) - 1 - N)
            = c.2.length + playlist_frames cs + (j * playlist_frames (c :: cs) + 0) := by
          rw [Nat.succ_mul] at hN ⊢; omega
        have hlast := hf1 0
        rw [← hn] at hlast
        exact demo_session_ok_prefix cfg P _ c cs N _ hpc.1 hM hgz hc.1 _ _ hlast
    · obtain ⟨x, hx⟩ := hloop0 N
      have hpos := playlist_frames_pos c cs
      have hle : N ≤ N * playlist_frames (c :: cs) := Nat.le_mul_of_pos_right N hpos
      have hn : N + (N * playlist_frames (c :: cs) + (playlist_frames (c :: cs) - 1) - N)
          = N * playlist_frames (c :: cs) + (playlist_frames (c :: cs) - 1) := by
        omega
      rw [← hn] at hx
      exact demo_session_ok_prefix cfg P 0 c cs N _ hpc.1 hM hgz hc.1 _ _ hx

/-! ## Helper lemmas: playlists of plain and gzip files -/

theorem holds_demo_same_open (cfg : Config) (f : demo_file)
    (c : List Nat × List (List Nat))
    (hM : cfg.MVD_MAGIC < 2 ^ 32) (hgz : ¬ (cfg.MVD_MAGIC &&& 0xe0ffffff = 0x00088b1f))
    (h : holds_demo cfg f c) : same_open f (demo_file_of cfg c) := by
  intro mvd
  have hplain : demo_open (demo_file_of cfg c) mvd
      = .ok (encode_record c.1 ++ (encode_records c.2 ++ le16_bytes 0),
             le32_bytes cfg.MVD_MAGIC) := by
    have := demo_open_plain cfg mvd (encode_record c.1 ++ (encode_records c.2 ++ le16_bytes 0))
      hM hgz
    rw [← this]
    simp only [demo_file_of, demo_bytes, List.append_assoc]
  obtain ⟨hopen, hraw | ⟨hlen, htest, hzip⟩⟩ := h
  · have hf : f = { raw := demo_bytes cfg c, unzipped := f.unzipped, opens := true } := by
      cases f
      simp only [] at hopen hraw
      subst hopen hraw
      rfl
    have hread : FS_Read (demo_bytes cfg c) 4
        = (encode_record c.1 ++ (encode_records c.2 ++ le16_bytes 0),
           le32_bytes cfg.MVD_MAGIC) := by
      have := FS_Read_append (le32_bytes cfg.MVD_MAGIC)
        (encode_record c.1 ++ (encode_records c.2 ++ le16_bytes 0))
      rw [le32_bytes_length] at this
      rw [← this]
      simp only [demo_bytes, List.append_assoc]
    have hv : le32_value (le32_bytes cfg.MVD_MAGIC) = cfg.MVD_MAGIC := by
      simpa using le32_value_bytes cfg.MVD_MAGIC [] hM
    rw [hplain, hf]
    unfold demo_open
    simp only [hread, hv, le32_bytes_length]
    rw [if_neg (by decide), if_neg (by simp), if_neg hgz]
  · have hread : FS_Read (demo_bytes cfg c) 4
        = (encode_record c.1 ++ (encode_records c.2 ++ le16_bytes 0),
           le32_bytes cfg.MVD_MAGIC) := by
      have := FS_Read_append (le32_bytes cfg.MVD_MAGIC)
        (encode_record c.1 ++ (encode_records c.2 ++ le16_bytes 0))
      rw [le32_bytes_length] at this
      rw [← this]
      simp only [demo_bytes, List.append_assoc]
    rw [hplain]
    unfold demo_open
    rw [if_neg (by rw [hopen]; decide), if_neg (by rw [hlen]; simp), if_pos htest, hzip]
    simp only [hread, le32_bytes_length]
    rw [if_neg (by simp)]

theorem holds_demo_playlist (cfg : Config)
    (hM : cfg.MVD_MAGIC < 2 ^ 32) (hgz : ¬ (cfg.MVD_MAGIC &&& 0xe0ffffff = 0x00088b1f))
    (fs : List demo_file) (cs : List (List Nat × List (List Nat)))
    (h : List.Forall₂ (holds_demo cfg) fs cs) :
    List.Forall₂ same_open fs (cs.map (demo_file_of cfg)) := by
  induction h with
  | nil => exact List.Forall₂.nil
  | cons hfc _ ih => exact List.Forall₂.cons (holds_demo_same_open cfg _ _ hM hgz hfc) ih

theorem same_result_refl_error (e : Escape) :
    same_result (.error e) (.error e) := rfl

theorem demo_play_next_cons_same (cfg : Config) (P : Parser) (g g2 : demo_t)
    (mvd : Option mvd_t) (f f2 : demo_file) (r r2 : List demo_file)
    (hg : same_demo g g2) (hf : same_open f f2) (hr : List.Forall₂ same_open r r2) :
    same_result (demo_play_next cfg P g mvd (f :: r))
      (demo_play_next cfg P g2 mvd (f2 :: r2)) := by
  unfold demo_play_next
  simp only []
  rw [hf mvd]
  cases demo_open f2 mvd with
  | error e => exact rfl
  | ok x =>
    obtain ⟨fl, magic⟩ := x
    simp only []
    by_cases hm : le32_value magic ≠ cfg.MVD_MAGIC
    · rw [if_pos hm, if_pos hm]
      exact rfl
    · rw [if_neg hm, if_neg hm]
      cases hrd : demo_read_message cfg fl with
      | mk f1 o =>
        cases o with
        | none => exact rfl
        | some msg =>
          simp only []
          cases hp : P (match mvd with
                        | some m => m
                        | none => create_channel cfg) msg with
          | none => exact rfl
          | some y =>
            obtain ⟨st, rc⟩ := y
            simp only []
            by_cases hst : st = .MVD_DEAD
            · rw [if_pos hst, if_pos hst]
              exact rfl
            · rw [if_neg hst, if_neg hst]
              exact ⟨rfl, ⟨hg.1, rfl, hg.2.2.1, hg.2.2.2.1, List.Forall₂.cons hf hr⟩, rfl⟩

theorem demo_play_next_same (cfg : Config) (P : Parser) (g g2 : demo_t)
    (mvd : Option mvd_t) (entry entry2 : List demo_file)
    (hg : same_demo g g2) (he : List.Forall₂ same_open entry entry2) :
    same_result (demo_play_next cfg P g mvd entry) (demo_play_next cfg P g2 mvd entry2) := by
  cases he with
  | cons hf hr => exact demo_play_next_cons_same cfg P g g2 mvd _ _ _ _ hg hf hr
  | nil =>
    obtain ⟨s1, p1, k1, hd1, e1⟩ := g
    obtain ⟨s2, p2, k2, hd2, e2⟩ := g2
    obtain ⟨hs, hp, hk, hh, hen⟩ := hg
    simp only [] at hs hp hk hh hen
    subst hs hp hk
    rw [demo_play_next_wrap, demo_play_next_wrap]
    cases hh with
    | nil =>
      simp only []
      split_ifs <;> exact rfl
    | cons hf hr =>
      simp only []
      split_ifs
      · exact demo_play_next_cons_same cfg P _ _ mvd _ _ _ _
          ⟨rfl, rfl, rfl, List.Forall₂.cons hf hr, hen⟩ hf hr
      · exact rfl
      · exact demo_play_next_cons_same cfg P _ _ mvd _ _ _ _
          ⟨rfl, rfl, rfl, List.Forall₂.cons hf hr, hen⟩ hf hr

theorem demo_read_frame_same (cfg : Config) (P : Parser) (mvd : mvd_t)
    (gtv gtv2 : Option demo_t) (h : same_source gtv gtv2) :
    same_frame (demo_read_frame cfg P mvd gtv) (demo_read_frame cfg P mvd gtv2) := by
  unfold demo_read_frame
  by_cases hw : mvd.state = .MVD_WAITING
  · rw [if_pos hw, if_pos hw]
    exact ⟨rfl, h, rfl, rfl⟩
  · rw [if_neg hw, if_neg hw]
    cases gtv with
    | none =>
      cases gtv2 with
      | none => exact rfl
      | some g2 => exact absurd h (by simp [same_source])
    | some g =>
      cases gtv2 with
      | none => exact absurd h (by simp [same_source])
      | some g2 =>
        have hg : same_demo g g2 := h
        obtain ⟨s1, p1, k1, hd1, e1⟩ := g
        obtain ⟨s2, p2, k2, hd2, e2⟩ := g2
        obtain ⟨hs, hp, hk, hh, hen⟩ := hg
        simp only [] at hs hp hk hh hen
        subst hs hp hk
        simp only []
        cases p1 with
        | none => exact rfl
        | some f =>
          simp only []
          cases hrd : demo_read_message cfg f with
          | mk f1 o =>
            cases o with
            | some msg =>
              simp only []
              cases P mvd msg with
              | none => exact rfl
              | some y => exact ⟨rfl, ⟨rfl, rfl, rfl, hh, hen⟩, rfl, rfl⟩
            | none =>
              simp only []
              cases hen with
              | nil => exact rfl
              | cons hf hr =>
                rename_i a a2 l l2
                simp only []
                have hnext := demo_play_next_same cfg P
                  { state := s1, demoplayback := some f1, demoloop := k1, demohead := hd1,
                    demoentry := a :: l }
                  { state := s1, demoplayback := some f1, demoloop := k1, demohead := hd2,
                    demoentry := a2 :: l2 } (some mvd) l l2
                  ⟨rfl, rfl, rfl, hh, List.Forall₂.cons hf hr⟩ hr
                revert hnext
                generalize demo_play_next cfg P
                  { state := s1, demoplayback := some f1, demoloop := k1, demohead := hd1,
                    demoentry := a :: l } (some mvd) l = A
                generalize demo_play_next cfg P
                  { state := s1, demoplayback := some f1, demoloop := k1, demohead := hd2,
                    demoentry := a2 :: l2 } (some mvd) l2 = B
                intro hnext
                cases A with
                | error e =>
                  cases B with
                  | error e2 => exact hnext
                  | ok r2 => exact absurd hnext (by simp [same_result])
                | ok r =>
                  cases B with
                  | error e2 => exact absurd hnext (by simp [same_result])
                  | ok r2 => exact ⟨hnext.1, hnext.2.1, rfl, hnext.2.2⟩

theorem demo_frames_same (cfg : Config) (P : Parser) :
    ∀ (n : Nat) (mvd : mvd_t) (gtv gtv2 : Option demo_t), same_source gtv gtv2 →
      (demo_frames cfg P n mvd gtv).1 = (demo_frames cfg P n mvd gtv2).1
        ∧ same_run (demo_frames cfg P n mvd gtv).2 (demo_frames cfg P n mvd gtv2).2 := by
  intro n
  induction n with
  | zero =>
    intro mvd gtv gtv2 h
    exact ⟨rfl, rfl, h⟩
  | succ n ih =>
    intro mvd gtv gtv2 h
    have hstep := demo_read_frame_same cfg P mvd gtv gtv2 h
    cases h1 : demo_read_frame cfg P mvd gtv with
    | error e =>
      cases h2 : demo_read_frame cfg P mvd gtv2 with
      | error e2 =>
        rw [h1, h2] at hstep
        rw [demo_frames_succ_error cfg P n mvd gtv e h1,
          demo_frames_succ_error cfg P n mvd gtv2 e2 h2]
        exact ⟨rfl, hstep⟩
      | ok r2 =>
        rw [h1, h2] at hstep
        exact absurd hstep (by simp [same_frame])
    | ok r =>
      cases h2 : demo_read_frame cfg P mvd gtv2 with
      | error e2 =>
        rw [h1, h2] at hstep
        exact absurd hstep (by simp [same_frame])
      | ok r2 =>
        rw [h1, h2] at hstep
        obtain ⟨hm, hs, _, hev⟩ := hstep
        rw [demo_frames_succ_ok cfg P n mvd gtv r h1,
          demo_frames_succ_ok cfg P n mvd gtv2 r2 h2, ← hm, ← hev]
        have hrec := ih r.mvd r.gtv r2.gtv hs
        exact ⟨by rw [hrec.1], hrec.2⟩

/-- A playback session does not depend on how the files of the playlist are
stored: with files that `demo_open` cannot tell apart the parser is handed the
same messages, and the session ends in the same way. -/
theorem demo_session_same (cfg : Config) (P : Parser) (K : Int) (fs fs2 : List demo_file)
    (h : List.Forall₂ same_open fs fs2) (n : Nat) :
    (∀ E e, demo_session cfg P K fs2 n = some (E, .error e) →
        demo_session cfg P K fs n = some (E, .error e))
      ∧ (∀ E x, demo_session cfg P K fs2 n = some (E, .ok x) →
        ∃ y, demo_session cfg P K fs n = some (E, .ok y)) := by
  cases h with
  | nil => exact ⟨fun E e h => h, fun E x h => ⟨x, h⟩⟩
  | cons hf hr =>
    rename_i f f2 r r2
    have hg : same_demo
        { (if K ≠ -1 then { ({ state := .GTV_READING, demoloop := 1 } : demo_t) with
                            demoloop := K }
           else ({ state := .GTV_READING, demoloop := 1 } : demo_t)) with
          demohead := f :: r, demoloop := K }
        { (if K ≠ -1 then { ({ state := .GTV_READING, demoloop := 1 } : demo_t) with
                            demoloop := K }
           else ({ state := .GTV_READING, demoloop := 1 } : demo_t)) with
          demohead := f2 :: r2, demoloop := K } := by
      refine ⟨rfl, rfl, rfl, List.Forall₂.cons hf hr, ?_⟩
      by_cases hK : K ≠ -1
      · rw [if_pos hK]
        exact List.Forall₂.nil
      · rw [if_neg hK]
        exact List.Forall₂.nil
    have hplay := demo_play_next_cons_same cfg P _ _ none f f2 r r2 hg hf hr
    unfold demo_session MVD_Play_f
    simp only []
    revert hplay
    cases h1 : demo_play_next cfg P _ none (f :: r) with
    | error e =>
      cases h2 : demo_play_next cfg P _ none (f2 :: r2) with
      | error e2 =>
        intro hplay
        have he : e = e2 := hplay
        subst he
        exact ⟨fun E e h => h, fun E x h => ⟨x, h⟩⟩
      | ok r2 => intro hplay; exact absurd hplay (by simp [same_result])
    | ok a =>
      cases h2 : demo_play_next cfg P _ none (f2 :: r2) with
      | error e2 => intro hplay; exact absurd hplay (by simp [same_result])
      | ok a2 =>
        intro hplay
        obtain ⟨hm, hs, hev⟩ := hplay
        have hrun := demo_frames_same cfg P n a.mvd (some a.gtv) (some a2.gtv) hs
        simp only []
        rw [← hm, ← hev]
        refine ⟨fun E e h => ?_, fun E x h => ?_⟩
        · have h3 := Option.some.inj h
          have hE := congrArg Prod.fst h3
          have hR := congrArg Prod.snd h3
          simp only [] at hE hR
          have hrel := hrun.2
          rw [hR] at hrel
          cases h4 : (demo_frames cfg P n a.mvd (some a.gtv)).2 with
          | ok y =>
            rw [h4] at hrel
            exact absurd hrel (by simp [same_run])
          | error e1 =>
            rw [h4] at hrel
            have he : e1 = e := hrel
            rw [hrun.1, hE, he]
        · have h3 := Option.some.inj h
          have hE := congrArg Prod.fst h3
          have hR := congrArg Prod.snd h3
          simp only [] at hE hR
          have hrel := hrun.2
          rw [hR] at hrel
          cases h4 : (demo_frames cfg P n a.mvd (some a.gtv)).2 with
          | error e1 =>
            rw [h4] at hrel
            exact absurd hrel (by simp [same_run])
          | ok y =>
            exact ⟨y, by rw [hrun.1, hE]⟩

/-- C24: for a playlist `fs` of at least one file, where each file holds a valid
demo (as plain bytes, or behind the gzip filter: `holds_demo`), the demos
being `cs` in playlist order, played by a parser that accepts the gamestate
of each of these demos and leaves the Channel in Reading on each of their
later messages (`parses_demo`).  With a loop count `K ≥ 1`, the session
started by `MVD_Play_f` hands the parser the files in playlist order `K`
times, which are `K * fs.length` gamestates, and the `read_frame` call that
finds the playlist exhausted for the `K`-th time (call number
`K * playlist_frames cs`) destroys the Upstream, and no earlier call does.
With the loop count 0 the playlist is played again from the head after every
round, and no call ever destroys the Upstream. -/
theorem C24_playlist_loop (cfg : Config) (P : Parser) (fs : List demo_file)
    (cs : List (List Nat × List (List Nat)))
    (hM : cfg.MVD_MAGIC < 2 ^ 32) (hgz : ¬ (cfg.MVD_MAGIC &&& 0xe0ffffff = 0x00088b1f))
    (hfs : fs ≠ []) (hf : List.Forall₂ (holds_demo cfg) fs cs)
    (hv : ∀ c ∈ cs, valid_demo cfg c) (hP : ∀ c ∈ cs, parses_demo cfg P c) :
    (∀ K : Nat, 1 ≤ K →
      demo_session cfg P (K : Int) fs (K * playlist_frames cs) =
          some ((List.replicate K (playlist_events cs)).flatten,
                .error (.gtv_destroyed (some (demo_chan cfg)) .end_of_playlist))
      ∧ ((List.replicate K (playlist_events cs)).flatten).filter demo_event.is_gamestate =
          (List.replicate K (cs.map (fun c => demo_event.gamestate (demo_msg c.1)))).flatten
      ∧ (((List.replicate K (playlist_events cs)).flatten).filter
            demo_event.is_gamestate).length = K * fs.length
      ∧ ∀ N : Nat, N < K * playlist_frames cs →
          ∃ E x, demo_session cfg P (K : Int) fs N = some (E, .ok x))
    ∧ (∀ j : Nat, ∃ x,
        demo_session cfg P 0 fs (j * playlist_frames cs + (playlist_frames cs - 1)) =
          some ((List.replicate (j + 1) (playlist_events cs)).flatten, .ok x))
    ∧ (∀ N : Nat, ∃ E x, demo_session cfg P 0 fs N = some (E, .ok x)) := by
  have hlen : fs.length = cs.length := hf.length_eq
  have hcs : cs ≠ [] := by
    intro h
    rw [h, List.length_nil] at hlen
    exact hfs (List.length_eq_zero.mp hlen)
  have hsame := holds_demo_playlist cfg hM hgz fs cs hf
  obtain ⟨hK, h0, hN⟩ := playlist_loop_plain cfg P cs hP hM hgz hcs hv
  refine ⟨fun K h1 => ?_, fun j => ?_, fun N => ?_⟩
  · obtain ⟨ha, hb, hc, hd⟩ := hK K h1
    refine ⟨(demo_session_same cfg P K fs _ hsame _).1 _ _ ha, hb, by rw [hc, hlen],
      fun N hlt => ?_⟩
    obtain ⟨E, x, hx⟩ := hd N hlt
    obtain ⟨y, hy⟩ := (demo_session_same cfg P K fs _ hsame N).2 E x hx
    exact ⟨E, y, hy⟩
  · obtain ⟨x, hx⟩ := h0 j
    exact (demo_session_same cfg P 0 fs _ hsame _).2 _ x hx
  · obtain ⟨E, x, hx⟩ := hN N
    obtain ⟨y, hy⟩ := (demo_session_same cfg P 0 fs _ hsame N).2 E x hx
    exact ⟨E, y, hy⟩

/-- The playlist of the plain file of `demo_a` and the gzip file `file_gzip` of
`demo_b` with the loop count 2: the parser gets a, b, a, b, and call number 8
destroys the Upstream. -/
theorem C24_playlist_loop_witness :
    demo_session cfg_default parser_reading ((2 : Nat) : Int)
        [demo_file_of cfg_default demo_a, file_gzip]
        (2 * playlist_frames [demo_a, demo_b]) =
      some ((List.replicate 2 (playlist_events [demo_a, demo_b])).flatten,
            .error (.gtv_destroyed (some (demo_chan cfg_default)) .end_of_playlist))
    ∧ (((List.replicate 2 (playlist_events [demo_a, demo_b])).flatten).filter
          demo_event.is_gamestate).length
        = 2 * [demo_file_of cfg_default demo_a, file_gzip].length :=
  have h := (C24_playlist_loop cfg_default parser_reading
    [demo_file_of cfg_default demo_a, file_gzip] [demo_a, demo_b]
    (by decide) (by decide) (by decide)
    (List.Forall₂.cons ⟨rfl, Or.inl rfl⟩
      (List.Forall₂.cons ⟨rfl, Or.inr ⟨by decide, by decide, rfl⟩⟩ List.Forall₂.nil))
    (by
      intro c hc
      simp only [List.mem_cons, List.mem_singleton, List.not_mem_nil, or_false] at hc
      rcases hc with rfl | rfl
      · exact ⟨by decide, by decide⟩
      · exact ⟨by decide, by decide⟩)
    (fun c _ => ⟨fun m _ => ⟨.MVD_READING, _, rfl, by decide⟩, fun b _ => ⟨_, rfl⟩⟩)).1 2
    (by decide)
  ⟨h.1, h.2.2.1⟩


/-! ## Helper lemmas: opening a playlist file -/

theorem le32_value_four (b0 b1 b2 b3 : Nat) (h0 : b0 < 256) (h1 : b1 < 256) (h2 : b2 < 256)
    (h3 : b3 < 256) :
    le32_value [b0, b1, b2, b3] = b0 + 256 * b1 + 65536 * b2 + 16777216 * b3 := by
  simp [le32_value, Nat.mod_eq_of_lt h0, Nat.mod_eq_of_lt h1, Nat.mod_eq_of_lt h2,
    Nat.mod_eq_of_lt h3]

theorem FS_Read_four (b0 b1 b2 b3 : Nat) (rest : List Nat) :
    FS_Read (b0 :: b1 :: b2 :: b3 :: rest) 4 = (rest, [b0, b1, b2, b3]) := rfl

theorem demo_play_next_magic (cfg : Config) (P : Parser) (g : demo_t) (mvd : Option mvd_t)
    (file : demo_file) (more : List demo_file) (f magic : List Nat)
    (hopen : demo_open file mvd = .ok (f, magic)) (hmagic : le32_value magic ≠ cfg.MVD_MAGIC) :
    demo_play_next cfg P g mvd (file :: more) = demo_destroyf mvd .not_mvd2_file := by
  unfold demo_play_next
  simp only [hopen]
  rw [if_pos hmagic]

theorem demo_play_next_open_error (cfg : Config) (P : Parser) (g : demo_t)
    (mvd : Option mvd_t) (file : demo_file) (more : List demo_file) (e : Escape)
    (hopen : demo_open file mvd = .error e) :
    demo_play_next cfg P g mvd (file :: more) = .error e := by
  unfold demo_play_next
  simp only [hopen]

/-- C25 does not hold as stated: the file `file_gzip_reserved_flags` starts with
the bytes 0x1F 0x8B 0x08, but its fourth byte 0xE0 has the top three bits set;
`demo_play_next` does not install the gzip filter, takes the first four raw
bytes as the magic and destroys the Upstream, although the file `file_gzip`
with the same content behind the header 0x1F 0x8B 0x08 0x00 is played. -/
theorem C25_counterexample_fourth_byte :
    file_gzip_reserved_flags.raw.take 3 = [0x1F, 0x8B, 0x08]
    ∧ file_gzip_reserved_flags.unzipped = file_gzip.unzipped
    ∧ demo_open file_gzip_reserved_flags none = .ok ([0, 0, 0, 0], [0x1F, 0x8B, 0x08, 0xE0])
    ∧ demo_play_next cfg_default parser_reading {} none [file_gzip_reserved_flags] =
        .error (.gtv_destroyed none .not_mvd2_file)
    ∧ demo_play_next cfg_default parser_reading {} none [file_gzip] =
        .ok { mvd := demo_chan cfg_default
              gtv := { demoplayback := some (le16_bytes 0), demoentry := [file_gzip] }
              events := [.gamestate (demo_msg demo_b.1)] } :=
  ⟨rfl, rfl, rfl, rfl, rfl⟩

/-- C25, amended: for a playlist file that can be opened and holds at least four
bytes `b0 b1 b2 b3`, the test of `demo_play_next` for a gzip header holds if
and only if the first three bytes are 0x1F 0x8B 0x08 and the top three bits of
the fourth byte are zero (`b3 < 32`).  If it holds, the gzip filter is
installed and the magic is read again, from the filtered file (the Upstream is
destroyed if the filter cannot be installed or delivers fewer than 4 bytes);
if not, the four raw bytes are the magic.  In both cases, if the 4 bytes read
last are not `MVD_MAGIC`, the Upstream is destroyed. -/
theorem C25_gzip_filter (cfg : Config) (P : Parser) (g : demo_t) (mvd : Option mvd_t)
    (file : demo_file) (more : List demo_file) (b0 b1 b2 b3 : Nat) (rest : List Nat)
    (hopens : file.opens = true) (hraw : file.raw = b0 :: b1 :: b2 :: b3 :: rest)
    (h0 : b0 < 256) (h1 : b1 < 256) (h2 : b2 < 256) (h3 : b3 < 256) :
    ((le32_value (FS_Read file.raw 4).2 &&& 0xe0ffffff = 0x00088b1f)
        ↔ (b0 = 0x1F ∧ b1 = 0x8B ∧ b2 = 0x08 ∧ b3 < 32))
    ∧ ((b0 = 0x1F ∧ b1 = 0x8B ∧ b2 = 0x08 ∧ b3 < 32) →
        demo_open file mvd =
          match file.unzipped with
          | none => demo_destroyf mvd .gzip_filter_failed
          | some z =>
            if (FS_Read z 4).2.length ≠ 4 then demo_destroyf mvd .magic_unreadable
            else .ok ((FS_Read z 4).1, (FS_Read z 4).2))
    ∧ (¬ (b0 = 0x1F ∧ b1 = 0x8B ∧ b2 = 0x08 ∧ b3 < 32) →
        demo_open file mvd = .ok (rest, [b0, b1, b2, b3]))
    ∧ (∀ f magic, demo_open file mvd = .ok (f, magic) → le32_value magic ≠ cfg.MVD_MAGIC →
        demo_play_next cfg P g mvd (file :: more) = demo_destroyf mvd .not_mvd2_file) := by
  have hread : FS_Read file.raw 4 = (rest, [b0, b1, b2, b3]) := by
    rw [hraw]; rfl
  have hval := le32_value_four b0 b1 b2 b3 h0 h1 h2 h3
  have htest : (le32_value (FS_Read file.raw 4).2 &&& 0xe0ffffff = 0x00088b1f)
      ↔ (b0 = 0x1F ∧ b1 = 0x8B ∧ b2 = 0x08 ∧ b3 < 32) := by
    rw [hread]
    simp only []
    rw [hval]
    exact gzip_test b0 b1 b2 b3 h0 h1 h2 h3
  refine ⟨htest, fun hc => ?_, fun hc => ?_, fun f magic hopen hmagic =>
    demo_play_next_magic cfg P g mvd file more f magic hopen hmagic⟩
  · unfold demo_open
    rw [if_neg (by rw [hopens]; decide), if_neg (by rw [hread]; simp),
      if_pos (htest.mpr hc)]
  · unfold demo_open
    rw [if_neg (by rw [hopens]; decide), if_neg (by rw [hread]; simp),
      if_neg (fun h => hc (htest.mp h)), hread]

/-- The gzip file `file_gzip` (fourth byte 0): the filter is installed and the
magic is read from the filtered file. -/
theorem C25_gzip_filter_witness :
    demo_open file_gzip none =
      .ok (encode_record demo_b.1 ++ encode_records demo_b.2 ++ le16_bytes 0,
           le32_bytes cfg_default.MVD_MAGIC) :=
  ((C25_gzip_filter cfg_default parser_reading {} none file_gzip [] 0x1F 0x8B 0x08 0x00
    [0, 0, 0, 0] rfl rfl (by decide) (by decide) (by decide) (by decide)).2.1
    ⟨rfl, rfl, rfl, by decide⟩).trans rfl


/-! ## Helper lemmas: recording -/

theorem record_messages (bs : List (List Nat)) (hbs : ∀ b ∈ bs, b.length < 65536) :
    ∀ f : List Nat, bs.foldl record_message (some f) = some (f ++ encode_records bs) := by
  induction bs with
  | nil => intro f; simp [encode_records]
  | cons b bs ih =>
    intro f
    have hb : b.length % 65536 = b.length :=
      Nat.mod_eq_of_lt (hbs b (List.mem_cons_self _ _))
    rw [List.foldl_cons]
    show bs.foldl record_message (some (f ++ le16_bytes (b.length % 65536) ++ b)) = _
    rw [ih (fun x hx => hbs x (List.mem_cons_of_mem _ hx)), hb]
    simp [encode_records, encode_record]

theorem recorded_file_bytes (cfg : Config) (g : List Nat) (bs : List (List Nat))
    (hg : g.length < 65536) (hbs : ∀ b ∈ bs, b.length < 65536) :
    recorded_file cfg g bs = some (demo_bytes cfg (g, bs)) := by
  unfold recorded_file MVD_StreamedRecord_f
  simp only []
  rw [record_messages bs hbs, Nat.mod_eq_of_lt hg]
  simp [MVD_StreamedStop_f, demo_bytes, encode_record]

theorem demo_read_messages_records (cfg : Config) :
    ∀ (bs : List (List Nat)), (∀ b ∈ bs, valid_payload cfg b) →
      demo_read_messages cfg (bs.length + 1) (encode_records bs ++ le16_bytes 0) =
        (bs.map demo_msg, true) := by
  intro bs
  induction bs with
  | nil =>
    intro _
    have h := demo_read_message_end cfg []
    rw [List.append_nil] at h
    show (match demo_read_message cfg (encode_records [] ++ le16_bytes 0) with
          | (_, none) => (([], true) : List sizebuf_t × Bool)
          | (f1, some msg) =>
            (msg :: (demo_read_messages cfg 0 f1).1, (demo_read_messages cfg 0 f1).2)) = _
    rw [show encode_records [] ++ le16_bytes 0 = le16_bytes 0 from rfl, h]
    rfl
  | cons b bs ih =>
    intro hv
    have h := demo_read_message_record cfg b (encode_records bs ++ le16_bytes 0)
      (hv b (List.mem_cons_self _ _))
    show (match demo_read_message cfg (encode_records (b :: bs) ++ le16_bytes 0) with
          | (_, none) => (([], true) : List sizebuf_t × Bool)
          | (f1, some msg) =>
            (msg :: (demo_read_messages cfg (bs.length + 1) f1).1,
             (demo_read_messages cfg (bs.length + 1) f1).2)) = _
    rw [show encode_records (b :: bs) ++ le16_bytes 0
        = encode_record b ++ (encode_records bs ++ le16_bytes 0) from by
      simp [encode_records], h]
    simp only []
    rw [ih (fun x hx => hv x (List.mem_cons_of_mem _ hx))]
    rfl

/-- C26: record/playback round trip.  For a gamestate `g` and bodies `bs` whose
lengths are all in [1, MAX_MSGLEN] (and fit the 2-byte length), recording
writes exactly the bytes `demo_bytes cfg (g, bs)`: the magic, each of them with
its length, and the zero length written on stop.  `demo_play_next` accepts the
file with these bytes (the parser is handed `g` as the gamestate, the Channel
is left in Reading, the file is left at the first body), and the
`demo_read_message` calls that follow read `bs` in order and then find the end
of the stream; read from behind the magic, the calls give `g` and then `bs`. -/
theorem C26_record_playback_round_trip (cfg : Config) (P : Parser) (gtv : demo_t)
    (more : List demo_file) (g : List Nat) (bs : List (List Nat))
    (hM : cfg.MVD_MAGIC < 2 ^ 32) (hgz : ¬ (cfg.MVD_MAGIC &&& 0xe0ffffff = 0x00088b1f))
    (hv : valid_demo cfg (g, bs))
    (hP : ∃ st rc, P (create_channel cfg) (demo_msg g) = some (st, rc) ∧ st ≠ .MVD_DEAD) :
    recorded_file cfg g bs = some (demo_bytes cfg (g, bs))
    ∧ demo_play_next cfg P gtv none ({ raw := demo_bytes cfg (g, bs) } :: more) =
        .ok { mvd := { create_channel cfg with state := .MVD_READING }
              gtv := { gtv with
                       demoplayback := some (encode_records bs ++ le16_bytes 0)
                       demoentry := { raw := demo_bytes cfg (g, bs) } :: more }
              events := [.gamestate (demo_msg g)] }
    ∧ demo_read_messages cfg (bs.length + 1) (encode_records bs ++ le16_bytes 0) =
        (bs.map demo_msg, true)
    ∧ demo_read_messages cfg (bs.length + 2)
          (encode_record g ++ encode_records bs ++ le16_bytes 0) =
        (demo_msg g :: bs.map demo_msg, true) := by
  obtain ⟨st, rc, hst, hdead⟩ := hP
  refine ⟨recorded_file_bytes cfg g bs hv.1.2.2 (fun b hb => (hv.2 b hb).2.2), ?_,
    demo_read_messages_records cfg bs hv.2, ?_⟩
  · have h := demo_play_next_file cfg P gtv none (g, bs) more hM hgz hv.1
    simp only [hst] at h
    rw [if_neg hdead] at h
    exact h
  · have h := demo_read_messages_records cfg (g :: bs) (by
      intro b hb
      rcases List.mem_cons.mp hb with rfl | hb
      · exact hv.1
      · exact hv.2 b hb)
    rw [List.length_cons, List.map_cons] at h
    rw [← h]
    simp [encode_records]

/-- The demo `demo_a`: recorded, accepted and read back. -/
theorem C26_record_playback_round_trip_witness :
    recorded_file cfg_default demo_a.1 demo_a.2 = some (demo_bytes cfg_default demo_a)
    ∧ demo_read_messages cfg_default 4
          (encode_record demo_a.1 ++ encode_records demo_a.2 ++ le16_bytes 0) =
        ([demo_msg [1, 2, 3], demo_msg [4, 5], demo_msg [6]], true) :=
  have h := C26_record_playback_round_trip cfg_default parser_reading {} [] demo_a.1 demo_a.2
    (by decide) (by decide) ⟨by decide, by decide⟩ ⟨.MVD_READING, 3, rfl, by decide⟩
  ⟨h.1, h.2.2.2⟩


/-! ## Helper lemmas: the loops of a tick return -/

theorem write_stream_recv (now : Nat) (g : gtv_t) (mvd : Option mvd_t) (data : List Nat)
    (g1 : gtv_t) (h : write_stream now g mvd data = .ok g1) :
    g1.stream.recv = g.stream.recv ∧ g1.z_act = g.z_act ∧ g1.msglen = g.msglen := by
  unfold write_stream at h
  split at h
  · exact absurd h (by simp [gtv_destroyf])
  · simp only [Except.ok.injEq] at h
    subst h
    exact ⟨rfl, rfl, rfl⟩

theorem write_message_recv (now : Nat) (g : gtv_t) (mvd : Option mvd_t)
    (op : gtv_clientop_t) (p : List Nat) (g1 : gtv_t)
    (h : write_message now g mvd op p = .ok g1) :
    g1.stream.recv = g.stream.recv ∧ g1.z_act = g.z_act ∧ g1.msglen = g.msglen := by
  unfold write_message at h
  simp only [] at h
  split at h
  · exact absurd h (by simp)
  · rename_i g2 hr
    obtain ⟨a1, a2, a3⟩ := write_stream_recv now g mvd _ g2 hr
    obtain ⟨b1, b2, b3⟩ := write_stream_recv now g2 mvd _ g1 h
    exact ⟨b1.trans a1, b2.trans a2, b3.trans a3⟩

theorem send_hello_recv (cfg : Config) (now : Nat) (g : gtv_t) (mvd : Option mvd_t)
    (g1 : gtv_t) (h : send_hello cfg now g mvd = .ok g1) :
    g1.stream.recv = g.stream.recv ∧ g1.msglen = g.msglen := by
  unfold send_hello at h
  simp only [] at h
  split at h
  · exact absurd h (by simp)
  · rename_i g2 hr
    obtain ⟨a1, _, a3⟩ := write_message_recv now _ mvd _ _ g2 hr
    simp only [Except.ok.injEq] at h
    subst h
    exact ⟨a1, a3⟩

theorem parse_hello_recv (cfg : Config) (g : gtv_t) (mvd : Option mvd_t) (m : sizebuf_t)
    (g1 : gtv_t) (m1 : sizebuf_t) (h : parse_hello cfg g mvd m = .ok (g1, m1)) :
    g1.stream.recv = g.stream.recv := by
  unfold parse_hello at h
  simp only [] at h
  split at h
  · exact absurd h (by simp [gtv_destroyf])
  · split at h
    · split at h
      · simp only [Except.ok.injEq, Prod.mk.injEq] at h
        rw [← h.1]
      · exact absurd h (by simp [gtv_destroyf])
    · simp only [Except.ok.injEq, Prod.mk.injEq] at h
      rw [← h.1]

theorem parse_stream_start_recv (cfg : Config) (g : gtv_t) (mvd : Option mvd_t)
    (g1 : gtv_t) (m1 : Option mvd_t) (h : parse_stream_start cfg g mvd = .ok (g1, m1)) :
    g1.stream.recv = g.stream.recv := by
  unfold parse_stream_start at h
  simp only [] at h
  split at h
  · exact absurd h (by simp [gtv_destroyf])
  · simp only [Except.ok.injEq, Prod.mk.injEq] at h
    rw [← h.1]

theorem parse_stream_stop_recv (g : gtv_t) (mvd : Option mvd_t)
    (g1 : gtv_t) (h : parse_stream_stop g mvd = .ok g1) :
    g1.stream.recv = g.stream.recv := by
  unfold parse_stream_stop at h
  split at h
  · exact absurd h (by simp [gtv_destroyf])
  · simp only [Except.ok.injEq] at h
    rw [← h]

theorem parse_stream_data_recv (P : Parser) (now : Nat) (g : gtv_t) (mvd : Option mvd_t)
    (m : sizebuf_t) (g1 : gtv_t) (c1 : Option mvd_t) (m1 : sizebuf_t)
    (h : parse_stream_data P now g mvd m = .ok (g1, c1, m1)) :
    g1.stream.recv = g.stream.recv := by
  unfold parse_stream_data at h
  simp only [] at h
  split at h
  · exact absurd h (by simp [gtv_destroyf])
  · split at h
    · simp only [Except.ok.injEq, Prod.mk.injEq] at h
      rw [← h.1]
    · split at h
      · simp only [Except.ok.injEq, Prod.mk.injEq] at h
        rw [← h.1]
        split <;> rfl
      · split at h
        · exact absurd h (by simp)
        · split at h
          · split at h
            · exact absurd h (by simp [MVD_Destroyf])
            · simp only [Except.ok.injEq, Prod.mk.injEq] at h
              rw [← h.1]
              split <;> rfl
          · split at h
            · split at h
              · exact absurd h (by simp [gtv_destroyf])
              · split at h
                · exact absurd h (by simp)
                · rename_i g2 hr
                  obtain ⟨a1, _, _⟩ := write_message_recv now _ _ _ _ g2 hr
                  simp only [Except.ok.injEq, Prod.mk.injEq] at h
                  rw [← h.1]
                  show g2.stream.recv = _
                  rw [a1]
                  split <;> rfl
            · simp only [Except.ok.injEq, Prod.mk.injEq] at h
              rw [← h.1]
              split <;> rfl

theorem parse_message_cmd_recv (cfg : Config) (P : Parser) (now : Nat) (g : gtv_t)
    (mvd : Option mvd_t) (m : sizebuf_t) (g1 : gtv_t) (c1 : Option mvd_t)
    (h : parse_message_cmd cfg P now g mvd m = .ok (g1, c1)) :
    g1.stream.recv = g.stream.recv := by
  unfold parse_message_cmd at h
  simp only [] at h
  split at h
  · exact absurd h (by simp)
  · rename_i g2 c2 m2 hafter
    split at h
    · exact absurd h (by simp [gtv_destroyf])
    · simp only [Except.ok.injEq, Prod.mk.injEq] at h
      rw [← h.1]
      show g2.stream.recv = _
      split at hafter
      · split at hafter
        · exact absurd hafter (by simp)
        · rename_i gh mh hr
          simp only [Except.ok.injEq, Prod.mk.injEq] at hafter
          rw [← hafter.1]
          exact parse_hello_recv cfg g mvd _ gh mh hr
      · simp only [Except.ok.injEq, Prod.mk.injEq] at hafter
        rw [← hafter.1]
      · split at hafter
        · exact absurd hafter (by simp)
        · rename_i gh ch hr
          simp only [Except.ok.injEq, Prod.mk.injEq] at hafter
          rw [← hafter.1]
          exact parse_stream_start_recv cfg g mvd gh ch hr
      · split at hafter
        · exact absurd hafter (by simp)
        · rename_i gh hr
          simp only [Except.ok.injEq, Prod.mk.injEq] at hafter
          rw [← hafter.1]
          exact parse_stream_stop_recv g mvd gh hr
      · exact parse_stream_data_recv P now g mvd _ g2 c2 m2 hafter
      · exact absurd hafter (by simp [gtv_destroyf])
      · exact absurd hafter (by simp [gtv_destroyf])
      · exact absurd hafter (by simp [gtv_destroyf])
      · exact absurd hafter (by simp [gtv_destroyf])
      · exact absurd hafter (by simp [gtv_dropf])
      · exact absurd hafter (by simp [gtv_destroyf])

theorem FIFO_TryRead_length (f : fifo_t) (n : Nat) (f1 : fifo_t) (b : List Nat)
    (h : FIFO_TryRead f n = some (f1, b)) : f1.data.length + n = f.data.length := by
  unfold FIFO_TryRead at h
  split at h
  · exact absurd h (by simp)
  · rename_i hlt
    simp only [Option.some.injEq, Prod.mk.injEq] at h
    rw [← h.1]
    simp only [FIFO_Read, FIFO_Usage] at hlt ⊢
    simp only [if_true, List.length_drop]
    simp only [Bool.false_eq_true, if_false] at hlt
    omega

theorem FIFO_ReadMessage_length (f : fifo_t) (n : Nat) (f1 : fifo_t) (m : sizebuf_t)
    (h : FIFO_ReadMessage f n = some (f1, m)) : f1.data.length + n = f.data.length := by
  unfold FIFO_ReadMessage at h
  split at h
  · exact absurd h (by simp)
  · rename_i f2 bytes hr
    simp only [Option.some.injEq, Prod.mk.injEq] at h
    rw [← h.1]
    exact FIFO_TryRead_length f n f2 bytes hr

theorem parse_message_magic_recv (cfg : Config) (now : Nat) (g : gtv_t) (mvd : Option mvd_t)
    (g1 : gtv_t) (h : parse_message_magic cfg now g mvd .recv = .ok (some g1)) :
    g1.stream.recv.data.length ≤ g.stream.recv.data.length := by
  unfold parse_message_magic at h
  split at h
  · split at h
    · exact absurd h (by simp)
    · rename_i f magic hr
      have hlen := FIFO_TryRead_length _ _ f magic hr
      split at h
      · exact absurd h (by simp [gtv_destroyf])
      · split at h
        · exact absurd h (by simp)
        · rename_i g2 hs
          simp only [Except.ok.injEq, Option.some.injEq] at h
          subst h
          rw [(send_hello_recv cfg now _ mvd g2 hs).1]
          show f.data.length ≤ _
          have : (g.fifo .recv).data.length = g.stream.recv.data.length := rfl
          omega
  · simp only [Except.ok.injEq, Option.some.injEq] at h
    subst h
    exact Nat.le_refl _

theorem parse_message_msglen_recv (cfg : Config) (now : Nat) (g : gtv_t) (mvd : Option mvd_t)
    (g1 : gtv_t) (h : parse_message_msglen cfg now g mvd .recv = .ok (some g1)) :
    g1.stream.recv.data.length ≤ g.stream.recv.data.length ∧ g1.msglen ≠ 0 := by
  unfold parse_message_msglen at h
  split at h
  · split at h
    · exact absurd h (by simp)
    · rename_i f bytes hr
      have hlen := FIFO_TryRead_length _ _ f bytes hr
      simp only [] at h
      split at h
      · exact absurd h (by simp [gtv_dropf])
      · rename_i hne
        split at h
        · exact absurd h (by simp [gtv_destroyf])
        · simp only [Except.ok.injEq, Option.some.injEq] at h
          subst h
          refine ⟨?_, hne⟩
          show f.data.length ≤ _
          have : (g.fifo .recv).data.length = g.stream.recv.data.length := rfl
          omega
  · rename_i hne
    simp only [Except.ok.injEq, Option.some.injEq] at h
    subst h
    exact ⟨Nat.le_refl _, hne⟩

/-- A `parse_message` call on the receive buffer that returns true has taken at
least one byte out of it. -/
theorem parse_message_progress (cfg : Config) (P : Parser) (now : Nat) (g : gtv_t)
    (mvd : Option mvd_t) (g1 : gtv_t) (m1 : Option mvd_t)
    (h : parse_message cfg P now g mvd .recv = .ok (g1, m1, true)) :
    g1.stream.recv.data.length < g.stream.recv.data.length := by
  unfold parse_message at h
  split at h
  · exact absurd h (by simp)
  · exact absurd h (by simp)
  · rename_i ga hmagic
    have h1 := parse_message_magic_recv cfg now g mvd ga hmagic
    split at h
    · exact absurd h (by simp)
    · exact absurd h (by simp)
    · rename_i gb hmsglen
      obtain ⟨h2, hne⟩ := parse_message_msglen_recv cfg now ga mvd gb hmsglen
      split at h
      · exact absurd h (by simp)
      · rename_i f msg hread
        have h3 := FIFO_ReadMessage_length _ _ f msg hread
        split at h
        · exact absurd h (by simp)
        · rename_i gc mc hcmd
          have h4 := parse_message_cmd_recv cfg P now _ mvd msg gc mc hcmd
          simp only [Except.ok.injEq, Prod.mk.injEq] at h
          rw [← h.1, h4]
          show f.data.length < _
          have : (gb.fifo .recv).data.length = gb.stream.recv.data.length := rfl
          have : gb.msglen ≠ 0 := hne
          omega

/-- The loop of `run_stream` over the receive buffer ends: one pass more than
there are bytes in the buffer is enough. -/
theorem run_stream_plain_returns (cfg : Config) (P : Parser) (now : Nat) :
    ∀ (fuel : Nat) (g : gtv_t) (mvd : Option mvd_t),
      g.stream.recv.data.length < fuel →
      ∃ r, run_stream_plain cfg P now fuel g mvd = some r := by
  intro fuel
  induction fuel with
  | zero => intro g mvd h; exact absurd h (by omega)
  | succ fuel ih =>
    intro g mvd h
    unfold run_stream_plain
    cases hp : parse_message cfg P now g mvd .recv with
    | error e => exact ⟨_, rfl⟩
    | ok v =>
      obtain ⟨g1, m1, b⟩ := v
      cases b with
      | false => exact ⟨_, rfl⟩
      | true =>
        have hlt := parse_message_progress cfg P now g mvd g1 m1 hp
        exact ih g1 m1 (by omega)

theorem NET_RunStream_recv (env : env_t) (s : netstream_t) :
    (NET_RunStream env s).2.recv.data.length ≤ s.recv.data.length + env.received.length := by
  unfold NET_RunStream
  cases env.run_stream_ret
  · simp only [FIFO_Write, List.length_append, List.length_take]
    omega
  · simp
  · simp
  · simp

/-- The function `run_stream` returns for an Upstream that is not inflating, with
one pass more than the bytes buffered and received. -/
theorem run_stream_returns (cfg : Config) (P : Parser) (env : env_t) (now fuel : Nat)
    (g : gtv_t) (mvd : Option mvd_t)
    (hz : ¬ (cfg.USE_ZLIB = true ∧ g.z_act = true))
    (hfuel : g.stream.recv.data.length + env.received.length < fuel) :
    ∃ r, run_stream cfg P env now fuel g mvd = some r := by
  unfold run_stream
  split
  · exact ⟨_, rfl⟩
  · simp only []
    rw [if_neg hz]
    have hlen := NET_RunStream_recv env g.stream
    obtain ⟨r, hr⟩ := run_stream_plain_returns cfg P now fuel
      { g with stream := (NET_RunStream env g.stream).2 } mvd (by
        show (NET_RunStream env g.stream).2.recv.data.length < fuel
        omega)
    rw [hr]
    cases r with
    | error e => exact ⟨_, rfl⟩
    | ok v => exact ⟨_, rfl⟩

theorem gtv_run_stream_returns (cfg : Config) (P : Parser) (env : env_t) (now fuel : Nat)
    (mvd_active : Bool) (g : gtv_t) (mvd : Option mvd_t)
    (hz : ¬ (cfg.USE_ZLIB = true ∧ g.z_act = true))
    (hfuel : g.stream.recv.data.length + env.received.length < fuel) :
    ∃ r, gtv_run_stream cfg P env now fuel mvd_active g mvd = some r := by
  obtain ⟨r, hr⟩ := run_stream_returns cfg P env now fuel g mvd hz hfuel
  unfold gtv_run_stream
  rw [hr]
  cases r with
  | error e => exact ⟨_, rfl⟩
  | ok v => exact ⟨_, rfl⟩

theorem check_reconnect_recv (cfg : Config) (env : env_t) (now : Nat) (g : gtv_t)
    (mvd : Option mvd_t) (g1 : gtv_t) (b : Bool)
    (h : check_reconnect cfg env now g mvd = .ok (g1, b)) :
    g1.z_act = g.z_act ∧ g1.stream.recv.data.length ≤ g.stream.recv.data.length := by
  unfold check_reconnect at h
  split at h
  · simp only [Except.ok.injEq, Prod.mk.injEq] at h
    rw [← h.1]
    exact ⟨rfl, Nat.le_refl _⟩
  · simp only [] at h
    split at h
    · exact absurd h (by simp [gtv_dropf])
    · split at h
      · exact absurd h (by simp [gtv_dropf])
      · simp only [Except.ok.injEq, Prod.mk.injEq] at h
        rw [← h.1]
        refine ⟨rfl, ?_⟩
        show (NET_Connect env g.stream).2.recv.data.length ≤ _
        unfold NET_Connect
        cases env.connect_ret <;> simp

theorem run_connect_recv (cfg : Config) (env : env_t) (now : Nat) (g : gtv_t)
    (mvd : Option mvd_t) (g1 : gtv_t)
    (h : run_connect cfg env now g mvd = .ok (.NET_OK, g1)) :
    g1.z_act = g.z_act ∧ g1.stream.recv.data.length ≤ g.stream.recv.data.length := by
  unfold run_connect at h
  split at h
  · rename_i hne
    simp only [Except.ok.injEq, Prod.mk.injEq] at h
    exact absurd h.1 hne
  · simp only [] at h
    split at h
    · exact absurd h (by simp)
    · rename_i g2 hw
      obtain ⟨a1, a2, _⟩ := write_stream_recv now _ mvd _ g2 hw
      simp only [Except.ok.injEq, Prod.mk.injEq] at h
      rw [← h.2, a1, a2]
      refine ⟨rfl, ?_⟩
      show (NET_RunConnect env g.stream).2.recv.data.length ≤ _
      unfold NET_RunConnect
      cases env.run_connect_ret <;> simp

/-- One tick of an Upstream that is not inflating returns (normally or through
an exit) when the fuel exceeds the number of bytes buffered and received. -/
theorem gtv_run_returns (cfg : Config) (P : Parser) (env : env_t) (now fuel : Nat)
    (mvd_active : Bool) (g : gtv_t) (mvd : Option mvd_t)
    (hz : ¬ (cfg.USE_ZLIB = true ∧ g.z_act = true))
    (hfuel : g.stream.recv.data.length + env.received.length < fuel) :
    gtv_run cfg P env now fuel mvd_active g mvd ≠ none := by
  have key : ∀ (g1 : gtv_t), g1.z_act = g.z_act →
      g1.stream.recv.data.length ≤ g.stream.recv.data.length →
      (match g1.stream.state with
        | .NS_CONNECTING =>
          match run_connect cfg env now g1 mvd with
          | .error e => some (.error e)
          | .ok (.NET_AGAIN, g2) => some (.ok (g2, mvd))
          | .ok (.NET_OK, g2) => gtv_run_stream cfg P env now fuel mvd_active g2 mvd
          | .ok (ret, g2) => some (gtv_run_result cfg now mvd_active ret g2 mvd)
        | .NS_CONNECTED => gtv_run_stream cfg P env now fuel mvd_active g1 mvd
        | _ => some (.ok (g1, mvd))) ≠ none := by
    intro g1 hz1 hl1
    split
    · split
      · simp
      · simp
      · rename_i g2 hrc
        obtain ⟨b1, b2⟩ := run_connect_recv cfg env now g1 mvd g2 hrc
        obtain ⟨r, hr⟩ := gtv_run_stream_returns cfg P env now fuel mvd_active g2 mvd
          (by rw [b1, hz1]; exact hz) (by omega)
        rw [hr]
        simp
      · simp
    · obtain ⟨r, hr⟩ := gtv_run_stream_returns cfg P env now fuel mvd_active g1 mvd
        (by rw [hz1]; exact hz) (by omega)
      rw [hr]
      simp
    · simp
  unfold gtv_run
  split
  · simp
  · simp
  · rename_i g1 hcr
    split at hcr
    · obtain ⟨c1, c2⟩ := check_reconnect_recv cfg env now g mvd g1 true hcr
      exact key g1 c1 c2
    · simp only [Except.ok.injEq, Prod.mk.injEq] at hcr
      rw [← hcr.1]
      exact key g rfl (Nat.le_refl _)

/-- C22.  One `MVD_Frame` tick over the connections `list`, each of whose runs
returns or leaves through a non-local exit with the given fuel (as every run
of an Upstream that is not inflating does when the fuel exceeds the number of
bytes buffered and received): the tick returns; the calls of `gtv->run` it
made are exactly one per entry of the list, in list order; the outcome of each
call is that of `gtv_run` on that entry alone (with the global `msg_write` as
the entry gives it, that is, as the run before it left it), whatever the
outcome of the other calls; and the returned count is the number of calls
that returned normally. -/
theorem C22_frame_runs_each_once (cfg : Config) (P : Parser) (now fuel : Nat)
    (broadcast clients : Bool) (s : frame_globals) (list : List conn_t)
    (hret : ∀ c ∈ list,
      (¬ (cfg.USE_ZLIB = true ∧ c.gtv.z_act = true)
          ∧ c.gtv.stream.recv.data.length + c.env.received.length < fuel)
        ∨ gtv_run cfg P c.env now fuel (MVD_Frame_active cfg broadcast clients now s).mvd_active
            c.gtv c.mvd ≠ none) :
    ∃ (calls : List (conn_t × Run (gtv_t × Option mvd_t))) (n : Nat),
      MVD_Frame cfg P now fuel broadcast clients s list
          = some (MVD_Frame_active cfg broadcast clients now s, calls, n)
        ∧ calls.map Prod.fst = list
        ∧ (∀ x ∈ calls,
            gtv_run cfg P x.1.env now fuel
              (MVD_Frame_active cfg broadcast clients now s).mvd_active x.1.gtv x.1.mvd
              = some x.2)
        ∧ n = (calls.filter (fun x => returned x.2)).length := by
  have hret1 : ∀ c ∈ list,
      gtv_run cfg P c.env now fuel (MVD_Frame_active cfg broadcast clients now s).mvd_active
        c.gtv c.mvd ≠ none := by
    intro c hc
    rcases hret c hc with h | h
    · exact gtv_run_returns cfg P c.env now fuel _ c.gtv c.mvd h.1 h.2
    · exact h
  obtain ⟨calls, n, hl⟩ := MVD_Frame_loop_returns cfg P now fuel
    (MVD_Frame_active cfg broadcast clients now s).mvd_active list 0 hret1
  obtain ⟨h1, h2, h3⟩ := MVD_Frame_loop_spec cfg P now fuel
    (MVD_Frame_active cfg broadcast clients now s).mvd_active list 0 calls n hl
  refine ⟨calls, n, ?_, h1, h2, by omega⟩
  unfold MVD_Frame
  rw [hl]

/-- C22, at a concrete input: the four connections of `conns_example` at time
20, of which the first is dropped and the third destroyed; none of them is
inflating and the fuel 64 exceeds the bytes buffered and received. -/
theorem C22_frame_runs_each_once_witness :
    ∃ (calls : List (conn_t × Run (gtv_t × Option mvd_t))) (n : Nat),
      MVD_Frame cfg_default parser_keep 20 64 true true {} conns_example
          = some (MVD_Frame_active cfg_default true true 20 {}, calls, n)
        ∧ calls.map Prod.fst = conns_example
        ∧ (∀ x ∈ calls,
            gtv_run cfg_default parser_keep x.1.env 20 64
              (MVD_Frame_active cfg_default true true 20 {}).mvd_active x.1.gtv x.1.mvd
              = some x.2)
        ∧ n = (calls.filter (fun x => returned x.2)).length :=
  C22_frame_runs_each_once cfg_default parser_keep 20 64 true true {} conns_example
    (fun c hc => by
      simp only [conns_example, List.mem_cons, List.mem_singleton, List.not_mem_nil,
        or_false] at hc
      rcases hc with rfl | rfl | rfl | rfl
      · exact Or.inl ⟨by decide, by decide⟩
      · exact Or.inl ⟨by decide, by decide⟩
      · exact Or.inl ⟨by decide, by decide⟩
      · exact Or.inl ⟨by decide, by decide⟩)


/-! ## Claims C31 to C36 -/

/-- C32 (counterexample).  The Upstream `upstream_created` is in Connecting; in
the tick at time 10 with the input `env_connected_silent` its transport
completes the connection and the server has sent nothing yet: `run_connect`
writes the magic and leaves the state Connecting, and so it is after the whole
tick. -/
theorem C32_counterexample_still_connecting :
    upstream_created.state = .GTV_CONNECTING
      ∧ (NET_RunConnect env_connected_silent upstream_created.stream).1 = .NET_OK
      ∧ (∃ g : gtv_t,
          run_connect cfg_default env_connected_silent 10 upstream_created none
              = .ok (.NET_OK, g)
            ∧ g.state = .GTV_CONNECTING
            ∧ g.stream.send.data = [0x4D, 0x56, 0x44, 0x32])
      ∧ (∃ g : gtv_t,
          gtv_run cfg_default parser_keep env_connected_silent 10 3 true upstream_created none
              = some (.ok (g, none))
            ∧ g.state = .GTV_CONNECTING
            ∧ g.stream.state = .NS_CONNECTED
            ∧ g.stream.send.data = [0x4D, 0x56, 0x44, 0x32]) :=
  ⟨rfl, rfl, ⟨_, rfl, rfl, rfl⟩, ⟨_, rfl, rfl, rfl, rfl⟩⟩

/-- C32 (amended).  When the transport of an Upstream completes its connection
(`NET_RunConnect` gives `NET_OK`), `run_connect` in that same step sets up the
buffers, sets `last_rcvd` to `now` and appends the 4 bytes of `MVD_MAGIC` to
the send buffer (the Upstream is destroyed if they do not fit), and leaves the
Upstream state as it is: Connecting stays Connecting.  The state becomes
Preparing in the magic step of `parse_message`, once 4 bytes of the server
have been read as `MVD_MAGIC` and the client hello has been written; while
fewer than 4 bytes have arrived that step changes nothing. -/
theorem C32_connect_writes_magic (cfg : Config) (env : env_t) (now : Nat) (g : gtv_t)
    (mvd : Option mvd_t) (hok : (NET_RunConnect env g.stream).1 = .NET_OK) :
    (g.stream.send.data.length + 4 ≤ cfg.MAX_GTC_MSGLEN →
        ∃ g1 : gtv_t,
          run_connect cfg env now g mvd = .ok (.NET_OK, g1)
            ∧ g1.state = g.state
            ∧ g1.stream.state = .NS_CONNECTED
            ∧ g1.stream.send.data = g.stream.send.data ++ le32_bytes cfg.MVD_MAGIC
            ∧ g1.stream.send.size = cfg.MAX_GTC_MSGLEN
            ∧ g1.stream.recv.size = cfg.MAX_GTS_MSGLEN
            ∧ g1.last_rcvd = now ∧ g1.last_sent = now)
      ∧ (cfg.MAX_GTC_MSGLEN < g.stream.send.data.length + 4 →
          run_connect cfg env now g mvd
            = .error (.gtv_destroyed (gtv_destroy mvd) .send_overflow))
      ∧ (∀ (g2 g3 : gtv_t) (sel : fifo_sel),
          g2.state.toNat < gtv_state_t.GTV_PREPARING.toNat →
          parse_message_magic cfg now g2 mvd sel = .ok (some g3) →
          g3.state = .GTV_PREPARING)
      ∧ (∀ (P : Parser) (g2 : gtv_t) (sel : fifo_sel),
          g2.state.toNat < gtv_state_t.GTV_PREPARING.toNat →
          (g2.fifo sel).data.length < 4 →
          parse_message cfg P now g2 mvd sel = .ok (g2, mvd, false)) := by
  have hdata : (NET_RunConnect env g.stream).2.send.data = g.stream.send.data := by
    cases hr : env.run_connect_ret <;> simp [NET_RunConnect, hr] at hok ⊢
  have hstate := NET_RunConnect_ok env g.stream hok
  refine ⟨fun hfit => ?_, fun hov => ?_, fun g2 g3 sel hlow h => ?_,
    fun P g2 sel hlow hshort => ?_⟩
  · unfold run_connect
    rw [if_neg (by rw [hok]; decide)]
    simp only []
    rw [write_stream_fits now _ mvd _ (by
      show (NET_RunConnect env g.stream).2.send.data.length + (le32_bytes cfg.MVD_MAGIC).length
        ≤ cfg.MAX_GTC_MSGLEN
      rw [hdata, le32_bytes_length]
      exact hfit)]
    refine ⟨_, rfl, rfl, hstate, ?_, rfl, rfl, rfl, rfl⟩
    show (NET_RunConnect env g.stream).2.send.data ++ _ = _
    rw [hdata]
  · unfold run_connect
    rw [if_neg (by rw [hok]; decide)]
    simp only []
    rw [write_stream_overflow now _ mvd _ (by rw [le32_bytes_length]; decide) (by
      show cfg.MAX_GTC_MSGLEN
        < (NET_RunConnect env g.stream).2.send.data.length + (le32_bytes cfg.MVD_MAGIC).length
      rw [hdata, le32_bytes_length]
      exact hov)]
    rfl
  · obtain ⟨h2, -, -, h4⟩ := parse_message_magic_ok cfg now g2 mvd sel g3 h
    rcases h4 with h4 | h4
    · rw [h4] at h2
      have : gtv_state_t.GTV_PREPARING.toNat = 2 := rfl
      omega
    · exact h4.2
  · unfold parse_message parse_message_magic
    rw [if_pos hlow, FIFO_TryRead_short _ 4 hshort]

/-- C32 (amended), at a concrete input: `upstream_created` when the connection
completes at time 10. -/
theorem C32_connect_writes_magic_witness :
    ∃ g1 : gtv_t,
      run_connect cfg_default env_connected_silent 10 upstream_created none = .ok (.NET_OK, g1)
        ∧ g1.state = upstream_created.state
        ∧ g1.stream.state = .NS_CONNECTED
        ∧ g1.stream.send.data
            = upstream_created.stream.send.data ++ le32_bytes cfg_default.MVD_MAGIC
        ∧ g1.stream.send.size = cfg_default.MAX_GTC_MSGLEN
        ∧ g1.stream.recv.size = cfg_default.MAX_GTS_MSGLEN
        ∧ g1.last_rcvd = 10 ∧ g1.last_sent = 10 :=
  (C32_connect_writes_magic cfg_default env_connected_silent 10 upstream_created none rfl).1
    (by decide)


/-- C35, what the code does.  For a playlist file that opens, starts with
`MVD_MAGIC` and a valid first record `c.1`: `demo_play_next` destroys the
Upstream with the message "does not contain gamestate" exactly when the
channel state after the parser call is Dead.  For the first file of a new
Upstream the Channel has just been created, in state Dead, so a parser that
leaves the state as it is makes `demo_play_next` destroy the Upstream.  For a
later file the Channel is the one the earlier file left in Reading (or one in
Waiting, handed over by `MVD_Play_f`), and a parser that leaves the state as
it is makes `demo_play_next` return normally: the file is played without a
gamestate. -/
theorem C35_gamestate_check (cfg : Config) (P : Parser) (g : demo_t)
    (c : List Nat × List (List Nat)) (rest : List demo_file)
    (hM : cfg.MVD_MAGIC < 2 ^ 32) (hgz : ¬ (cfg.MVD_MAGIC &&& 0xe0ffffff = 0x00088b1f))
    (hc : valid_payload cfg c.1) :
    (∀ (mvd : Option mvd_t) (m : mvd_t) (rc : Nat),
        m = (match mvd with
             | some m => m
             | none => create_channel cfg) →
        P m (demo_msg c.1) = some (.MVD_DEAD, rc) →
        demo_play_next cfg P g mvd (demo_file_of cfg c :: rest)
          = .error (.gtv_destroyed none .gamestate_missing))
      ∧ (∀ (mvd : Option mvd_t) (m : mvd_t) (st : mvd_state_t) (rc : Nat),
          m = (match mvd with
               | some m => m
               | none => create_channel cfg) →
          P m (demo_msg c.1) = some (st, rc) → st ≠ .MVD_DEAD →
          demo_play_next cfg P g mvd (demo_file_of cfg c :: rest) =
            .ok { mvd := { m with state := .MVD_READING }
                  gtv := { g with
                           demoplayback := some (encode_records c.2 ++ le16_bytes 0)
                           demoentry := demo_file_of cfg c :: rest }
                  events := [.gamestate (demo_msg c.1)] })
      ∧ (∀ rc : Nat,
          P (create_channel cfg) (demo_msg c.1) = some ((create_channel cfg).state, rc) →
          demo_play_next cfg P g none (demo_file_of cfg c :: rest)
            = .error (.gtv_destroyed none .gamestate_missing))
      ∧ (∀ (m : mvd_t) (rc : Nat),
          m.state = .MVD_WAITING ∨ m.state = .MVD_READING →
          P m (demo_msg c.1) = some (m.state, rc) →
          demo_play_next cfg P g (some m) (demo_file_of cfg c :: rest) =
            .ok { mvd := { m with state := .MVD_READING }
                  gtv := { g with
                           demoplayback := some (encode_records c.2 ++ le16_bytes 0)
                           demoentry := demo_file_of cfg c :: rest }
                  events := [.gamestate (demo_msg c.1)] }) := by
  have hdead : ∀ (mvd : Option mvd_t) (m : mvd_t) (rc : Nat),
      m = (match mvd with
           | some m => m
           | none => create_channel cfg) →
      P m (demo_msg c.1) = some (.MVD_DEAD, rc) →
      demo_play_next cfg P g mvd (demo_file_of cfg c :: rest)
        = .error (.gtv_destroyed none .gamestate_missing) := by
    intro mvd m rc hm hp
    rw [demo_play_next_file cfg P g mvd c rest hM hgz hc, ← hm]
    simp only [hp]
    rw [if_pos trivial]
    rfl
  have hlive : ∀ (mvd : Option mvd_t) (m : mvd_t) (st : mvd_state_t) (rc : Nat),
      m = (match mvd with
           | some m => m
           | none => create_channel cfg) →
      P m (demo_msg c.1) = some (st, rc) → st ≠ .MVD_DEAD →
      demo_play_next cfg P g mvd (demo_file_of cfg c :: rest) =
        .ok { mvd := { m with state := .MVD_READING }
              gtv := { g with
                       demoplayback := some (encode_records c.2 ++ le16_bytes 0)
                       demoentry := demo_file_of cfg c :: rest }
              events := [.gamestate (demo_msg c.1)] } := by
    intro mvd m st rc hm hp hst
    rw [demo_play_next_file cfg P g mvd c rest hM hgz hc, ← hm]
    simp only [hp]
    rw [if_neg hst]
  refine ⟨hdead, hlive, fun rc hp => ?_, fun m rc hm hp => ?_⟩
  · exact hdead none (create_channel cfg) rc rfl hp
  · refine hlive (some m) m m.state rc rfl hp ?_
    rcases hm with h | h <;> rw [h] <;> decide

/-- C35, at a concrete input, with the parser `parser_gamestate` and the file of
`demo_b`, whose first record 7 holds no gamestate: as the first file of a new
Upstream it is refused. -/
theorem C35_gamestate_check_witness :
    demo_play_next cfg_default parser_gamestate {} none [demo_file_of cfg_default demo_b]
      = .error (.gtv_destroyed none .gamestate_missing) :=
  (C35_gamestate_check cfg_default parser_gamestate {} demo_b [] (by decide) (by decide)
    (by decide)).2.2.1 1 rfl

/-- C35, the failing input: the playlist of the files of `demo_a` and `demo_b`
with the parser `parser_gamestate`.  The first record of `demo_b` holds no
gamestate and the parser leaves the channel state as it is.  `MVD_Play_f`
plays `demo_a`; the third `read_frame` call finds its end and goes on to
`demo_b`, which is accepted: its first record is handed to the parser as a
gamestate and the Upstream is not destroyed. -/
theorem C35_later_file_without_gamestate :
    parser_gamestate (demo_chan cfg_default) (demo_msg demo_b.1)
        = some ((demo_chan cfg_default).state, 1)
      ∧ demo_session cfg_default parser_gamestate 1
          [demo_file_of cfg_default demo_a, demo_file_of cfg_default demo_b] 3 =
        some ([.gamestate (demo_msg [1, 2, 3]), .message (demo_msg [4, 5]),
               .message (demo_msg [6]), .gamestate (demo_msg [7])],
              .ok (demo_chan cfg_default,
                   some { state := .GTV_READING, demoplayback := some (le16_bytes 0),
                          demoloop := 1,
                          demohead := [demo_file_of cfg_default demo_a,
                                       demo_file_of cfg_default demo_b],
                          demoentry := [demo_file_of cfg_default demo_b] }))
      ∧ demo_play_next cfg_default parser_gamestate {} (some (demo_chan cfg_default))
          [demo_file_of cfg_default demo_b] =
        .ok { mvd := demo_chan cfg_default
              gtv := { demoplayback := some (le16_bytes 0),
                       demoentry := [demo_file_of cfg_default demo_b] }
              events := [.gamestate (demo_msg [7])] } :=
  ⟨rfl, rfl, rfl⟩


/-- With a negative loop counter every round is followed by another one, and
the counter goes down by one per round. -/
theorem demo_frames_rounds_negative (cfg : Config) (P : Parser)
    (c : List Nat × List (List Nat)) (cs : List (List Nat × List (List Nat)))
    (hP : ∀ x ∈ c :: cs, parses_demo cfg P x)
    (hM : cfg.MVD_MAGIC < 2 ^ 32) (hgz : ¬ (cfg.MVD_MAGIC &&& 0xe0ffffff = 0x00088b1f))
    (hv : ∀ x ∈ c :: cs, valid_demo cfg x) :
    ∀ (j : Nat) (k : Int) (f0 : demo_file), k ≤ -1 → ∃ f1 : demo_file, ∀ (n : Nat),
      demo_frames cfg P (j * playlist_frames (c :: cs) + n) (demo_chan cfg)
          (some (demo_at ((c :: cs).map (demo_file_of cfg)) k [] [f0])) =
        ((List.replicate j (playlist_events (c :: cs))).flatten ++
           (demo_frames cfg P n (demo_chan cfg)
              (some (demo_at ((c :: cs).map (demo_file_of cfg)) (k - j) [] [f1]))).1,
         (demo_frames cfg P n (demo_chan cfg)
              (some (demo_at ((c :: cs).map (demo_file_of cfg)) (k - j) [] [f1]))).2) := by
  intro j
  induction j with
  | zero =>
    intro k f0 _
    refine ⟨f0, fun n => ?_⟩
    rw [Nat.zero_mul, Nat.zero_add]
    have hk : k - ((0 : Nat) : Int) = k := by omega
    rw [hk]
    rfl
  | succ j ih =>
    intro k f0 hk
    obtain ⟨f1, hf1⟩ := demo_frames_round cfg P k c cs hP hM hgz hv (by omega) f0
    obtain ⟨f2, hf2⟩ := ih (k - 1) f1 (by omega)
    refine ⟨f2, fun n => ?_⟩
    have hn : (j + 1) * playlist_frames (c :: cs) + n
        = playlist_frames (c :: cs) + (j * playlist_frames (c :: cs) + n) := by
      rw [Nat.succ_mul]; omega
    have hkk : k - 1 - (j : Int) = k - ((j + 1 : Nat) : Int) := by omega
    rw [hn, hf1, if_neg (by omega), hf2 n, hkk, List.replicate_succ, List.flatten_cons,
      List.append_assoc]

/-- C36, what the code does.  `MVD_Play_f` for a new demo Upstream without the
loop option (`loop` is -1): the counter 1 that the new Upstream is given is
overwritten by the unconditional `gtv->demoloop = loop`, and playback starts
with the counter -1.  For a playlist `fs` of at least one valid file and a
parser that accepts every message: at every exhaustion of the playlist the
counter is decremented, does not reach 0, and the playlist is played again
from the head; no `read_frame` call destroys the Upstream.  (The counter is
taken as an integer; the `int` of the source does the same for fewer than 2^31
rounds.) -/
theorem C36_play_without_loop_option (cfg : Config) (P : Parser)
    (fs : List (List Nat × List (List Nat)))
    (hP : ∀ (m : mvd_t) (msg : sizebuf_t), ∃ rc, P m msg = some (.MVD_READING, rc))
    (hM : cfg.MVD_MAGIC < 2 ^ 32) (hgz : ¬ (cfg.MVD_MAGIC &&& 0xe0ffffff = 0x00088b1f))
    (hfs : fs ≠ []) (hv : ∀ c ∈ fs, valid_demo cfg c) :
    (∃ r : demo_result,
        MVD_Play_f cfg P (-1) (fs.map (demo_file_of cfg)) none = .ok (some r)
          ∧ r.gtv.demoloop = -1)
      ∧ (∀ j : Nat, ∃ x,
          demo_session cfg P (-1) (fs.map (demo_file_of cfg))
              (j * playlist_frames fs + (playlist_frames fs - 1)) =
            some ((List.replicate (j + 1) (playlist_events fs)).flatten, .ok x)
          ∧ ∃ d : demo_t, x.2 = some d ∧ d.demoloop = -1 - (j : Int))
      ∧ (∀ N : Nat, ∃ E x,
          demo_session cfg P (-1) (fs.map (demo_file_of cfg)) N = some (E, .ok x)) := by
  cases fs with
  | nil => exact absurd rfl hfs
  | cons c cs =>
    have hc : valid_demo cfg c := hv c (List.mem_cons_self _ _)
    have hP2 : ∀ x ∈ c :: cs, parses_demo cfg P x := fun x _ =>
      ⟨fun m _ => (hP m (demo_msg x.1)).elim fun rc h => ⟨.MVD_READING, rc, h, by decide⟩,
       fun b _ => hP (demo_chan cfg) (demo_msg b)⟩
    have hpc : parses_demo cfg P c := hP2 c (List.mem_cons_self _ _)
    have hpf := playlist_frames_cons c cs
    have hrounds : ∀ j : Nat, ∃ x,
        demo_session cfg P (-1) ((c :: cs).map (demo_file_of cfg))
            (j * playlist_frames (c :: cs) + (playlist_frames (c :: cs) - 1)) =
          some ((List.replicate (j + 1) (playlist_events (c :: cs))).flatten, .ok x)
        ∧ ∃ d : demo_t, x.2 = some d ∧ d.demoloop = -1 - (j : Int) := by
      intro j
      obtain ⟨f1, hf1⟩ := demo_frames_files cfg P ((c :: cs).map (demo_file_of cfg))
        (-1) hM hgz cs
        (fun x hx => hv x (List.mem_cons_of_mem _ hx))
        (fun x hx => hP2 x (List.mem_cons_of_mem _ hx)) c.2 hc.2 hpc.2 (demo_file_of cfg c)
      obtain ⟨f2, hf2⟩ := demo_frames_rounds_negative cfg P c cs hP2 hM hgz hv j (-1) f1
        (by omega)
      have hn : j * playlist_frames (c :: cs) + (playlist_frames (c :: cs) - 1)
          = c.2.length + playlist_frames cs + (j * playlist_frames (c :: cs) + 0) := by
        omega
      refine ⟨(demo_chan cfg,
        some (demo_at ((c :: cs).map (demo_file_of cfg)) (-1 - j) [] [f2])), ?_,
        ⟨_, rfl, rfl⟩⟩
      rw [hn, demo_session_start cfg P _ c cs _ hpc.1 hM hgz hc.1]
      simp only [List.map_cons] at hf1 hf2 ⊢
      rw [hf1, hf2 0, ← rounds_events c cs j]
      rfl
    refine ⟨?_, hrounds, fun N => ?_⟩
    · unfold MVD_Play_f
      simp only [List.map_cons]
      rw [demo_play_next_first cfg P _ c (cs.map (demo_file_of cfg)) hpc.1 hM hgz hc.1]
      exact ⟨_, rfl, rfl⟩
    · obtain ⟨x, hx, -⟩ := hrounds N
      have hpos := playlist_frames_pos c cs
      have hle : N ≤ N * playlist_frames (c :: cs) := Nat.le_mul_of_pos_right N hpos
      have hn : N + (N * playlist_frames (c :: cs) + (playlist_frames (c :: cs) - 1) - N)
          = N * playlist_frames (c :: cs) + (playlist_frames (c :: cs) - 1) := by
        omega
      rw [← hn] at hx
      exact demo_session_ok_prefix cfg P (-1) c cs N _ hpc.1 hM hgz hc.1 _ _ hx

/-- C36, at a concrete input: the playlist of the single file of `demo_b`, played
without the loop option by the parser `parser_reading`: playback starts with
the counter -1. -/
theorem C36_play_without_loop_option_witness :
    ∃ r : demo_result,
      MVD_Play_f cfg_default parser_reading (-1) ([demo_b].map (demo_file_of cfg_default)) none
          = .ok (some r)
        ∧ r.gtv.demoloop = -1 :=
  (C36_play_without_loop_option cfg_default parser_reading [demo_b]
    (fun _ msg => ⟨msg.cursize, rfl⟩) (by decide) (by decide) (by decide)
    (by
      intro c hc
      simp only [List.mem_singleton] at hc
      subst hc
      exact ⟨by decide, by decide⟩)).1

/-- C36, the failing input: the play command for the single file of `demo_b`
without the loop option.  The first `read_frame` call finds the playlist
exhausted; it does not destroy the Upstream but plays the file again, with the
counter at -2, and so does the second call, with the counter at -3.  With the
loop count 1 the first call destroys the Upstream. -/
theorem C36_counterexample_played_again :
    demo_session cfg_default parser_reading (-1) [demo_file_of cfg_default demo_b] 2 =
        some ([.gamestate (demo_msg [7]), .gamestate (demo_msg [7]),
               .gamestate (demo_msg [7])],
              .ok (demo_chan cfg_default,
                   some { state := .GTV_READING, demoplayback := some (le16_bytes 0),
                          demoloop := -3,
                          demohead := [demo_file_of cfg_default demo_b],
                          demoentry := [demo_file_of cfg_default demo_b] }))
      ∧ demo_session cfg_default parser_reading 1 [demo_file_of cfg_default demo_b] 1 =
        some ([.gamestate (demo_msg [7])],
              .error (.gtv_destroyed (some (demo_chan cfg_default)) .end_of_playlist)) :=
  ⟨rfl, rfl⟩


/-! ## Helper lemmas: a Channel without Upstream -/

theorem read_frame_calls_succ_ok (cfg : Config) (P : Parser) (now n : Nat) (mvd : mvd_t)
    (gtv : Option gtv_t) (r : frame_result) (h : gtv_read_frame cfg P now mvd gtv = .ok r) :
    read_frame_calls cfg P now (n + 1) mvd gtv =
      (r.parsed ++ (read_frame_calls cfg P now n r.mvd r.gtv).1,
       (read_frame_calls cfg P now n r.mvd r.gtv).2) := by
  show (match gtv_read_frame cfg P now mvd gtv with
        | .error e => (([], .error e) : List sizebuf_t × Run (mvd_t × Option gtv_t))
        | .ok r => (r.parsed ++ (read_frame_calls cfg P now n r.mvd r.gtv).1,
                    (read_frame_calls cfg P now n r.mvd r.gtv).2)) = _
  rw [h]

theorem read_frame_calls_succ_error (cfg : Config) (P : Parser) (now n : Nat) (mvd : mvd_t)
    (gtv : Option gtv_t) (e : Escape) (h : gtv_read_frame cfg P now mvd gtv = .error e) :
    read_frame_calls cfg P now (n + 1) mvd gtv = ([], .error e) := by
  show (match gtv_read_frame cfg P now mvd gtv with
        | .error e => (([], .error e) : List sizebuf_t × Run (mvd_t × Option gtv_t))
        | .ok r => (r.parsed ++ (read_frame_calls cfg P now n r.mvd r.gtv).1,
                    (read_frame_calls cfg P now n r.mvd r.gtv).2)) = _
  rw [h]

/-- A Channel in Waiting below both thresholds of `gtv_wait_stop` is left as it
is, and nothing is read. -/
theorem gtv_read_frame_waiting_stuck (cfg : Config) (P : Parser) (now : Nat) (mvd : mvd_t)
    (gtv : Option gtv_t)
    (hstate : mvd.state = .MVD_WAITING) (h1 : ¬ mvd.num_packets ≥ mvd.min_packets)
    (h2 : ¬ cfg.mvd_wait_percent.le_int (FIFO_Percent mvd.delay) = true) :
    gtv_read_frame cfg P now mvd gtv
      = .ok { mvd := mvd, gtv := gtv, ret := false, parsed := [] } := by
  have hstop : gtv_wait_stop cfg mvd = (mvd, false) := by
    unfold gtv_wait_stop
    rw [if_neg h1, if_neg h2]
  unfold gtv_read_frame
  rw [hstate]
  simp only [hstop]
  rw [if_pos trivial]

theorem read_frame_calls_stuck (cfg : Config) (P : Parser) (now : Nat) (mvd : mvd_t)
    (gtv : Option gtv_t)
    (hstate : mvd.state = .MVD_WAITING) (h1 : ¬ mvd.num_packets ≥ mvd.min_packets)
    (h2 : ¬ cfg.mvd_wait_percent.le_int (FIFO_Percent mvd.delay) = true) :
    ∀ n : Nat, read_frame_calls cfg P now n mvd gtv = ([], .ok (mvd, gtv)) := by
  intro n
  induction n with
  | zero => rfl
  | succ n ih =>
    rw [read_frame_calls_succ_ok cfg P now n mvd gtv _
      (gtv_read_frame_waiting_stuck cfg P now mvd gtv hstate h1 h2)]
    simp only []
    rw [ih]
    rfl

/-- The first `n` calls on a Channel in Reading that holds the packets `rs`. -/
theorem read_frame_calls_reading (cfg : Config) (P : Parser) (now : Nat)
    (gtv : Option gtv_t) :
    ∀ (rs : List (List Nat)) (mvd : mvd_t) (n m : Nat),
      mvd.state = .MVD_READING → mvd.delay.data = encode_records rs →
      (∀ r ∈ rs, valid_payload cfg r) →
      (∀ m : mvd_t, m.state = .MVD_READING → ∀ r ∈ rs,
        ∃ rc, P m { data := r, cursize := r.length, readcount := 0 }
          = some (.MVD_READING, rc)) →
      mvd.num_packets = rs.length → n ≤ rs.length →
      read_frame_calls cfg P now (n + m) mvd gtv =
        ((rs.take n).map (fun r => { data := r, cursize := r.length, readcount := 0 }) ++
           (read_frame_calls cfg P now m
              { mvd with delay := { mvd.delay with data := encode_records (rs.drop n) },
                         num_packets := mvd.num_packets - n } gtv).1,
         (read_frame_calls cfg P now m
              { mvd with delay := { mvd.delay with data := encode_records (rs.drop n) },
                         num_packets := mvd.num_packets - n } gtv).2) := by
  intro rs
  induction rs with
  | nil =>
    intro mvd n m hst hd _ _ hnum hn
    have hn0 : n = 0 := by simpa using hn
    subst hn0
    have hm : ({ mvd with delay := { mvd.delay with data := encode_records ([].drop 0) },
                          num_packets := mvd.num_packets - (0 : Nat) } : mvd_t) = mvd := by
      cases mvd with
      | mk st delay np mp uf ovf =>
        cases delay
        simp only [] at hd
        subst hd
        simp [encode_records]
    rw [hm, Nat.zero_add]
    rfl
  | cons r rs ih =>
    intro mvd n m hst hd hv hP hnum hn
    cases n with
    | zero =>
      have hm : ({ mvd with delay := { mvd.delay with
                                         data := encode_records ((r :: rs).drop 0) },
                            num_packets := mvd.num_packets - (0 : Nat) } : mvd_t) = mvd := by
        cases mvd with
        | mk st delay np mp uf ovf =>
          cases delay
          simp only [] at hd
          subst hd
          simp
      rw [hm, Nat.zero_add]
      rfl
    | succ n =>
      have hnum1 : 1 ≤ mvd.num_packets := by
        rw [hnum, List.length_cons]; push_cast; omega
      have hstep := gtv_read_frame_reading cfg P now mvd gtv r (encode_records rs)
        (fun m hm => hP m hm r (List.mem_cons_self _ _)) hst
        hnum1 (by rw [hd]; rfl) (hv r (List.mem_cons_self _ _))
      have hnm : n + 1 + m = (n + m) + 1 := by omega
      rw [hnm, read_frame_calls_succ_ok cfg P now _ mvd gtv _ hstep]
      simp only []
      rw [ih _ n m rfl rfl (fun x hx => hv x (List.mem_cons_of_mem _ hx))
        (fun m hm x hx => hP m hm x (List.mem_cons_of_mem _ hx))
        (by show mvd.num_packets - 1 = _; rw [hnum, List.length_cons]; push_cast; omega)
        (by simpa using hn)]
      have hsub : mvd.num_packets - 1 - (n : Int) = mvd.num_packets - ((n + 1 : Nat) : Int) := by
        push_cast; omega
      simp only [List.take_succ_cons, List.map_cons, List.drop_succ_cons, hsub,
        List.singleton_append, List.cons_append, List.nil_append, hst]

/-- The call after the last packet: a Channel in Reading without packets and
without Upstream is destroyed. -/
theorem gtv_read_frame_orphan_empty (cfg : Config) (P : Parser) (now : Nat) (mvd : mvd_t)
    (hstate : mvd.state = .MVD_READING) (hnum : mvd.num_packets = 0) :
    gtv_read_frame cfg P now mvd none = .error (.mvd_destroyed .end_of_mvd_stream) := by
  unfold gtv_read_frame
  rw [hstate]
  simp only
  rw [if_pos hnum]
  rfl


/-- C34, the failing input.  The Channel `chan_one_waiting` is in Waiting, has no
Upstream and holds one packet; it is below both thresholds of `gtv_wait_stop`
(1 packet of 200, 0 percent of 35).  Every `read_frame` call returns false and
leaves it as it is: after any number of calls the packet has not been handed
to the parser and the Channel has not been destroyed. -/
theorem C34_counterexample_stuck_in_waiting :
    chan_one_waiting.state = .MVD_WAITING
      ∧ delay_records chan_one_waiting.delay = [[5, 6]]
      ∧ chan_one_waiting.num_packets = 1
      ∧ gtv_read_frame cfg_default parser_reading 0 chan_one_waiting none
          = .ok { mvd := chan_one_waiting, gtv := none, ret := false, parsed := [] }
      ∧ ∀ n : Nat,
          read_frame_calls cfg_default parser_reading 0 n chan_one_waiting none
            = ([], .ok (chan_one_waiting, none)) :=
  ⟨rfl, by decide, rfl, rfl,
    read_frame_calls_stuck cfg_default parser_reading 0 chan_one_waiting none rfl
      (by decide) (by decide)⟩

/-- C34, what the code does.  A Channel without Upstream whose delay buffer
holds the valid packets `rs`, with `num_packets` equal to their number, read
by a parser that accepts each of these packets on a Channel in Reading and
leaves the Channel in Reading.  In Reading: the first `rs.length` calls of
`read_frame` hand the packets to the parser in order, one per call, none of
them leaves through an exit, and the next call destroys the Channel with "End
of MVD stream reached".  In Waiting, holding at least one packet, with
`num_packets >= min_packets` or with the delay buffer filled to
`mvd_wait_percent`: the same, the first call switching to Reading.  In
Waiting below both thresholds: every call returns false and leaves the
Channel as it is, so that nothing is read and the Channel is not destroyed;
the test `if( !mvd->gtv )` of `gtv_wait_start`, commented "if not connected,
kill it", is not reached from Waiting. -/
theorem C34_orphan_channel_drains (cfg : Config) (P : Parser) (now : Nat) (mvd : mvd_t)
    (rs : List (List Nat))
    (hP : ∀ m : mvd_t, m.state = .MVD_READING → ∀ r ∈ rs,
      ∃ rc, P m { data := r, cursize := r.length, readcount := 0 } = some (.MVD_READING, rc))
    (hd : mvd.delay.data = encode_records rs) (hv : ∀ r ∈ rs, valid_payload cfg r)
    (hnum : mvd.num_packets = rs.length) :
    (mvd.state = .MVD_READING ∨
        (mvd.state = .MVD_WAITING ∧ rs ≠ [] ∧
          (mvd.num_packets ≥ mvd.min_packets
            ∨ cfg.mvd_wait_percent.le_int (FIFO_Percent mvd.delay) = true)) →
        read_frame_calls cfg P now (rs.length + 1) mvd none =
            (rs.map (fun r => { data := r, cursize := r.length, readcount := 0 }),
             .error (.mvd_destroyed .end_of_mvd_stream))
          ∧ ∀ n : Nat, 1 ≤ n → n ≤ rs.length →
              read_frame_calls cfg P now n mvd none =
                ((rs.take n).map (fun r => { data := r, cursize := r.length, readcount := 0 }),
                 .ok ({ mvd with state := .MVD_READING,
                                 delay := { mvd.delay with data := encode_records (rs.drop n) },
                                 num_packets := mvd.num_packets - n }, none)))
      ∧ (mvd.state = .MVD_WAITING → ¬ mvd.num_packets ≥ mvd.min_packets →
          ¬ cfg.mvd_wait_percent.le_int (FIFO_Percent mvd.delay) = true →
          ∀ n : Nat, read_frame_calls cfg P now n mvd none = ([], .ok (mvd, none))) := by
  have hreading : ∀ m : mvd_t, m.state = .MVD_READING → m.delay = mvd.delay →
      m.num_packets = mvd.num_packets →
      read_frame_calls cfg P now (rs.length + 1) m none =
          (rs.map (fun r => { data := r, cursize := r.length, readcount := 0 }),
           .error (.mvd_destroyed .end_of_mvd_stream))
        ∧ ∀ n : Nat, n ≤ rs.length →
            read_frame_calls cfg P now n m none =
              ((rs.take n).map (fun r => { data := r, cursize := r.length, readcount := 0 }),
               .ok ({ m with delay := { m.delay with data := encode_records (rs.drop n) },
                             num_packets := m.num_packets - n }, none)) := by
    intro m hst hdel hnp
    have hd1 : m.delay.data = encode_records rs := by rw [hdel]; exact hd
    have hn1 : m.num_packets = rs.length := by rw [hnp]; exact hnum
    refine ⟨?_, fun n hn => ?_⟩
    · rw [read_frame_calls_reading cfg P now none rs m rs.length 1 hst hd1 hv hP hn1
        (Nat.le_refl _)]
      have hlast : ∀ M : mvd_t, M.state = .MVD_READING → M.num_packets = 0 →
          read_frame_calls cfg P now 1 M none
            = ([], .error (.mvd_destroyed .end_of_mvd_stream)) :=
        fun M h1 h2 => read_frame_calls_succ_error cfg P now 0 M none _
          (gtv_read_frame_orphan_empty cfg P now M h1 h2)
      rw [hlast { m with delay := { m.delay with data := encode_records (rs.drop rs.length) },
                         num_packets := m.num_packets - rs.length } hst (by
        show m.num_packets - (rs.length : Int) = 0
        omega)]
      simp
    · have h := read_frame_calls_reading cfg P now none rs m n 0 hst hd1 hv hP hn1 hn
      rw [Nat.add_zero] at h
      rw [h]
      simp [read_frame_calls]
  refine ⟨fun h => ?_, fun hst h1 h2 => read_frame_calls_stuck cfg P now mvd none hst h1 h2⟩
  rcases h with hst | ⟨hst, hne, hready⟩
  · obtain ⟨ha, hb⟩ := hreading mvd hst rfl rfl
    refine ⟨ha, fun n _ hn => ?_⟩
    rw [hb n hn]
    have hm : ({ mvd with state := .MVD_READING } : mvd_t) = mvd := by
      cases mvd
      simp only at hst
      subst hst
      rfl
    rw [← hm]
  · have hnum1 : 1 ≤ mvd.num_packets := by
      rw [hnum]
      cases rs with
      | nil => exact absurd rfl hne
      | cons r rs => rw [List.length_cons]; push_cast; omega
    have hfirst := gtv_read_frame_waiting_ready cfg P now mvd none hst hnum1 hready
    have hcalls : ∀ n : Nat, read_frame_calls cfg P now (n + 1) mvd none
        = read_frame_calls cfg P now (n + 1) { mvd with state := .MVD_READING } none := by
      intro n
      show (match gtv_read_frame cfg P now mvd none with
            | .error e => (([], .error e) : List sizebuf_t × Run (mvd_t × Option gtv_t))
            | .ok r => (r.parsed ++ (read_frame_calls cfg P now n r.mvd r.gtv).1,
                        (read_frame_calls cfg P now n r.mvd r.gtv).2)) =
           (match gtv_read_frame cfg P now { mvd with state := .MVD_READING } none with
            | .error e => (([], .error e) : List sizebuf_t × Run (mvd_t × Option gtv_t))
            | .ok r => (r.parsed ++ (read_frame_calls cfg P now n r.mvd r.gtv).1,
                        (read_frame_calls cfg P now n r.mvd r.gtv).2))
      rw [hfirst]
    obtain ⟨ha, hb⟩ := hreading { mvd with state := .MVD_READING } rfl rfl rfl
    refine ⟨?_, fun n h1 hn => ?_⟩
    · rw [hcalls, ha]
    · obtain ⟨k, rfl⟩ : ∃ k, n = k + 1 := ⟨n - 1, by omega⟩
      rw [hcalls, hb (k + 1) hn]

/-- C34, at a concrete input: the Channel `chan_one`, in Reading with
the single packet 5, 6: the first call hands it to the parser, the second
destroys the Channel. -/
theorem C34_orphan_channel_drains_witness :
    read_frame_calls cfg_default parser_reading 0 ([[5, 6]].length + 1) chan_one none =
      ([[5, 6]].map (fun r => { data := r, cursize := r.length, readcount := 0 }),
       .error (.mvd_destroyed .end_of_mvd_stream)) :=
  ((C34_orphan_channel_drains cfg_default parser_reading 0 chan_one [[5, 6]]
    (fun _ _ r _ => ⟨r.length, rfl⟩) rfl (by decide) rfl).1 (Or.inl rfl)).1


/-! ## Helper lemmas: the framer and more input -/

theorem Fed_refl (sel : fifo_sel) (g : gtv_t) : Fed sel [] g g := by
  unfold Fed gtv_t.more gtv_t.setFifo
  cases sel <;> simp [gtv_t.fifo]

theorem Fed_fields (sel : fifo_sel) (x : List Nat) (g g1 : gtv_t) (h : Fed sel x g g1) :
    g1.state = g.state ∧ g1.username = g.username ∧ g1.password = g.password
      ∧ g1.stream.state = g.stream.state ∧ g1.stream.send = g.stream.send
      ∧ g1.msglen = g.msglen ∧ g1.flags = g.flags ∧ g1.z_act = g.z_act
      ∧ g1.retry_time = g.retry_time ∧ g1.retry_backoff = g.retry_backoff
      ∧ g1.fifo sel = { g.fifo sel with data := (g.fifo sel).data ++ x }
      ∧ (sel = .recv → g1.z_buf = g.z_buf)
      ∧ (sel = .z_buf → g1.stream.recv = g.stream.recv) := by
  unfold Fed gtv_t.untimed gtv_t.more gtv_t.setFifo at h
  obtain ⟨st, un, pw, ⟨ss, sr, sd⟩, ml, fl, za, zb, lr, ls, rt, rb, mw⟩ := g
  obtain ⟨st1, un1, pw1, ⟨ss1, sr1, sd1⟩, ml1, fl1, za1, zb1, lr1, ls1, rt1, rb1, mw1⟩ := g1
  cases sel
  · simp only [gtv_t.fifo, gtv_t.mk.injEq, netstream_t.mk.injEq] at h ⊢
    obtain ⟨h1, h2, h3, ⟨a1, a2, a3⟩, h5, h6, h7, h8, -, -, h11, h12, h13⟩ := h
    subst h1 h2 h3 a1 a2 a3 h5 h6 h7 h8 h11 h12 h13
    simp
  · simp only [gtv_t.fifo, gtv_t.mk.injEq, netstream_t.mk.injEq] at h ⊢
    obtain ⟨h1, h2, h3, ⟨a1, a2, a3⟩, h5, h6, h7, h8, -, -, h11, h12, h13⟩ := h
    subst h1 h2 h3 a1 a2 a3 h5 h6 h7 h8 h11 h12 h13
    simp

theorem Fed_msg_write (sel : fifo_sel) (x : List Nat) (g g1 : gtv_t) (h : Fed sel x g g1) :
    g1.msg_write = g.msg_write := by
  unfold Fed at h
  have h2 := congrArg gtv_t.msg_write h
  cases sel <;> exact h2

theorem Fed_set_msg_write (sel : fifo_sel) (x : List Nat) (g g1 : gtv_t) (h : Fed sel x g g1)
    (w : List Nat) : Fed sel x { g with msg_write := w } { g1 with msg_write := w } := by
  unfold Fed at h ⊢
  cases sel <;> exact congrArg (fun t : gtv_t => { t with msg_write := w }) h

theorem Run_related_ok {α : Type} (R : α → α → Prop) (a b : α) (h : R a b) :
    Run_related R (.ok a) (.ok b) := h

theorem Run_related_error {α : Type} (R : α → α → Prop) (e e1 : Escape) :
    Run_related R (.error e) (.error e1) := trivial

theorem write_stream_fed (sel : fifo_sel) (x : List Nat) (now now1 : Nat) (g g1 : gtv_t)
    (mvd : Option mvd_t) (data : List Nat) (h : Fed sel x g g1) :
    Run_related (Fed sel x) (write_stream now g mvd data) (write_stream now1 g1 mvd data) := by
  have hs := (Fed_fields sel x g g1 h).2.2.2.2.1
  unfold write_stream
  rw [hs]
  split
  · exact trivial
  · show Fed sel x _ _
    unfold Fed at h ⊢
    cases sel <;>
      exact congrArg (fun t : gtv_t =>
        { t with stream := { t.stream with
                             send := (FIFO_Write g.stream.send (some data) data.length).1 } }) h

theorem write_message_fed (sel : fifo_sel) (x : List Nat) (now now1 : Nat) (g g1 : gtv_t)
    (mvd : Option mvd_t) (op : gtv_clientop_t) (p : List Nat) (h : Fed sel x g g1) :
    Run_related (Fed sel x) (write_message now g mvd op p)
      (write_message now1 g1 mvd op p) := by
  have h1 := write_stream_fed sel x now now1 g g1 mvd
    [(p.length + 1) % 256, (p.length + 1) / 256 % 256, op.toNat % 256] h
  unfold write_message
  simp only []
  cases hr : write_stream now g mvd
      [(p.length + 1) % 256, (p.length + 1) / 256 % 256, op.toNat % 256] <;>
    cases hr1 : write_stream now1 g1 mvd
      [(p.length + 1) % 256, (p.length + 1) / 256 % 256, op.toNat % 256] <;>
    rw [hr, hr1] at h1
  · exact trivial
  · exact h1.elim
  · exact h1.elim
  · exact write_stream_fed sel x now now1 _ _ mvd p h1

theorem Fed_state (sel : fifo_sel) (x : List Nat) (g g1 : gtv_t) (h : Fed sel x g g1)
    (s : gtv_state_t) : Fed sel x { g with state := s } { g1 with state := s } := by
  unfold Fed at h ⊢
  cases sel <;> exact congrArg (fun t : gtv_t => { t with state := s }) h

theorem send_hello_fed (sel : fifo_sel) (x : List Nat) (cfg : Config) (now now1 : Nat)
    (g g1 : gtv_t) (mvd : Option mvd_t) (h : Fed sel x g g1) :
    Run_related (Fed sel x) (send_hello cfg now g mvd) (send_hello cfg now1 g1 mvd) := by
  obtain ⟨-, hu, hp, -⟩ := Fed_fields sel x g g1 h
  have hc : client_hello cfg g1 = client_hello cfg g := by
    unfold client_hello
    rw [hu, hp, Fed_msg_write sel x g g1 h]
  have h1 := write_message_fed sel x now now1 { g with msg_write := client_hello cfg g }
    { g1 with msg_write := client_hello cfg g } mvd .GTC_HELLO (client_hello cfg g)
    (Fed_set_msg_write sel x g g1 h _)
  unfold send_hello
  simp only []
  rw [hc]
  cases hr : write_message now { g with msg_write := client_hello cfg g } mvd .GTC_HELLO
      (client_hello cfg g) <;>
    cases hr1 : write_message now1 { g1 with msg_write := client_hello cfg g } mvd .GTC_HELLO
      (client_hello cfg g) <;>
    rw [hr, hr1] at h1
  · exact trivial
  · exact h1.elim
  · exact h1.elim
  · exact Fed_state sel x _ _ (Fed_set_msg_write sel x _ _ h1 []) _

theorem parse_hello_fed (sel : fifo_sel) (x : List Nat) (cfg : Config) (g g1 : gtv_t)
    (mvd : Option mvd_t) (m : sizebuf_t) (h : Fed sel x g g1)
    (hz : sel = .z_buf → gtv_state_t.GTV_CONNECTED.toNat ≤ g.state.toNat) :
    Run_related (fun (p q : gtv_t × sizebuf_t) => Fed sel x p.1 q.1 ∧ p.2 = q.2)
      (parse_hello cfg g mvd m) (parse_hello cfg g1 mvd m) := by
  obtain ⟨hst, -, -, -, -, -, -, -, -, -, hfifo, hrecv, hzb⟩ := Fed_fields sel x g g1 h
  unfold parse_hello
  simp only []
  rw [hst]
  split
  · exact trivial
  · split
    · split
      · refine ⟨?_, rfl⟩
        show Fed sel x _ _
        cases sel
        · rw [hrecv rfl]
          unfold Fed at h ⊢
          exact congrArg (fun t : gtv_t =>
            { t with z_buf := (if g.z_buf.size = 0 then
                                 { data := [], size := cfg.MAX_GTS_MSGLEN }
                               else g.z_buf),
                     z_act := true, flags := (MSG_ReadLong m).1,
                     state := .GTV_CONNECTED }) h
        · rename_i hlow _ _
          exact absurd (hz rfl) hlow
      · exact trivial
    · refine ⟨?_, rfl⟩
      show Fed sel x _ _
      unfold Fed at h ⊢
      cases sel <;> exact congrArg (fun t : gtv_t =>
        { t with flags := (MSG_ReadLong m).1, state := .GTV_CONNECTED }) h

theorem parse_stream_start_fed (sel : fifo_sel) (x : List Nat) (cfg : Config) (g g1 : gtv_t)
    (mvd : Option mvd_t) (h : Fed sel x g g1) :
    Run_related (fun (p q : gtv_t × Option mvd_t) => Fed sel x p.1 q.1 ∧ p.2 = q.2)
      (parse_stream_start cfg g mvd) (parse_stream_start cfg g1 mvd) := by
  have hst := (Fed_fields sel x g g1 h).1
  unfold parse_stream_start
  simp only []
  rw [hst]
  split
  · exact trivial
  · exact ⟨Fed_state sel x g g1 h _, rfl⟩

theorem parse_stream_stop_fed (sel : fifo_sel) (x : List Nat) (g g1 : gtv_t)
    (mvd : Option mvd_t) (h : Fed sel x g g1) :
    Run_related (Fed sel x) (parse_stream_stop g mvd) (parse_stream_stop g1 mvd) := by
  have hst := (Fed_fields sel x g g1 h).1
  unfold parse_stream_stop
  rw [hst]
  split
  · exact trivial
  · exact Fed_state sel x g g1 h _

theorem Fed_if_state (sel : fifo_sel) (x : List Nat) (g g1 : gtv_t) (h : Fed sel x g g1)
    (c : Prop) [Decidable c] (s : gtv_state_t) :
    Fed sel x (if c then { g with state := s } else g)
      (if c then { g1 with state := s } else g1) := by
  split
  · exact Fed_state sel x g g1 h s
  · exact h

theorem parse_stream_data_fed (sel : fifo_sel) (x : List Nat) (P : Parser) (now now1 : Nat)
    (g g1 : gtv_t) (mvd : Option mvd_t) (m : sizebuf_t) (h : Fed sel x g g1) :
    Run_related
      (fun (p q : gtv_t × Option mvd_t × sizebuf_t) => Fed sel x p.1 q.1 ∧ p.2 = q.2)
      (parse_stream_data P now g mvd m) (parse_stream_data P now1 g1 mvd m) := by
  have hst := (Fed_fields sel x g g1 h).1
  unfold parse_stream_data
  simp only []
  rw [hst]
  split
  · exact trivial
  · split
    · exact ⟨h, rfl⟩
    · split
      · exact ⟨Fed_if_state sel x g g1 h _ _, rfl⟩
      · cases mvd with
        | none => exact trivial
        | some c =>
          simp only []
          split
          · cases hp : P c m with
            | none => exact trivial
            | some v => exact ⟨Fed_if_state sel x g g1 h _ _, rfl⟩
          · split
            · split
              · exact trivial
              · have hmw : (if g.state = .GTV_WAITING then { g1 with state := .GTV_READING }
                      else g1).msg_write
                    = (if g.state = .GTV_WAITING then { g with state := .GTV_READING }
                        else g).msg_write := by
                  split <;> exact Fed_msg_write sel x g g1 h
                rw [hmw]
                have hw := write_message_fed sel x now now1 _ _
                  (some { c with delay := FIFO_Clear c.delay, state := .MVD_WAITING,
                                 min_packets := 50, overflows := c.overflows + 1 })
                  .GTC_STREAM_STOP
                  (if g.state = .GTV_WAITING then { g with state := .GTV_READING }
                    else g).msg_write
                  (Fed_if_state sel x g g1 h (g.state = .GTV_WAITING) .GTV_READING)
                revert hw
                cases write_message now
                    (if g.state = .GTV_WAITING then { g with state := .GTV_READING } else g)
                    (some { c with delay := FIFO_Clear c.delay, state := .MVD_WAITING,
                                   min_packets := 50, overflows := c.overflows + 1 })
                    .GTC_STREAM_STOP
                    (if g.state = .GTV_WAITING then { g with state := .GTV_READING }
                      else g).msg_write <;>
                  cases write_message now1
                    (if g.state = .GTV_WAITING then { g1 with state := .GTV_READING } else g1)
                    (some { c with delay := FIFO_Clear c.delay, state := .MVD_WAITING,
                                   min_packets := 50, overflows := c.overflows + 1 })
                    .GTC_STREAM_STOP
                    (if g.state = .GTV_WAITING then { g with state := .GTV_READING }
                      else g).msg_write <;>
                  intro hw
                · exact trivial
                · exact hw.elim
                · exact hw.elim
                · exact ⟨Fed_state sel x _ _ hw _, rfl⟩
            · exact ⟨Fed_if_state sel x g g1 h _ _, rfl⟩

theorem Fed_last_rcvd (sel : fifo_sel) (x : List Nat) (g g1 : gtv_t) (h : Fed sel x g g1)
    (a b : Nat) : Fed sel x { g with last_rcvd := a } { g1 with last_rcvd := b } := by
  unfold Fed at h ⊢
  cases sel <;> exact h

theorem parse_message_cmd_finish (sel : fifo_sel) (x : List Nat) (now now1 : Nat)
    (after after1 : Run (gtv_t × Option mvd_t × sizebuf_t)) :
    Run_related
        (fun (p q : gtv_t × Option mvd_t × sizebuf_t) => Fed sel x p.1 q.1 ∧ p.2 = q.2)
        after after1 →
      Run_related (fun (p q : gtv_t × Option mvd_t) => Fed sel x p.1 q.1 ∧ p.2 = q.2)
        (match after with
          | .error e => .error e
          | .ok (g, c, m) =>
            if m.readcount > m.cursize then gtv_destroyf c .read_past_end
            else .ok ({ g with last_rcvd := now }, c))
        (match after1 with
          | .error e => .error e
          | .ok (g, c, m) =>
            if m.readcount > m.cursize then gtv_destroyf c .read_past_end
            else .ok ({ g with last_rcvd := now1 }, c)) := by
  intro h
  cases after with
  | error e =>
    cases after1 with
    | error e1 => exact trivial
    | ok v1 => exact h.elim
  | ok v =>
    cases after1 with
    | error e1 => exact h.elim
    | ok v1 =>
      obtain ⟨g, c, m⟩ := v
      obtain ⟨g1, c1, m1⟩ := v1
      obtain ⟨hf, heq⟩ := h
      simp only [Prod.mk.injEq] at heq
      obtain ⟨rfl, rfl⟩ := heq
      simp only []
      split
      · exact trivial
      · exact ⟨Fed_last_rcvd sel x g g1 hf now now1, rfl⟩

theorem parse_message_cmd_fed (sel : fifo_sel) (x : List Nat) (cfg : Config) (P : Parser)
    (now now1 : Nat) (g g1 : gtv_t) (mvd : Option mvd_t) (m : sizebuf_t)
    (h : Fed sel x g g1) (hz : sel = .z_buf → gtv_state_t.GTV_CONNECTED.toNat ≤ g.state.toNat) :
    Run_related (fun (p q : gtv_t × Option mvd_t) => Fed sel x p.1 q.1 ∧ p.2 = q.2)
      (parse_message_cmd cfg P now g mvd m) (parse_message_cmd cfg P now1 g1 mvd m) := by
  unfold parse_message_cmd
  simp only []
  generalize (if (MSG_ReadByte m).1 < 0 then none
              else gtv_serverop_t.ofNat? (MSG_ReadByte m).1.toNat) = op
  cases op with
  | none => exact trivial
  | some o =>
    cases o <;> simp only []
    · have hh := parse_hello_fed sel x cfg g g1 mvd (MSG_ReadByte m).2 h hz
      revert hh
      cases parse_hello cfg g mvd (MSG_ReadByte m).2 <;>
        cases parse_hello cfg g1 mvd (MSG_ReadByte m).2 <;> intro hh
      · exact trivial
      · exact hh.elim
      · exact hh.elim
      · rename_i v v1
        exact parse_message_cmd_finish sel x now now1 (.ok (v.1, mvd, v.2))
          (.ok (v1.1, mvd, v1.2)) ⟨hh.1, congrArg (fun t => (mvd, t)) hh.2⟩
    · exact parse_message_cmd_finish sel x now now1 (.ok (g, mvd, (MSG_ReadByte m).2))
        (.ok (g1, mvd, (MSG_ReadByte m).2)) ⟨h, rfl⟩
    · have hh := parse_stream_start_fed sel x cfg g g1 mvd h
      revert hh
      cases parse_stream_start cfg g mvd <;> cases parse_stream_start cfg g1 mvd <;> intro hh
      · exact trivial
      · exact hh.elim
      · exact hh.elim
      · rename_i v v1
        exact parse_message_cmd_finish sel x now now1 (.ok (v.1, v.2, (MSG_ReadByte m).2))
          (.ok (v1.1, v1.2, (MSG_ReadByte m).2))
          ⟨hh.1, congrArg (fun t => (t, (MSG_ReadByte m).2)) hh.2⟩
    · have hh := parse_stream_stop_fed sel x g g1 mvd h
      revert hh
      cases parse_stream_stop g mvd <;> cases parse_stream_stop g1 mvd <;> intro hh
      · exact trivial
      · exact hh.elim
      · exact hh.elim
      · rename_i v v1
        exact parse_message_cmd_finish sel x now now1 (.ok (v, mvd, (MSG_ReadByte m).2))
          (.ok (v1, mvd, (MSG_ReadByte m).2)) ⟨hh, rfl⟩
    · exact parse_message_cmd_finish sel x now now1 _ _
        (parse_stream_data_fed sel x P now now1 g g1 mvd _ h)
    · exact trivial
    · exact trivial
    · exact trivial
    · exact trivial
    · exact trivial


theorem FIFO_TryRead_more (f : fifo_t) (n : Nat) (x : List Nat) (f1 : fifo_t) (b : List Nat)
    (h : FIFO_TryRead f n = some (f1, b)) :
    FIFO_TryRead { f with data := f.data ++ x } n
      = some ({ f1 with data := f1.data ++ x }, b) := by
  unfold FIFO_TryRead at h ⊢
  split at h
  · exact absurd h (by simp)
  · rename_i hlt
    simp only [Option.some.injEq, Prod.mk.injEq] at h
    obtain ⟨rfl, rfl⟩ := h
    simp only [FIFO_Read, FIFO_Usage, Bool.false_eq_true, if_false, if_true,
      List.length_append] at hlt ⊢
    have hn : n ≤ f.data.length := by omega
    rw [if_neg (by omega)]
    have h1 : min n (f.data.length + x.length) = n := by omega
    have h2 : min n f.data.length = n := by omega
    rw [h1, h2, List.drop_append_of_le_length hn, List.take_append_of_le_length hn]

theorem FIFO_TryRead_size (f : fifo_t) (n : Nat) (f1 : fifo_t) (b : List Nat)
    (h : FIFO_TryRead f n = some (f1, b)) : f1.size = f.size := by
  unfold FIFO_TryRead at h
  split at h
  · exact absurd h (by simp)
  · simp only [Option.some.injEq, Prod.mk.injEq] at h
    rw [← h.1]
    simp [FIFO_Read]

theorem FIFO_ReadMessage_more (f : fifo_t) (n : Nat) (x : List Nat) (f1 : fifo_t)
    (m : sizebuf_t) (h : FIFO_ReadMessage f n = some (f1, m)) :
    FIFO_ReadMessage { f with data := f.data ++ x } n
      = some ({ f1 with data := f1.data ++ x }, m) := by
  unfold FIFO_ReadMessage at h ⊢
  split at h
  · exact absurd h (by simp)
  · rename_i f2 bytes hr
    simp only [Option.some.injEq, Prod.mk.injEq] at h
    obtain ⟨rfl, rfl⟩ := h
    rw [FIFO_TryRead_more f n x f2 bytes hr]

theorem more_nil (sel : fifo_sel) (g : gtv_t) : g.more sel [] = g := by
  unfold gtv_t.more gtv_t.setFifo
  cases sel <;> simp [gtv_t.fifo]

theorem Fed_nil_iff (sel : fifo_sel) (g g1 : gtv_t) : Fed sel [] g g1 ↔ g1.untimed = g.untimed := by
  unfold Fed
  rw [more_nil]

/-- Two Upstreams that are the same Upstream with the same bytes added are equal
but for the timestamps. -/
theorem Fed_join (sel : fifo_sel) (x : List Nat) (g g1 g2 : gtv_t) (h1 : Fed sel x g g1)
    (h2 : Fed sel x g g2) : Fed sel [] g1 g2 := by
  rw [Fed_nil_iff]
  unfold Fed at h1 h2
  rw [h1, h2]

/-- The relation `Fed` goes along with a change of the timestamps on either
side. -/
theorem Fed_retimed (sel : fifo_sel) (x : List Nat) (g g1 g2 g3 : gtv_t)
    (h : Fed sel x g g1) (h2 : Fed sel [] g g2) (h3 : Fed sel [] g1 g3) : Fed sel x g2 g3 := by
  rw [Fed_nil_iff] at h2 h3
  unfold Fed at h ⊢
  rw [h3, h]
  have key : ∀ a b : gtv_t, a.untimed = b.untimed →
      (a.more sel x).untimed = (b.more sel x).untimed := by
    intro a b hab
    unfold gtv_t.more gtv_t.setFifo
    cases sel
    · exact congrArg (fun t : gtv_t =>
        { t with stream := { t.stream with
                             recv := { t.stream.recv with data := t.stream.recv.data ++ x } } })
        hab
    · exact congrArg (fun t : gtv_t =>
        { t with z_buf := { t.z_buf with data := t.z_buf.data ++ x } }) hab
  exact (key g2 g h2).symm

theorem Fed_setFifo (sel : fifo_sel) (x : List Nat) (g g1 : gtv_t) (h : Fed sel x g g1)
    (f : fifo_t) :
    Fed sel x (g.setFifo sel f) (g1.setFifo sel { f with data := f.data ++ x }) := by
  unfold Fed gtv_t.more gtv_t.setFifo at h ⊢
  cases sel
  · exact congrArg (fun t : gtv_t =>
      { t with stream := { t.stream with recv := { f with data := f.data ++ x } } }) h
  · exact congrArg (fun t : gtv_t => { t with z_buf := { f with data := f.data ++ x } }) h

theorem Fed_msglen (sel : fifo_sel) (x : List Nat) (g g1 : gtv_t) (h : Fed sel x g g1)
    (k : Nat) : Fed sel x { g with msglen := k } { g1 with msglen := k } := by
  unfold Fed at h ⊢
  cases sel <;> exact congrArg (fun t : gtv_t => { t with msglen := k }) h

/-- The magic step of `parse_message` with more input: an exit stays an exit, a
step that goes on goes on in the same way, and without more input a step that
waits for bytes still waits. -/
theorem parse_message_magic_fed (sel : fifo_sel) (x : List Nat) (cfg : Config)
    (now now1 : Nat) (g g1 : gtv_t) (mvd : Option mvd_t) (h : Fed sel x g g1) :
    (∀ e, parse_message_magic cfg now g mvd sel = .error e →
        ∃ e1, parse_message_magic cfg now1 g1 mvd sel = .error e1)
      ∧ (∀ g2, parse_message_magic cfg now g mvd sel = .ok (some g2) →
          ∃ g3, parse_message_magic cfg now1 g1 mvd sel = .ok (some g3) ∧ Fed sel x g2 g3)
      ∧ (x = [] → parse_message_magic cfg now g mvd sel = .ok none →
          parse_message_magic cfg now1 g1 mvd sel = .ok none) := by
  obtain ⟨hst, -, -, -, -, -, -, -, -, -, hfifo, -, -⟩ := Fed_fields sel x g g1 h
  unfold parse_message_magic
  rw [hst, hfifo]
  split
  · cases hr : FIFO_TryRead (g.fifo sel) 4 with
    | none =>
      refine ⟨fun e he => absurd he (by simp), fun g2 hg => absurd hg (by simp),
        fun hx _ => ?_⟩
      subst hx
      have hsame : ({ g.fifo sel with data := (g.fifo sel).data ++ [] } : fifo_t)
          = g.fifo sel := by simp
      rw [hsame, hr]
    | some v =>
      obtain ⟨f, magic⟩ := v
      rw [FIFO_TryRead_more (g.fifo sel) 4 x f magic hr]
      simp only []
      split
      · exact ⟨fun e _ => ⟨_, rfl⟩, fun g2 hg => absurd hg (by simp [gtv_destroyf]),
          fun _ hn => absurd hn (by simp [gtv_destroyf])⟩
      · have hh := send_hello_fed sel x cfg now now1 _ _ mvd (Fed_setFifo sel x g g1 h f)
        revert hh
        cases send_hello cfg now (g.setFifo sel f) mvd <;>
          cases send_hello cfg now1 (g1.setFifo sel { f with data := f.data ++ x }) mvd <;>
          intro hh
        · exact ⟨fun e _ => ⟨_, rfl⟩, fun g2 hg => absurd hg (by simp),
            fun _ hn => absurd hn (by simp)⟩
        · exact hh.elim
        · exact hh.elim
        · refine ⟨fun e he => absurd he (by simp), fun g2 hg => ?_,
            fun _ hn => absurd hn (by simp)⟩
          simp only [Except.ok.injEq, Option.some.injEq] at hg
          subst hg
          exact ⟨_, rfl, hh⟩
  · refine ⟨fun e he => absurd he (by simp), fun g2 hg => ?_, fun _ hn => absurd hn (by simp)⟩
    simp only [Except.ok.injEq, Option.some.injEq] at hg
    subst hg
    exact ⟨_, rfl, h⟩

/-- The length step of `parse_message` with more input. -/
theorem parse_message_msglen_fed (sel : fifo_sel) (x : List Nat) (cfg : Config)
    (now now1 : Nat) (g g1 : gtv_t) (mvd : Option mvd_t) (h : Fed sel x g g1) :
    (∀ e, parse_message_msglen cfg now g mvd sel = .error e →
        ∃ e1, parse_message_msglen cfg now1 g1 mvd sel = .error e1)
      ∧ (∀ g2, parse_message_msglen cfg now g mvd sel = .ok (some g2) →
          ∃ g3, parse_message_msglen cfg now1 g1 mvd sel = .ok (some g3) ∧ Fed sel x g2 g3)
      ∧ (x = [] → parse_message_msglen cfg now g mvd sel = .ok none →
          parse_message_msglen cfg now1 g1 mvd sel = .ok none) := by
  obtain ⟨-, -, -, -, -, hml, -, -, -, -, hfifo, -, -⟩ := Fed_fields sel x g g1 h
  unfold parse_message_msglen
  rw [hml, hfifo]
  split
  · cases hr : FIFO_TryRead (g.fifo sel) 2 with
    | none =>
      refine ⟨fun e he => absurd he (by simp), fun g2 hg => absurd hg (by simp),
        fun hx _ => ?_⟩
      subst hx
      have hsame : ({ g.fifo sel with data := (g.fifo sel).data ++ [] } : fifo_t)
          = g.fifo sel := by simp
      rw [hsame, hr]
    | some v =>
      obtain ⟨f, bytes⟩ := v
      rw [FIFO_TryRead_more (g.fifo sel) 2 x f bytes hr]
      simp only []
      split
      · exact ⟨fun e _ => ⟨_, rfl⟩, fun g2 hg => absurd hg (by simp [gtv_dropf]),
          fun _ hn => absurd hn (by simp [gtv_dropf])⟩
      · split
        · exact ⟨fun e _ => ⟨_, rfl⟩, fun g2 hg => absurd hg (by simp [gtv_destroyf]),
            fun _ hn => absurd hn (by simp [gtv_destroyf])⟩
        · refine ⟨fun e he => absurd he (by simp), fun g2 hg => ?_,
            fun _ hn => absurd hn (by simp)⟩
          simp only [Except.ok.injEq, Option.some.injEq] at hg
          subst hg
          exact ⟨_, rfl, Fed_msglen sel x _ _ (Fed_setFifo sel x g g1 h f) _⟩
  · refine ⟨fun e he => absurd he (by simp), fun g2 hg => ?_, fun _ hn => absurd hn (by simp)⟩
    simp only [Except.ok.injEq, Option.some.injEq] at hg
    subst hg
    exact ⟨_, rfl, h⟩


/-- One `parse_message` call with more input (and other timestamps): an exit
stays an exit and a dispatched message is dispatched in the same way, with the
same result but for the added input; without more input a call that waits for
bytes still waits.  In each case the same message is read, or none. -/
theorem parse_message_fed (sel : fifo_sel) (x : List Nat) (cfg : Config) (P : Parser)
    (now now1 : Nat) (g g1 : gtv_t) (mvd : Option mvd_t) (h : Fed sel x g g1)
    (hz : sel = .z_buf → gtv_state_t.GTV_CONNECTED.toNat ≤ g.state.toNat) :
    (∀ e, parse_message cfg P now g mvd sel = .error e →
        (∃ e1, parse_message cfg P now1 g1 mvd sel = .error e1)
          ∧ parse_message_read cfg now1 g1 mvd sel = parse_message_read cfg now g mvd sel)
      ∧ (∀ g2 m2, parse_message cfg P now g mvd sel = .ok (g2, m2, true) →
          (∃ g3, parse_message cfg P now1 g1 mvd sel = .ok (g3, m2, true) ∧ Fed sel x g2 g3)
            ∧ parse_message_read cfg now1 g1 mvd sel = parse_message_read cfg now g mvd sel)
      ∧ (x = [] → ∀ g2 m2, parse_message cfg P now g mvd sel = .ok (g2, m2, false) →
          (∃ g3, parse_message cfg P now1 g1 mvd sel = .ok (g3, m2, false) ∧ Fed sel x g2 g3)
            ∧ parse_message_read cfg now1 g1 mvd sel = parse_message_read cfg now g mvd sel
            ∧ parse_message_read cfg now g mvd sel = none) := by
  obtain ⟨hm_err, hm_ok, hm_none⟩ := parse_message_magic_fed sel x cfg now now1 g g1 mvd h
  unfold parse_message parse_message_read
  cases hm : parse_message_magic cfg now g mvd sel with
  | error e =>
    obtain ⟨e1, he1⟩ := hm_err e hm
    rw [he1]
    exact ⟨fun _ _ => ⟨⟨_, rfl⟩, rfl⟩, fun _ _ hh => absurd hh (by simp),
      fun _ _ _ hh => absurd hh (by simp)⟩
  | ok oa =>
    cases oa with
    | none =>
      refine ⟨fun _ hh => absurd hh (by simp), fun _ _ hh => absurd hh (by simp),
        fun hx g2 m2 hh => ?_⟩
      rw [hm_none hx hm]
      simp only [Except.ok.injEq, Prod.mk.injEq] at hh
      obtain ⟨rfl, rfl, -⟩ := hh
      exact ⟨⟨_, rfl, h⟩, rfl, rfl⟩
    | some ga =>
      obtain ⟨ga1, hga1, hfa⟩ := hm_ok ga hm
      rw [hga1]
      simp only []
      obtain ⟨hl_err, hl_ok, hl_none⟩ :=
        parse_message_msglen_fed sel x cfg now now1 ga ga1 mvd hfa
      cases hl : parse_message_msglen cfg now ga mvd sel with
      | error e =>
        obtain ⟨e1, he1⟩ := hl_err e hl
        rw [he1]
        exact ⟨fun _ _ => ⟨⟨_, rfl⟩, rfl⟩, fun _ _ hh => absurd hh (by simp),
          fun _ _ _ hh => absurd hh (by simp)⟩
      | ok ob =>
        cases ob with
        | none =>
          refine ⟨fun _ hh => absurd hh (by simp), fun _ _ hh => absurd hh (by simp),
            fun hx g2 m2 hh => ?_⟩
          rw [hl_none hx hl]
          simp only [Except.ok.injEq, Prod.mk.injEq] at hh
          obtain ⟨rfl, rfl, -⟩ := hh
          exact ⟨⟨_, rfl, hfa⟩, rfl, rfl⟩
        | some gb =>
          obtain ⟨gb1, hgb1, hfb⟩ := hl_ok gb hl
          rw [hgb1]
          simp only []
          obtain ⟨-, -, -, -, -, hml, -, -, -, -, hfifo, -, -⟩ := Fed_fields sel x gb gb1 hfb
          rw [hml, hfifo]
          cases hrd : FIFO_ReadMessage (gb.fifo sel) gb.msglen with
          | none =>
            refine ⟨fun _ hh => absurd hh (by simp), fun _ _ hh => absurd hh (by simp),
              fun hx g2 m2 hh => ?_⟩
            subst hx
            have hsame : ({ gb.fifo sel with data := (gb.fifo sel).data ++ [] } : fifo_t)
                = gb.fifo sel := by simp
            rw [hsame, hrd]
            simp only [Except.ok.injEq, Prod.mk.injEq] at hh
            obtain ⟨rfl, rfl, -⟩ := hh
            exact ⟨⟨_, rfl, hfb⟩, rfl, rfl⟩
          | some v =>
            obtain ⟨f, msg⟩ := v
            rw [FIFO_ReadMessage_more (gb.fifo sel) gb.msglen x f msg hrd]
            simp only []
            have hstate : ({ gb.setFifo sel f with msglen := 0 } : gtv_t).state = g.state ∨
                sel = .recv := by
              cases sel with
              | recv => exact Or.inr rfl
              | z_buf =>
                left
                have h3 := hz rfl
                have ha := (parse_message_magic_ok cfg now g mvd _ ga hm).2.2.2
                have hb := (parse_message_msglen_ok cfg now ga mvd _ gb hl).1
                have hga : ga.state = g.state := by
                  rcases ha with ha | ha
                  · exact ha
                  · have : gtv_state_t.GTV_CONNECTED.toNat = 3 := rfl
                    omega
                show gb.state = g.state
                rw [hb, hga]
            have hh := parse_message_cmd_fed sel x cfg P now now1
              { gb.setFifo sel f with msglen := 0 }
              { gb1.setFifo sel { f with data := f.data ++ x } with msglen := 0 } mvd msg
              (Fed_msglen sel x _ _ (Fed_setFifo sel x gb gb1 hfb f) 0)
              (fun hs => by
                rcases hstate with hst | hst
                · rw [hst]; exact hz hs
                · rw [hst] at hs; exact absurd hs (by decide))
            revert hh
            cases parse_message_cmd cfg P now { gb.setFifo sel f with msglen := 0 } mvd msg <;>
              cases parse_message_cmd cfg P now1
                { gb1.setFifo sel { f with data := f.data ++ x } with msglen := 0 } mvd msg <;>
              intro hh
            · exact ⟨fun _ _ => ⟨⟨_, rfl⟩, trivial⟩, fun _ _ hh => absurd hh (by simp),
                fun _ _ _ hh => absurd hh (by simp)⟩
            · exact hh.elim
            · exact hh.elim
            · rename_i v v1
              obtain ⟨hf, hmv⟩ := hh
              refine ⟨fun _ hh => absurd hh (by simp), fun g2 m2 hh => ?_,
                fun _ _ _ hh => absurd hh (by simp)⟩
              simp only [Except.ok.injEq, Prod.mk.injEq, and_true] at hh
              obtain ⟨rfl, rfl⟩ := hh
              exact ⟨⟨v1.1, by rw [hmv], hf⟩, trivial⟩

/-! ## Helper lemmas: the framer takes bytes out of its ring buffer -/

theorem write_stream_zbuf (now : Nat) (g : gtv_t) (mvd : Option mvd_t) (data : List Nat)
    (g1 : gtv_t) (h : write_stream now g mvd data = .ok g1) :
    g1.z_buf = g.z_buf ∧ g1.z_act = g.z_act ∧ g1.msglen = g.msglen := by
  unfold write_stream at h
  split at h
  · exact absurd h (by simp [gtv_destroyf])
  · simp only [Except.ok.injEq] at h
    subst h
    exact ⟨rfl, rfl, rfl⟩

theorem write_message_zbuf (now : Nat) (g : gtv_t) (mvd : Option mvd_t)
    (op : gtv_clientop_t) (p : List Nat) (g1 : gtv_t)
    (h : write_message now g mvd op p = .ok g1) :
    g1.z_buf = g.z_buf ∧ g1.z_act = g.z_act ∧ g1.msglen = g.msglen := by
  unfold write_message at h
  simp only [] at h
  split at h
  · exact absurd h (by simp)
  · rename_i g2 hr
    obtain ⟨a1, a2, a3⟩ := write_stream_zbuf now g mvd _ g2 hr
    obtain ⟨b1, b2, b3⟩ := write_stream_zbuf now g2 mvd _ g1 h
    exact ⟨b1.trans a1, b2.trans a2, b3.trans a3⟩

theorem send_hello_zbuf (cfg : Config) (now : Nat) (g : gtv_t) (mvd : Option mvd_t)
    (g1 : gtv_t) (h : send_hello cfg now g mvd = .ok g1) :
    g1.z_buf = g.z_buf ∧ g1.msglen = g.msglen := by
  unfold send_hello at h
  simp only [] at h
  split at h
  · exact absurd h (by simp)
  · rename_i g2 hr
    obtain ⟨a1, _, a3⟩ := write_message_zbuf now _ mvd _ _ g2 hr
    simp only [Except.ok.injEq] at h
    subst h
    exact ⟨a1, a3⟩

theorem parse_hello_zbuf (cfg : Config) (g : gtv_t) (mvd : Option mvd_t) (m : sizebuf_t)
    (g1 : gtv_t) (m1 : sizebuf_t)
    (hz : gtv_state_t.GTV_CONNECTED.toNat ≤ g.state.toNat)
    (h : parse_hello cfg g mvd m = .ok (g1, m1)) :
    g1.z_buf = g.z_buf := by
  unfold parse_hello at h
  rw [if_pos hz] at h
  exact absurd h (by simp [gtv_destroyf])

theorem parse_stream_start_zbuf (cfg : Config) (g : gtv_t) (mvd : Option mvd_t)
    (g1 : gtv_t) (m1 : Option mvd_t) (h : parse_stream_start cfg g mvd = .ok (g1, m1)) :
    g1.z_buf = g.z_buf := by
  unfold parse_stream_start at h
  simp only [] at h
  split at h
  · exact absurd h (by simp [gtv_destroyf])
  · simp only [Except.ok.injEq, Prod.mk.injEq] at h
    rw [← h.1]

theorem parse_stream_stop_zbuf (g : gtv_t) (mvd : Option mvd_t)
    (g1 : gtv_t) (h : parse_stream_stop g mvd = .ok g1) :
    g1.z_buf = g.z_buf := by
  unfold parse_stream_stop at h
  split at h
  · exact absurd h (by simp [gtv_destroyf])
  · simp only [Except.ok.injEq] at h
    rw [← h]

theorem parse_stream_data_zbuf (P : Parser) (now : Nat) (g : gtv_t) (mvd : Option mvd_t)
    (m : sizebuf_t) (g1 : gtv_t) (c1 : Option mvd_t) (m1 : sizebuf_t)
    (h : parse_stream_data P now g mvd m = .ok (g1, c1, m1)) :
    g1.z_buf = g.z_buf := by
  unfold parse_stream_data at h
  simp only [] at h
  split at h
  · exact absurd h (by simp [gtv_destroyf])
  · split at h
    · simp only [Except.ok.injEq, Prod.mk.injEq] at h
      rw [← h.1]
    · split at h
      · simp only [Except.ok.injEq, Prod.mk.injEq] at h
        rw [← h.1]
        split <;> rfl
      · split at h
        · exact absurd h (by simp)
        · split at h
          · split at h
            · exact absurd h (by simp [MVD_Destroyf])
            · simp only [Except.ok.injEq, Prod.mk.injEq] at h
              rw [← h.1]
              split <;> rfl
          · split at h
            · split at h
              · exact absurd h (by simp [gtv_destroyf])
              · split at h
                · exact absurd h (by simp)
                · rename_i g2 hr
                  obtain ⟨a1, _, _⟩ := write_message_zbuf now _ _ _ _ g2 hr
                  simp only [Except.ok.injEq, Prod.mk.injEq] at h
                  rw [← h.1]
                  show g2.z_buf = _
                  rw [a1]
                  split <;> rfl
            · simp only [Except.ok.injEq, Prod.mk.injEq] at h
              rw [← h.1]
              split <;> rfl

theorem parse_message_cmd_zbuf (cfg : Config) (P : Parser) (now : Nat) (g : gtv_t)
    (mvd : Option mvd_t) (m : sizebuf_t) (g1 : gtv_t) (c1 : Option mvd_t)
    (hz : gtv_state_t.GTV_CONNECTED.toNat ≤ g.state.toNat)
    (h : parse_message_cmd cfg P now g mvd m = .ok (g1, c1)) :
    g1.z_buf = g.z_buf := by
  unfold parse_message_cmd at h
  simp only [] at h
  split at h
  · exact absurd h (by simp)
  · rename_i g2 c2 m2 hafter
    split at h
    · exact absurd h (by simp [gtv_destroyf])
    · simp only [Except.ok.injEq, Prod.mk.injEq] at h
      rw [← h.1]
      show g2.z_buf = _
      split at hafter
      · split at hafter
        · exact absurd hafter (by simp)
        · rename_i gh mh hr
          simp only [Except.ok.injEq, Prod.mk.injEq] at hafter
          rw [← hafter.1]
          exact parse_hello_zbuf cfg g mvd _ gh mh hz hr
      · simp only [Except.ok.injEq, Prod.mk.injEq] at hafter
        rw [← hafter.1]
      · split at hafter
        · exact absurd hafter (by simp)
        · rename_i gh ch hr
          simp only [Except.ok.injEq, Prod.mk.injEq] at hafter
          rw [← hafter.1]
          exact parse_stream_start_zbuf cfg g mvd gh ch hr
      · split at hafter
        · exact absurd hafter (by simp)
        · rename_i gh hr
          simp only [Except.ok.injEq, Prod.mk.injEq] at hafter
          rw [← hafter.1]
          exact parse_stream_stop_zbuf g mvd gh hr
      · exact parse_stream_data_zbuf P now g mvd _ g2 c2 m2 hafter
      · exact absurd hafter (by simp [gtv_destroyf])
      · exact absurd hafter (by simp [gtv_destroyf])
      · exact absurd hafter (by simp [gtv_destroyf])
      · exact absurd hafter (by simp [gtv_destroyf])
      · exact absurd hafter (by simp [gtv_dropf])
      · exact absurd hafter (by simp [gtv_destroyf])


theorem send_hello_fifo (cfg : Config) (now : Nat) (g : gtv_t) (mvd : Option mvd_t)
    (sel : fifo_sel) (g1 : gtv_t) (h : send_hello cfg now g mvd = .ok g1) :
    g1.fifo sel = g.fifo sel := by
  cases sel
  · exact (send_hello_recv cfg now g mvd g1 h).1
  · exact (send_hello_zbuf cfg now g mvd g1 h).1

theorem parse_message_cmd_fifo (cfg : Config) (P : Parser) (now : Nat) (g : gtv_t)
    (mvd : Option mvd_t) (sel : fifo_sel) (m : sizebuf_t) (g1 : gtv_t) (c1 : Option mvd_t)
    (hz : sel = .z_buf → gtv_state_t.GTV_CONNECTED.toNat ≤ g.state.toNat)
    (h : parse_message_cmd cfg P now g mvd m = .ok (g1, c1)) :
    g1.fifo sel = g.fifo sel := by
  cases sel
  · exact parse_message_cmd_recv cfg P now g mvd m g1 c1 h
  · exact parse_message_cmd_zbuf cfg P now g mvd m g1 c1 (hz rfl) h

theorem parse_message_magic_len (cfg : Config) (now : Nat) (g : gtv_t) (mvd : Option mvd_t)
    (sel : fifo_sel) (g1 : gtv_t)
    (h : parse_message_magic cfg now g mvd sel = .ok (some g1)) :
    (g1.fifo sel).data.length ≤ (g.fifo sel).data.length := by
  unfold parse_message_magic at h
  split at h
  · split at h
    · exact absurd h (by simp)
    · rename_i f magic hr
      have hlen := FIFO_TryRead_length _ _ f magic hr
      split at h
      · exact absurd h (by simp [gtv_destroyf])
      · split at h
        · exact absurd h (by simp)
        · rename_i g2 hs
          simp only [Except.ok.injEq, Option.some.injEq] at h
          subst h
          rw [send_hello_fifo cfg now _ mvd sel g2 hs, fifo_setFifo]
          omega
  · simp only [Except.ok.injEq, Option.some.injEq] at h
    subst h
    exact Nat.le_refl _

theorem parse_message_msglen_len (cfg : Config) (now : Nat) (g : gtv_t) (mvd : Option mvd_t)
    (sel : fifo_sel) (g1 : gtv_t)
    (h : parse_message_msglen cfg now g mvd sel = .ok (some g1)) :
    (g1.fifo sel).data.length ≤ (g.fifo sel).data.length ∧ g1.msglen ≠ 0 := by
  unfold parse_message_msglen at h
  split at h
  · split at h
    · exact absurd h (by simp)
    · rename_i f bytes hr
      have hlen := FIFO_TryRead_length _ _ f bytes hr
      simp only [] at h
      split at h
      · exact absurd h (by simp [gtv_dropf])
      · rename_i hne
        split at h
        · exact absurd h (by simp [gtv_destroyf])
        · simp only [Except.ok.injEq, Option.some.injEq] at h
          subst h
          refine ⟨?_, hne⟩
          have : ({ g.setFifo sel f with msglen := le16_value bytes } : gtv_t).fifo sel = f := by
            cases sel <;> rfl
          rw [this]
          omega
  · rename_i hne
    simp only [Except.ok.injEq, Option.some.injEq] at h
    subst h
    exact ⟨Nat.le_refl _, hne⟩

/-- A `parse_message` call never adds bytes to its ring buffer, and one that
returns true has taken at least one byte out of it. -/
theorem parse_message_len (cfg : Config) (P : Parser) (now : Nat) (g : gtv_t)
    (mvd : Option mvd_t) (sel : fifo_sel) (g1 : gtv_t) (m1 : Option mvd_t) (b : Bool)
    (hz : sel = .z_buf → gtv_state_t.GTV_CONNECTED.toNat ≤ g.state.toNat)
    (h : parse_message cfg P now g mvd sel = .ok (g1, m1, b)) :
    (g1.fifo sel).data.length + (if b then 1 else 0) ≤ (g.fifo sel).data.length := by
  unfold parse_message at h
  split at h
  · exact absurd h (by simp)
  · simp only [Except.ok.injEq, Prod.mk.injEq] at h
    obtain ⟨h1, _, h3⟩ := h
    subst h1 h3
    simp
  · rename_i ga hmagic
    have h1 := parse_message_magic_len cfg now g mvd sel ga hmagic
    have hst := parse_message_magic_ok cfg now g mvd sel ga hmagic
    split at h
    · exact absurd h (by simp)
    · simp only [Except.ok.injEq, Prod.mk.injEq] at h
      obtain ⟨h1, _, h3⟩ := h
      subst h1 h3
      simpa using h1
    · rename_i gb hmsglen
      obtain ⟨h2, hne⟩ := parse_message_msglen_len cfg now ga mvd sel gb hmsglen
      have hst2 := parse_message_msglen_ok cfg now ga mvd sel gb hmsglen
      split at h
      · simp only [Except.ok.injEq, Prod.mk.injEq] at h
        obtain ⟨h1, _, h3⟩ := h
        subst h1 h3
        simp only [Bool.false_eq_true, if_false, Nat.add_zero]
        omega
      · rename_i f msg hread
        have h3 := FIFO_ReadMessage_length _ _ f msg hread
        split at h
        · exact absurd h (by simp)
        · rename_i gc mc hcmd
          have hz1 : sel = .z_buf → gtv_state_t.GTV_CONNECTED.toNat
              ≤ ({ gb.setFifo sel f with msglen := 0 } : gtv_t).state.toNat := by
            intro hs
            have := hz hs
            have hgb : ({ gb.setFifo sel f with msglen := 0 } : gtv_t).state = gb.state := by
              cases sel <;> rfl
            rw [hgb, hst2.1]
            rcases hst.2.2.2 with hq | hq
            · rw [hq]; exact this
            · have h3 : gtv_state_t.GTV_CONNECTED.toNat = 3 := rfl
              omega
          have h4 := parse_message_cmd_fifo cfg P now _ mvd sel msg gc mc hz1 hcmd
          simp only [Except.ok.injEq, Prod.mk.injEq] at h
          obtain ⟨h5, _, h6⟩ := h
          subst h5 h6
          rw [h4]
          have : ({ gb.setFifo sel f with msglen := 0 } : gtv_t).fifo sel = f := by
            cases sel <;> rfl
          rw [this]
          simp only [if_true]
          omega

/-! ## Helper lemmas: repeated calls of the framer -/

/-- One `parse_message` call on two Upstreams that differ in their timestamps
only, at two times: the same kind of result, the same Channel, the same
message, and Upstreams that differ in their timestamps only. -/
theorem parse_message_retimed (sel : fifo_sel) (cfg : Config) (P : Parser)
    (now now1 : Nat) (g g1 : gtv_t) (mvd : Option mvd_t) (h : Fed sel [] g g1)
    (hz : sel = .z_buf → gtv_state_t.GTV_CONNECTED.toNat ≤ g.state.toNat) :
    Run_related (fun p q => Fed sel [] p.1 q.1 ∧ p.2 = q.2)
        (parse_message cfg P now g mvd sel) (parse_message cfg P now1 g1 mvd sel)
      ∧ parse_message_read cfg now1 g1 mvd sel = parse_message_read cfg now g mvd sel := by
  obtain ⟨hE, hT, hF⟩ := parse_message_fed sel [] cfg P now now1 g g1 mvd h hz
  cases hp : parse_message cfg P now g mvd sel with
  | error e =>
    obtain ⟨⟨e1, he1⟩, hr⟩ := hE e hp
    rw [he1]
    exact ⟨trivial, hr⟩
  | ok v =>
    obtain ⟨g2, m2, b⟩ := v
    cases b with
    | true =>
      obtain ⟨⟨g3, h3, hf⟩, hr⟩ := hT g2 m2 hp
      rw [h3]
      exact ⟨⟨hf, rfl⟩, hr⟩
    | false =>
      obtain ⟨⟨g3, h3, hf⟩, hr, _⟩ := hF rfl g2 m2 hp
      rw [h3]
      exact ⟨⟨hf, rfl⟩, hr⟩

/-- Once the magic step has passed, `parse_message` on its result is the same
call. -/
theorem parse_message_after_magic (cfg : Config) (P : Parser) (now : Nat) (g : gtv_t)
    (mvd : Option mvd_t) (sel : fifo_sel) (ga : gtv_t)
    (h : parse_message_magic cfg now g mvd sel = .ok (some ga)) :
    parse_message cfg P now g mvd sel = parse_message cfg P now ga mvd sel
      ∧ parse_message_read cfg now g mvd sel = parse_message_read cfg now ga mvd sel := by
  have hs : parse_message_magic cfg now ga mvd sel = .ok (some ga) :=
    parse_message_magic_skip cfg now ga mvd sel (parse_message_magic_ok cfg now g mvd sel ga h).1
  constructor
  · rw [parse_message, parse_message, h, hs]
  · rw [parse_message_read, parse_message_read, h, hs]

/-- Once the length step has passed, `parse_message` on its result is the same
call: the length is pending. -/
theorem parse_message_after_msglen (cfg : Config) (P : Parser) (now : Nat) (g : gtv_t)
    (mvd : Option mvd_t) (sel : fifo_sel) (ga gb : gtv_t)
    (h : parse_message_magic cfg now g mvd sel = .ok (some ga))
    (hm : parse_message_msglen cfg now ga mvd sel = .ok (some gb)) :
    parse_message cfg P now g mvd sel = parse_message cfg P now gb mvd sel
      ∧ parse_message_read cfg now g mvd sel = parse_message_read cfg now gb mvd sel := by
  have hst := (parse_message_magic_ok cfg now g mvd sel ga h).1
  have hst2 := (parse_message_msglen_ok cfg now ga mvd sel gb hm).1
  have hne := (parse_message_msglen_len cfg now ga mvd sel gb hm).2
  have hs : parse_message_magic cfg now gb mvd sel = .ok (some gb) :=
    parse_message_magic_skip cfg now gb mvd sel (by rw [hst2]; exact hst)
  have hm2 : parse_message_msglen cfg now gb mvd sel = .ok (some gb) := by
    unfold parse_message_msglen
    rw [if_neg hne]
  constructor
  · rw [parse_message, parse_message, h, hs]
    simp only [hm, hm2]
  · rw [parse_message_read, parse_message_read, h, hs]
    simp only [hm, hm2]

/-- A `parse_message` call that returns false leaves the Channel alone, and
every later call on its result returns false again and changes nothing. -/
theorem parse_message_false_fixed (cfg : Config) (P : Parser) (now : Nat) (g : gtv_t)
    (mvd : Option mvd_t) (sel : fifo_sel) (g2 : gtv_t) (m2 : Option mvd_t)
    (h : parse_message cfg P now g mvd sel = .ok (g2, m2, false)) :
    m2 = mvd ∧ ∀ n : Nat, parse_message cfg P n g2 mvd sel = .ok (g2, mvd, false)
      ∧ parse_message_read cfg n g2 mvd sel = none := by
  unfold parse_message at h
  cases h1 : parse_message_magic cfg now g mvd sel with
  | error e => rw [h1] at h; exact absurd h (by simp)
  | ok o =>
    cases o with
    | none =>
      rw [h1] at h
      simp only [Except.ok.injEq, Prod.mk.injEq] at h
      obtain ⟨hg, hm, _⟩ := h
      subst hg hm
      refine ⟨rfl, fun n => ?_⟩
      have h2 := (parse_message_magic_fed sel [] cfg now n g g mvd (Fed_refl sel g)).2.2 rfl h1
      constructor
      · rw [parse_message, h2]
      · rw [parse_message_read, h2]
    | some ga =>
      rw [h1] at h
      simp only [] at h
      have hst := (parse_message_magic_ok cfg now g mvd sel ga h1).1
      cases h3 : parse_message_msglen cfg now ga mvd sel with
      | error e => rw [h3] at h; exact absurd h (by simp)
      | ok o =>
        cases o with
        | none =>
          rw [h3] at h
          simp only [Except.ok.injEq, Prod.mk.injEq] at h
          obtain ⟨hg, hm, _⟩ := h
          subst hg hm
          refine ⟨rfl, fun n => ?_⟩
          have hs := parse_message_magic_skip cfg n ga mvd sel hst
          have h4 := (parse_message_msglen_fed sel [] cfg now n ga ga mvd (Fed_refl sel ga)).2.2
            rfl h3
          constructor
          · rw [parse_message, hs]
            simp only [h4]
          · rw [parse_message_read, hs]
            simp only [h4]
        | some gb =>
          rw [h3] at h
          simp only [] at h
          have hst2 := (parse_message_msglen_ok cfg now ga mvd sel gb h3).1
          have hne := (parse_message_msglen_len cfg now ga mvd sel gb h3).2
          cases h5 : FIFO_ReadMessage (gb.fifo sel) gb.msglen with
          | some v =>
            rw [h5] at h
            simp only [] at h
            split at h
            · exact absurd h (by simp)
            · exact absurd h (by simp)
          | none =>
            rw [h5] at h
            simp only [Except.ok.injEq, Prod.mk.injEq] at h
            obtain ⟨hg, hm, _⟩ := h
            subst hg hm
            refine ⟨rfl, fun n => ?_⟩
            have hs := parse_message_magic_skip cfg n gb mvd sel (by rw [hst2]; exact hst)
            have hm2 : parse_message_msglen cfg n gb mvd sel = .ok (some gb) := by
              unfold parse_message_msglen
              rw [if_neg hne]
            constructor
            · rw [parse_message, hs]
              simp only [hm2, h5]
            · rw [parse_message_read, hs]
              simp only [hm2, h5]

/-- The condition under which the framer works on the inflate buffer (the
hello has been processed) is kept by `parse_message`. -/
theorem parse_message_keeps_connected (cfg : Config) (P : Parser) (now : Nat) (g : gtv_t)
    (mvd : Option mvd_t) (sel : fifo_sel) (g2 : gtv_t) (m2 : Option mvd_t) (b : Bool)
    (hz : sel = .z_buf → gtv_state_t.GTV_CONNECTED.toNat ≤ g.state.toNat)
    (h : parse_message cfg P now g mvd sel = .ok (g2, m2, b)) :
    sel = .z_buf → gtv_state_t.GTV_CONNECTED.toNat ≤ g2.state.toNat := by
  intro hs
  have h3 : gtv_state_t.GTV_CONNECTED.toNat = 3 := rfl
  have hge := hz hs
  have hne : g.state ≠ .GTV_DISCONNECTED := by
    intro hd
    rw [hd] at hge
    exact absurd hge (by decide)
  have hsound := parse_message_sound cfg P now g mvd sel hne
  rw [h] at hsound
  have hk : Keeps g g2 := hsound
  rw [h3] at hge ⊢
  exact hk.2.2.1 hge

theorem Fed_connected (sel : fifo_sel) (x : List Nat) (g g1 : gtv_t) (h : Fed sel x g g1)
    (hz : sel = .z_buf → gtv_state_t.GTV_CONNECTED.toNat ≤ g.state.toNat) :
    sel = .z_buf → gtv_state_t.GTV_CONNECTED.toNat ≤ g1.state.toNat := by
  intro hs
  rw [(Fed_fields sel x g g1 h).1]
  exact hz hs

theorem parse_message_magic_connected (cfg : Config) (now : Nat) (g : gtv_t)
    (mvd : Option mvd_t) (sel : fifo_sel) (ga : gtv_t)
    (h : parse_message_magic cfg now g mvd sel = .ok (some ga))
    (hz : sel = .z_buf → gtv_state_t.GTV_CONNECTED.toNat ≤ g.state.toNat) :
    sel = .z_buf → gtv_state_t.GTV_CONNECTED.toNat ≤ ga.state.toNat := by
  intro hs
  have h3 : gtv_state_t.GTV_CONNECTED.toNat = 3 := rfl
  have hge := hz hs
  rcases (parse_message_magic_ok cfg now g mvd sel ga h).2.2.2 with hq | hq
  · rw [hq]; exact hge
  · omega

/-- A `parse_message` call that returned false does not matter for what comes
next: with the same further input, the next call on the Upstream before it and
on the Upstream after it have the same kind of result, the same Channel, the
same message and Upstreams that differ in their timestamps only. -/
theorem parse_message_stutter (sel : fifo_sel) (x : List Nat) (cfg : Config) (P : Parser)
    (now now1 now3 : Nat) (g g1 g2 g3 : gtv_t) (mvd m2 : Option mvd_t)
    (h : parse_message cfg P now g mvd sel = .ok (g2, m2, false))
    (hf1 : Fed sel x g g1) (hf3 : Fed sel x g2 g3)
    (hz : sel = .z_buf → gtv_state_t.GTV_CONNECTED.toNat ≤ g.state.toNat) :
    Run_related (fun p q => Fed sel [] p.1 q.1 ∧ p.2 = q.2)
        (parse_message cfg P now1 g1 mvd sel) (parse_message cfg P now3 g3 mvd sel)
      ∧ parse_message_read cfg now3 g3 mvd sel = parse_message_read cfg now1 g1 mvd sel := by
  unfold parse_message at h
  cases h1 : parse_message_magic cfg now g mvd sel with
  | error e => rw [h1] at h; exact absurd h (by simp)
  | ok o =>
    cases o with
    | none =>
      rw [h1] at h
      simp only [Except.ok.injEq, Prod.mk.injEq] at h
      obtain ⟨hg, hm, _⟩ := h
      subst hg hm
      exact parse_message_retimed sel cfg P now1 now3 g1 g3 mvd (Fed_join sel x g g1 g3 hf1 hf3)
        (Fed_connected sel x g g1 hf1 hz)
    | some ga =>
      rw [h1] at h
      simp only [] at h
      obtain ⟨ga1, hga1, hfa⟩ := (parse_message_magic_fed sel x cfg now now1 g g1 mvd hf1).2.1 ga h1
      have hza := parse_message_magic_connected cfg now g mvd sel ga h1 hz
      cases h3 : parse_message_msglen cfg now ga mvd sel with
      | error e => rw [h3] at h; exact absurd h (by simp)
      | ok o =>
        cases o with
        | none =>
          rw [h3] at h
          simp only [Except.ok.injEq, Prod.mk.injEq] at h
          obtain ⟨hg, hm, _⟩ := h
          subst hg hm
          obtain ⟨e1, e2⟩ := parse_message_after_magic cfg P now1 g1 mvd sel ga1 hga1
          rw [e1, e2]
          exact parse_message_retimed sel cfg P now1 now3 ga1 g3 mvd
            (Fed_join sel x ga ga1 g3 hfa hf3) (Fed_connected sel x ga ga1 hfa hza)
        | some gb =>
          rw [h3] at h
          simp only [] at h
          obtain ⟨gb1, hgb1, hfb⟩ :=
            (parse_message_msglen_fed sel x cfg now now1 ga ga1 mvd hfa).2.1 gb h3
          have hzb : sel = .z_buf → gtv_state_t.GTV_CONNECTED.toNat ≤ gb.state.toNat := by
            intro hs
            rw [(parse_message_msglen_ok cfg now ga mvd sel gb h3).1]
            exact hza hs
          cases h5 : FIFO_ReadMessage (gb.fifo sel) gb.msglen with
          | some v =>
            rw [h5] at h
            simp only [] at h
            split at h
            · exact absurd h (by simp)
            · exact absurd h (by simp)
          | none =>
            rw [h5] at h
            simp only [Except.ok.injEq, Prod.mk.injEq] at h
            obtain ⟨hg, hm, _⟩ := h
            subst hg hm
            obtain ⟨e1, e2⟩ := parse_message_after_msglen cfg P now1 g1 mvd sel ga1 gb1 hga1 hgb1
            rw [e1, e2]
            exact parse_message_retimed sel cfg P now1 now3 gb1 g3 mvd
              (Fed_join sel x gb gb1 g3 hfb hf3) (Fed_connected sel x gb gb1 hfb hzb)

/-! ## Helper lemmas: schedules of the framer -/

theorem framer_run_parse_error (cfg : Config) (P : Parser) (sel : fifo_sel) (now : Nat)
    (rest : List framer_action) (g : gtv_t) (mvd : Option mvd_t) (e : Escape)
    (h : parse_message cfg P now g mvd sel = .error e) :
    framer_run cfg P sel (.parse now :: rest) g mvd
      = ((parse_message_read cfg now g mvd sel).toList, .error e) := by
  rw [framer_run, h]

theorem framer_run_parse_ok (cfg : Config) (P : Parser) (sel : fifo_sel) (now : Nat)
    (rest : List framer_action) (g : gtv_t) (mvd : Option mvd_t) (g2 : gtv_t)
    (m2 : Option mvd_t) (b : Bool)
    (h : parse_message cfg P now g mvd sel = .ok (g2, m2, b)) :
    framer_run cfg P sel (.parse now :: rest) g mvd
      = ((parse_message_read cfg now g mvd sel).toList ++ (framer_run cfg P sel rest g2 m2).1,
         (framer_run cfg P sel rest g2 m2).2) := by
  rw [framer_run, h]

theorem framer_view_cons (a : List sizebuf_t)
    (r r1 : List sizebuf_t × Run (gtv_t × Option mvd_t))
    (h : framer_view r = framer_view r1) :
    framer_view (a ++ r.1, r.2) = framer_view (a ++ r1.1, r1.2) := by
  simp only [framer_view, Prod.mk.injEq] at h ⊢
  exact ⟨by rw [h.1], h.2⟩

theorem Fed_len (sel : fifo_sel) (x : List Nat) (g g1 : gtv_t) (h : Fed sel x g g1) :
    (g1.fifo sel).data.length = (g.fifo sel).data.length + x.length := by
  have := (Fed_fields sel x g g1 h).2.2.2.2.2.2.2.2.2.2.1
  rw [this]
  simp

theorem Fed_more (sel : fifo_sel) (c y : List Nat) (g g1 : gtv_t)
    (h : Fed sel (c ++ y) g g1) : Fed sel y (g.more sel c) g1 := by
  unfold Fed at h ⊢
  rw [h]
  cases sel <;> simp [gtv_t.more, gtv_t.setFifo, gtv_t.fifo, gtv_t.untimed]

theorem Fed_self (sel : fifo_sel) (x : List Nat) (g : gtv_t) : Fed sel x g (g.more sel x) :=
  rfl

/-- After a `parse_message` call that returned false, further calls without
new input do nothing. -/
theorem framer_idle (cfg : Config) (P : Parser) (sel : fifo_sel) (now : Nat) (g : gtv_t)
    (mvd : Option mvd_t) (g2 : gtv_t) (m2 : Option mvd_t)
    (h : parse_message cfg P now g mvd sel = .ok (g2, m2, false)) (n : Nat) :
    ∀ k : Nat, framer_run cfg P sel (List.replicate k (.parse n)) g2 m2 = ([], .ok (g2, m2)) := by
  obtain ⟨hm, hfix⟩ := parse_message_false_fixed cfg P now g mvd sel g2 m2 h
  subst hm
  intro k
  induction k with
  | zero => rfl
  | succ k ih =>
    rw [List.replicate_succ, framer_run_parse_ok cfg P sel n _ g2 m2 g2 m2 false (hfix n).1,
      (hfix n).2, ih]
    rfl

/-- Draining the ring buffer by repeated `parse_message` calls gives the same
messages and the same end whatever the time of the calls, the timestamps of
the Upstream and the number of calls, once there are more calls than bytes. -/
theorem framer_drain_retimed (cfg : Config) (P : Parser) (sel : fifo_sel) (n n1 : Nat) :
    ∀ (F : Nat) (g g1 : gtv_t) (mvd : Option mvd_t) (F1 : Nat),
      Fed sel [] g g1 →
      (sel = .z_buf → gtv_state_t.GTV_CONNECTED.toNat ≤ g.state.toNat) →
      (g.fifo sel).data.length < F → (g1.fifo sel).data.length < F1 →
      framer_view (framer_run cfg P sel (List.replicate F (.parse n)) g mvd)
        = framer_view (framer_run cfg P sel (List.replicate F1 (.parse n1)) g1 mvd) := by
  intro F
  induction F with
  | zero => intro g g1 mvd F1 _ _ h; exact absurd h (by omega)
  | succ F ih =>
    intro g g1 mvd F1 hf hz hF hF1
    cases F1 with
    | zero => exact absurd hF1 (by omega)
    | succ F1 =>
      rw [List.replicate_succ, List.replicate_succ]
      obtain ⟨hrel, hread⟩ := parse_message_retimed sel cfg P n n1 g g1 mvd hf hz
      have hz1 := Fed_connected sel [] g g1 hf hz
      cases hp : parse_message cfg P n g mvd sel with
      | error e =>
        cases hp1 : parse_message cfg P n1 g1 mvd sel with
        | error e1 =>
          rw [framer_run_parse_error cfg P sel n _ g mvd e hp,
            framer_run_parse_error cfg P sel n1 _ g1 mvd e1 hp1, hread]
          rfl
        | ok v1 =>
          rw [hp, hp1] at hrel
          exact hrel.elim
      | ok v =>
        obtain ⟨g2, m2, b⟩ := v
        cases hp1 : parse_message cfg P n1 g1 mvd sel with
        | error e1 =>
          rw [hp, hp1] at hrel
          exact hrel.elim
        | ok v1 =>
          obtain ⟨g3, m3, b3⟩ := v1
          rw [hp, hp1] at hrel
          obtain ⟨hf2, hmb⟩ : Fed sel [] g2 g3 ∧ (m2, b) = (m3, b3) := hrel
          simp only [Prod.mk.injEq] at hmb
          obtain ⟨hm, hb⟩ := hmb
          subst hm hb
          rw [framer_run_parse_ok cfg P sel n _ g mvd g2 m2 b hp,
            framer_run_parse_ok cfg P sel n1 _ g1 mvd g3 m2 b hp1, hread]
          apply framer_view_cons
          cases b with
          | true =>
            have hl := parse_message_len cfg P n g mvd sel g2 m2 true hz hp
            have hl1 := parse_message_len cfg P n1 g1 mvd sel g3 m2 true hz1 hp1
            simp only [if_true] at hl hl1
            exact ih g2 g3 m2 F1 hf2
              (parse_message_keeps_connected cfg P n g mvd sel g2 m2 true hz hp)
              (by omega) (by omega)
          | false =>
            rw [framer_idle cfg P sel n g mvd g2 m2 hp n F,
              framer_idle cfg P sel n1 g1 mvd g3 m2 hp1 n1 F1]
            have := (Fed_nil_iff sel g2 g3).1 hf2
            simp only [framer_view, this]

/-- A `parse_message` call that returned false does not change what draining
the ring buffer gives once more input has arrived. -/
theorem framer_drain_stutter (cfg : Config) (P : Parser) (sel : fifo_sel) (x : List Nat)
    (now n1 n3 : Nat) (g g1 g2 g3 : gtv_t) (mvd m2 : Option mvd_t) (F F3 : Nat)
    (h : parse_message cfg P now g mvd sel = .ok (g2, m2, false))
    (hf1 : Fed sel x g g1) (hf3 : Fed sel x g2 g3)
    (hz : sel = .z_buf → gtv_state_t.GTV_CONNECTED.toNat ≤ g.state.toNat)
    (hF : (g1.fifo sel).data.length < F) (hF3 : (g3.fifo sel).data.length < F3) :
    framer_view (framer_run cfg P sel (List.replicate F (.parse n1)) g1 mvd)
      = framer_view (framer_run cfg P sel (List.replicate F3 (.parse n3)) g3 mvd) := by
  cases F with
  | zero => exact absurd hF (by omega)
  | succ F =>
    cases F3 with
    | zero => exact absurd hF3 (by omega)
    | succ F3 =>
      rw [List.replicate_succ, List.replicate_succ]
      obtain ⟨hrel, hread⟩ :=
        parse_message_stutter sel x cfg P now n1 n3 g g1 g2 g3 mvd m2 h hf1 hf3 hz
      have hz1 := Fed_connected sel x g g1 hf1 hz
      have hz3 := Fed_connected sel x g2 g3 hf3
        (parse_message_keeps_connected cfg P now g mvd sel g2 m2 false hz h)
      cases hp : parse_message cfg P n1 g1 mvd sel with
      | error e =>
        cases hp1 : parse_message cfg P n3 g3 mvd sel with
        | error e1 =>
          rw [framer_run_parse_error cfg P sel n1 _ g1 mvd e hp,
            framer_run_parse_error cfg P sel n3 _ g3 mvd e1 hp1, hread]
          rfl
        | ok v1 =>
          rw [hp, hp1] at hrel
          exact hrel.elim
      | ok v =>
        obtain ⟨ga, ma, b⟩ := v
        cases hp1 : parse_message cfg P n3 g3 mvd sel with
        | error e1 =>
          rw [hp, hp1] at hrel
          exact hrel.elim
        | ok v1 =>
          obtain ⟨gb, mb, b3⟩ := v1
          rw [hp, hp1] at hrel
          obtain ⟨hf2, hmb⟩ : Fed sel [] ga gb ∧ (ma, b) = (mb, b3) := hrel
          simp only [Prod.mk.injEq] at hmb
          obtain ⟨hm, hb⟩ := hmb
          subst hm hb
          rw [framer_run_parse_ok cfg P sel n1 _ g1 mvd ga ma b hp,
            framer_run_parse_ok cfg P sel n3 _ g3 mvd gb ma b hp1, hread]
          apply framer_view_cons
          cases b with
          | true =>
            have hl := parse_message_len cfg P n1 g1 mvd sel ga ma true hz1 hp
            have hl1 := parse_message_len cfg P n3 g3 mvd sel gb ma true hz3 hp1
            simp only [if_true] at hl hl1
            exact framer_drain_retimed cfg P sel n1 n3 F ga gb ma F3 hf2
              (parse_message_keeps_connected cfg P n1 g1 mvd sel ga ma true hz1 hp)
              (by omega) (by omega)
          | false =>
            rw [framer_idle cfg P sel n1 g1 mvd ga ma hp n1 F,
              framer_idle cfg P sel n3 g3 mvd gb ma hp1 n3 F3]
            have := (Fed_nil_iff sel ga gb).1 hf2
            simp only [framer_view, this]

/-- A schedule of arrivals and `parse_message` calls followed by a drain gives
what a drain of the ring buffer with all the input in it gives. -/
theorem framer_schedule (cfg : Config) (P : Parser) (sel : fifo_sel) (n0 n1 : Nat) :
    ∀ (s : List framer_action) (g g1 : gtv_t) (mvd : Option mvd_t) (F F1 : Nat),
      Fed sel (framer_fed s) g g1 →
      (sel = .z_buf → gtv_state_t.GTV_CONNECTED.toNat ≤ g.state.toNat) →
      (g1.fifo sel).data.length < F → (g1.fifo sel).data.length < F1 →
      framer_view (framer_run cfg P sel (s ++ List.replicate F1 (.parse n1)) g mvd)
        = framer_view (framer_run cfg P sel (List.replicate F (.parse n0)) g1 mvd) := by
  intro s
  induction s with
  | nil =>
    intro g g1 mvd F F1 hf hz hF hF1
    rw [List.nil_append]
    have hl := Fed_len sel [] g g1 hf
    simp only [List.length_nil, Nat.add_zero] at hl
    exact framer_drain_retimed cfg P sel n1 n0 F1 g g1 mvd F hf hz (by omega) hF
  | cons a s ih =>
    intro g g1 mvd F F1 hf hz hF hF1
    cases a with
    | feed c =>
      have hf2 : Fed sel (framer_fed s) (g.more sel c) g1 := Fed_more sel c _ g g1 hf
      have hz2 : sel = .z_buf →
          gtv_state_t.GTV_CONNECTED.toNat ≤ (g.more sel c).state.toNat :=
        Fed_connected sel c g _ (Fed_self sel c g) hz
      exact ih (g.more sel c) g1 mvd F F1 hf2 hz2 hF hF1
    | parse n =>
      have hf2 : Fed sel (framer_fed s) g g1 := hf
      have hz1 := Fed_connected sel _ g g1 hf2 hz
      have hlen := Fed_len sel _ g g1 hf2
      obtain ⟨hE, hT, _⟩ := parse_message_fed sel (framer_fed s) cfg P n n0 g g1 mvd hf2 hz
      rw [List.cons_append]
      cases F with
      | zero => exact absurd hF (by omega)
      | succ F =>
        rw [List.replicate_succ]
        cases hp : parse_message cfg P n g mvd sel with
        | error e =>
          obtain ⟨⟨e1, he1⟩, hr⟩ := hE e hp
          rw [framer_run_parse_error cfg P sel n _ g mvd e hp,
            framer_run_parse_error cfg P sel n0 _ g1 mvd e1 he1, hr]
          rfl
        | ok v =>
          obtain ⟨g2, m2, b⟩ := v
          cases b with
          | true =>
            obtain ⟨⟨g3, h3, hf3⟩, hr⟩ := hT g2 m2 hp
            rw [framer_run_parse_ok cfg P sel n _ g mvd g2 m2 true hp,
              framer_run_parse_ok cfg P sel n0 _ g1 mvd g3 m2 true h3, hr]
            apply framer_view_cons
            have hl := parse_message_len cfg P n0 g1 mvd sel g3 m2 true hz1 h3
            simp only [if_true] at hl
            exact ih g2 g3 m2 F F1 hf3
              (parse_message_keeps_connected cfg P n g mvd sel g2 m2 true hz hp)
              (by omega) (by omega)
          | false =>
            obtain ⟨hm, _⟩ := parse_message_false_fixed cfg P n g mvd sel g2 m2 hp
            subst hm
            have hnone := ((parse_message_fed sel [] cfg P n n g g m2 (Fed_refl sel g) hz).2.2
              rfl g2 m2 hp).2.2
            have hl := parse_message_len cfg P n g m2 sel g2 m2 false hz hp
            simp only [Bool.false_eq_true, if_false, Nat.add_zero] at hl
            have hl3 := Fed_len sel (framer_fed s) g2 _ (Fed_self sel (framer_fed s) g2)
            rw [framer_run_parse_ok cfg P sel n _ g m2 g2 m2 false hp, hnone]
            have hstep := ih g2 (g2.more sel (framer_fed s)) m2 (F + 1) F1
              (Fed_self sel (framer_fed s) g2)
              (parse_message_keeps_connected cfg P n g m2 sel g2 m2 false hz hp)
              (by omega) (by omega)
            have hst := framer_drain_stutter cfg P sel (framer_fed s) n n0 n0 g g1 g2
              (g2.more sel (framer_fed s)) m2 m2 (F + 1) (F + 1) hp hf2
              (Fed_self sel (framer_fed s) g2) hz (by omega) (by omega)
            rw [List.replicate_succ] at hst hstep
            exact hstep.trans hst.symm

theorem framer_fed_append (a b : List framer_action) :
    framer_fed (a ++ b) = framer_fed a ++ framer_fed b := by
  induction a with
  | nil => rfl
  | cons x a ih =>
    cases x with
    | feed c =>
      show c ++ framer_fed (a ++ b) = (c ++ framer_fed a) ++ framer_fed b
      rw [ih, List.append_assoc]
    | parse n => exact ih

theorem framer_fed_replicate (k n : Nat) : framer_fed (List.replicate k (.parse n)) = [] := by
  induction k with
  | zero => rfl
  | succ k ih => rw [List.replicate_succ, framer_fed, ih]

theorem framer_ticks_concat (F : Nat) (n : Nat) (c : List Nat) :
    ∀ init : List (Nat × List Nat),
      framer_ticks F (init ++ [(n, c)])
        = (framer_ticks F init ++ [.feed c]) ++ List.replicate F (.parse n) := by
  intro init
  induction init with
  | nil => simp [framer_ticks]
  | cons t init ih =>
    obtain ⟨m, d⟩ := t
    show framer_action.feed d
        :: (List.replicate F (.parse m) ++ framer_ticks F (init ++ [(n, c)]))
      = ((framer_action.feed d :: (List.replicate F (.parse m) ++ framer_ticks F init))
          ++ [.feed c]) ++ List.replicate F (.parse n)
    rw [ih]
    simp

theorem framer_fed_ticks (F : Nat) :
    ∀ ticks : List (Nat × List Nat),
      framer_fed (framer_ticks F ticks) = (ticks.map Prod.snd).flatten := by
  intro ticks
  induction ticks with
  | nil => rfl
  | cons t ticks ih =>
    obtain ⟨m, d⟩ := t
    simp only [framer_ticks, framer_fed, framer_fed_append, framer_fed_replicate, ih,
      List.nil_append, List.map_cons, List.flatten_cons]

/-- Any schedule of arrivals and `parse_message` calls, followed by a drain,
dispatches the messages that a drain dispatches after all the bytes have
arrived at once, and ends in the same way. -/
theorem framer_at_once (cfg : Config) (P : Parser) (sel : fifo_sel) (g : gtv_t)
    (mvd : Option mvd_t)
    (hz : sel = .z_buf → gtv_state_t.GTV_CONNECTED.toNat ≤ g.state.toNat)
    (s : List framer_action) (n0 n1 F F1 : Nat)
    (hF : (g.fifo sel).data.length + (framer_fed s).length < F)
    (hF1 : (g.fifo sel).data.length + (framer_fed s).length < F1) :
    framer_view (framer_run cfg P sel (s ++ List.replicate F1 (.parse n1)) g mvd)
      = framer_view (framer_run cfg P sel
          (.feed (framer_fed s) :: List.replicate F (.parse n0)) g mvd) := by
  have hl := Fed_len sel (framer_fed s) g _ (Fed_self sel (framer_fed s) g)
  exact framer_schedule cfg P sel n0 n1 s g (g.more sel (framer_fed s)) mvd F F1
    (Fed_self sel (framer_fed s) g) hz (by omega) (by omega)

/-- The loop of `run_stream` over the receive buffer is a drain of the framer:
with more passes than bytes it returns what the drain ends with. -/
theorem run_stream_plain_framer (cfg : Config) (P : Parser) (now : Nat) :
    ∀ (fuel : Nat) (g : gtv_t) (mvd : Option mvd_t),
      g.stream.recv.data.length < fuel →
      run_stream_plain cfg P now fuel g mvd
        = some (framer_run cfg P .recv (List.replicate fuel (.parse now)) g mvd).2 := by
  intro fuel
  induction fuel with
  | zero => intro g mvd h; exact absurd h (by omega)
  | succ fuel ih =>
    intro g mvd h
    rw [List.replicate_succ]
    unfold run_stream_plain
    cases hp : parse_message cfg P now g mvd .recv with
    | error e =>
      rw [framer_run_parse_error cfg P .recv now _ g mvd e hp]
    | ok v =>
      obtain ⟨g1, m1, b⟩ := v
      rw [framer_run_parse_ok cfg P .recv now _ g mvd g1 m1 b hp]
      cases b with
      | false =>
        rw [framer_idle cfg P .recv now g mvd g1 m1 hp now fuel]
      | true =>
        have hlt := parse_message_progress cfg P now g mvd g1 m1 hp
        exact ih g1 m1 (by omega)

/-- While there is room in the receive buffer, what `NET_RunStream` does to it
is to append the received bytes. -/
theorem NET_RunStream_more (env : env_t) (g : gtv_t) (hok : env.run_stream_ret = .NET_OK)
    (hroom : g.stream.recv.data.length + env.received.length ≤ g.stream.recv.size) :
    (NET_RunStream env g.stream).2.recv = (g.more .recv env.received).stream.recv := by
  unfold NET_RunStream
  rw [hok]
  simp only [FIFO_Write, FIFO_Usage, gtv_t.more, gtv_t.setFifo, gtv_t.fifo]
  rw [Nat.min_eq_left (by omega), List.take_length]

/-- C33, what the code does: the framer on one ring buffer does not depend on
how the inbound bytes are split.
For an Upstream `g` and one of its ring buffers (for the inflate buffer the
hello must have been processed), every schedule of arrivals and
`parse_message` calls followed by a drain (more calls than bytes), and every
sequence of ticks that each deliver a chunk and then drain, dispatches the
same messages in the same order as a single drain after all the bytes have
arrived at once, and ends with the same Channel and the same Upstream up to
the timestamps (pending `msglen` included), or both end in a non-local exit.
The drain on the receive buffer is the loop of `run_stream`, and an arrival is
what `NET_RunStream` does to the receive buffer while there is room. -/
theorem C33_framer_fragmentation (cfg : Config) (P : Parser) (sel : fifo_sel) (g : gtv_t)
    (mvd : Option mvd_t)
    (hz : sel = .z_buf → gtv_state_t.GTV_CONNECTED.toNat ≤ g.state.toNat) :
    (∀ (s : List framer_action) (n0 n1 F F1 : Nat),
        (g.fifo sel).data.length + (framer_fed s).length < F →
        (g.fifo sel).data.length + (framer_fed s).length < F1 →
        (framer_run cfg P sel (s ++ List.replicate F1 (.parse n1)) g mvd).1
            = (framer_run cfg P sel
                (.feed (framer_fed s) :: List.replicate F (.parse n0)) g mvd).1
          ∧ framer_view (framer_run cfg P sel (s ++ List.replicate F1 (.parse n1)) g mvd)
            = framer_view (framer_run cfg P sel
                (.feed (framer_fed s) :: List.replicate F (.parse n0)) g mvd))
      ∧ (∀ (ticks : List (Nat × List Nat)) (n0 F : Nat), ticks ≠ [] →
          (g.fifo sel).data.length + ((ticks.map Prod.snd).flatten).length < F →
          (framer_run cfg P sel (framer_ticks F ticks) g mvd).1
              = (framer_run cfg P sel
                  (.feed ((ticks.map Prod.snd).flatten) :: List.replicate F (.parse n0))
                  g mvd).1
            ∧ framer_view (framer_run cfg P sel (framer_ticks F ticks) g mvd)
              = framer_view (framer_run cfg P sel
                  (.feed ((ticks.map Prod.snd).flatten) :: List.replicate F (.parse n0))
                  g mvd))
      ∧ (∀ (x : List Nat) (n0 F : Nat), g.stream.recv.data.length + x.length < F →
          run_stream_plain cfg P n0 F (g.more .recv x) mvd
            = some (framer_run cfg P .recv
                (.feed x :: List.replicate F (.parse n0)) g mvd).2)
      ∧ (∀ env : env_t, env.run_stream_ret = .NET_OK →
          g.stream.recv.data.length + env.received.length ≤ g.stream.recv.size →
          (NET_RunStream env g.stream).2.recv = (g.more .recv env.received).stream.recv) := by
  refine ⟨?_, ?_, ?_, ?_⟩
  · intro s n0 n1 F F1 hF hF1
    have h := framer_at_once cfg P sel g mvd hz s n0 n1 F F1 hF hF1
    exact ⟨(congrArg Prod.fst h : (framer_view _).1 = (framer_view _).1), h⟩
  · intro ticks n0 F hne hF
    rcases List.eq_nil_or_concat ticks with h0 | ⟨init, t, ht⟩
    · exact absurd h0 hne
    · obtain ⟨n, c⟩ := t
      rw [List.concat_eq_append] at ht
      subst ht
      have hfed : framer_fed (framer_ticks F init ++ [.feed c])
          = ((init ++ [(n, c)]).map Prod.snd).flatten := by
        rw [framer_fed_append, framer_fed_ticks]
        simp [framer_fed]
      rw [framer_ticks_concat, ← hfed]
      rw [← hfed] at hF
      have h := framer_at_once cfg P sel g mvd hz (framer_ticks F init ++ [.feed c])
        n0 n F F hF hF
      exact ⟨(congrArg Prod.fst h : (framer_view _).1 = (framer_view _).1), h⟩
  · intro x n0 F hF
    have hl := Fed_len .recv x g _ (Fed_self .recv x g)
    exact run_stream_plain_framer cfg P n0 F (g.more .recv x) mvd (by
      have : ((g.more .recv x).fifo .recv).data.length
          = (g.more .recv x).stream.recv.data.length := rfl
      have : (g.fifo .recv).data.length = g.stream.recv.data.length := rfl
      omega)
  · intro env hok hroom
    exact NET_RunStream_more env g hok hroom

/-- C33, at a concrete input: a PONG message (bytes 1, 0, 1) that reaches the Upstream
after the hello in two chunks, on the ticks at 11 and 12, is dispatched as it
is when the three bytes arrive at once. -/
theorem C33_framer_fragmentation_witness :
    (fifo_sel.recv = .z_buf →
        gtv_state_t.GTV_CONNECTED.toNat ≤ upstream_after_hello.state.toNat)
      ∧ framer_view (framer_run cfg_default parser_keep .recv
            (framer_ticks 4 [(11, [1]), (12, [0, 1])]) upstream_after_hello none)
          = framer_view (framer_run cfg_default parser_keep .recv
              (.feed [1, 0, 1] :: List.replicate 4 (.parse 10)) upstream_after_hello none)
      ∧ (framer_run cfg_default parser_keep .recv
            (framer_ticks 4 [(11, [1]), (12, [0, 1])]) upstream_after_hello none).1
          = [{ data := [1], cursize := 1 }] :=
  ⟨fun _ => by decide,
   ((C33_framer_fragmentation cfg_default parser_keep .recv upstream_after_hello none
      (fun _ => by decide)).2.1 [(11, [1]), (12, [0, 1])] 10 4 (by decide) (by decide)).2,
   rfl⟩

/-- C33, the failing input.  The inbound stream is a server hello with the flag
`GTF_DEFLATE` followed by four deflated bytes (which inflate to a PONG).
Delivered in two ticks, the hello in the first and the deflated bytes in the
second: the first `run_stream` parses the hello from the receive buffer, the
second finds `z_act` set, inflates and parses the PONG from the inflate
buffer.  Delivered in one tick: `run_stream` finds `z_act` not set and takes
the loop over the receive buffer; the hello sets `z_act`, and the loop goes on
with the receive buffer, takes the deflated bytes 0x78, 0x9C as a message
length (40056) and destroys the Upstream with "Oversize message". -/
theorem C33_counterexample_hello_and_deflated_in_one_tick :
    env_hello_and_deflated.received = env_hello_deflate.received ++ env_deflated.received
      ∧ run_stream cfg_default parser_keep env_hello_deflate 10 8 upstream_preparing none
          = some (.ok (.NET_OK, upstream_inflating 10, none))
      ∧ run_stream cfg_default parser_keep env_deflated 11 8 (upstream_inflating 10) none
          = some (.ok (.NET_OK, upstream_inflating 11, none))
      ∧ run_stream cfg_default parser_keep env_hello_and_deflated 10 8 upstream_preparing none
          = some (.error (.gtv_destroyed none .oversize_message)) := by
  refine ⟨rfl, rfl, rfl, rfl⟩

end MvdClient
